import Mathlib

/-!
# GEOCON grid library (libgeocon.c): embedding and verified properties

The development follows `src/src/libgeocon.c` and `src/include/libgeocon.h`.

Conventions of the embedding

* C `double` locals and the derived `double` fields of `GEOCON_HDR` are rationals
  (exact arithmetic: no rounding, no NaN, no infinities; `x / 0 = 0`).
* Arithmetic on C `float` operands is rounded to binary32 (round to nearest, ties to even):
  `flt_sub` is the subtraction of two `float` locals, as in the row step of
  `gc_calculate_shifts_biquadratic`, whose locals `lft`, `cen`, `rgt` are `float`.
* C `int` is `Int` (no overflow: grids whose `nrows * ncols` fits the C `int`).
* Raw storage that the library reads, writes and byte-swaps in place (the `float`
  fields of `GEOCON_POINT`, the scalar fields of `GEOCON_FILE_HDR`) is kept as
  bit patterns; `flt_val` / `dbl_val` give the number an IEEE-754 pattern denotes.
* Caller arrays (`coord[]`, `h[]`) are maps from index to value; a null pointer is `none`.
* A text file is the sequence of C strings that `fgets` delivers; the tokenizer and the text
  loaders are embedded on top of it, `atof`, the decimal point of the locale and the
  conversion of a double to `float` are parameters.
-/

namespace Geocon

/-! ## Floating-point comparison macros -/

/-- The macro `GEOCON_EPS` (`GEOCON_EPS_51`, the double closest to the literal is 2^(-51)). -/
def GEOCON_EPS : ℚ := 1 / 2 ^ 51

/-- The macro `GEOCON_ABS(a)`. -/
def GEOCON_ABS (a : ℚ) : ℚ := if a < 0 then -a else a

/-- The macro `GEOCON_EQ_EPS(a,b,e)`. -/
def GEOCON_EQ_EPS (a b e : ℚ) : Bool :=
  decide (a = b) || decide (GEOCON_ABS (a - b) ≤ e * (1 + (GEOCON_ABS a + GEOCON_ABS b) / 2))

/-- The macro `GEOCON_EQ(a,b)`. -/
def GEOCON_EQ (a b : ℚ) : Bool := GEOCON_EQ_EPS a b GEOCON_EPS

/-- The macro `GEOCON_LE_EPS(a,b,e)`. -/
def GEOCON_LE_EPS (a b e : ℚ) : Bool := decide (a < b) || GEOCON_EQ_EPS a b e

/-- The macro `GEOCON_LE(a,b)`. -/
def GEOCON_LE (a b : ℚ) : Bool := GEOCON_LE_EPS a b GEOCON_EPS

/-- The macro `GEOCON_GE_EPS(a,b,e)`. -/
def GEOCON_GE_EPS (a b e : ℚ) : Bool := decide (a > b) || GEOCON_EQ_EPS a b e

/-- The macro `GEOCON_GE(a,b)`. -/
def GEOCON_GE (a b : ℚ) : Bool := GEOCON_GE_EPS a b GEOCON_EPS

/-- The macro `GEOCON_LT(a,b)`, defined as the negation of `GEOCON_GE`. -/
def GEOCON_LT (a b : ℚ) : Bool := !GEOCON_GE a b

/-- The macro `GEOCON_GT(a,b)`, defined as the negation of `GEOCON_LE`. -/
def GEOCON_GT (a b : ℚ) : Bool := !GEOCON_LE a b

/-- The macro `GEOCON_ZERO_EPS(a,e)`. -/
def GEOCON_ZERO_EPS (a e : ℚ) : Bool := decide (a = 0) || decide (GEOCON_ABS a ≤ e)

/-- The macro `GEOCON_ZERO(a)`. -/
def GEOCON_ZERO (a : ℚ) : Bool := GEOCON_ZERO_EPS a GEOCON_EPS

/-- The macro `GEOCON_MAX(a,b)`. -/
def GEOCON_MAX (a b : ℚ) : ℚ := if a > b then a else b

/-- The macro `GEOCON_MIN(a,b)`. -/
def GEOCON_MIN (a b : ℚ) : ℚ := if a < b then a else b

/-! ## C conversions and library functions used by the source -/

/-- The C conversion `(int)x` of a double: truncation toward zero. -/
def int_cast (x : ℚ) : Int := if 0 ≤ x then ⌊x⌋ else ⌈x⌉

/-- The C library function `fmod(x, y)`: `x - n*y` with `n` the quotient truncated toward zero. -/
def c_fmod (x y : ℚ) : ℚ := x - (int_cast (x / y) : ℚ) * y

/-- The number denoted by an IEEE-754 binary32 bit pattern (a C `float` read as a value).
Patterns with exponent field 255 (infinities, NaN) denote no number; they are read by the
formula of the normal numbers. -/
def flt_val (w : Nat) : ℚ :=
  let s : ℚ := if (w / 2 ^ 31) % 2 = 1 then -1 else 1
  let e : Nat := (w / 2 ^ 23) % 256
  let m : Nat := w % 2 ^ 23
  if e = 0 then s * (m : ℚ) / 2 ^ 149
  else s * (((2 ^ 23 + m : Nat) : ℚ) * 2 ^ e) / 2 ^ 150

/-- The exponent `e` with `2^e ≤ a < 2^(e+1)`, for `a > 0`. -/
def floor_log2 (a : ℚ) : Int :=
  let e0 : Int := (Nat.log2 a.num.natAbs : Int) - (Nat.log2 a.den : Int)
  if (2 : ℚ) ^ e0 ≤ a then e0 else e0 - 1

/-- The integer nearest to `y`, the even one of the two when `y` lies halfway between
them. -/
def round_half_even (y : ℚ) : Int :=
  let f : Int := ⌊y⌋
  let d : ℚ := y - (f : ℚ)
  if d < 1 / 2 then f else if 1 / 2 < d then f + 1 else if f % 2 = 0 then f else f + 1

/-- The value of the C `float` to which `x` is rounded (IEEE-754 binary32, round to nearest,
ties to even): a multiple of the quantum `2^(e-23)`, where `2^e ≤ |x| < 2^(e+1)` and `e` is
at least -126 (below that the numbers are subnormal, with quantum `2^-149`). A magnitude
that rounds to `2^128` or more overflows to an infinity, which is read as `2^128`, the
number `flt_val` gives to the pattern of the infinity. -/
def flt_round (x : ℚ) : ℚ :=
  if x = 0 then 0
  else
    let e : Int := max (floor_log2 |x|) (-126)
    let q : ℚ := (2 : ℚ) ^ (e - 23)
    let r : ℚ := (round_half_even (x / q) : ℚ) * q
    if (2 : ℚ) ^ 128 ≤ |r| then (if x < 0 then -(2 : ℚ) ^ 128 else (2 : ℚ) ^ 128) else r

/-- The C expression `a - b` on two operands of type `float`: the difference is formed in
binary32, that is, rounded to the nearest `float`. -/
def flt_sub (a b : ℚ) : ℚ := flt_round (a - b)

/-- The number denoted by an IEEE-754 binary64 bit pattern (a stored C `double`).
Patterns with exponent field 2047 are read by the formula of the normal numbers. -/
def dbl_val (w : Nat) : ℚ :=
  let s : ℚ := if (w / 2 ^ 63) % 2 = 1 then -1 else 1
  let e : Nat := (w / 2 ^ 52) % 2048
  let m : Nat := w % 2 ^ 52
  if e = 0 then s * (m : ℚ) / 2 ^ 1074
  else s * (((2 ^ 52 + m : Nat) : ℚ) * 2 ^ e) / 2 ^ 1075

/-! ## Data model (libgeocon.h) -/

/-- The struct `geocon_point`: three `float`s, kept as their 32-bit patterns. -/
structure GEOCON_POINT where
  lat_value : Nat
  lon_value : Nat
  hgt_value : Nat
deriving DecidableEq, Repr

/-- The point written by `pt->lat_value = 0.0; pt->lon_value = 0.0; pt->hgt_value = 0.0`. -/
def zero_point : GEOCON_POINT := ⟨0, 0, 0⟩

/-- The struct `geocon_file_hdr`: the image of the header of a binary file. Integers are C
`int` values, doubles are 64-bit patterns, character fields are byte lists. -/
structure GEOCON_FILE_HDR where
  magic : Int
  version : Int
  hdrlen : Int
  reserved : Int
  info : List Nat
  source : List Nat
  date : List Nat
  lat_dir : Int
  lon_dir : Int
  nrows : Int
  ncols : Int
  lat_south : Nat
  lat_north : Nat
  lon_west : Nat
  lon_east : Nat
  lat_delta : Nat
  lon_delta : Nat
  horz_scale : Nat
  vert_scale : Nat
  from_gcs : List Nat
  from_vcs : List Nat
  from_semi_major : Nat
  from_flattening : Nat
  to_gcs : List Nat
  to_vcs : List Nat
  to_semi_major : Nat
  to_flattening : Nat
deriving DecidableEq, Repr

/-- A grid file as the library reads it. A binary file: the header image (absent when the
file is shorter than a header) followed by the node records in file order, and the byte
position of the stream. A text file: `text`, the C strings that the calls
`fgets(buf, GEOCON_TOKENS_BUFLEN, fp)` still to come leave in `buf`, in order (one per line
of the file, a line longer than the buffer coming in pieces). -/
structure FILE where
  fhdr : Option GEOCON_FILE_HDR
  nodes : List GEOCON_POINT
  pos : Int
  text : List (List Char) := []
deriving DecidableEq, Repr

/-- The struct `geocon_hdr`: the in-memory grid. -/
structure GEOCON_HDR where
  fhdr : GEOCON_FILE_HDR
  pathname : String
  filetype : Int
  flip : Bool
  points_start : Int
  line_count : Int
  nrows : Int
  ncols : Int
  lat_min : ℚ
  lat_max : ℚ
  lon_min : ℚ
  lon_max : ℚ
  lat_dir : Int
  lon_dir : Int
  lat_delta : ℚ
  lon_delta : ℚ
  horz_scale : ℚ
  vert_scale : ℚ
  lat_min_ghost : ℚ
  lat_max_ghost : ℚ
  lon_min_ghost : ℚ
  lon_max_ghost : ℚ
  fp : Option FILE
  mutex : Bool
  points : Option (List GEOCON_POINT)

/-- The type `GEOCON_COORD` (`double[2]`): index 0 is the longitude, index 1 the latitude. -/
structure GEOCON_COORD where
  lon : ℚ
  lat : ℚ
deriving DecidableEq, Repr

/-- The three out-parameters `lat_shift`, `lon_shift`, `hgt_shift` of the shift routines. -/
structure SHIFTS where
  lat_shift : ℚ
  lon_shift : ℚ
  hgt_shift : ℚ
deriving DecidableEq, Repr

def GEOCON_LAT_S_TO_N : Int := 0
def GEOCON_LAT_N_TO_S : Int := 1
def GEOCON_LON_W_TO_E : Int := 0
def GEOCON_LON_E_TO_W : Int := 1

def GEOCON_INTERP_DEFAULT : Int := 0
def GEOCON_INTERP_BILINEAR : Int := 1
def GEOCON_INTERP_BICUBIC : Int := 2
def GEOCON_INTERP_BIQUADRATIC : Int := 3
def GEOCON_INTERP_NATSPLINE : Int := 4

/-- The value of `sizeof(GEOCON_POINT)`: three 4-byte floats. -/
def SIZEOF_POINT : Int := 12

/-- The value of `GEOCON_FILE_HDR_LEN` (`sizeof(GEOCON_FILE_HDR)`): 8 ints, 12 doubles and
504 bytes of character fields, laid out without padding. -/
def GEOCON_FILE_HDR_LEN : Int := 632

def GEOCON_HDR_MAGIC : Int := 0x47434f4e
def GEOCON_HDR_MAGIC_SWAPPED : Int := 0x4e4f4347
def GEOCON_HDR_VERSION : Int := 1

def GEOCON_FILE_TYPE_UNK : Int := 0
def GEOCON_FILE_TYPE_BIN : Int := 1
def GEOCON_FILE_TYPE_ASC : Int := 2

def GEOCON_ENDIAN_INP_FILE : Int := 0
def GEOCON_ENDIAN_BIG : Int := 1
def GEOCON_ENDIAN_LITTLE : Int := 2
def GEOCON_ENDIAN_NATIVE : Int := 3

def GEOCON_ERR_OK : Int := 0
def GEOCON_ERR_NO_MEMORY : Int := 1
def GEOCON_ERR_IOERR : Int := 2
def GEOCON_ERR_NULL_PARAMETER : Int := 3
def GEOCON_ERR_INVALID_EXTENT : Int := 4
def GEOCON_ERR_FILE_NOT_FOUND : Int := 5
def GEOCON_ERR_INVALID_FILE : Int := 6
def GEOCON_ERR_CANNOT_OPEN_FILE : Int := 7
def GEOCON_ERR_UNKNOWN_FILETYPE : Int := 8
def GEOCON_ERR_UNEXPECTED_EOF : Int := 9
def GEOCON_ERR_INVALID_TOKEN_CNT : Int := 10

/-- The struct `geocon_extent`. -/
structure GEOCON_EXTENT where
  slat : ℚ
  wlon : ℚ
  nlat : ℚ
  elon : ℚ
deriving DecidableEq, Repr

/-! ## Byte swapping -/

/-- The macro `SWAP4(a)` on an `unsigned int`. -/
def SWAP4 (a : Nat) : Nat :=
  ((a &&& 0x000000ff) <<< 24) |||
  ((a &&& 0x0000ff00) <<< 8) |||
  ((a &&& 0x00ff0000) >>> 8) |||
  ((a &&& 0xff000000) >>> 24)

/-- `gc_swap_flt` on one float (`gc_swap_int` on its 32-bit pattern). -/
def gc_swap_flt (w : Nat) : Nat := SWAP4 (w % 2 ^ 32)

/-- `gc_swap_int` on one `int`: the value is read as `unsigned int`, passed through `SWAP4`
and stored back into the `int`. -/
def gc_swap_int (x : Int) : Int :=
  let u : Nat := SWAP4 (x % 2 ^ 32).toNat
  if u < 2 ^ 31 then (u : Int) else (u : Int) - 2 ^ 32

/-- `gc_swap_dbl` on one double, as a 64-bit pattern: both 32-bit halves are byte-swapped
and then exchanged (the result does not depend on which half the host stores first). -/
def gc_swap_dbl (w : Nat) : Nat :=
  let lo : Nat := w % 2 ^ 32
  let hi : Nat := (w / 2 ^ 32) % 2 ^ 32
  SWAP4 lo * 2 ^ 32 + SWAP4 hi

/-- `gc_flip_hdr`: byte-swap every int and double of a file header; the character fields
stay as they are. -/
def gc_flip_hdr (fhdr : GEOCON_FILE_HDR) : GEOCON_FILE_HDR :=
  { fhdr with
    magic := gc_swap_int fhdr.magic
    version := gc_swap_int fhdr.version
    hdrlen := gc_swap_int fhdr.hdrlen
    reserved := gc_swap_int fhdr.reserved
    lat_dir := gc_swap_int fhdr.lat_dir
    lon_dir := gc_swap_int fhdr.lon_dir
    nrows := gc_swap_int fhdr.nrows
    ncols := gc_swap_int fhdr.ncols
    lat_south := gc_swap_dbl fhdr.lat_south
    lat_north := gc_swap_dbl fhdr.lat_north
    lon_west := gc_swap_dbl fhdr.lon_west
    lon_east := gc_swap_dbl fhdr.lon_east
    lat_delta := gc_swap_dbl fhdr.lat_delta
    lon_delta := gc_swap_dbl fhdr.lon_delta
    horz_scale := gc_swap_dbl fhdr.horz_scale
    vert_scale := gc_swap_dbl fhdr.vert_scale
    from_semi_major := gc_swap_dbl fhdr.from_semi_major
    from_flattening := gc_swap_dbl fhdr.from_flattening
    to_semi_major := gc_swap_dbl fhdr.to_semi_major
    to_flattening := gc_swap_dbl fhdr.to_flattening }

/-- `gc_flip_point`: byte-swap the three floats of a point. -/
def gc_flip_point (pt : GEOCON_POINT) : GEOCON_POINT :=
  { lat_value := gc_swap_flt pt.lat_value
    lon_value := gc_swap_flt pt.lon_value
    hgt_value := gc_swap_flt pt.hgt_value }

/-! ## Longitude normalisation -/

/-- `gc_delta`: "adjust longitude to range (-180, 180)". -/
def gc_delta (d : ℚ) : ℚ :=
  let d1 := if d < -180 then d + 360 else if d > 180 then d - 360 else d
  let a := GEOCON_ABS d1
  if !GEOCON_EQ a 180 then
    let d2 := c_fmod d1 180
    if GEOCON_ABS d2 ≤ 180 then d2 else (if d2 < 0 then d2 + 180 else d2 - 180)
  else d1

/-! ## Node fetch -/

/-- The `fseek` + `fread` of one node record at byte `offset` of the file, whose node records
start right after the header: the record, or `none` on a short read. Offsets that do not
address a whole record are not produced by the source. -/
def fread_point_at (f : FILE) (offset : Int) : Option GEOCON_POINT :=
  if GEOCON_FILE_HDR_LEN ≤ offset ∧ (offset - GEOCON_FILE_HDR_LEN) % SIZEOF_POINT = 0 then
    f.nodes[((offset - GEOCON_FILE_HDR_LEN) / SIZEOF_POINT).toNat]?
  else none

/-- The byte offset that `gc_get_shift_from_file` computes for (`irow`, `icol`), with the
statements of the source. -/
def fetch_offset (hdr : GEOCON_HDR) (irow icol : Int) : Int :=
  let offset0 : Int :=
    if hdr.lat_dir = GEOCON_LAT_S_TO_N then irow * hdr.ncols
    else ((hdr.nrows - 1) - irow) * hdr.ncols
  let offset1 : Int :=
    if hdr.lon_dir = GEOCON_LON_W_TO_E then offset0 + icol
    else offset0 + ((hdr.ncols - 1) - icol)
  hdr.points_start + offset1 * SIZEOF_POINT

/-- `gc_get_shift_from_file`. -/
def gc_get_shift_from_file (hdr : GEOCON_HDR) (irow icol : Int) : GEOCON_POINT :=
  let rd : Option GEOCON_POINT :=
    match hdr.fp with
    | some f =>
      let offset0 : Int :=
        if hdr.lat_dir = GEOCON_LAT_S_TO_N then irow * hdr.ncols
        else ((hdr.nrows - 1) - irow) * hdr.ncols
      let offset1 : Int :=
        if hdr.lon_dir = GEOCON_LON_W_TO_E then offset0 + icol
        else offset0 + ((hdr.ncols - 1) - icol)
      let offset : Int := hdr.points_start + offset1 * SIZEOF_POINT
      fread_point_at f offset
    | none => none
  match rd with
  | none => zero_point
  | some pt => if hdr.flip then gc_flip_point pt else pt

/-- `gc_get_shift_from_data` on the node array `pts`: the element at
`irow * ncols + icol`, or `none` when that index is outside the array (where the C read is
undefined). -/
def gc_get_shift_from_data (hdr : GEOCON_HDR) (pts : List GEOCON_POINT) (irow icol : Int) :
    Option GEOCON_POINT :=
  let offset : Int := irow * hdr.ncols + icol
  if 0 ≤ offset then pts[offset.toNat]? else none

/-- `gc_get_shift`. A read outside the node array (undefined in C, and excluded by
the length invariant of the array) yields the zero point. -/
def gc_get_shift (hdr : GEOCON_HDR) (irow icol : Int) : GEOCON_POINT :=
  if irow < 0 ∨ irow ≥ hdr.nrows ∨ icol < 0 ∨ icol ≥ hdr.ncols then
    zero_point
  else
    match hdr.points with
    | some pts => (gc_get_shift_from_data hdr pts irow icol).getD zero_point
    | none =>
      match hdr.fp with
      | some _ => gc_get_shift_from_file hdr irow icol
      | none => zero_point

/-! ## Interpolation kernels -/

/-- The index computation shared by the kernels: `(x < 0.0) ? -1 : (int)x`. -/
def grid_index (x : ℚ) : Int := if x < 0 then -1 else int_cast x

/-- The per-channel formula of `gc_calculate_shifts_bilinear`. -/
def bilinear_channel (h1 h2 h3 h4 dx dy : ℚ) : ℚ :=
  let a00 := h1
  let a10 := h2 - h1
  let a01 := h3 - h1
  let a11 := (h1 - h2) - (h3 - h4)
  a00 + (a10 * dx) + (a01 * dy) + (a11 * dx * dy)

/-- `gc_calculate_shifts_bilinear`. -/
def gc_calculate_shifts_bilinear (hdr : GEOCON_HDR) (lat_deg lon_deg : ℚ) : SHIFTS :=
  let x_grid_index := (lon_deg - hdr.lon_min) / hdr.lon_delta
  let y_grid_index := (lat_deg - hdr.lat_min) / hdr.lat_delta
  let icol := grid_index x_grid_index
  let irow := grid_index y_grid_index
  let dx := x_grid_index - icol
  let dy := y_grid_index - irow
  let ptA := gc_get_shift hdr irow icol
  let ptB := gc_get_shift hdr irow (icol + 1)
  let ptC := gc_get_shift hdr (irow + 1) icol
  let ptD := gc_get_shift hdr (irow + 1) (icol + 1)
  { lon_shift := bilinear_channel (flt_val ptA.lon_value) (flt_val ptB.lon_value)
      (flt_val ptC.lon_value) (flt_val ptD.lon_value) dx dy
    lat_shift := bilinear_channel (flt_val ptA.lat_value) (flt_val ptB.lat_value)
      (flt_val ptC.lat_value) (flt_val ptD.lat_value) dx dy
    hgt_shift := bilinear_channel (flt_val ptA.hgt_value) (flt_val ptB.hgt_value)
      (flt_val ptC.hgt_value) (flt_val ptD.hgt_value) dx dy }

/-- The 1-D step of `gc_calculate_shifts_bicubic` on four samples, anchored at `h1`. -/
def bicubic_1d (h0 h1 h2 h3 t : ℚ) : ℚ :=
  let a0 := h1
  let d0 := h0 - a0
  let d2 := h2 - a0
  let d3 := h3 - a0
  let a1 := d2 - (d0 / 3 + d3 / 6)
  let a2 := (d0 + d2) / 2
  let a3 := (d3 - d0) / 6 - d2 / 2
  a0 + t * (a1 + t * (a2 + t * a3))

/-- The per-channel computation of `gc_calculate_shifts_bicubic` on the 4x4 values
`h i j` (row `i`, column `j`): collapse each column `j` with `dy`, then the four results
with `dx`. -/
def bicubic_channel (h : Nat → Nat → ℚ) (dx dy : ℚ) : ℚ :=
  let c : Nat → ℚ := fun j => bicubic_1d (h 0 j) (h 1 j) (h 2 j) (h 3 j) dy
  bicubic_1d (c 0) (c 1) (c 2) (c 3) dx

/-- `gc_calculate_shifts_bicubic`. -/
def gc_calculate_shifts_bicubic (hdr : GEOCON_HDR) (lat_deg lon_deg : ℚ) : SHIFTS :=
  let x_grid_index := (lon_deg - hdr.lon_min) / hdr.lon_delta
  let y_grid_index := (lat_deg - hdr.lat_min) / hdr.lat_delta
  let icol0 := grid_index x_grid_index
  let irow0 := grid_index y_grid_index
  let dx := x_grid_index - icol0
  let dy := y_grid_index - irow0
  let irow := irow0 - 1
  let icol := icol0 - 1
  let pt : Nat → Nat → GEOCON_POINT := fun i j => gc_get_shift hdr (irow + i) (icol + j)
  { lon_shift := bicubic_channel (fun i j => flt_val (pt i j).lon_value) dx dy
    lat_shift := bicubic_channel (fun i j => flt_val (pt i j).lat_value) dx dy
    hgt_shift := bicubic_channel (fun i j => flt_val (pt i j).hgt_value) dx dy }

/-- The loops `while ( icol_rgt > hdr->ncols )` and `while ( irow_top > hdr->nrows )` of
`gc_calculate_shifts_biquadratic`, on the triple (left, centre, right). -/
def biquadratic_fit (n : Int) (w : Int × Int × Int) : Int × Int × Int :=
  if w.2.2 > n then biquadratic_fit n (w.1 - 1, w.2.1 - 1, w.2.2 - 1) else w
termination_by (w.2.2 - n).toNat
decreasing_by omega

/-- The row formula of `gc_calculate_shifts_biquadratic`:
`lft + dx * (tmp3 + tmp1 * (rgt - cen - tmp3))` with `tmp3 = cen - lft`. The locals `lft`,
`cen` and `rgt` are declared `float`, so the two differences `cen - lft` and `rgt - cen`
are formed in binary32 (`flt_sub`) before they enter the `double` arithmetic; `tmp3`, `dx`
and `tmp1` are `double`. -/
def biquadratic_1d (lft cen rgt dx tmp1 : ℚ) : ℚ :=
  let tmp3 := flt_sub cen lft
  lft + dx * (tmp3 + tmp1 * (flt_sub rgt cen - tmp3))

/-- The per-channel computation of `gc_calculate_shifts_biquadratic` on the nine values
A..I (bottom row A B C, centre row D E F, top row G H I). -/
def biquadratic_channel (a b c d e f g h i dx dy tmp1 tmp2 : ℚ) : ℚ :=
  let f0 := biquadratic_1d a b c dx tmp1
  let f1 := biquadratic_1d d e f dx tmp1
  let f2 := biquadratic_1d g h i dx tmp1
  let tmp3 := f1 - f0
  f0 + dy * (tmp3 + tmp2 * (f2 - f1 - tmp3))

/-- The window of `gc_calculate_shifts_biquadratic` along one axis: from the raw grid
index to the adjusted (left, centre, right) indices and the offset `dx` (or `dy`).
`q` is the coordinate in degrees, `q_min` and `delta` the grid origin and step, `n` the
number of columns (or rows). -/
def biquadratic_window (q q_min delta : ℚ) (n : Int) : (Int × Int × Int) × ℚ :=
  let x_grid_index := (q - q_min) / delta
  let icol_lft := grid_index x_grid_index
  let w0 : Int × Int × Int := (icol_lft, icol_lft + 1, icol_lft + 2)
  let w1 := biquadratic_fit n w0
  let dx := (q - delta * w1.1 - q_min) / delta
  if dx < 1 / 2 ∧ w1.1 > 0 then ((w1.1 - 1, w1.2.1 - 1, w1.2.2 - 1), dx + 1)
  else (w1, dx)

/-- `gc_calculate_shifts_biquadratic`. -/
def gc_calculate_shifts_biquadratic (hdr : GEOCON_HDR) (lat_deg lon_deg : ℚ) : SHIFTS :=
  let wx := biquadratic_window lon_deg hdr.lon_min hdr.lon_delta hdr.ncols
  let wy := biquadratic_window lat_deg hdr.lat_min hdr.lat_delta hdr.nrows
  let icol_lft := wx.1.1
  let icol_cen := wx.1.2.1
  let icol_rgt := wx.1.2.2
  let dx := wx.2
  let irow_bot := wy.1.1
  let irow_cen := wy.1.2.1
  let irow_top := wy.1.2.2
  let dy := wy.2
  let tmp1 := (1 / 2 : ℚ) * (dx - 1)
  let tmp2 := (1 / 2 : ℚ) * (dy - 1)
  let ptA := gc_get_shift hdr irow_bot icol_lft
  let ptB := gc_get_shift hdr irow_bot icol_cen
  let ptC := gc_get_shift hdr irow_bot icol_rgt
  let ptD := gc_get_shift hdr irow_cen icol_lft
  let ptE := gc_get_shift hdr irow_cen icol_cen
  let ptF := gc_get_shift hdr irow_cen icol_rgt
  let ptG := gc_get_shift hdr irow_top icol_lft
  let ptH := gc_get_shift hdr irow_top icol_cen
  let ptI := gc_get_shift hdr irow_top icol_rgt
  { lon_shift := biquadratic_channel
      (flt_val ptA.lon_value) (flt_val ptB.lon_value) (flt_val ptC.lon_value)
      (flt_val ptD.lon_value) (flt_val ptE.lon_value) (flt_val ptF.lon_value)
      (flt_val ptG.lon_value) (flt_val ptH.lon_value) (flt_val ptI.lon_value) dx dy tmp1 tmp2
    lat_shift := biquadratic_channel
      (flt_val ptA.lat_value) (flt_val ptB.lat_value) (flt_val ptC.lat_value)
      (flt_val ptD.lat_value) (flt_val ptE.lat_value) (flt_val ptF.lat_value)
      (flt_val ptG.lat_value) (flt_val ptH.lat_value) (flt_val ptI.lat_value) dx dy tmp1 tmp2
    hgt_shift := biquadratic_channel
      (flt_val ptA.hgt_value) (flt_val ptB.hgt_value) (flt_val ptC.hgt_value)
      (flt_val ptD.hgt_value) (flt_val ptE.hgt_value) (flt_val ptF.hgt_value)
      (flt_val ptG.hgt_value) (flt_val ptH.hgt_value) (flt_val ptI.hgt_value) dx dy tmp1 tmp2 }

/-- The per-channel sum of `gc_calculate_shifts_natspline`. -/
def natspline_channel (a00 a10 a01 a11 v_a00 v_a01 v_a10 v_a11 : ℚ) : ℚ :=
  a00 * v_a00 + a01 * v_a01 + a10 * v_a10 + a11 * v_a11

/-- `gc_calculate_shifts_natspline`. -/
def gc_calculate_shifts_natspline (hdr : GEOCON_HDR) (lat_deg lon_deg : ℚ) : SHIFTS :=
  let x_grid_index := (lon_deg - hdr.lon_min) / hdr.lon_delta
  let y_grid_index := (lat_deg - hdr.lat_min) / hdr.lat_delta
  let icol := grid_index x_grid_index
  let irow := grid_index y_grid_index
  let dx := x_grid_index - icol
  let dy := y_grid_index - irow
  let v_dx2 := dx * dx
  let v_dy2 := dy * dy
  let v_1_minus_dx := 1 - dx
  let v_1_minus_dy := 1 - dy
  let v_1_minus_dx2 := v_1_minus_dx * v_1_minus_dx
  let v_1_minus_dy2 := v_1_minus_dy * v_1_minus_dy
  let v_3_minus_2_times_dx := 3 - 2 * dx
  let v_3_minus_2_times_dy := 3 - 2 * dy
  let v_3_minus_2_times_1_minus_dx := 3 - 2 * v_1_minus_dx
  let v_3_minus_2_times_1_minus_dy := 3 - 2 * v_1_minus_dy
  let v_a00 := v_1_minus_dx2 * v_1_minus_dy2 *
    v_3_minus_2_times_1_minus_dx * v_3_minus_2_times_1_minus_dy
  let v_a01 := v_dy2 * v_1_minus_dx2 * v_3_minus_2_times_dy * v_3_minus_2_times_1_minus_dx
  let v_a10 := v_dx2 * v_1_minus_dy2 * v_3_minus_2_times_dx * v_3_minus_2_times_1_minus_dy
  let v_a11 := v_dx2 * v_dy2 * v_3_minus_2_times_dx * v_3_minus_2_times_dy
  let ptA := gc_get_shift hdr irow icol
  let ptB := gc_get_shift hdr irow (icol + 1)
  let ptC := gc_get_shift hdr (irow + 1) icol
  let ptD := gc_get_shift hdr (irow + 1) (icol + 1)
  { lon_shift := natspline_channel (flt_val ptA.lon_value) (flt_val ptB.lon_value)
      (flt_val ptC.lon_value) (flt_val ptD.lon_value) v_a00 v_a01 v_a10 v_a11
    lat_shift := natspline_channel (flt_val ptA.lat_value) (flt_val ptB.lat_value)
      (flt_val ptC.lat_value) (flt_val ptD.lat_value) v_a00 v_a01 v_a10 v_a11
    hgt_shift := natspline_channel (flt_val ptA.hgt_value) (flt_val ptB.hgt_value)
      (flt_val ptC.hgt_value) (flt_val ptD.hgt_value) v_a00 v_a01 v_a10 v_a11 }

/-- `gc_calculate_shifts`: dispatch on `interp` (biquadratic is the `default:` case), then
divide by the scales. -/
def gc_calculate_shifts (hdr : GEOCON_HDR) (interp : Int) (lat_deg lon_deg : ℚ) : SHIFTS :=
  let s : SHIFTS :=
    if interp = GEOCON_INTERP_BILINEAR then gc_calculate_shifts_bilinear hdr lat_deg lon_deg
    else if interp = GEOCON_INTERP_BICUBIC then gc_calculate_shifts_bicubic hdr lat_deg lon_deg
    else if interp = GEOCON_INTERP_NATSPLINE then
      gc_calculate_shifts_natspline hdr lat_deg lon_deg
    else gc_calculate_shifts_biquadratic hdr lat_deg lon_deg
  { lat_shift := s.lat_shift / hdr.horz_scale
    lon_shift := s.lon_shift / hdr.horz_scale
    hgt_shift := s.hgt_shift / hdr.vert_scale }

/-! ## Forward and inverse transformation -/

/-- The caller-visible state of a transform call while it runs: the counter `num` and the
arrays `coord[]` and `h[]` (`h` may be the null pointer). -/
structure XFORM where
  num : Int
  coord : Nat → GEOCON_COORD
  h : Option (Nat → ℚ)

/-- What a transform call leaves behind: the returned count and the caller's arrays. -/
structure XFORM_RESULT where
  num : Int
  coord : Option (Nat → GEOCON_COORD)
  h : Option (Nat → ℚ)

/-- The body of the `for` loop of `geocon_forward` at index `i`. -/
def geocon_forward_body (hdr : GEOCON_HDR) (interp : Int) (deg_factor hgt_factor : ℚ)
    (i : Nat) (s : XFORM) : XFORM :=
  let lat_deg := (s.coord i).lat * deg_factor
  let lon_deg := gc_delta ((s.coord i).lon * deg_factor)
  let hgt_mtr : ℚ := match s.h with
    | none => 0
    | some h => h i * hgt_factor
  if GEOCON_GT lat_deg hdr.lat_min_ghost &&
     GEOCON_LT lat_deg hdr.lat_max_ghost &&
     GEOCON_GT lon_deg hdr.lon_min_ghost &&
     GEOCON_LT lon_deg hdr.lon_max_ghost then
    let sh := gc_calculate_shifts hdr interp lat_deg lon_deg
    let lat_deg1 := lat_deg + sh.lat_shift
    let lon_deg1 := lon_deg + sh.lon_shift
    let hgt_mtr1 := hgt_mtr + sh.hgt_shift
    { num := s.num + 1
      coord := Function.update s.coord i
        { lat := lat_deg1 / deg_factor, lon := gc_delta lon_deg1 / deg_factor }
      h := s.h.map (fun h => Function.update h i (hgt_mtr1 / hgt_factor)) }
  else s

/-- The loop `for (i = 0; i < n; i++)` of `geocon_forward`, run for the first `n` indices. -/
def geocon_forward_loop (hdr : GEOCON_HDR) (interp : Int) (deg_factor hgt_factor : ℚ) :
    Nat → XFORM → XFORM
  | 0, s => s
  | i + 1, s =>
    geocon_forward_body hdr interp deg_factor hgt_factor i
      (geocon_forward_loop hdr interp deg_factor hgt_factor i s)

/-- `geocon_forward`. -/
def geocon_forward (hdr : Option GEOCON_HDR) (interp : Int) (deg_factor hgt_factor : ℚ)
    (n : Int) (coord : Option (Nat → GEOCON_COORD)) (h : Option (Nat → ℚ)) : XFORM_RESULT :=
  match hdr, coord with
  | some hd, some c =>
    if n ≤ 0 then { num := 0, coord := coord, h := h }
    else
      let s := geocon_forward_loop hd interp deg_factor hgt_factor n.toNat
        { num := 0, coord := c, h := h }
      { num := s.num, coord := some s.coord, h := s.h }
  | _, _ => { num := 0, coord := coord, h := h }

/-- The macro `MAX_ITERATIONS`. -/
def MAX_ITERATIONS : Nat := 50

/-- The running estimate `(lat_next, lon_next, hgt_next)` of `geocon_inverse`. -/
structure INV_ITER where
  lat_next : ℚ
  lon_next : ℚ
  hgt_next : ℚ
deriving DecidableEq, Repr

/-- The inner loop of `geocon_inverse` with `k` iterations left: compute the forward shift at
the estimate, stop (`break`) when the three deltas are `GEOCON_ZERO`, else subtract them. -/
def geocon_inverse_iterate (hdr : GEOCON_HDR) (interp : Int) (lat_deg lon_deg hgt_mtr : ℚ) :
    Nat → INV_ITER → INV_ITER
  | 0, st => st
  | k + 1, st =>
    let sh := gc_calculate_shifts hdr interp st.lat_next st.lon_next
    let lat_est := st.lat_next + sh.lat_shift
    let lon_est := st.lon_next + sh.lon_shift
    let hgt_est := st.hgt_next + sh.hgt_shift
    let lat_delta := lat_est - lat_deg
    let lon_delta := lon_est - lon_deg
    let hgt_delta := hgt_est - hgt_mtr
    if GEOCON_ZERO lon_delta && GEOCON_ZERO lat_delta && GEOCON_ZERO hgt_delta then st
    else
      geocon_inverse_iterate hdr interp lat_deg lon_deg hgt_mtr k
        { lat_next := st.lat_next - lat_delta
          lon_next := st.lon_next - lon_delta
          hgt_next := st.hgt_next - hgt_delta }

/-- The inner loop of `geocon_inverse` together with its counter: `k` iterations are left,
`num_iterations` have been completed. It yields the estimate and the value of
`num_iterations` with which the loop is left, which is below `max_iterations` exactly when
the loop is left through `break`. -/
def geocon_inverse_count (hdr : GEOCON_HDR) (interp : Int) (lat_deg lon_deg hgt_mtr : ℚ) :
    Nat → Nat → INV_ITER → INV_ITER × Nat
  | 0, num_iterations, st => (st, num_iterations)
  | k + 1, num_iterations, st =>
    let sh := gc_calculate_shifts hdr interp st.lat_next st.lon_next
    let lat_est := st.lat_next + sh.lat_shift
    let lon_est := st.lon_next + sh.lon_shift
    let hgt_est := st.hgt_next + sh.hgt_shift
    let lat_delta := lat_est - lat_deg
    let lon_delta := lon_est - lon_deg
    let hgt_delta := hgt_est - hgt_mtr
    if GEOCON_ZERO lon_delta && GEOCON_ZERO lat_delta && GEOCON_ZERO hgt_delta then
      (st, num_iterations)
    else
      geocon_inverse_count hdr interp lat_deg lon_deg hgt_mtr k (num_iterations + 1)
        { lat_next := st.lat_next - lat_delta
          lon_next := st.lon_next - lon_delta
          hgt_next := st.hgt_next - hgt_delta }

/-- The body of the outer `for` loop of `geocon_inverse` at index `i`. -/
def geocon_inverse_body (hdr : GEOCON_HDR) (interp : Int) (deg_factor hgt_factor : ℚ)
    (i : Nat) (s : XFORM) : XFORM :=
  let max_iterations := MAX_ITERATIONS
  let lat_deg := (s.coord i).lat * deg_factor
  let lon_deg := gc_delta ((s.coord i).lon * deg_factor)
  let hgt_mtr : ℚ := match s.h with
    | none => 0
    | some h => h i * hgt_factor
  if GEOCON_GT lat_deg hdr.lat_min_ghost &&
     GEOCON_LT lat_deg hdr.lat_max_ghost &&
     GEOCON_GT lon_deg hdr.lon_min_ghost &&
     GEOCON_LT lon_deg hdr.lon_max_ghost then
    let r := geocon_inverse_iterate hdr interp lat_deg lon_deg hgt_mtr max_iterations
      { lat_next := lat_deg, lon_next := lon_deg, hgt_next := hgt_mtr }
    { num := s.num + 1
      coord := Function.update s.coord i
        { lat := r.lat_next / deg_factor, lon := gc_delta r.lon_next / deg_factor }
      h := s.h.map (fun h => Function.update h i (r.hgt_next / hgt_factor)) }
  else s

/-- The loop `for (i = 0; i < n; i++)` of `geocon_inverse`, run for the first `n` indices. -/
def geocon_inverse_loop (hdr : GEOCON_HDR) (interp : Int) (deg_factor hgt_factor : ℚ) :
    Nat → XFORM → XFORM
  | 0, s => s
  | i + 1, s =>
    geocon_inverse_body hdr interp deg_factor hgt_factor i
      (geocon_inverse_loop hdr interp deg_factor hgt_factor i s)

/-- `geocon_inverse`. -/
def geocon_inverse (hdr : Option GEOCON_HDR) (interp : Int) (deg_factor hgt_factor : ℚ)
    (n : Int) (coord : Option (Nat → GEOCON_COORD)) (h : Option (Nat → ℚ)) : XFORM_RESULT :=
  match hdr, coord with
  | some hd, some c =>
    if n ≤ 0 then { num := 0, coord := coord, h := h }
    else
      let s := geocon_inverse_loop hd interp deg_factor hgt_factor n.toNat
        { num := 0, coord := c, h := h }
      { num := s.num, coord := some s.coord, h := s.h }
  | _, _ => { num := 0, coord := coord, h := h }

/-! ## Loading and writing binary files -/

/-- A file header image with every field zero (as `memset` leaves it). -/
def zero_file_hdr : GEOCON_FILE_HDR :=
  { magic := 0, version := 0, hdrlen := 0, reserved := 0, info := [], source := [], date := []
    lat_dir := 0, lon_dir := 0, nrows := 0, ncols := 0
    lat_south := 0, lat_north := 0, lon_west := 0, lon_east := 0
    lat_delta := 0, lon_delta := 0, horz_scale := 0, vert_scale := 0
    from_gcs := [], from_vcs := [], from_semi_major := 0, from_flattening := 0
    to_gcs := [], to_vcs := [], to_semi_major := 0, to_flattening := 0 }

/-- The IEEE-754 binary64 pattern that stores the C `double` of value `x` (for a rational
that is not a double, the pattern of the next double toward zero). -/
def dbl_bits (x : ℚ) : Nat :=
  if x = 0 then 0
  else
    let s : Nat := if x < 0 then 1 else 0
    let a : ℚ := |x|
    let e : Int := floor_log2 a
    if e < -1022 then s * 2 ^ 63 + ⌊a * 2 ^ 1074⌋₊
    else if e > 1023 then s * 2 ^ 63 + 2047 * 2 ^ 52
    else s * 2 ^ 63 + (e + 1023).toNat * 2 ^ 52 + ⌊(a / (2 : ℚ) ^ e - 1) * 2 ^ 52⌋₊

/-- A return code together with the error code left in `*prc` and the header as the callee
leaves it. -/
structure RC_HDR where
  rc : Int
  prc : Int
  hdr : GEOCON_HDR

/-- What the library takes from its surroundings: the C library and the declarations of
`libgeocon.i`, which is not part of the sources at hand, and the text writer, which is not
embedded. `fopen` gives the file behind a name (for reading), `fopen_write` tells whether a
name can be opened for writing, `alloc_hdr` and `gc_memalloc` are the outcomes of
`gc_memalloc` for a header and for a block of `n` points (whose content is whatever the
allocator returns), `gc_mutex_create` whether a mutex is obtained, `big_endian` the byte
order of the host (`gc_is_big_endian`). `atof` is the C library function (the bit pattern of
the double it returns), `decimal_point` the character `localeconv()->decimal_point[0]`, and
`flt_of_dbl` the conversion `(float)d` of a double, on bit patterns. -/
structure ENV where
  fopen : String → Option FILE
  fopen_write : String → Bool
  alloc_hdr : Bool
  gc_memalloc : Int → Option (List GEOCON_POINT)
  gc_mutex_create : Bool
  big_endian : Bool
  atof : List Char → Nat
  decimal_point : Char
  flt_of_dbl : Nat → Nat
  gc_write_asc : GEOCON_HDR → String → Int → Int × Int

/-- `gc_is_big_endian`. -/
def gc_is_big_endian (env : ENV) : Bool := env.big_endian

/-- `gc_is_ltl_endian`. -/
def gc_is_ltl_endian (env : ENV) : Bool := !gc_is_big_endian env

/-- `gc_extent_is_empty`. -/
def gc_extent_is_empty (extent : Option GEOCON_EXTENT) : Bool :=
  match extent with
  | none => true
  | some e => GEOCON_EQ e.wlon e.elon || GEOCON_EQ e.slat e.nlat

/-- The C library function `toupper` in the "C" locale, as a character code. -/
def c_toupper (c : Char) : Int := (c.toUpper.toNat : Int)

/-- `gc_strcmp_i` on two C strings (character lists without the terminating NUL). -/
def gc_strcmp_i : List Char → List Char → Int
  | [], [] => 0
  | [], c2 :: _ => 0 - c_toupper c2
  | c1 :: _, [] => c_toupper c1 - 0
  | c1 :: s1, c2 :: s2 =>
    let rc := c_toupper c1 - c_toupper c2
    if rc ≠ 0 then rc else gc_strcmp_i s1 s2

/-- The text after the last `'.'` of a C string (`strrchr(pathname, '.')` then `ext++`), or
`none` when there is no `'.'`. -/
def after_last_dot : List Char → Option (List Char)
  | [] => none
  | c :: cs =>
    match after_last_dot cs with
    | some r => some r
    | none => if c = '.' then some cs else none

/-- `geocon_filetype`. -/
def geocon_filetype (pathname : Option String) : Int :=
  match pathname with
  | none => GEOCON_FILE_TYPE_UNK
  | some path =>
    if path.toList = [] then GEOCON_FILE_TYPE_UNK
    else
      match after_last_dot path.toList with
      | some ext =>
        if gc_strcmp_i ext "gcb".toList = 0 then GEOCON_FILE_TYPE_BIN
        else if gc_strcmp_i ext "gca".toList = 0 then GEOCON_FILE_TYPE_ASC
        else GEOCON_FILE_TYPE_UNK
      | none => GEOCON_FILE_TYPE_UNK

/-- A header with every field zero (as `memset` leaves it). -/
def zero_hdr : GEOCON_HDR :=
  { fhdr := zero_file_hdr, pathname := "", filetype := 0, flip := false
    points_start := 0, line_count := 0, nrows := 0, ncols := 0
    lat_min := 0, lat_max := 0, lon_min := 0, lon_max := 0
    lat_dir := 0, lon_dir := 0
    lat_delta := 0, lon_delta := 0, horz_scale := 0, vert_scale := 0
    lat_min_ghost := 0, lat_max_ghost := 0, lon_min_ghost := 0, lon_max_ghost := 0
    fp := none, mutex := false, points := none }

/-- `geocon_create`: `none` when the allocation fails. -/
def geocon_create (env : ENV) : Option GEOCON_HDR :=
  if env.alloc_hdr then
    some { zero_hdr with
      fhdr := { zero_file_hdr with
        magic := GEOCON_HDR_MAGIC
        version := GEOCON_HDR_VERSION
        hdrlen := GEOCON_FILE_HDR_LEN } }
  else none

/-! ## Reading text files -/

/-- The C library function `isspace` in the "C" locale: the space and the control characters
from tab (9) to carriage return (13). -/
def c_isspace (c : Char) : Bool := c.toNat = 32 || (9 ≤ c.toNat && c.toNat ≤ 13)

/-- The C library function `atoi` on a string: optional white space, an optional sign, then
decimal digits up to the first other character (0 when there is no digit; a value outside
the range of `int` is not produced by the grid files at hand). -/
def c_atoi (s : List Char) : Int :=
  let t := s.dropWhile c_isspace
  let u := if t.head? = some '-' ∨ t.head? = some '+' then t.drop 1 else t
  let v : Nat := (u.takeWhile Char.isDigit).foldl (fun acc d => acc * 10 + (d.toNat - 48)) 0
  if t.head? = some '-' then -(v : Int) else (v : Int)

/-- `gc_strip`: the string without its leading and its trailing white space. -/
def gc_strip (str : List Char) : List Char :=
  ((str.dropWhile c_isspace).reverse.dropWhile c_isspace).reverse

/-- What `gc_strip(str)` leaves at `str` itself when the pointer it returns is not used: the
string is cut after its last character that is no white space, its leading white space
stays. -/
def strip_in_place (str : List Char) : List Char := str.takeWhile c_isspace ++ gc_strip str

/-- `gc_strip_buf`: what is left in the buffer is the stripped string. -/
def gc_strip_buf (str : List Char) : List Char := gc_strip str

/-- The C string that `gc_strncpy(buf, str, n)` leaves in `buf`, for `n ≥ 1`: the first
`n - 1` characters of `str`. -/
def gc_strncpy (str : List Char) (n : Nat) : List Char := str.take (n - 1)

/-- A character array after a C string has been written at its start: the characters, the
terminating NUL, and what the array held beyond. -/
def store_string (buf : List Nat) (str : List Char) : List Nat :=
  str.map (fun c => c.toNat) ++ 0 :: buf.drop (str.length + 1)

/-- The macro `GEOCON_TOKENS_MAX`. -/
def GEOCON_TOKENS_MAX : Int := 64

/-- The macro `GEOCON_TOKENS_BUFLEN`. -/
def GEOCON_TOKENS_BUFLEN : Nat := 256

/-- The struct `gc_token` once a line has been split: the strings `toks[0]`, `toks[1]`, ...
(those past the last token found are the empty string) and the count `num`. -/
structure GEOCON_TOKEN where
  toks : List (List Char)
  num : Int
deriving DecidableEq, Repr

/-- The double quote character. -/
def DQUOTE : Char := Char.ofNat 34

/-- The single quote character. -/
def SQUOTE : Char := Char.ofNat 39

/-- The scan `for (s = p; *s; s++)` of `gc_str_tokenize` with an empty delimiter string,
started with the flag `quotes`: the characters before the first white space that is outside
double quotes, and the string from that white space on (`none` when the scan reaches the end
of the string). -/
def scan_token : Bool → List Char → List Char × Option (List Char)
  | _, [] => ([], none)
  | quotes, c :: cs =>
    if quotes then
      let r := scan_token (if c = DQUOTE then false else true) cs
      (c :: r.1, r.2)
    else if c = DQUOTE then
      let r := scan_token true cs
      (c :: r.1, r.2)
    else if c_isspace c then ([], some (c :: cs))
    else
      let r := scan_token false cs
      (c :: r.1, r.2)

/-- The loop `while (ntoks < maxtoks)` of `gc_str_tokenize` with `k = maxtoks - ntoks` rounds
left and `p` the rest of the buffer: the tokens from `toks[ntoks - 1]` on. A token that a
white space ends is cut there and stripped; the last one is all that is left. -/
def split_tokens : Nat → List Char → List (List Char)
  | 0, p => [p]
  | k + 1, p =>
    match scan_token false p with
    | (_, none) => [p]
    | (tok, some rest) =>
      strip_in_place tok :: split_tokens k ((rest.drop 1).dropWhile c_isspace)

/-- The step of `gc_str_tokenize` that removes "embedding quotes": a token that starts with
a single or double quote and ends with the same character loses both and is stripped. -/
def strip_quotes (str : List Char) : List Char :=
  match str with
  | [] => []
  | c :: _ =>
    if (c = SQUOTE ∨ c = DQUOTE) ∧ str.getLast? = some c then
      gc_strip_buf ((str.drop 1).dropLast)
    else str

/-- `gc_str_tokenize(ptoks, line, NULL, maxtoks)`: split a line at white space into at most
`maxtoks` tokens. -/
def gc_str_tokenize (line : List Char) (maxtoks : Int) : GEOCON_TOKEN :=
  let maxtoks1 : Int := if maxtoks ≤ 0 then GEOCON_TOKENS_MAX else maxtoks
  let buf := gc_strip_buf (gc_strncpy line GEOCON_TOKENS_BUFLEN)
  if buf = [] then { toks := [], num := 0 }
  else
    let ts := (split_tokens (maxtoks1 - 1).toNat buf).map strip_quotes
    { toks := ts, num := (ts.length : Int) }

/-- The token `TOK(i)`. -/
def GEOCON_TOKEN.TOK (tok : GEOCON_TOKEN) (i : Nat) : List Char := tok.toks.getD i []

/-- `gc_read_line` on the lines still to come, with `line_count` as it stands: the next
line that is not blank once its comment (from `#` on) and the white space around it are
removed, or `none` at the end of the file; the lines left; the new `line_count`. -/
def gc_read_line : List (List Char) → Int → Option (List Char) × List (List Char) × Int
  | [], lc => (none, [], lc)
  | l :: ls, lc =>
    let bufp := gc_strip (l.takeWhile (fun c => c ≠ '#'))
    if bufp ≠ [] then (some bufp, ls, lc + 1) else gc_read_line ls (lc + 1)

/-- `gc_read_toks`: the tokens of the next line (`none` for the return value -1 at the end
of the file) and the header, whose stream and `line_count` have moved on. The library calls
it with the stream open. -/
def gc_read_toks (hdr : GEOCON_HDR) (maxtoks : Int) : Option GEOCON_TOKEN × GEOCON_HDR :=
  match hdr.fp with
  | none => (none, hdr)
  | some f =>
    let r := gc_read_line f.text hdr.line_count
    let hdr1 : GEOCON_HDR := { hdr with fp := some { f with text := r.2.1 }, line_count := r.2.2 }
    match r.1 with
    | none => (none, hdr1)
    | some bufp => (some (gc_str_tokenize bufp maxtoks), hdr1)

/-- The macro `RT(n)`: read the next line of tokens; the error code with which the caller
returns -1 when there is none (`GEOCON_ERR_UNEXPECTED_EOF`) or when the line does not hold
`n` tokens (`GEOCON_ERR_INVALID_TOKEN_CNT`). -/
def RT (hdr : GEOCON_HDR) (n : Int) : Except Int GEOCON_TOKEN × GEOCON_HDR :=
  match gc_read_toks hdr n with
  | (none, h) => (Except.error GEOCON_ERR_UNEXPECTED_EOF, h)
  | (some tok, h) =>
    if tok.num ≤ 0 then (Except.error GEOCON_ERR_UNEXPECTED_EOF, h)
    else if tok.num ≠ n then (Except.error GEOCON_ERR_INVALID_TOKEN_CNT, h)
    else (Except.ok tok, h)

/-- `gc_atod`: the double (as its bit pattern) that `atof` reads from the string once its
first `'.'` has been replaced by the decimal point of the locale; 0.0 for the empty string. -/
def gc_atod (env : ENV) (s : List Char) : Nat :=
  if s = [] then 0
  else
    env.atof (s.takeWhile (fun c => c ≠ '.') ++
      match s.dropWhile (fun c => c ≠ '.') with
      | [] => []
      | _ :: rest => env.decimal_point :: rest)

/-- The statements of `gc_load_hdr_asc` that follow its 23 `RT(2)`, in order: what each
writes into the file header from the token `TOK(1)`. -/
def asc_hdr_fields (env : ENV) : List (GEOCON_FILE_HDR → List Char → GEOCON_FILE_HDR) :=
  [ fun fh t => { fh with info := store_string fh.info (gc_strncpy t 80) },
    fun fh t => { fh with source := store_string fh.source (gc_strncpy t 80) },
    fun fh t => { fh with date := store_string fh.date (gc_strncpy t 24) },
    fun fh t => { fh with
      lat_dir := if gc_strcmp_i t "N-S".toList = 0 then GEOCON_LAT_N_TO_S
                 else GEOCON_LAT_S_TO_N },
    fun fh t => { fh with
      lon_dir := if gc_strcmp_i t "E-W".toList = 0 then GEOCON_LON_E_TO_W
                 else GEOCON_LON_W_TO_E },
    fun fh t => { fh with nrows := c_atoi t },
    fun fh t => { fh with ncols := c_atoi t },
    fun fh t => { fh with lat_south := gc_atod env t },
    fun fh t => { fh with lat_north := gc_atod env t },
    fun fh t => { fh with lon_west := gc_atod env t },
    fun fh t => { fh with lon_east := gc_atod env t },
    fun fh t => { fh with lat_delta := gc_atod env t },
    fun fh t => { fh with lon_delta := gc_atod env t },
    fun fh t => { fh with horz_scale := gc_atod env t },
    fun fh t => { fh with vert_scale := gc_atod env t },
    fun fh t => { fh with from_gcs := store_string fh.from_gcs (gc_strncpy t 80) },
    fun fh t => { fh with from_vcs := store_string fh.from_vcs (gc_strncpy t 80) },
    fun fh t => { fh with from_semi_major := gc_atod env t },
    fun fh t => { fh with from_flattening := gc_atod env t },
    fun fh t => { fh with to_gcs := store_string fh.to_gcs (gc_strncpy t 80) },
    fun fh t => { fh with to_vcs := store_string fh.to_vcs (gc_strncpy t 80) },
    fun fh t => { fh with to_semi_major := gc_atod env t },
    fun fh t => { fh with to_flattening := gc_atod env t } ]

/-- The run of `gc_load_hdr_asc` through the statements still to do: each reads a line of
two tokens with `RT(2)` (returning -1 with the error code when that fails) and stores the
second token into the file header. -/
def load_hdr_fields :
    List (GEOCON_FILE_HDR → List Char → GEOCON_FILE_HDR) → GEOCON_HDR → Int → RC_HDR
  | [], hdr, prc => { rc := 0, prc := prc, hdr := hdr }
  | set :: rest, hdr, prc =>
    match RT hdr 2 with
    | (Except.error e, h) => { rc := -1, prc := e, hdr := h }
    | (Except.ok tok, h) => load_hdr_fields rest { h with fhdr := set h.fhdr (tok.TOK 1) } prc

/-- `gc_load_hdr_asc`. -/
def gc_load_hdr_asc (env : ENV) (hdr : GEOCON_HDR) (prc : Int) : RC_HDR :=
  load_hdr_fields (asc_hdr_fields env) hdr prc

/-- `gc_load_hdr_bin`: read the header image at the start of the stream, note where the
points start, byte-swap the header when the magic number is the swapped one, and reject any
other magic number. When `fread` does not deliver a whole header the C code returns -1 with
`GEOCON_ERR_IOERR`; the contents of `hdr->fhdr` and the position of the stream are then
indeterminate in C (a partial element was read), and the header returned here on that path
is the header as it was: only `rc` and `*prc` are meaningful there. -/
def gc_load_hdr_bin (hdr : GEOCON_HDR) (prc : Int) : RC_HDR :=
  match hdr.fp with
  | none => { rc := -1, prc := GEOCON_ERR_IOERR, hdr := hdr }
  | some f =>
    match (if f.pos = 0 then f.fhdr else none) with
    | none => { rc := -1, prc := GEOCON_ERR_IOERR, hdr := hdr }
    | some fh =>
      let f1 : FILE := { f with pos := GEOCON_FILE_HDR_LEN }
      let hdr1 : GEOCON_HDR := { hdr with fhdr := fh, fp := some f1, points_start := f1.pos }
      let hdr2 : GEOCON_HDR :=
        if hdr1.fhdr.magic = GEOCON_HDR_MAGIC_SWAPPED then
          { hdr1 with fhdr := gc_flip_hdr hdr1.fhdr, flip := true }
        else hdr1
      if hdr2.fhdr.magic ≠ GEOCON_HDR_MAGIC then
        { rc := -1, prc := GEOCON_ERR_INVALID_FILE, hdr := hdr2 }
      else { rc := 0, prc := prc, hdr := hdr2 }

/-- `gc_load_hdr`: load the file header, then copy its fields into the header proper and set
the ghost bounds. -/
def gc_load_hdr (env : ENV) (hdr : GEOCON_HDR) (prc : Int) : RC_HDR :=
  let r : RC_HDR :=
    if hdr.filetype = GEOCON_FILE_TYPE_BIN then gc_load_hdr_bin hdr prc
    else gc_load_hdr_asc env hdr prc
  if r.rc = 0 then
    let h := r.hdr
    let h1 : GEOCON_HDR :=
      { h with
        lat_dir := h.fhdr.lat_dir
        lon_dir := h.fhdr.lon_dir
        nrows := h.fhdr.nrows
        ncols := h.fhdr.ncols
        lat_min := dbl_val h.fhdr.lat_south
        lat_max := dbl_val h.fhdr.lat_north
        lon_min := dbl_val h.fhdr.lon_west
        lon_max := dbl_val h.fhdr.lon_east
        lat_delta := dbl_val h.fhdr.lat_delta
        lon_delta := dbl_val h.fhdr.lon_delta
        horz_scale := dbl_val h.fhdr.horz_scale
        vert_scale := dbl_val h.fhdr.vert_scale }
    { r with hdr :=
      { h1 with
        lat_min_ghost := h1.lat_min - h1.lat_delta
        lat_max_ghost := h1.lat_max + h1.lat_delta
        lon_min_ghost := h1.lon_min - h1.lon_delta
        lon_max_ghost := h1.lon_max + h1.lon_delta } }
  else r

/-- The outcome of `gc_adjust_extent`: return code, `*prc`, the header, and the four skip
counts. -/
structure ADJUSTED where
  rc : Int
  prc : Int
  hdr : GEOCON_HDR
  skip_south : Int
  skip_north : Int
  skip_west : Int
  skip_east : Int

/-- `gc_adjust_extent`. -/
def gc_adjust_extent (hdr : GEOCON_HDR) (ext : Option GEOCON_EXTENT) (adjust_hdr : Bool)
    (prc : Int) : ADJUSTED :=
  match ext with
  | none => { rc := 0, prc := prc, hdr := hdr, skip_south := 0, skip_north := 0,
              skip_west := 0, skip_east := 0 }
  | some e =>
    if GEOCON_GE e.slat e.nlat || GEOCON_GE e.wlon e.elon then
      { rc := -1, prc := GEOCON_ERR_INVALID_EXTENT, hdr := hdr, skip_south := 0,
        skip_north := 0, skip_west := 0, skip_east := 0 }
    else if GEOCON_GE e.slat hdr.lat_max || GEOCON_LE e.nlat hdr.lat_min ||
        GEOCON_GE e.wlon hdr.lon_max || GEOCON_LE e.elon hdr.lon_min then
      { rc := -1, prc := GEOCON_ERR_INVALID_EXTENT, hdr := hdr, skip_south := 0,
        skip_north := 0, skip_west := 0, skip_east := 0 }
    else
      let lat_min := GEOCON_MAX e.slat hdr.lat_min
      let lat_max := GEOCON_MIN e.nlat hdr.lat_max
      let lon_min := GEOCON_MAX e.wlon hdr.lon_min
      let lon_max := GEOCON_MIN e.elon hdr.lon_max
      -- south
      let ks : Int := int_cast ((⌊(lat_min - hdr.lat_min) / hdr.lat_delta⌋ : Int) : ℚ)
      let do_s : Bool := GEOCON_GT lat_min hdr.lat_min && decide (ks > 0)
      let skip_south : Int := if do_s then ks else 0
      let hdr1 : GEOCON_HDR :=
        if do_s && adjust_hdr then
          { hdr with lat_min := hdr.lat_min + (ks : ℚ) * hdr.lat_delta, nrows := hdr.nrows - ks }
        else hdr
      -- north
      let kn : Int := int_cast ((⌊(hdr1.lat_max - lat_max) / hdr1.lat_delta⌋ : Int) : ℚ)
      let do_n : Bool := GEOCON_LT lat_max hdr1.lat_max && decide (kn > 0)
      let skip_north : Int := if do_n then kn else 0
      let hdr2 : GEOCON_HDR :=
        if do_n && adjust_hdr then
          { hdr1 with lat_max := hdr1.lat_max - (kn : ℚ) * hdr1.lat_delta
                      nrows := hdr1.nrows - kn }
        else hdr1
      -- west
      let kw : Int := int_cast ((⌊(lon_min - hdr2.lon_min) / hdr2.lon_delta⌋ : Int) : ℚ)
      let do_w : Bool := GEOCON_GT lon_min hdr2.lon_min && decide (kw > 0)
      let skip_west : Int := if do_w then kw else 0
      let hdr3 : GEOCON_HDR :=
        if do_w && adjust_hdr then
          { hdr2 with lon_min := hdr2.lon_min + (kw : ℚ) * hdr2.lon_delta
                      ncols := hdr2.ncols - kw }
        else hdr2
      -- east
      let ke : Int := int_cast ((⌊(hdr3.lon_max - lon_max) / hdr3.lon_delta⌋ : Int) : ℚ)
      let do_e : Bool := GEOCON_LT lon_max hdr3.lon_max && decide (ke > 0)
      let skip_east : Int := if do_e then ke else 0
      let hdr4 : GEOCON_HDR :=
        if do_e && adjust_hdr then
          { hdr3 with lon_max := hdr3.lon_max - (ke : ℚ) * hdr3.lon_delta
                      ncols := hdr3.ncols - ke }
        else hdr3
      { rc := 0, prc := prc, hdr := hdr4, skip_south := skip_south, skip_north := skip_north,
        skip_west := skip_west, skip_east := skip_east }

/-- The index into the node array that `gc_load_data_ext`, `gc_load_data_bin`,
`gc_load_data_asc` and `gc_write_bin` compute, each with the same statements, for row `r`
and column `c` of the file: rows and columns are reversed unless the direction is S-to-N,
respectively W-to-E. -/
def node_offset (hdr : GEOCON_HDR) (r c : Int) : Int :=
  let offset : Int :=
    if hdr.lat_dir = GEOCON_LAT_S_TO_N then r * hdr.ncols
    else ((hdr.nrows - 1) - r) * hdr.ncols
  if hdr.lon_dir = GEOCON_LON_W_TO_E then offset + c
  else offset + ((hdr.ncols - 1) - c)

/-- The state of a data load while it runs: the node array being filled, the stream, the
return code and `*prc`. -/
structure LOAD_STATE where
  points : List GEOCON_POINT
  fp : FILE
  rc : Int
  prc : Int

/-- `fread(p, sizeof(*p), 1, fp)` at the current position: the record and the advanced
stream, or `none` on a short read. -/
def fread_point (f : FILE) : Option GEOCON_POINT × FILE :=
  match fread_point_at f f.pos with
  | some p => (some p, { f with pos := f.pos + SIZEOF_POINT })
  | none => (none, f)

/-- `fseek(fp, n, SEEK_CUR)`. -/
def fseek_cur (f : FILE) (n : Int) : FILE := { f with pos := f.pos + n }

/-- The loop `for (c = ...; c < hdr->ncols; c++)` of the data loaders for row `r`, over the
columns `cs` still to do: read the next record into its place in the node array,
byte-swapping it when `flip` is set; a short read sets the error and leaves the loop. -/
def load_row (hdr : GEOCON_HDR) (r : Int) : List Nat → LOAD_STATE → LOAD_STATE
  | [], s => s
  | c :: cs, s =>
    let offset : Int := node_offset hdr r c
    match fread_point s.fp with
    | (none, f) => { s with fp := f, prc := GEOCON_ERR_IOERR, rc := -1 }
    | (some p, f) =>
      let p1 := if hdr.flip then gc_flip_point p else p
      load_row hdr r cs
        { s with fp := f
                 points := if 0 ≤ offset then s.points.set offset.toNat p1 else s.points }

/-- The loop `for (r = 0; r < hdr->nrows; r++)` of `gc_load_data_ext` over the rows `rs`
still to do, skipping `lead` records before and `trail` records after the columns read. -/
def load_rows_ext (hdr : GEOCON_HDR) (lead trail : Int) : List Nat → LOAD_STATE → LOAD_STATE
  | [], s => s
  | r :: rs, s =>
    let s1 : LOAD_STATE :=
      if lead > 0 then { s with fp := fseek_cur s.fp (lead * SIZEOF_POINT) } else s
    let s2 := load_row hdr r (List.range hdr.ncols.toNat) s1
    let s3 : LOAD_STATE :=
      if trail > 0 then { s2 with fp := fseek_cur s2.fp (trail * SIZEOF_POINT) } else s2
    load_rows_ext hdr lead trail rs s3

/-- `gc_load_data_ext`. -/
def gc_load_data_ext (env : ENV) (hdr : GEOCON_HDR) (ext : Option GEOCON_EXTENT) (prc : Int) :
    RC_HDR :=
  let a := gc_adjust_extent hdr ext true prc
  if a.rc ≠ 0 then { rc := a.rc, prc := a.prc, hdr := a.hdr }
  else
    let h := a.hdr
    match env.gc_memalloc (h.nrows * h.ncols), h.fp with
    | none, _ => { rc := -1, prc := GEOCON_ERR_NO_MEMORY, hdr := { h with points := none } }
    | some blk, none =>
      { rc := -1, prc := GEOCON_ERR_IOERR, hdr := { h with points := some blk } }
    | some blk, some f =>
      let offset0 : Int := if h.lat_dir = GEOCON_LAT_S_TO_N then a.skip_south else a.skip_north
      let f1 : FILE :=
        if offset0 > 0 then fseek_cur f (offset0 * (h.fhdr.ncols * SIZEOF_POINT)) else f
      let lead : Int := if h.lon_dir = GEOCON_LON_W_TO_E then a.skip_west else a.skip_east
      let trail : Int := if h.lon_dir = GEOCON_LON_W_TO_E then a.skip_east else a.skip_west
      let s := load_rows_ext h lead trail (List.range h.nrows.toNat)
        { points := blk, fp := f1, rc := 0, prc := a.prc }
      { rc := s.rc, prc := s.prc, hdr := { h with points := some s.points, fp := some s.fp } }

/-- The loop `for (r = 0; r < hdr->nrows; r++)` of `gc_load_data_bin` over the rows `rs`
still to do. -/
def load_rows_bin (hdr : GEOCON_HDR) : List Nat → LOAD_STATE → LOAD_STATE
  | [], s => s
  | r :: rs, s => load_rows_bin hdr rs (load_row hdr r (List.range hdr.ncols.toNat) s)

/-- `gc_load_data_bin`. -/
def gc_load_data_bin (env : ENV) (hdr : GEOCON_HDR) (ext : Option GEOCON_EXTENT) (prc : Int) :
    RC_HDR :=
  if !gc_extent_is_empty ext then gc_load_data_ext env hdr ext prc
  else
    match env.gc_memalloc (hdr.nrows * hdr.ncols), hdr.fp with
    | none, _ => { rc := -1, prc := GEOCON_ERR_NO_MEMORY, hdr := { hdr with points := none } }
    | some blk, none =>
      { rc := -1, prc := GEOCON_ERR_IOERR, hdr := { hdr with points := some blk } }
    | some blk, some f =>
      let s := load_rows_bin hdr (List.range hdr.nrows.toNat)
        { points := blk, fp := f, rc := 0, prc := prc }
      { rc := s.rc, prc := s.prc, hdr := { hdr with points := some s.points, fp := some s.fp } }

/-- The loop `for (c = 0; c < hdr->ncols; c++)` of `gc_load_data_asc` for row `r`, over the
columns `cs` still to do: read a line of three tokens with `RT(3)` (returning -1 with the
error code when that fails) and store the three numbers, converted to `float`, at the place
of the node in the array. -/
def load_row_asc (env : ENV) (r : Int) : List Nat → RC_HDR → RC_HDR
  | [], s => s
  | c :: cs, s =>
    let offset : Int := node_offset s.hdr r c
    match RT s.hdr 3 with
    | (Except.error e, h) => { rc := -1, prc := e, hdr := h }
    | (Except.ok tok, h) =>
      let p : GEOCON_POINT :=
        { lat_value := env.flt_of_dbl (gc_atod env (tok.TOK 0))
          lon_value := env.flt_of_dbl (gc_atod env (tok.TOK 1))
          hgt_value := env.flt_of_dbl (gc_atod env (tok.TOK 2)) }
      let pts1 : Option (List GEOCON_POINT) :=
        h.points.map (fun pts => if 0 ≤ offset then pts.set offset.toNat p else pts)
      load_row_asc env r cs { s with hdr := { h with points := pts1 } }

/-- The loop `for (r = 0; r < hdr->nrows; r++)` of `gc_load_data_asc` over the rows `rs`
still to do; a failed `RT(3)` has returned from the function. -/
def load_rows_asc (env : ENV) : List Nat → RC_HDR → RC_HDR
  | [], s => s
  | r :: rs, s =>
    let s1 := load_row_asc env r (List.range s.hdr.ncols.toNat) s
    if s1.rc ≠ 0 then s1 else load_rows_asc env rs s1

/-- `gc_load_data_asc` (the extent is an unused parameter). -/
def gc_load_data_asc (env : ENV) (hdr : GEOCON_HDR) (prc : Int) : RC_HDR :=
  match env.gc_memalloc (hdr.nrows * hdr.ncols) with
  | none => { rc := -1, prc := GEOCON_ERR_NO_MEMORY, hdr := { hdr with points := none } }
  | some blk =>
    load_rows_asc env (List.range hdr.nrows.toNat)
      { rc := 0, prc := prc, hdr := { hdr with points := some blk } }

/-- `gc_load_data`. -/
def gc_load_data (env : ENV) (hdr : GEOCON_HDR) (ext : Option GEOCON_EXTENT) (prc : Int) :
    RC_HDR :=
  if hdr.filetype = GEOCON_FILE_TYPE_BIN then gc_load_data_bin env hdr ext prc
  else gc_load_data_asc env hdr prc

/-- What `geocon_load` returns: the grid (`none` for the null pointer) and `*prc`. -/
structure LOADED where
  hdr : Option GEOCON_HDR
  prc : Int

/-- `geocon_load`. -/
def geocon_load (env : ENV) (pathname : Option String) (ext : Option GEOCON_EXTENT)
    (load_data : Bool) : LOADED :=
  match pathname with
  | none => { hdr := none, prc := GEOCON_ERR_NULL_PARAMETER }
  | some path =>
    if path.toList = [] then { hdr := none, prc := GEOCON_ERR_NULL_PARAMETER }
    else
      let filetype := geocon_filetype (some path)
      if filetype = GEOCON_FILE_TYPE_UNK then { hdr := none, prc := GEOCON_ERR_UNKNOWN_FILETYPE }
      else
        match geocon_create env with
        | none => { hdr := none, prc := GEOCON_ERR_NO_MEMORY }
        | some hdr0 =>
          match env.fopen path with
          | none => { hdr := none, prc := GEOCON_ERR_FILE_NOT_FOUND }
          | some f =>
            let hdr1 : GEOCON_HDR :=
              { hdr0 with fp := some { f with pos := 0 }, pathname := path, filetype := filetype }
            let r := gc_load_hdr env hdr1 GEOCON_ERR_OK
            if r.rc ≠ 0 then { hdr := none, prc := r.prc }
            else if load_data then
              let d := gc_load_data env r.hdr ext r.prc
              if d.rc ≠ 0 then { hdr := none, prc := d.prc }
              else { hdr := some { d.hdr with fp := none }, prc := d.prc }
            else if r.hdr.filetype = GEOCON_FILE_TYPE_BIN then
              { hdr := some { r.hdr with mutex := env.gc_mutex_create }, prc := r.prc }
            else { hdr := some { r.hdr with fp := none }, prc := r.prc }

/-- What a write leaves behind: the return code, `*prc`, and the file written (if any). -/
structure WRITTEN where
  rc : Int
  prc : Int
  file : Option FILE

/-- `gc_write_bin`. The node at a position outside the array (not reached when the array
has nrows*ncols nodes) is written as the zero point. -/
def gc_write_bin (env : ENV) (hdr : GEOCON_HDR) (pathname : String) (byte_order : Int)
    (prc : Int) : WRITTEN :=
  let swap_data : Bool :=
    if byte_order = GEOCON_ENDIAN_BIG then xor hdr.flip (!gc_is_big_endian env)
    else if byte_order = GEOCON_ENDIAN_LITTLE then xor hdr.flip (!gc_is_ltl_endian env)
    else if byte_order = GEOCON_ENDIAN_NATIVE then false
    else hdr.flip
  if !env.fopen_write pathname then
    { rc := -1, prc := GEOCON_ERR_CANNOT_OPEN_FILE, file := none }
  else
    let fhdr : GEOCON_FILE_HDR :=
      { hdr.fhdr with
        lat_dir := hdr.lat_dir
        lon_dir := hdr.lon_dir
        nrows := hdr.nrows
        ncols := hdr.ncols
        lat_south := dbl_bits hdr.lat_min
        lat_north := dbl_bits hdr.lat_max
        lon_west := dbl_bits hdr.lon_min
        lon_east := dbl_bits hdr.lon_max }
    let fhdr1 := if swap_data then gc_flip_hdr fhdr else fhdr
    let pts : List GEOCON_POINT := hdr.points.getD []
    let nodes : List GEOCON_POINT :=
      (List.range hdr.nrows.toNat).flatMap (fun (r : Nat) =>
        (List.range hdr.ncols.toNat).map (fun (c : Nat) =>
          let offset : Int := node_offset hdr (r : Int) (c : Int)
          let p : GEOCON_POINT :=
            if 0 ≤ offset then pts.getD offset.toNat zero_point else zero_point
          if swap_data then gc_flip_point p else p))
    { rc := 0, prc := prc, file := some { fhdr := some fhdr1, nodes := nodes, pos := 0 } }

/-- `geocon_write`. -/
def geocon_write (env : ENV) (hdr : Option GEOCON_HDR) (pathname : Option String)
    (byte_order : Int) : WRITTEN :=
  match hdr, pathname with
  | some h, some path =>
    if path.toList = [] then { rc := -1, prc := GEOCON_ERR_NULL_PARAMETER, file := none }
    else
      let filetype := geocon_filetype (some path)
      if filetype = GEOCON_FILE_TYPE_UNK then
        { rc := -1, prc := GEOCON_ERR_UNKNOWN_FILETYPE, file := none }
      else if filetype = GEOCON_FILE_TYPE_BIN then
        gc_write_bin env h path byte_order GEOCON_ERR_OK
      else
        let w := env.gc_write_asc h path GEOCON_ERR_OK
        { rc := w.1, prc := w.2, file := none }
  | _, _ => { rc := -1, prc := GEOCON_ERR_NULL_PARAMETER, file := none }

/-! ## The grid of the specification scenarios -/

/-- The bit pattern of the float `1.0f`. -/
def FLT_ONE : Nat := 0x3f800000

/-- The 2x2 grid of scenario 1: lat 0..1, lon 0..1, deltas 1, scales 1, nodes
(0,0,0), (0,0,0), (0,0,0), (1,1,1) in canonical order, held in memory. -/
def scenario_grid : GEOCON_HDR :=
  { fhdr := zero_file_hdr, pathname := "", filetype := 1, flip := false
    points_start := 0, line_count := 0
    nrows := 2, ncols := 2
    lat_min := 0, lat_max := 1, lon_min := 0, lon_max := 1
    lat_dir := GEOCON_LAT_S_TO_N, lon_dir := GEOCON_LON_W_TO_E
    lat_delta := 1, lon_delta := 1, horz_scale := 1, vert_scale := 1
    lat_min_ghost := -1, lat_max_ghost := 2, lon_min_ghost := -1, lon_max_ghost := 2
    fp := none, mutex := false
    points := some [⟨0, 0, 0⟩, ⟨0, 0, 0⟩, ⟨0, 0, 0⟩, ⟨FLT_ONE, FLT_ONE, FLT_ONE⟩] }

/-- A square in-memory grid with `n` rows and columns over lat 0..n-1, lon 0..n-1, both
deltas 1, both scales 1, ghost bounds one delta outside, holding the nodes `pts`. -/
def square_grid (n : Int) (pts : List GEOCON_POINT) : GEOCON_HDR :=
  { fhdr := zero_file_hdr, pathname := "", filetype := 1, flip := false
    points_start := 0, line_count := 0
    nrows := n, ncols := n
    lat_min := 0, lat_max := (n : ℚ) - 1, lon_min := 0, lon_max := (n : ℚ) - 1
    lat_dir := GEOCON_LAT_S_TO_N, lon_dir := GEOCON_LON_W_TO_E
    lat_delta := 1, lon_delta := 1, horz_scale := 1, vert_scale := 1
    lat_min_ghost := -1, lat_max_ghost := (n : ℚ), lon_min_ghost := -1, lon_max_ghost := (n : ℚ)
    fp := none, mutex := false
    points := some pts }

/-- A 7x7 grid in which every node holds the shift (1, 1, 1). -/
def uniform_grid : GEOCON_HDR :=
  square_grid 7 (List.replicate 49 ⟨FLT_ONE, FLT_ONE, FLT_ONE⟩)

/-- The bit pattern of the double `1.0`. -/
def DBL_ONE : Nat := 0x3ff0000000000000

/-- The nodes of the grid used for the file round trip, in canonical order. -/
def codec_points : List GEOCON_POINT :=
  [⟨0, 0, 0⟩, ⟨FLT_ONE, 0, 0⟩, ⟨0, FLT_ONE, 0⟩, ⟨FLT_ONE, FLT_ONE, FLT_ONE⟩]

/-- A 2x2 grid as a load of a byte-swapped binary file leaves it (`flip` set, the header
image agreeing with the header fields), with the storage order N-to-S, E-to-W requested for
the next write. -/
def codec_grid : GEOCON_HDR :=
  { fhdr := { zero_file_hdr with
      magic := GEOCON_HDR_MAGIC, version := GEOCON_HDR_VERSION, hdrlen := GEOCON_FILE_HDR_LEN
      nrows := 2, ncols := 2, lat_north := DBL_ONE, lon_east := DBL_ONE
      lat_delta := DBL_ONE, lon_delta := DBL_ONE, horz_scale := DBL_ONE, vert_scale := DBL_ONE }
    pathname := "x.gcb", filetype := GEOCON_FILE_TYPE_BIN, flip := true
    points_start := GEOCON_FILE_HDR_LEN, line_count := 0
    nrows := 2, ncols := 2
    lat_min := 0, lat_max := 1, lon_min := 0, lon_max := 1
    lat_dir := GEOCON_LAT_N_TO_S, lon_dir := GEOCON_LON_E_TO_W
    lat_delta := 1, lon_delta := 1, horz_scale := 1, vert_scale := 1
    lat_min_ghost := -1, lat_max_ghost := 2, lon_min_ghost := -1, lon_max_ghost := 2
    fp := none, mutex := false
    points := some codec_points }

/-- Surroundings in which every allocation succeeds and returns zeroed memory, every file can
be opened for writing, no file exists yet, and the host is little-endian. -/
def codec_env0 : ENV :=
  { fopen := fun _ => none
    fopen_write := fun _ => true
    alloc_hdr := true
    gc_memalloc := fun n => some (List.replicate n.toNat zero_point)
    gc_mutex_create := true
    big_endian := false
    atof := fun _ => 0
    decimal_point := '.'
    flt_of_dbl := fun _ => 0
    gc_write_asc := fun _ _ p => (-1, p) }

/-- The surroundings after `codec_grid` has been written: every name opens the file that
`gc_write_bin` leaves under it. -/
def codec_env : ENV :=
  { codec_env0 with
    fopen := fun p =>
      (gc_write_bin codec_env0 codec_grid p GEOCON_ENDIAN_INP_FILE GEOCON_ERR_OK).file }

/-! ## The grids and files of the extent scenarios -/

/-- The bit pattern of the double `9.0`. -/
def DBL_NINE : Nat := 0x4022000000000000

/-- A binary file that holds a 10x10 grid over lat 0..9, lon 0..9 with deltas 1 and scales 1,
stored S-to-N, W-to-E in the byte order of the host; the node in row r, column c carries the
pattern 10*r + c in its latitude field. -/
def crop_file : FILE :=
  { fhdr := some { zero_file_hdr with
      magic := GEOCON_HDR_MAGIC, version := GEOCON_HDR_VERSION, hdrlen := GEOCON_FILE_HDR_LEN
      lat_dir := GEOCON_LAT_S_TO_N, lon_dir := GEOCON_LON_W_TO_E
      nrows := 10, ncols := 10
      lat_south := 0, lat_north := DBL_NINE, lon_west := 0, lon_east := DBL_NINE
      lat_delta := DBL_ONE, lon_delta := DBL_ONE, horz_scale := DBL_ONE, vert_scale := DBL_ONE }
    nodes := (List.range 100).map (fun (k : Nat) => ⟨k, 0, 0⟩)
    pos := 0 }

/-- Surroundings in which every name opens `crop_file`. -/
def crop_env : ENV := { codec_env0 with fopen := fun _ => some crop_file }

/-- The header of the grid of `crop_file` as `gc_load_hdr` leaves it: ghost bounds one delta
outside the extent, the stream at the first node record. -/
def crop_grid : GEOCON_HDR :=
  { fhdr := (crop_file.fhdr).getD zero_file_hdr
    pathname := "x.gcb", filetype := GEOCON_FILE_TYPE_BIN, flip := false
    points_start := GEOCON_FILE_HDR_LEN, line_count := 0
    nrows := 10, ncols := 10
    lat_min := 0, lat_max := 9, lon_min := 0, lon_max := 9
    lat_dir := GEOCON_LAT_S_TO_N, lon_dir := GEOCON_LON_W_TO_E
    lat_delta := 1, lon_delta := 1, horz_scale := 1, vert_scale := 1
    lat_min_ghost := -1, lat_max_ghost := 10, lon_min_ghost := -1, lon_max_ghost := 10
    fp := some { crop_file with pos := GEOCON_FILE_HDR_LEN }, mutex := false
    points := none }

/-- The extent slat = 2.3, wlon = 3.7, nlat = 6.8, elon = 8.2. -/
def crop_extent : GEOCON_EXTENT :=
  { slat := 23 / 10, wlon := 37 / 10, nlat := 68 / 10, elon := 82 / 10 }

/-- An extent with slat = nlat. -/
def flat_extent : GEOCON_EXTENT := { slat := 0, wlon := 0, nlat := 0, elon := 1 }

/-- A binary file whose header carries the magic number and is zero otherwise (0 rows,
0 columns, both deltas 0), followed by no node record. -/
def void_file : FILE :=
  { fhdr := some { zero_file_hdr with magic := GEOCON_HDR_MAGIC }, nodes := [], pos := 0 }

/-- Surroundings in which every name opens `void_file`. -/
def void_env : ENV := { codec_env0 with fopen := fun _ => some void_file }

/-! ## Notions used to state the properties -/

/-- The acceptance test that `geocon_forward` and `geocon_inverse` apply to the input
coordinate `c` (in caller units): strictly inside the ghost envelope. -/
def ghost_gate (hdr : GEOCON_HDR) (deg_factor : ℚ) (c : GEOCON_COORD) : Bool :=
  GEOCON_GT (c.lat * deg_factor) hdr.lat_min_ghost &&
  GEOCON_LT (c.lat * deg_factor) hdr.lat_max_ghost &&
  GEOCON_GT (gc_delta (c.lon * deg_factor)) hdr.lon_min_ghost &&
  GEOCON_LT (gc_delta (c.lon * deg_factor)) hdr.lon_max_ghost

/-- Element `i` of the coordinate array after a call (`none` for a null array). -/
def XFORM_RESULT.coord_at (r : XFORM_RESULT) (i : Nat) : Option GEOCON_COORD :=
  r.coord.map (fun c => c i)

/-- Element `i` of the height array after a call (`none` for a null array). -/
def XFORM_RESULT.h_at (r : XFORM_RESULT) (i : Nat) : Option ℚ :=
  r.h.map (fun a => a i)

/-- The number of indices below `n`, other than `skip`, whose input point passes the gate. -/
def gated_count (hdr : GEOCON_HDR) (deg_factor : ℚ) (coord : Nat → GEOCON_COORD)
    (n : Nat) (skip : Option Nat) : Int :=
  ((List.range n).countP (fun j => decide (some j ≠ skip) && ghost_gate hdr deg_factor (coord j)) :
    Nat)

/-- The coordinate that `geocon_forward` writes for an accepted input point `c`. -/
def forward_coord (hdr : GEOCON_HDR) (interp : Int) (deg_factor : ℚ) (c : GEOCON_COORD) :
    GEOCON_COORD :=
  let lat_deg := c.lat * deg_factor
  let lon_deg := gc_delta (c.lon * deg_factor)
  let sh := gc_calculate_shifts hdr interp lat_deg lon_deg
  { lat := (lat_deg + sh.lat_shift) / deg_factor
    lon := gc_delta (lon_deg + sh.lon_shift) / deg_factor }

/-- The height that `geocon_forward` writes for an accepted input point `c` of height `h`. -/
def forward_hgt (hdr : GEOCON_HDR) (interp : Int) (deg_factor hgt_factor : ℚ)
    (c : GEOCON_COORD) (h : ℚ) : ℚ :=
  let lat_deg := c.lat * deg_factor
  let lon_deg := gc_delta (c.lon * deg_factor)
  let sh := gc_calculate_shifts hdr interp lat_deg lon_deg
  (h * hgt_factor + sh.hgt_shift) / hgt_factor

/-- The estimate with which the inner loop of `geocon_inverse` ends (converged or not) for
the input point `c` with height `h` (`none`: null height array, height taken as 0). -/
def inverse_last (hdr : GEOCON_HDR) (interp : Int) (deg_factor hgt_factor : ℚ)
    (c : GEOCON_COORD) (h : Option ℚ) : INV_ITER :=
  let lat_deg := c.lat * deg_factor
  let lon_deg := gc_delta (c.lon * deg_factor)
  let hgt_mtr : ℚ := match h with
    | none => 0
    | some v => v * hgt_factor
  geocon_inverse_iterate hdr interp lat_deg lon_deg hgt_mtr MAX_ITERATIONS
    { lat_next := lat_deg, lon_next := lon_deg, hgt_next := hgt_mtr }

/-- The coordinate that `geocon_inverse` writes for an accepted input point. -/
def inverse_coord (hdr : GEOCON_HDR) (interp : Int) (deg_factor hgt_factor : ℚ)
    (c : GEOCON_COORD) (h : Option ℚ) : GEOCON_COORD :=
  let r := inverse_last hdr interp deg_factor hgt_factor c h
  { lat := r.lat_next / deg_factor, lon := gc_delta r.lon_next / deg_factor }

/-- The height that `geocon_inverse` writes for an accepted input point of height `h`. -/
def inverse_hgt (hdr : GEOCON_HDR) (interp : Int) (deg_factor hgt_factor : ℚ)
    (c : GEOCON_COORD) (h : ℚ) : ℚ :=
  (inverse_last hdr interp deg_factor hgt_factor c (some h)).hgt_next / hgt_factor

/-- The common shape of the two outer loops: for each index below the bound in turn, when
the test `g` accepts `coord[i]`, count the point and overwrite `coord[i]` and `h[i]`. -/
def point_loop (g : GEOCON_COORD → Bool) (fc : GEOCON_COORD → Option ℚ → GEOCON_COORD)
    (fh : GEOCON_COORD → ℚ → ℚ) : Nat → XFORM → XFORM
  | 0, s => s
  | i + 1, s =>
    let t := point_loop g fc fh i s
    if g (t.coord i) then
      { num := t.num + 1
        coord := Function.update t.coord i (fc (t.coord i) (t.h.map (fun a => a i)))
        h := t.h.map (fun a => Function.update a i (fh (t.coord i) (a i))) }
    else t

/-- Forward then inverse on one point `P` with height `h`, both factors 1: `geocon_inverse`
applied to the arrays that `geocon_forward` leaves behind. -/
def round_trip (hdr : GEOCON_HDR) (interp : Int) (P : GEOCON_COORD) (h : ℚ) : XFORM_RESULT :=
  let F := geocon_forward (some hdr) interp 1 1 1 (some (fun _ => P)) (some (fun _ => h))
  geocon_inverse (some hdr) interp 1 1 1 F.coord F.h

/-- The shifts that the kernel `interp` gives at the point `P` (in degrees). -/
def shift_at (hdr : GEOCON_HDR) (interp : Int) (P : GEOCON_COORD) : SHIFTS :=
  gc_calculate_shifts hdr interp P.lat P.lon

/-- The point `P` moved by its own shifts (no longitude normalisation applied). -/
def moved (hdr : GEOCON_HDR) (interp : Int) (P : GEOCON_COORD) : GEOCON_COORD :=
  { lon := P.lon + (shift_at hdr interp P).lon_shift
    lat := P.lat + (shift_at hdr interp P).lat_shift }

/-- The three shifts at `P` all pass `GEOCON_ZERO`. -/
def shifts_negligible (hdr : GEOCON_HDR) (interp : Int) (P : GEOCON_COORD) : Bool :=
  GEOCON_ZERO (shift_at hdr interp P).lon_shift &&
  GEOCON_ZERO (shift_at hdr interp P).lat_shift &&
  GEOCON_ZERO (shift_at hdr interp P).hgt_shift

/-- The integer `x` is a value of the C type `int` (32 bits, two's complement). -/
def is_int (x : Int) : Prop := -2 ^ 31 ≤ x ∧ x < 2 ^ 31

/-- The three fields of the point are 32-bit patterns (one C `float` each). -/
def GEOCON_POINT.is_raw (p : GEOCON_POINT) : Prop :=
  p.lat_value < 2 ^ 32 ∧ p.lon_value < 2 ^ 32 ∧ p.hgt_value < 2 ^ 32

/-- The rational `x` is the value of a C `double`: storing it and reading it back is exact. -/
def is_double (x : ℚ) : Prop := dbl_val (dbl_bits x) = x

/-- The header image that `gc_write_bin` assembles before any byte swap: the cached file
header with the directions, the dimensions and the extent of the grid in memory. -/
def file_image_hdr (hdr : GEOCON_HDR) : GEOCON_FILE_HDR :=
  { hdr.fhdr with
    lat_dir := hdr.lat_dir
    lon_dir := hdr.lon_dir
    nrows := hdr.nrows
    ncols := hdr.ncols
    lat_south := dbl_bits hdr.lat_min
    lat_north := dbl_bits hdr.lat_max
    lon_west := dbl_bits hdr.lon_min
    lon_east := dbl_bits hdr.lon_max }

/-- The node records of a grid in the storage order of its `lat_dir` and `lon_dir`, in the
byte order of the host. -/
def file_image_nodes (hdr : GEOCON_HDR) : List GEOCON_POINT :=
  (List.range hdr.nrows.toNat).flatMap (fun (r : Nat) =>
    (List.range hdr.ncols.toNat).map (fun (c : Nat) =>
      if 0 ≤ node_offset hdr (r : Int) (c : Int) then
        (hdr.points.getD []).getD (node_offset hdr (r : Int) (c : Int)).toNat zero_point
      else zero_point))

/-- The binary file of a grid: header image and node records, in the byte order of the host
when `swap` is false, every int, double and float byte-swapped when `swap` is true. -/
def file_image (hdr : GEOCON_HDR) (swap : Bool) : FILE :=
  { fhdr := some (if swap then gc_flip_hdr (file_image_hdr hdr) else file_image_hdr hdr)
    nodes := if swap then (file_image_nodes hdr).map gc_flip_point else file_image_nodes hdr
    pos := 0 }

/-- The skip count that `gc_adjust_extent` computes at one edge: under the gate of the edge,
`k = (int)floor(d)` is kept when `k > 0`; otherwise the count stays 0. -/
def edge_skip (gate : Bool) (d : ℚ) : Int :=
  if gate && decide (⌊d⌋ > 0) then ⌊d⌋ else 0

/-- The row of the node array in which the loaders store file row `r` of `n` rows: the same
row for S-to-N files, the row counted from the other end otherwise. -/
def array_row (hdr : GEOCON_HDR) (n r : Nat) : Nat :=
  if hdr.lat_dir = GEOCON_LAT_S_TO_N then r else n - 1 - r

/-- The column of the node array in which the loaders store file column `c` of `m`
columns. -/
def array_col (hdr : GEOCON_HDR) (m c : Nat) : Nat :=
  if hdr.lon_dir = GEOCON_LON_W_TO_E then c else m - 1 - c

/-- The node array, in canonical order (S-to-N by row, W-to-E by column), that the node
records `ws` of a complete file denote for the header `hdr`: the node of row R, column C is
the record of file row `array_row R`, file column `array_col C`, byte-swapped when `flip` is
set. -/
def canonical_nodes (hdr : GEOCON_HDR) (ws : List GEOCON_POINT) : List GEOCON_POINT :=
  (List.range hdr.nrows.toNat).flatMap (fun (R : Nat) =>
    (List.range hdr.ncols.toNat).map (fun (C : Nat) =>
      if hdr.flip then
        gc_flip_point (ws.getD (array_row hdr hdr.nrows.toNat R * hdr.ncols.toNat +
          array_col hdr hdr.ncols.toNat C) zero_point)
      else ws.getD (array_row hdr hdr.nrows.toNat R * hdr.ncols.toNat +
          array_col hdr hdr.ncols.toNat C) zero_point))

/-- The window of `n` rows and `m` columns of a canonical node array `pu` with `M` columns
that starts `ss` rows and `sw` columns in. -/
def cropped_nodes (pu : List GEOCON_POINT) (M n m ss sw : Nat) : List GEOCON_POINT :=
  (List.range n).flatMap (fun (R : Nat) =>
    (List.range m).map (fun (C : Nat) => pu.getD ((R + ss) * M + (C + sw)) zero_point))

/-- The ints of the header image are values of the C type `int` and its doubles 64-bit
patterns. -/
def GEOCON_FILE_HDR.is_raw (fh : GEOCON_FILE_HDR) : Prop :=
  (is_int fh.magic ∧ is_int fh.version ∧ is_int fh.hdrlen ∧ is_int fh.reserved ∧
   is_int fh.lat_dir ∧ is_int fh.lon_dir ∧ is_int fh.nrows ∧ is_int fh.ncols) ∧
  (fh.lat_south < 2 ^ 64 ∧ fh.lat_north < 2 ^ 64 ∧ fh.lon_west < 2 ^ 64 ∧
   fh.lon_east < 2 ^ 64 ∧ fh.lat_delta < 2 ^ 64 ∧ fh.lon_delta < 2 ^ 64 ∧
   fh.horz_scale < 2 ^ 64 ∧ fh.vert_scale < 2 ^ 64) ∧
  (fh.from_semi_major < 2 ^ 64 ∧ fh.from_flattening < 2 ^ 64 ∧
   fh.to_semi_major < 2 ^ 64 ∧ fh.to_flattening < 2 ^ 64)

/-- The byte-reversed encoding of a binary file: every int and double of the header and
every float of every node record byte-swapped. -/
def swapped_file (f : FILE) : FILE :=
  { f with fhdr := f.fhdr.map gc_flip_hdr, nodes := f.nodes.map gc_flip_point }

/-- A load state whose stream reads the byte-reversed encoding of the file. -/
def swapped_state (s : LOAD_STATE) : LOAD_STATE := { s with fp := swapped_file s.fp }

/-- The header of a grid whose file is read in its byte-reversed encoding: `flip` is set and
the stream is on the reversed file; every other field is the same. -/
def swapped_hdr (g : GEOCON_HDR) : GEOCON_HDR :=
  { g with flip := true, fp := g.fp.map swapped_file }

/-- The 32-bit word with the bytes `b3 b2 b1 b0`, `b3` the most significant. -/
def word32 (b3 b2 b1 b0 : Fin 256) : Nat :=
  b3.val * 2 ^ 24 + b2.val * 2 ^ 16 + b1.val * 2 ^ 8 + b0.val

/-- The 64-bit value with the bytes `b7 ... b0`, `b7` the most significant. -/
def word64 (b7 b6 b5 b4 b3 b2 b1 b0 : Fin 256) : Nat :=
  word32 b7 b6 b5 b4 * 2 ^ 32 + word32 b3 b2 b1 b0

/-- The C `int` that is stored as the 32-bit word `u` (two's complement). -/
def int_of_word (u : Nat) : Int := if u < 2 ^ 31 then (u : Int) else (u : Int) - 2 ^ 32

/-- The first statement of `gc_delta`: one fold by 360 of a value outside [-180, 180]. -/
def fold_360 (d : ℚ) : ℚ := if d < -180 then d + 360 else if d > 180 then d - 360 else d

/-- The bilinear kernel on the cell whose lower left node is (`irow`, `icol`), at the
offsets `dx`, `dy` inside the cell: the statements of `gc_calculate_shifts_bilinear` that
follow the computation of indices and offsets. -/
def bilinear_at (hdr : GEOCON_HDR) (irow icol : Int) (dx dy : ℚ) : SHIFTS :=
  let ptA := gc_get_shift hdr irow icol
  let ptB := gc_get_shift hdr irow (icol + 1)
  let ptC := gc_get_shift hdr (irow + 1) icol
  let ptD := gc_get_shift hdr (irow + 1) (icol + 1)
  { lon_shift := bilinear_channel (flt_val ptA.lon_value) (flt_val ptB.lon_value)
      (flt_val ptC.lon_value) (flt_val ptD.lon_value) dx dy
    lat_shift := bilinear_channel (flt_val ptA.lat_value) (flt_val ptB.lat_value)
      (flt_val ptC.lat_value) (flt_val ptD.lat_value) dx dy
    hgt_shift := bilinear_channel (flt_val ptA.hgt_value) (flt_val ptB.hgt_value)
      (flt_val ptC.hgt_value) (flt_val ptD.hgt_value) dx dy }

/-- The bicubic kernel on the cell whose lower left node is (`irow0`, `icol0`), at the
offsets `dx`, `dy`: the statements of `gc_calculate_shifts_bicubic` that follow the
computation of indices and offsets. -/
def bicubic_at (hdr : GEOCON_HDR) (irow0 icol0 : Int) (dx dy : ℚ) : SHIFTS :=
  let irow := irow0 - 1
  let icol := icol0 - 1
  let pt : Nat → Nat → GEOCON_POINT := fun i j => gc_get_shift hdr (irow + i) (icol + j)
  { lon_shift := bicubic_channel (fun i j => flt_val (pt i j).lon_value) dx dy
    lat_shift := bicubic_channel (fun i j => flt_val (pt i j).lat_value) dx dy
    hgt_shift := bicubic_channel (fun i j => flt_val (pt i j).hgt_value) dx dy }

/-- The weights `v_a00`, `v_a01`, `v_a10`, `v_a11` of `gc_calculate_shifts_natspline` at
the offsets `dx`, `dy`. -/
def natspline_weights (dx dy : ℚ) : ℚ × ℚ × ℚ × ℚ :=
  ((1 - dx) * (1 - dx) * ((1 - dy) * (1 - dy)) * (3 - 2 * (1 - dx)) * (3 - 2 * (1 - dy)),
   dy * dy * ((1 - dx) * (1 - dx)) * (3 - 2 * dy) * (3 - 2 * (1 - dx)),
   dx * dx * ((1 - dy) * (1 - dy)) * (3 - 2 * dx) * (3 - 2 * (1 - dy)),
   dx * dx * (dy * dy) * (3 - 2 * dx) * (3 - 2 * dy))

/-- The natural spline kernel on the cell whose lower left node is (`irow`, `icol`), at the
offsets `dx`, `dy`: the statements of `gc_calculate_shifts_natspline` that follow the
computation of indices and offsets. -/
def natspline_at (hdr : GEOCON_HDR) (irow icol : Int) (dx dy : ℚ) : SHIFTS :=
  let w := natspline_weights dx dy
  let ptA := gc_get_shift hdr irow icol
  let ptB := gc_get_shift hdr irow (icol + 1)
  let ptC := gc_get_shift hdr (irow + 1) icol
  let ptD := gc_get_shift hdr (irow + 1) (icol + 1)
  { lon_shift := natspline_channel (flt_val ptA.lon_value) (flt_val ptB.lon_value)
      (flt_val ptC.lon_value) (flt_val ptD.lon_value) w.1 w.2.1 w.2.2.1 w.2.2.2
    lat_shift := natspline_channel (flt_val ptA.lat_value) (flt_val ptB.lat_value)
      (flt_val ptC.lat_value) (flt_val ptD.lat_value) w.1 w.2.1 w.2.2.1 w.2.2.2
    hgt_shift := natspline_channel (flt_val ptA.hgt_value) (flt_val ptB.hgt_value)
      (flt_val ptC.hgt_value) (flt_val ptD.hgt_value) w.1 w.2.1 w.2.2.1 w.2.2.2 }

/-- The window of `gc_calculate_shifts_biquadratic` along the columns for a query of
longitude `lon_deg`: the three column indices and the offset `dx`. -/
def window_lon (hdr : GEOCON_HDR) (lon_deg : ℚ) : (Int × Int × Int) × ℚ :=
  biquadratic_window lon_deg hdr.lon_min hdr.lon_delta hdr.ncols

/-- The window of `gc_calculate_shifts_biquadratic` along the rows for a query of latitude
`lat_deg`: the three row indices and the offset `dy`. -/
def window_lat (hdr : GEOCON_HDR) (lat_deg : ℚ) : (Int × Int × Int) × ℚ :=
  biquadratic_window lat_deg hdr.lat_min hdr.lat_delta hdr.nrows

/-- The string is "gcb" up to the case of each letter. -/
def ext_gcb (ext : List Char) : Prop :=
  ∃ c1 c2 c3 : Char, ext = [c1, c2, c3] ∧ (c1 = 'g' ∨ c1 = 'G') ∧ (c2 = 'c' ∨ c2 = 'C') ∧
    (c3 = 'b' ∨ c3 = 'B')

/-- The string is "gca" up to the case of each letter. -/
def ext_gca (ext : List Char) : Prop :=
  ∃ c1 c2 c3 : Char, ext = [c1, c2, c3] ∧ (c1 = 'g' ∨ c1 = 'G') ∧ (c2 = 'c' ∨ c2 = 'C') ∧
    (c3 = 'a' ∨ c3 = 'A')

/-- The string `ext` is the text after the last `'.'` of `path`. -/
def text_after_last_dot (path ext : List Char) : Prop :=
  ∃ pre : List Char, path = pre ++ '.' :: ext ∧ '.' ∉ ext

/-- The character list is a C string: it holds no NUL character. -/
def is_c_string (s : List Char) : Prop := ∀ c ∈ s, c ≠ Char.ofNat 0

/-- The text of a small grid file: comment and blank lines, the 23 header lines, then the
four nodes of a 2x2 grid. -/
def asc_lines : List String :=
  [ "# a small grid\n", "\n", "info    \"two by two\"\n", "source  test\n",
    "date    2020-01-01\n", "lat_dir S-N\n", "lon_dir W-E\n", "nrows 2\n", "ncols 2\n",
    "lat_south 0\n", "lat_north 1\n", "lon_west 0\n", "lon_east 1\n",
    "lat_delta 1\n", "lon_delta 1\n", "horz_scale 1\n", "vert_scale 1\n",
    "from_gcs a\n", "from_vcs b\n", "from_semi_major 1\n", "from_flattening 0\n",
    "to_gcs c\n", "to_vcs d\n", "to_semi_major 1\n", "to_flattening 0\n",
    "0 0 0\n", "0 0 0\n", "0 0 0\n", "1 1 1\n" ]

/-- The text file with the lines `asc_lines`. -/
def asc_file : FILE :=
  { fhdr := none, nodes := [], pos := 0, text := asc_lines.map String.toList }

/-- Surroundings in which every name opens `asc_file`; `atof` and the conversion to `float`
are given on the numerals of the file, "0" and "1". -/
def asc_env : ENV :=
  { codec_env0 with
    fopen := fun _ => some asc_file
    atof := fun s => if s = "1".toList then DBL_ONE else 0
    flt_of_dbl := fun w => if w = DBL_ONE then FLT_ONE else 0 }

/-- The two headers agree on what a grid owns: whether the node array is present, whether
the stream is open, the mutex, and the file type. -/
def same_handles (a b : GEOCON_HDR) : Prop :=
  b.points.isSome = a.points.isSome ∧ b.fp.isSome = a.fp.isSome ∧ b.mutex = a.mutex ∧
  b.filetype = a.filetype

/-- The three channels of a node and of a triple of shifts. -/
inductive CHANNEL where
  | lat
  | lon
  | hgt
deriving DecidableEq, Repr

/-- The value of a node in a channel as the kernels read it: the `float` of the record as a
`double`. -/
def GEOCON_POINT.chan (p : GEOCON_POINT) : CHANNEL → ℚ
  | CHANNEL.lat => flt_val p.lat_value
  | CHANNEL.lon => flt_val p.lon_value
  | CHANNEL.hgt => flt_val p.hgt_value

/-- The shift of a triple in a channel. -/
def SHIFTS.chan (s : SHIFTS) : CHANNEL → ℚ
  | CHANNEL.lat => s.lat_shift
  | CHANNEL.lon => s.lon_shift
  | CHANNEL.hgt => s.hgt_shift

/-- The (row, column) pairs that `gc_calculate_shifts_bilinear` and
`gc_calculate_shifts_natspline` pass to `gc_get_shift` for the cell (`irow`, `icol`): the
nodes A, B, C, D. -/
def stencil_2x2 (irow icol : Int) : List (Int × Int) :=
  [(irow, icol), (irow, icol + 1), (irow + 1, icol), (irow + 1, icol + 1)]

/-- The (row, column) pairs that `gc_calculate_shifts_bicubic` passes to `gc_get_shift` for
the cell (`irow0`, `icol0`): rows `irow0 - 1 + i` and columns `icol0 - 1 + j`, i, j = 0..3. -/
def stencil_4x4 (irow0 icol0 : Int) : List (Int × Int) :=
  (List.range 4).flatMap (fun (i : Nat) =>
    (List.range 4).map (fun (j : Nat) => (irow0 - 1 + (i : Int), icol0 - 1 + (j : Int))))

/-- The (row, column) pairs that `gc_calculate_shifts_biquadratic` passes to `gc_get_shift`
for the row triple (bottom, centre, top) and the column triple (left, centre, right): the
nodes A..I. -/
def stencil_3x3 (rows cols : Int × Int × Int) : List (Int × Int) :=
  [(rows.1, cols.1), (rows.1, cols.2.1), (rows.1, cols.2.2),
   (rows.2.1, cols.1), (rows.2.1, cols.2.1), (rows.2.1, cols.2.2),
   (rows.2.2, cols.1), (rows.2.2, cols.2.1), (rows.2.2, cols.2.2)]

/-- The nodes that the kernel selected by `interp` fetches for a query. -/
def kernel_stencil (hdr : GEOCON_HDR) (interp : Int) (lat_deg lon_deg : ℚ) : List (Int × Int) :=
  let irow := grid_index ((lat_deg - hdr.lat_min) / hdr.lat_delta)
  let icol := grid_index ((lon_deg - hdr.lon_min) / hdr.lon_delta)
  if interp = GEOCON_INTERP_BILINEAR then stencil_2x2 irow icol
  else if interp = GEOCON_INTERP_BICUBIC then stencil_4x4 irow icol
  else if interp = GEOCON_INTERP_NATSPLINE then stencil_2x2 irow icol
  else stencil_3x3 (window_lat hdr lat_deg).1 (window_lon hdr lon_deg).1

/-- The result of the kernel that `gc_calculate_shifts` selects for `interp`, before the
division by the scales. -/
def kernel_of (hdr : GEOCON_HDR) (interp : Int) (lat_deg lon_deg : ℚ) : SHIFTS :=
  if interp = GEOCON_INTERP_BILINEAR then gc_calculate_shifts_bilinear hdr lat_deg lon_deg
  else if interp = GEOCON_INTERP_BICUBIC then gc_calculate_shifts_bicubic hdr lat_deg lon_deg
  else if interp = GEOCON_INTERP_NATSPLINE then gc_calculate_shifts_natspline hdr lat_deg lon_deg
  else gc_calculate_shifts_biquadratic hdr lat_deg lon_deg

/-- The scale by which `gc_calculate_shifts` divides a channel. -/
def GEOCON_HDR.scale (hdr : GEOCON_HDR) : CHANNEL → ℚ
  | CHANNEL.lat => hdr.horz_scale
  | CHANNEL.lon => hdr.horz_scale
  | CHANNEL.hgt => hdr.vert_scale

/-- The height in metres with which `geocon_inverse` starts: 0 for a null height array. -/
def hgt_input (hgt_factor : ℚ) (h : Option ℚ) : ℚ :=
  match h with
  | none => 0
  | some v => v * hgt_factor

/-- The inner loop of `geocon_inverse` for the input point `c` with height `h`, with its
counter: the final estimate and the final value of `num_iterations`. -/
def inverse_run (hdr : GEOCON_HDR) (interp : Int) (deg_factor hgt_factor : ℚ)
    (c : GEOCON_COORD) (h : Option ℚ) : INV_ITER × Nat :=
  geocon_inverse_count hdr interp (c.lat * deg_factor) (gc_delta (c.lon * deg_factor))
    (hgt_input hgt_factor h) MAX_ITERATIONS 0
    { lat_next := c.lat * deg_factor, lon_next := gc_delta (c.lon * deg_factor)
      hgt_next := hgt_input hgt_factor h }

/-- Every node that the kernel selected by `interp` fetches for the query lies inside the
grid. -/
def stencil_in_range (hdr : GEOCON_HDR) (interp : Int) (lat_deg lon_deg : ℚ) : Prop :=
  ∀ p ∈ kernel_stencil hdr interp lat_deg lon_deg,
    0 ≤ p.1 ∧ p.1 < hdr.nrows ∧ 0 ≤ p.2 ∧ p.2 < hdr.ncols

/-- Every node of the grid holds the triple `t`. -/
def constant_grid (hdr : GEOCON_HDR) (t : GEOCON_POINT) : Prop :=
  ∀ r c : Int, 0 ≤ r → r < hdr.nrows → 0 ≤ c → c < hdr.ncols → gc_get_shift hdr r c = t

/-- The shifts that a node triple denotes: its three values divided by the scales. -/
def scaled_shifts (hdr : GEOCON_HDR) (t : GEOCON_POINT) : SHIFTS :=
  { lat_shift := flt_val t.lat_value / hdr.horz_scale
    lon_shift := flt_val t.lon_value / hdr.horz_scale
    hgt_shift := flt_val t.hgt_value / hdr.vert_scale }

/-- The bit pattern of the `float` 2^-52 (exponent field 75, mantissa 0), half of
`GEOCON_EPS`. -/
def FLT_TINY : Nat := 0x25800000

/-- A 7x7 grid in which every node holds the shift (2^-52, 2^-52, 2^-52). -/
def tiny_grid : GEOCON_HDR :=
  square_grid 7 (List.replicate 49 ⟨FLT_TINY, FLT_TINY, FLT_TINY⟩)

/-- The point `P` moved by the shifts `s` (no longitude normalisation applied). -/
def shifted (P : GEOCON_COORD) (s : SHIFTS) : GEOCON_COORD :=
  { lat := P.lat + s.lat_shift, lon := P.lon + s.lon_shift }

/-- The row of the file that holds the canonical row `row`: the same row in an S-to-N file,
the row counted from the other end otherwise. -/
def file_row (hdr : GEOCON_HDR) (row : Int) : Int :=
  if hdr.lat_dir = GEOCON_LAT_S_TO_N then row else (hdr.nrows - 1) - row

/-- The column of the file that holds the canonical column `col`. -/
def file_col (hdr : GEOCON_HDR) (col : Int) : Int :=
  if hdr.lon_dir = GEOCON_LON_W_TO_E then col else (hdr.ncols - 1) - col

theorem flt_round_zero : flt_round 0 = 0 := by
  simp [flt_round]

theorem flt_sub_self (a : ℚ) : flt_sub a a = 0 := by
  simp [flt_sub, flt_round]

theorem flt_sub_one_zero : flt_sub 1 0 = 1 := by
  show flt_round (1 - 0) = 1
  norm_num [flt_round, floor_log2, round_half_even, Nat.log2]

theorem flt_sub_zero_one : flt_sub 0 1 = -1 := by
  show flt_round (0 - 1) = -1
  norm_num [flt_round, floor_log2, round_half_even, Nat.log2]

theorem GEOCON_GT_of_le {a b : ℚ} (h : a ≤ b) : GEOCON_GT a b = false := by
  rcases lt_or_eq_of_le h with h1 | h1 <;>
    simp [GEOCON_GT, GEOCON_LE, GEOCON_LE_EPS, GEOCON_EQ_EPS, h1]

theorem GEOCON_LT_of_ge {a b : ℚ} (h : b ≤ a) : GEOCON_LT a b = false := by
  rcases lt_or_eq_of_le h with h1 | h1 <;>
    simp [GEOCON_LT, GEOCON_GE, GEOCON_GE_EPS, GEOCON_EQ_EPS, h1]

theorem ghost_gate_of_outside (hdr : GEOCON_HDR) (deg_factor : ℚ) (c : GEOCON_COORD)
    (hout : c.lat * deg_factor ≤ hdr.lat_min_ghost ∨ hdr.lat_max_ghost ≤ c.lat * deg_factor ∨
      gc_delta (c.lon * deg_factor) ≤ hdr.lon_min_ghost ∨
      hdr.lon_max_ghost ≤ gc_delta (c.lon * deg_factor)) :
    ghost_gate hdr deg_factor c = false := by
  rcases hout with h | h | h | h
  · simp [ghost_gate, GEOCON_GT_of_le h]
  · simp [ghost_gate, GEOCON_LT_of_ge h]
  · simp [ghost_gate, GEOCON_GT_of_le h]
  · simp [ghost_gate, GEOCON_LT_of_ge h]

/-! ### The loops of the transform routines, index by index -/

theorem forward_body_eq (hdr : GEOCON_HDR) (interp : Int) (deg_factor hgt_factor : ℚ)
    (i : Nat) (s : XFORM) :
    geocon_forward_body hdr interp deg_factor hgt_factor i s =
      if ghost_gate hdr deg_factor (s.coord i) then
        { num := s.num + 1
          coord := Function.update s.coord i (forward_coord hdr interp deg_factor (s.coord i))
          h := s.h.map (fun a => Function.update a i
            (forward_hgt hdr interp deg_factor hgt_factor (s.coord i) (a i))) }
      else s := by
  cases hh : s.h <;>
    simp [geocon_forward_body, ghost_gate, forward_coord, forward_hgt, hh]

theorem inverse_body_eq (hdr : GEOCON_HDR) (interp : Int) (deg_factor hgt_factor : ℚ)
    (i : Nat) (s : XFORM) :
    geocon_inverse_body hdr interp deg_factor hgt_factor i s =
      if ghost_gate hdr deg_factor (s.coord i) then
        { num := s.num + 1
          coord := Function.update s.coord i
            (inverse_coord hdr interp deg_factor hgt_factor (s.coord i)
              (s.h.map (fun a => a i)))
          h := s.h.map (fun a => Function.update a i
            (inverse_hgt hdr interp deg_factor hgt_factor (s.coord i) (a i))) }
      else s := by
  cases hh : s.h <;>
    simp [geocon_inverse_body, ghost_gate, inverse_coord, inverse_hgt, inverse_last, hh]

theorem forward_loop_eq (hdr : GEOCON_HDR) (interp : Int) (deg_factor hgt_factor : ℚ)
    (n : Nat) (s : XFORM) :
    geocon_forward_loop hdr interp deg_factor hgt_factor n s =
      point_loop (ghost_gate hdr deg_factor)
        (fun c _ => forward_coord hdr interp deg_factor c)
        (forward_hgt hdr interp deg_factor hgt_factor) n s := by
  induction n with
  | zero => rfl
  | succ k ih => simp only [geocon_forward_loop, point_loop, forward_body_eq, ih]

theorem inverse_loop_eq (hdr : GEOCON_HDR) (interp : Int) (deg_factor hgt_factor : ℚ)
    (n : Nat) (s : XFORM) :
    geocon_inverse_loop hdr interp deg_factor hgt_factor n s =
      point_loop (ghost_gate hdr deg_factor)
        (inverse_coord hdr interp deg_factor hgt_factor)
        (inverse_hgt hdr interp deg_factor hgt_factor) n s := by
  induction n with
  | zero => rfl
  | succ k ih => simp only [geocon_inverse_loop, point_loop, inverse_body_eq, ih]

/-- What `point_loop` leaves behind, index by index, in terms of the input arrays. -/
theorem point_loop_spec (g : GEOCON_COORD → Bool)
    (fc : GEOCON_COORD → Option ℚ → GEOCON_COORD) (fh : GEOCON_COORD → ℚ → ℚ)
    (n : Nat) (s : XFORM) :
    (point_loop g fc fh n s).num = s.num + ((List.range n).countP (fun j => g (s.coord j)) : Nat) ∧
    (∀ i, (point_loop g fc fh n s).coord i =
      if i < n ∧ g (s.coord i) = true then fc (s.coord i) (s.h.map (fun a => a i))
      else s.coord i) ∧
    (point_loop g fc fh n s).h =
      s.h.map (fun a i => if i < n ∧ g (s.coord i) = true then fh (s.coord i) (a i) else a i) := by
  induction n with
  | zero =>
    refine ⟨by simp [point_loop], fun i => by simp [point_loop], ?_⟩
    cases hh : s.h <;> simp [point_loop, hh]
  | succ k ih =>
    obtain ⟨ih1, ih2, ih3⟩ := ih
    have hck : (point_loop g fc fh k s).coord k = s.coord k := by
      rw [ih2 k]; simp
    have hhk : (point_loop g fc fh k s).h.map (fun a => a k) = s.h.map (fun a => a k) := by
      rw [ih3]; cases s.h <;> simp
    simp only [point_loop, hck, hhk]
    by_cases hg : g (s.coord k) = true
    · simp only [hg, if_true]
      refine ⟨?_, ?_, ?_⟩
      · rw [ih1, List.range_succ, List.countP_append]
        simp [hg]; ring
      · intro i
        by_cases hik : i = k
        · subst hik; simp [hg]
        · rw [Function.update_noteq hik, ih2 i]
          have : (i < k + 1) ↔ (i < k) := by omega
          simp only [this]
      · rw [ih3]
        cases hh : s.h with
        | none => simp
        | some a =>
          simp only [Option.map_some']
          congr 1
          funext i
          by_cases hik : i = k
          · subst hik; simp [hg]
          · rw [Function.update_noteq hik]
            have : (i < k + 1) ↔ (i < k) := by omega
            simp only [this]
    · simp only [hg, if_false, Bool.false_eq_true]
      refine ⟨?_, ?_, ?_⟩
      · rw [ih1, List.range_succ, List.countP_append]
        simp [hg]
      · intro i
        rw [ih2 i]
        by_cases hik : i = k
        · subst hik; simp [hg]
        · have : (i < k + 1) ↔ (i < k) := by omega
          simp only [this]
      · rw [ih3]
        cases hh : s.h with
        | none => simp
        | some a =>
          simp only [Option.map_some']
          congr 1
          funext i
          by_cases hik : i = k
          · subst hik; simp [hg]
          · have : (i < k + 1) ↔ (i < k) := by omega
            simp only [this]

theorem geocon_forward_spec (hdr : GEOCON_HDR) (interp : Int) (deg_factor hgt_factor : ℚ)
    (n : Int) (coord : Nat → GEOCON_COORD) (h : Option (Nat → ℚ)) :
    (geocon_forward (some hdr) interp deg_factor hgt_factor n (some coord) h).num =
        gated_count hdr deg_factor coord n.toNat none ∧
    (∀ i, (geocon_forward (some hdr) interp deg_factor hgt_factor n (some coord) h).coord_at i =
        some (if i < n.toNat ∧ ghost_gate hdr deg_factor (coord i) = true
          then forward_coord hdr interp deg_factor (coord i) else coord i)) ∧
    (∀ i, (geocon_forward (some hdr) interp deg_factor hgt_factor n (some coord) h).h_at i =
        h.map (fun a => if i < n.toNat ∧ ghost_gate hdr deg_factor (coord i) = true
          then forward_hgt hdr interp deg_factor hgt_factor (coord i) (a i) else a i)) := by
  by_cases hn : n ≤ 0
  · have h0 : n.toNat = 0 := by omega
    refine ⟨?_, ?_, ?_⟩
    · simp [geocon_forward, hn, h0, gated_count]
    · intro i; simp [geocon_forward, hn, h0, XFORM_RESULT.coord_at]
    · intro i; cases h <;> simp [geocon_forward, hn, h0, XFORM_RESULT.h_at]
  · obtain ⟨h1, h2, h3⟩ := point_loop_spec (ghost_gate hdr deg_factor)
      (fun c _ => forward_coord hdr interp deg_factor c)
      (forward_hgt hdr interp deg_factor hgt_factor) n.toNat { num := 0, coord := coord, h := h }
    refine ⟨?_, ?_, ?_⟩
    · simp [geocon_forward, hn, forward_loop_eq, h1, gated_count]
    · intro i; simp [geocon_forward, hn, forward_loop_eq, h2, XFORM_RESULT.coord_at]
    · intro i
      simp only [geocon_forward, hn, forward_loop_eq, h3, XFORM_RESULT.h_at, if_false]
      cases h <;> simp

theorem geocon_inverse_spec (hdr : GEOCON_HDR) (interp : Int) (deg_factor hgt_factor : ℚ)
    (n : Int) (coord : Nat → GEOCON_COORD) (h : Option (Nat → ℚ)) :
    (geocon_inverse (some hdr) interp deg_factor hgt_factor n (some coord) h).num =
        gated_count hdr deg_factor coord n.toNat none ∧
    (∀ i, (geocon_inverse (some hdr) interp deg_factor hgt_factor n (some coord) h).coord_at i =
        some (if i < n.toNat ∧ ghost_gate hdr deg_factor (coord i) = true
          then inverse_coord hdr interp deg_factor hgt_factor (coord i) (h.map (fun a => a i))
          else coord i)) ∧
    (∀ i, (geocon_inverse (some hdr) interp deg_factor hgt_factor n (some coord) h).h_at i =
        h.map (fun a => if i < n.toNat ∧ ghost_gate hdr deg_factor (coord i) = true
          then inverse_hgt hdr interp deg_factor hgt_factor (coord i) (a i) else a i)) := by
  by_cases hn : n ≤ 0
  · have h0 : n.toNat = 0 := by omega
    refine ⟨?_, ?_, ?_⟩
    · simp [geocon_inverse, hn, h0, gated_count]
    · intro i; simp [geocon_inverse, hn, h0, XFORM_RESULT.coord_at]
    · intro i; cases h <;> simp [geocon_inverse, hn, h0, XFORM_RESULT.h_at]
  · obtain ⟨h1, h2, h3⟩ := point_loop_spec (ghost_gate hdr deg_factor)
      (inverse_coord hdr interp deg_factor hgt_factor)
      (inverse_hgt hdr interp deg_factor hgt_factor) n.toNat { num := 0, coord := coord, h := h }
    refine ⟨?_, ?_, ?_⟩
    · simp [geocon_inverse, hn, inverse_loop_eq, h1, gated_count]
    · intro i; simp [geocon_inverse, hn, inverse_loop_eq, h2, XFORM_RESULT.coord_at]
    · intro i
      simp only [geocon_inverse, hn, inverse_loop_eq, h3, XFORM_RESULT.h_at, if_false]
      cases h <;> simp

theorem gated_count_skip (hdr : GEOCON_HDR) (deg_factor : ℚ) (coord : Nat → GEOCON_COORD)
    (n i : Nat) (hi : ghost_gate hdr deg_factor (coord i) = false) :
    gated_count hdr deg_factor coord n none = gated_count hdr deg_factor coord n (some i) := by
  unfold gated_count
  congr 1
  apply List.countP_congr
  intro j _
  by_cases hji : j = i
  · subst hji; simp [hi]
  · simp [hji]

/-! ### C1 -/

/-- C1: in `geocon_forward` and in `geocon_inverse`, an input point whose latitude in degrees
is at or below `lat_min_ghost` or at or above `lat_max_ghost`, or whose normalised longitude
is at or below `lon_min_ghost` or at or above `lon_max_ghost`, keeps its coordinate pair and
its height exactly, and the returned count is the number of the other accepted points. -/
theorem ghost_rejected_point_unchanged (hdr : GEOCON_HDR) (interp : Int)
    (deg_factor hgt_factor : ℚ) (n : Int) (coord : Nat → GEOCON_COORD)
    (h : Option (Nat → ℚ)) (i : Nat)
    (hout : (coord i).lat * deg_factor ≤ hdr.lat_min_ghost ∨
      hdr.lat_max_ghost ≤ (coord i).lat * deg_factor ∨
      gc_delta ((coord i).lon * deg_factor) ≤ hdr.lon_min_ghost ∨
      hdr.lon_max_ghost ≤ gc_delta ((coord i).lon * deg_factor)) :
    ((geocon_forward (some hdr) interp deg_factor hgt_factor n (some coord) h).coord_at i =
        some (coord i) ∧
      (geocon_forward (some hdr) interp deg_factor hgt_factor n (some coord) h).h_at i =
        h.map (fun a => a i) ∧
      (geocon_forward (some hdr) interp deg_factor hgt_factor n (some coord) h).num =
        gated_count hdr deg_factor coord n.toNat (some i)) ∧
    ((geocon_inverse (some hdr) interp deg_factor hgt_factor n (some coord) h).coord_at i =
        some (coord i) ∧
      (geocon_inverse (some hdr) interp deg_factor hgt_factor n (some coord) h).h_at i =
        h.map (fun a => a i) ∧
      (geocon_inverse (some hdr) interp deg_factor hgt_factor n (some coord) h).num =
        gated_count hdr deg_factor coord n.toNat (some i)) := by
  have hg := ghost_gate_of_outside hdr deg_factor (coord i) hout
  obtain ⟨f1, f2, f3⟩ := geocon_forward_spec hdr interp deg_factor hgt_factor n coord h
  obtain ⟨i1, i2, i3⟩ := geocon_inverse_spec hdr interp deg_factor hgt_factor n coord h
  refine ⟨⟨?_, ?_, ?_⟩, ⟨?_, ?_, ?_⟩⟩
  · rw [f2 i]; simp [hg]
  · rw [f3 i]; simp [hg]
  · rw [f1]; exact gated_count_skip hdr deg_factor coord _ i hg
  · rw [i2 i]; simp [hg]
  · rw [i3 i]; simp [hg]
  · rw [i1]; exact gated_count_skip hdr deg_factor coord _ i hg

/-- Scenario 2 (ghost rejection): on the 2x2 scenario grid, whose ghost envelope is (-1, 2),
the query lat = 2.5, lon = 0.5 comes back unchanged with count 0, forward and inverse. -/
theorem ghost_rejected_point_unchanged_witness :
    scenario_grid.lat_max_ghost ≤ (5 / 2 : ℚ) * 1 ∧
    ((geocon_forward (some scenario_grid) GEOCON_INTERP_BILINEAR 1 1 1
        (some (fun _ => ⟨1 / 2, 5 / 2⟩)) (some (fun _ => 7))).coord_at 0 =
        some ⟨1 / 2, 5 / 2⟩ ∧
      (geocon_forward (some scenario_grid) GEOCON_INTERP_BILINEAR 1 1 1
        (some (fun _ => ⟨1 / 2, 5 / 2⟩)) (some (fun _ => 7))).h_at 0 = some 7 ∧
      (geocon_forward (some scenario_grid) GEOCON_INTERP_BILINEAR 1 1 1
        (some (fun _ => ⟨1 / 2, 5 / 2⟩)) (some (fun _ => 7))).num = 0) ∧
    ((geocon_inverse (some scenario_grid) GEOCON_INTERP_BILINEAR 1 1 1
        (some (fun _ => ⟨1 / 2, 5 / 2⟩)) (some (fun _ => 7))).coord_at 0 =
        some ⟨1 / 2, 5 / 2⟩ ∧
      (geocon_inverse (some scenario_grid) GEOCON_INTERP_BILINEAR 1 1 1
        (some (fun _ => ⟨1 / 2, 5 / 2⟩)) (some (fun _ => 7))).h_at 0 = some 7 ∧
      (geocon_inverse (some scenario_grid) GEOCON_INTERP_BILINEAR 1 1 1
        (some (fun _ => ⟨1 / 2, 5 / 2⟩)) (some (fun _ => 7))).num = 0) := by
  have hle : scenario_grid.lat_max_ghost ≤ (5 / 2 : ℚ) * 1 := by norm_num [scenario_grid]
  have key := ghost_rejected_point_unchanged scenario_grid GEOCON_INTERP_BILINEAR 1 1 1
    (fun _ => ⟨1 / 2, 5 / 2⟩) (some (fun _ => 7)) 0 (Or.inr (Or.inl hle))
  refine ⟨hle, ?_⟩
  simpa [gated_count] using key

/-! ### C3, C4: node fetch -/

/-- C3: `gc_get_shift` returns the all-zero triple for every (row, col) with row < 0,
row >= nrows, col < 0 or col >= ncols, whatever the backing of the grid (node array, open
file, or neither); the three values read from it are 0. -/
theorem gc_get_shift_out_of_range (hdr : GEOCON_HDR) (irow icol : Int)
    (hout : irow < 0 ∨ irow ≥ hdr.nrows ∨ icol < 0 ∨ icol ≥ hdr.ncols) :
    gc_get_shift hdr irow icol = ⟨0, 0, 0⟩ ∧
    flt_val (gc_get_shift hdr irow icol).lat_value = 0 ∧
    flt_val (gc_get_shift hdr irow icol).lon_value = 0 ∧
    flt_val (gc_get_shift hdr irow icol).hgt_value = 0 := by
  have h0 : gc_get_shift hdr irow icol = ⟨0, 0, 0⟩ := by
    unfold gc_get_shift
    rw [if_pos hout]
    rfl
  rw [h0]
  simp [flt_val]

/-- On the scenario grid (node array present) the fetch of row 2, column 0 is the zero triple;
so is the fetch of row 0, column -1. -/
theorem gc_get_shift_out_of_range_witness :
    ((2 : Int) ≥ scenario_grid.nrows) ∧
    gc_get_shift scenario_grid 2 0 = ⟨0, 0, 0⟩ ∧
    flt_val (gc_get_shift scenario_grid 2 0).lat_value = 0 ∧
    flt_val (gc_get_shift scenario_grid 2 0).lon_value = 0 ∧
    flt_val (gc_get_shift scenario_grid 2 0).hgt_value = 0 :=
  ⟨by decide, gc_get_shift_out_of_range scenario_grid 2 0 (Or.inr (Or.inl (by decide)))⟩

theorem index_in_range {nrows ncols irow icol : Int} (hr0 : 0 ≤ irow) (hr1 : irow < nrows)
    (hc0 : 0 ≤ icol) (hc1 : icol < ncols) :
    0 ≤ irow * ncols + icol ∧ irow * ncols + icol < nrows * ncols := by
  constructor
  · nlinarith
  · nlinarith

/-- C4: on a grid whose node array is present with length nrows*ncols, for every
0 <= row < nrows and 0 <= col < ncols the index row*ncols + col lies inside the array
(0 <= index < nrows*ncols = length), `gc_get_shift_from_data` reads that element, and
`gc_get_shift` returns exactly it. -/
theorem gc_get_shift_in_bounds (hdr : GEOCON_HDR) (pts : List GEOCON_POINT)
    (hpts : hdr.points = some pts) (hlen : (pts.length : Int) = hdr.nrows * hdr.ncols)
    (irow icol : Int) (hr0 : 0 ≤ irow) (hr1 : irow < hdr.nrows)
    (hc0 : 0 ≤ icol) (hc1 : icol < hdr.ncols) :
    0 ≤ irow * hdr.ncols + icol ∧
    irow * hdr.ncols + icol < hdr.nrows * hdr.ncols ∧
    ∃ hidx : (irow * hdr.ncols + icol).toNat < pts.length,
      gc_get_shift_from_data hdr pts irow icol =
        some (pts.get ⟨(irow * hdr.ncols + icol).toNat, hidx⟩) ∧
      gc_get_shift hdr irow icol = pts.get ⟨(irow * hdr.ncols + icol).toNat, hidx⟩ := by
  obtain ⟨h0, h1⟩ := index_in_range hr0 hr1 hc0 hc1
  have hidx : (irow * hdr.ncols + icol).toNat < pts.length := by omega
  refine ⟨h0, h1, hidx, ?_, ?_⟩
  · simp [gc_get_shift_from_data, h0, List.getElem?_eq_getElem hidx]
  · have hin : ¬ (irow < 0 ∨ irow ≥ hdr.nrows ∨ icol < 0 ∨ icol ≥ hdr.ncols) := by omega
    unfold gc_get_shift
    rw [if_neg hin, hpts]
    simp [gc_get_shift_from_data, h0, List.getElem?_eq_getElem hidx]

/-- On the scenario grid, the fetch of row 1, column 1 reads index 3 of the four-node array:
the node (1, 1, 1). -/
theorem gc_get_shift_in_bounds_witness :
    (0 : Int) ≤ 1 * scenario_grid.ncols + 1 ∧
    (1 : Int) * scenario_grid.ncols + 1 < scenario_grid.nrows * scenario_grid.ncols ∧
    gc_get_shift scenario_grid 1 1 = ⟨FLT_ONE, FLT_ONE, FLT_ONE⟩ := by
  obtain ⟨h0, h1, _, _, h3⟩ := gc_get_shift_in_bounds scenario_grid
    [⟨0, 0, 0⟩, ⟨0, 0, 0⟩, ⟨0, 0, 0⟩, ⟨FLT_ONE, FLT_ONE, FLT_ONE⟩] rfl (by decide) 1 1
    (by decide) (by decide) (by decide) (by decide)
  refine ⟨h0, h1, ?_⟩
  rw [h3]
  rfl

/-! ### C7 -/

/-- C7: `geocon_inverse` and `geocon_forward` return the same count for every grid,
interpolation tag, factors and input arrays (null pointers included). That count is the
number of indices below `n` whose input coordinate passes the ghost gate; at every accepted
index `geocon_inverse` writes the estimate with which its inner loop ends after at most
`MAX_ITERATIONS` rounds, converged or not, and every other index keeps its input. -/
theorem inverse_count_eq_forward_count (hdr : Option GEOCON_HDR) (interp : Int)
    (deg_factor hgt_factor : ℚ) (n : Int) (coord : Option (Nat → GEOCON_COORD))
    (h : Option (Nat → ℚ)) :
    (geocon_inverse hdr interp deg_factor hgt_factor n coord h).num =
      (geocon_forward hdr interp deg_factor hgt_factor n coord h).num ∧
    ∀ (hd : GEOCON_HDR) (c : Nat → GEOCON_COORD),
      (geocon_inverse (some hd) interp deg_factor hgt_factor n (some c) h).num =
        gated_count hd deg_factor c n.toNat none ∧
      ∀ i : Nat,
        (geocon_inverse (some hd) interp deg_factor hgt_factor n (some c) h).coord_at i =
          some (if i < n.toNat ∧ ghost_gate hd deg_factor (c i) = true
            then
              { lat := (inverse_last hd interp deg_factor hgt_factor (c i)
                  (h.map (fun a => a i))).lat_next / deg_factor
                lon := gc_delta (inverse_last hd interp deg_factor hgt_factor (c i)
                  (h.map (fun a => a i))).lon_next / deg_factor }
            else c i) := by
  constructor
  · cases hdr with
    | none => simp [geocon_inverse, geocon_forward]
    | some hd =>
      cases coord with
      | none => simp [geocon_inverse, geocon_forward]
      | some c =>
        rw [(geocon_inverse_spec hd interp deg_factor hgt_factor n c h).1,
          (geocon_forward_spec hd interp deg_factor hgt_factor n c h).1]
  · intro hd c
    obtain ⟨i1, i2, _⟩ := geocon_inverse_spec hd interp deg_factor hgt_factor n c h
    refine ⟨i1, fun i => ?_⟩
    rw [i2 i]
    rfl

/-! ### Grid indices -/

theorem int_cast_intCast (k : Int) : int_cast (k : ℚ) = k := by
  unfold int_cast
  split <;> simp

theorem grid_index_intCast {k : Int} (hk : 0 ≤ k) : grid_index (k : ℚ) = k := by
  unfold grid_index
  have : ¬ ((k : ℚ) < 0) := by
    have : (0 : ℚ) ≤ (k : ℚ) := by exact_mod_cast hk
    linarith
  rw [if_neg this, int_cast_intCast]

theorem node_grid_index (q_min delta : ℚ) (k : Int) (hd : delta ≠ 0) :
    (q_min + (k : ℚ) * delta - q_min) / delta = (k : ℚ) := by
  field_simp

theorem flt_val_zero : flt_val 0 = 0 := by
  simp [flt_val]

theorem flt_val_one : flt_val FLT_ONE = 1 := by
  norm_num [flt_val, FLT_ONE]

/-! ### C2 -/

theorem gc_delta_of_small {d : ℚ} (h0 : 0 ≤ d) (h1 : d < 180) : gc_delta d = d := by
  have hfl : ⌊d / 180⌋ = 0 := by
    rw [Int.floor_eq_iff]
    constructor
    · simp; positivity
    · simp; rw [div_lt_one (by norm_num)]; exact h1
  have hfm : c_fmod d 180 = d := by
    unfold c_fmod int_cast
    rw [if_pos (by positivity), hfl]
    simp
  unfold gc_delta
  have e1 : (if d < -180 then d + 360 else if d > 180 then d - 360 else d) = d := by
    rw [if_neg (by linarith), if_neg (by linarith)]
  simp only [e1, hfm]
  have habs : GEOCON_ABS d = d := by
    unfold GEOCON_ABS; rw [if_neg (by linarith)]
  rw [habs]
  by_cases hq : (!GEOCON_EQ d 180) = true
  · rw [if_pos hq, if_pos (by linarith)]
  · rw [if_neg hq]

theorem gated_count_one (hdr : GEOCON_HDR) (deg_factor : ℚ) (coord : Nat → GEOCON_COORD) :
    gated_count hdr deg_factor coord 1 none =
      if ghost_gate hdr deg_factor (coord 0) = true then 1 else 0 := by
  by_cases hg : ghost_gate hdr deg_factor (coord 0) = true <;>
    simp [gated_count, List.range_succ, hg]

theorem scenario_nodes :
    gc_get_shift scenario_grid 0 0 = ⟨0, 0, 0⟩ ∧ gc_get_shift scenario_grid 0 1 = ⟨0, 0, 0⟩ ∧
    gc_get_shift scenario_grid 1 0 = ⟨0, 0, 0⟩ ∧
    gc_get_shift scenario_grid 1 1 = ⟨FLT_ONE, FLT_ONE, FLT_ONE⟩ := by
  refine ⟨?_, ?_, ?_, ?_⟩ <;> rfl

/-- C2 (scenario 1, bilinear exact): on the 2x2 scenario grid, `geocon_forward` with bilinear
interpolation and both factors 1 on the single point lat = 0.5, lon = 0.5, height h returns
count 1; the shifts are (0.25, 0.25, 0.25), and it writes lat = 0.75, lon = 0.75,
height = h + 0.25. -/
theorem forward_bilinear_scenario (h : ℚ) :
    gc_calculate_shifts scenario_grid GEOCON_INTERP_BILINEAR (1 / 2) (1 / 2) =
      ⟨1 / 4, 1 / 4, 1 / 4⟩ ∧
    (geocon_forward (some scenario_grid) GEOCON_INTERP_BILINEAR 1 1 1
      (some (fun _ => ⟨1 / 2, 1 / 2⟩)) (some (fun _ => h))).num = 1 ∧
    (geocon_forward (some scenario_grid) GEOCON_INTERP_BILINEAR 1 1 1
      (some (fun _ => ⟨1 / 2, 1 / 2⟩)) (some (fun _ => h))).coord_at 0 =
        some { lat := 3 / 4, lon := 3 / 4 } ∧
    (geocon_forward (some scenario_grid) GEOCON_INTERP_BILINEAR 1 1 1
      (some (fun _ => ⟨1 / 2, 1 / 2⟩)) (some (fun _ => h))).h_at 0 = some (h + 1 / 4) := by
  have hd : gc_delta (1 / 2) = 1 / 2 := gc_delta_of_small (by norm_num) (by norm_num)
  have hd2 : gc_delta (3 / 4) = 3 / 4 := gc_delta_of_small (by norm_num) (by norm_num)
  have hgi : grid_index (1 / 2) = 0 := by
    norm_num [grid_index, int_cast]
  have hsh : gc_calculate_shifts scenario_grid GEOCON_INTERP_BILINEAR (1 / 2) (1 / 2) =
      ⟨1 / 4, 1 / 4, 1 / 4⟩ := by
    obtain ⟨n00, n01, n10, n11⟩ := scenario_nodes
    have e0 : (scenario_grid.lon_min, scenario_grid.lon_delta, scenario_grid.lat_min,
        scenario_grid.lat_delta, scenario_grid.horz_scale, scenario_grid.vert_scale) =
        (0, 1, 0, 1, 1, 1) := rfl
    simp only [Prod.mk.injEq] at e0
    obtain ⟨e1, e2, e3, e4, e5, e6⟩ := e0
    simp only [gc_calculate_shifts, GEOCON_INTERP_BILINEAR, if_true,
      gc_calculate_shifts_bilinear, e1, e2, e3, e4, e5, e6, sub_zero, div_one, hgi,
      Int.cast_zero, zero_add, n00, n01, n10, n11, bilinear_channel, flt_val_zero, flt_val_one]
    norm_num
  have hg : ghost_gate scenario_grid 1 ⟨1 / 2, 1 / 2⟩ = true := by
    simp only [ghost_gate, mul_one, hd]
    norm_num [scenario_grid, GEOCON_GT, GEOCON_LT, GEOCON_LE, GEOCON_GE, GEOCON_LE_EPS,
      GEOCON_GE_EPS, GEOCON_EQ_EPS, GEOCON_ABS, GEOCON_EPS]
  obtain ⟨f1, f2, f3⟩ := geocon_forward_spec scenario_grid GEOCON_INTERP_BILINEAR 1 1 1
    (fun _ => ⟨1 / 2, 1 / 2⟩) (some (fun _ => h))
  refine ⟨hsh, ?_, ?_, ?_⟩
  · rw [f1, show Int.toNat 1 = 1 from rfl, gated_count_one]
    simp only [hg, if_true]
  · rw [f2 0]
    simp only [hg, forward_coord, mul_one, hd, hsh, div_one]
    norm_num [hd2]
  · rw [f3 0]
    simp only [hg, forward_hgt, mul_one, hd, hsh, div_one]
    norm_num

/-! ### C8, C9: queries placed on a node -/

theorem bilinear_channel_zero (h1 h2 h3 h4 : ℚ) : bilinear_channel h1 h2 h3 h4 0 0 = h1 := by
  simp [bilinear_channel]

/-- C8: for every grid with non-zero deltas and every in-range node (r,c), the query placed
exactly on that node (lat = lat_min + r*lat_delta, lon = lon_min + c*lon_delta) makes
`gc_calculate_shifts_bilinear` and `gc_calculate_shifts_natspline` return exactly the three
values of node(r,c), whatever the neighbouring nodes hold. -/
theorem node_query_bilinear_natspline (hdr : GEOCON_HDR) (r c : Int)
    (hr0 : 0 ≤ r) (_hr1 : r < hdr.nrows) (hc0 : 0 ≤ c) (_hc1 : c < hdr.ncols)
    (hlat : hdr.lat_delta ≠ 0) (hlon : hdr.lon_delta ≠ 0) :
    gc_calculate_shifts_bilinear hdr (hdr.lat_min + (r : ℚ) * hdr.lat_delta)
        (hdr.lon_min + (c : ℚ) * hdr.lon_delta) =
      { lat_shift := flt_val (gc_get_shift hdr r c).lat_value
        lon_shift := flt_val (gc_get_shift hdr r c).lon_value
        hgt_shift := flt_val (gc_get_shift hdr r c).hgt_value } ∧
    gc_calculate_shifts_natspline hdr (hdr.lat_min + (r : ℚ) * hdr.lat_delta)
        (hdr.lon_min + (c : ℚ) * hdr.lon_delta) =
      { lat_shift := flt_val (gc_get_shift hdr r c).lat_value
        lon_shift := flt_val (gc_get_shift hdr r c).lon_value
        hgt_shift := flt_val (gc_get_shift hdr r c).hgt_value } := by
  have hx := node_grid_index hdr.lon_min hdr.lon_delta c hlon
  have hy := node_grid_index hdr.lat_min hdr.lat_delta r hlat
  constructor
  · simp only [gc_calculate_shifts_bilinear, hx, hy, grid_index_intCast hr0,
      grid_index_intCast hc0, sub_self, bilinear_channel_zero]
  · simp only [gc_calculate_shifts_natspline, hx, hy, grid_index_intCast hr0,
      grid_index_intCast hc0, sub_self, natspline_channel]
    norm_num

/-- On the scenario grid the query on node (1,1), lat = 1, lon = 1, returns (1, 1, 1) with
both 2x2 kernels. -/
theorem node_query_bilinear_natspline_witness :
    (scenario_grid.lat_delta ≠ 0 ∧ scenario_grid.lon_delta ≠ 0) ∧
    gc_calculate_shifts_bilinear scenario_grid
        (scenario_grid.lat_min + ((1 : Int) : ℚ) * scenario_grid.lat_delta)
        (scenario_grid.lon_min + ((1 : Int) : ℚ) * scenario_grid.lon_delta) =
      { lat_shift := 1, lon_shift := 1, hgt_shift := 1 } ∧
    gc_calculate_shifts_natspline scenario_grid
        (scenario_grid.lat_min + ((1 : Int) : ℚ) * scenario_grid.lat_delta)
        (scenario_grid.lon_min + ((1 : Int) : ℚ) * scenario_grid.lon_delta) =
      { lat_shift := 1, lon_shift := 1, hgt_shift := 1 } := by
  have hd : scenario_grid.lat_delta ≠ 0 ∧ scenario_grid.lon_delta ≠ 0 := by
    constructor <;> norm_num [scenario_grid]
  have key := node_query_bilinear_natspline scenario_grid 1 1 (by decide) (by decide)
    (by decide) (by decide) hd.1 hd.2
  rw [scenario_nodes.2.2.2] at key
  simp only [flt_val_one] at key
  exact ⟨hd, key⟩

theorem biquadratic_fit_of_le (n : Int) (w : Int × Int × Int) (h : w.2.2 ≤ n) :
    biquadratic_fit n w = w := by
  rw [biquadratic_fit, if_neg (by omega)]

theorem GEOCON_ABS_eq_abs (a : ℚ) : GEOCON_ABS a = |a| := by
  unfold GEOCON_ABS
  split
  · rw [abs_of_neg ‹_›]
  · rw [abs_of_nonneg (by linarith)]

theorem gc_delta_of_abs_le {d : ℚ} (h : |d| ≤ 180) : gc_delta d = d := by
  obtain ⟨hl, hu⟩ := abs_le.mp h
  unfold gc_delta
  have e1 : (if d < -180 then d + 360 else if d > 180 then d - 360 else d) = d := by
    rw [if_neg (by linarith), if_neg (by linarith)]
  simp only [e1]
  by_cases hq : (!GEOCON_EQ (GEOCON_ABS d) 180) = true
  · rw [if_pos hq]
    have hne : |d| ≠ 180 := by
      intro he
      rw [GEOCON_ABS_eq_abs, he] at hq
      simp [GEOCON_EQ, GEOCON_EQ_EPS] at hq
    have hl1 : -180 < d := by
      rcases lt_or_eq_of_le hl with h1 | h1
      · exact h1
      · exact absurd (by rw [← h1]; norm_num) hne
    have hu1 : d < 180 := by
      rcases lt_or_eq_of_le hu with h1 | h1
      · exact h1
      · exact absurd (by rw [h1]; norm_num) hne
    have hfm : c_fmod d 180 = d := by
      unfold c_fmod int_cast
      by_cases hd : 0 ≤ d / 180
      · rw [if_pos hd]
        have : ⌊d / 180⌋ = 0 := by
          rw [Int.floor_eq_iff]
          constructor
          · simpa using hd
          · simp; rw [div_lt_one (by norm_num)]; exact hu1
        rw [this]; simp
      · rw [if_neg hd]
        have : ⌈d / 180⌉ = 0 := by
          rw [Int.ceil_eq_iff]
          constructor
          · simp; rw [lt_div_iff₀ (by norm_num)]; linarith
          · simp; linarith [not_le.mp hd]
        rw [this]; simp
    simp only [hfm]
    rw [GEOCON_ABS_eq_abs, if_pos h]
  · rw [if_neg hq]

theorem GEOCON_ZERO_iff (a : ℚ) : GEOCON_ZERO a = true ↔ |a| ≤ GEOCON_EPS := by
  have hpos : (0 : ℚ) ≤ GEOCON_EPS := by norm_num [GEOCON_EPS]
  simp only [GEOCON_ZERO, GEOCON_ZERO_EPS, Bool.or_eq_true, decide_eq_true_eq,
    GEOCON_ABS_eq_abs]
  constructor
  · rintro (h | h)
    · rw [h]; simpa using hpos
    · exact h
  · intro h; exact Or.inr h

/-! ### C5: forward then inverse -/

theorem forward_coord_eq_moved (hdr : GEOCON_HDR) (interp : Int) (P : GEOCON_COORD)
    (hlP : |P.lon| ≤ 180) (hlQ : |(moved hdr interp P).lon| ≤ 180) :
    forward_coord hdr interp 1 P = moved hdr interp P := by
  have e1 : gc_delta P.lon = P.lon := gc_delta_of_abs_le hlP
  have e2 : gc_delta (P.lon + (gc_calculate_shifts hdr interp P.lat P.lon).lon_shift) =
      P.lon + (gc_calculate_shifts hdr interp P.lat P.lon).lon_shift := by
    apply gc_delta_of_abs_le
    simpa [moved, shift_at] using hlQ
  simp only [forward_coord, mul_one, div_one, e1, e2, moved, shift_at]

theorem forward_hgt_eq (hdr : GEOCON_HDR) (interp : Int) (P : GEOCON_COORD) (h : ℚ)
    (hlP : |P.lon| ≤ 180) :
    forward_hgt hdr interp 1 1 P h = h + (shift_at hdr interp P).hgt_shift := by
  have e1 : gc_delta P.lon = P.lon := gc_delta_of_abs_le hlP
  simp only [forward_hgt, mul_one, div_one, e1, shift_at]

theorem geocon_inverse_iterate_succ (hdr : GEOCON_HDR) (interp : Int)
    (lat_deg lon_deg hgt_mtr : ℚ) (k : Nat) (st : INV_ITER) :
    geocon_inverse_iterate hdr interp lat_deg lon_deg hgt_mtr (k + 1) st =
      if (GEOCON_ZERO
            (st.lon_next + (gc_calculate_shifts hdr interp st.lat_next st.lon_next).lon_shift
              - lon_deg) &&
          GEOCON_ZERO
            (st.lat_next + (gc_calculate_shifts hdr interp st.lat_next st.lon_next).lat_shift
              - lat_deg) &&
          GEOCON_ZERO
            (st.hgt_next + (gc_calculate_shifts hdr interp st.lat_next st.lon_next).hgt_shift
              - hgt_mtr)) = true then st
      else
        geocon_inverse_iterate hdr interp lat_deg lon_deg hgt_mtr k
          { lat_next := st.lat_next -
              (st.lat_next + (gc_calculate_shifts hdr interp st.lat_next st.lon_next).lat_shift
                - lat_deg)
            lon_next := st.lon_next -
              (st.lon_next + (gc_calculate_shifts hdr interp st.lat_next st.lon_next).lon_shift
                - lon_deg)
            hgt_next := st.hgt_next -
              (st.hgt_next + (gc_calculate_shifts hdr interp st.lat_next st.lon_next).hgt_shift
                - hgt_mtr) } := rfl

theorem inverse_last_of_equal_shift (hdr : GEOCON_HDR) (interp : Int) (P : GEOCON_COORD)
    (h : ℚ) (hlQ : |(moved hdr interp P).lon| ≤ 180)
    (hS : shift_at hdr interp (moved hdr interp P) = shift_at hdr interp P) :
    inverse_last hdr interp 1 1 (moved hdr interp P)
        (some (h + (shift_at hdr interp P).hgt_shift)) =
      if shifts_negligible hdr interp P = true then
        { lat_next := (moved hdr interp P).lat, lon_next := (moved hdr interp P).lon
          hgt_next := h + (shift_at hdr interp P).hgt_shift }
      else { lat_next := P.lat, lon_next := P.lon, hgt_next := h } := by
  have e1 : gc_delta (moved hdr interp P).lon = (moved hdr interp P).lon :=
    gc_delta_of_abs_le hlQ
  have hS' : gc_calculate_shifts hdr interp (moved hdr interp P).lat (moved hdr interp P).lon =
      shift_at hdr interp P := hS
  have hP' : gc_calculate_shifts hdr interp P.lat P.lon = shift_at hdr interp P := rfl
  have hz : GEOCON_ZERO 0 = true := by simp [GEOCON_ZERO, GEOCON_ZERO_EPS]
  simp only [inverse_last, mul_one, e1]
  rw [show MAX_ITERATIONS = 48 + 1 + 1 from rfl, geocon_inverse_iterate_succ]
  simp only [hS', add_sub_cancel_left]
  by_cases hn : shifts_negligible hdr interp P = true
  · have hn' := hn
    simp only [shifts_negligible] at hn'
    rw [if_pos hn', if_pos hn]
  · have hn' := hn
    simp only [shifts_negligible] at hn'
    rw [if_neg hn', if_neg hn, geocon_inverse_iterate_succ]
    have a1 : (moved hdr interp P).lat - (shift_at hdr interp P).lat_shift = P.lat := by
      simp [moved]
    have a2 : (moved hdr interp P).lon - (shift_at hdr interp P).lon_shift = P.lon := by
      simp [moved]
    have a3 : P.lat + (shift_at hdr interp P).lat_shift - (moved hdr interp P).lat = 0 := by
      simp [moved]
    have a4 : P.lon + (shift_at hdr interp P).lon_shift - (moved hdr interp P).lon = 0 := by
      simp [moved]
    simp only [a1, a2, add_sub_cancel_right, hP', a3, a4, sub_self, hz, Bool.and_self, if_true]

theorem round_trip_eq (hdr : GEOCON_HDR) (interp : Int) (P : GEOCON_COORD) (h : ℚ)
    (hgP : ghost_gate hdr 1 P = true) (hgQ : ghost_gate hdr 1 (moved hdr interp P) = true)
    (hlP : |P.lon| ≤ 180) (hlQ : |(moved hdr interp P).lon| ≤ 180) :
    (round_trip hdr interp P h).num = 1 ∧
    (round_trip hdr interp P h).coord_at 0 = some
      { lat := (inverse_last hdr interp 1 1 (moved hdr interp P)
          (some (h + (shift_at hdr interp P).hgt_shift))).lat_next
        lon := gc_delta (inverse_last hdr interp 1 1 (moved hdr interp P)
          (some (h + (shift_at hdr interp P).hgt_shift))).lon_next } ∧
    (round_trip hdr interp P h).h_at 0 = some
      (inverse_last hdr interp 1 1 (moved hdr interp P)
        (some (h + (shift_at hdr interp P).hgt_shift))).hgt_next := by
  obtain ⟨_, f2, f3⟩ := geocon_forward_spec hdr interp 1 1 1 (fun _ => P) (some (fun _ => h))
  have f2' := f2 0
  have f3' := f3 0
  simp only [show Int.toNat 1 = 1 from rfl, Nat.lt_one_iff, true_and, hgP, if_true,
    forward_coord_eq_moved hdr interp P hlP hlQ, forward_hgt_eq hdr interp P h hlP,
    Option.map_some', XFORM_RESULT.coord_at, XFORM_RESULT.h_at, Option.map_eq_some'] at f2' f3'
  obtain ⟨cQ, hc1, hc2⟩ := f2'
  obtain ⟨aQ, ha1, ha2⟩ := f3'
  have hrt : round_trip hdr interp P h = geocon_inverse (some hdr) interp 1 1 1 (some cQ)
      (some aQ) := by
    simp only [round_trip, hc1, ha1]
  obtain ⟨i1, i2, i3⟩ := geocon_inverse_spec hdr interp 1 1 1 cQ (some aQ)
  have i2' := i2 0
  have i3' := i3 0
  simp only [show Int.toNat 1 = 1 from rfl, Nat.lt_one_iff, true_and, hc2, ha2, hgQ, if_true,
    Option.map_some', inverse_coord, inverse_hgt, div_one] at i2' i3'
  rw [hrt]
  refine ⟨?_, i2', i3'⟩
  rw [i1, show Int.toNat 1 = 1 from rfl, gated_count_one, hc2, hgQ]
  rfl

/-! ### The biquadratic kernel on an interior node -/

theorem GEOCON_defs_gate (hdr : GEOCON_HDR) (P : GEOCON_COORD) (hl : |P.lon| ≤ 180) :
    ghost_gate hdr 1 P =
      (GEOCON_GT P.lat hdr.lat_min_ghost && GEOCON_LT P.lat hdr.lat_max_ghost &&
        GEOCON_GT P.lon hdr.lon_min_ghost && GEOCON_LT P.lon hdr.lon_max_ghost) := by
  simp only [ghost_gate, mul_one, gc_delta_of_abs_le hl]

theorem grid_index_of_floor {x : ℚ} {k : Int} (hk : 0 ≤ k) (h0 : (k : ℚ) ≤ x)
    (h1 : x < (k : ℚ) + 1) : grid_index x = k := by
  have hx : (0 : ℚ) ≤ x := le_trans (by exact_mod_cast hk) h0
  unfold grid_index int_cast
  rw [if_neg (by linarith), if_pos hx, Int.floor_eq_iff]
  exact ⟨h0, h1⟩

theorem scenario_window {q : ℚ} (h0 : 0 ≤ q) (h2 : q < 2) :
    biquadratic_window q 0 1 2 = ((0, 1, 2), q) := by
  by_cases h1 : q < 1
  · have hg : grid_index q = 0 := grid_index_of_floor (le_refl 0) (by simpa using h0)
      (by simpa using h1)
    have hfit : biquadratic_fit 2 ((0 : Int), (1 : Int), (2 : Int)) = (0, 1, 2) :=
      biquadratic_fit_of_le 2 _ (by decide)
    simp [biquadratic_window, hg, hfit]
  · have hg : grid_index q = 1 := grid_index_of_floor (by decide) (by simpa using not_lt.mp h1)
      (by norm_num; linarith)
    have hfit : biquadratic_fit 2 ((1 : Int), (2 : Int), (3 : Int)) = (0, 1, 2) := by
      rw [biquadratic_fit, if_pos (by decide)]
      exact biquadratic_fit_of_le 2 _ (by decide)
    simp [biquadratic_window, hg, hfit]

theorem scenario_biquadratic {lat lon : ℚ} (ha0 : 0 ≤ lat) (ha2 : lat < 2)
    (ho0 : 0 ≤ lon) (ho2 : lon < 2) :
    gc_calculate_shifts scenario_grid GEOCON_INTERP_BIQUADRATIC lat lon =
      { lat_shift := lon * (2 - lon) * (lat * (2 - lat))
        lon_shift := lon * (2 - lon) * (lat * (2 - lat))
        hgt_shift := lon * (2 - lon) * (lat * (2 - lat)) } := by
  have n00 : gc_get_shift scenario_grid 0 0 = ⟨0, 0, 0⟩ := by rfl
  have n01 : gc_get_shift scenario_grid 0 1 = ⟨0, 0, 0⟩ := by rfl
  have n02 : gc_get_shift scenario_grid 0 2 = ⟨0, 0, 0⟩ := by rfl
  have n10 : gc_get_shift scenario_grid 1 0 = ⟨0, 0, 0⟩ := by rfl
  have n11 : gc_get_shift scenario_grid 1 1 = ⟨FLT_ONE, FLT_ONE, FLT_ONE⟩ := by rfl
  have n12 : gc_get_shift scenario_grid 1 2 = ⟨0, 0, 0⟩ := by rfl
  have n20 : gc_get_shift scenario_grid 2 0 = ⟨0, 0, 0⟩ := by rfl
  have n21 : gc_get_shift scenario_grid 2 1 = ⟨0, 0, 0⟩ := by rfl
  have n22 : gc_get_shift scenario_grid 2 2 = ⟨0, 0, 0⟩ := by rfl
  have e0 : (scenario_grid.lon_min, scenario_grid.lon_delta, scenario_grid.lat_min,
      scenario_grid.lat_delta, scenario_grid.horz_scale, scenario_grid.vert_scale,
      scenario_grid.nrows, scenario_grid.ncols) = (0, 1, 0, 1, 1, 1, 2, 2) := rfl
  simp only [Prod.mk.injEq] at e0
  obtain ⟨e1, e2, e3, e4, e5, e6, e7, e8⟩ := e0
  simp only [gc_calculate_shifts, GEOCON_INTERP_BIQUADRATIC, GEOCON_INTERP_BILINEAR,
    GEOCON_INTERP_BICUBIC, GEOCON_INTERP_NATSPLINE, gc_calculate_shifts_biquadratic,
    e1, e2, e3, e4, e5, e6, e7, e8, scenario_window ha0 ha2, scenario_window ho0 ho2,
    n00, n01, n02, n10, n11, n12, n20, n21, n22, flt_val_zero, flt_val_one,
    biquadratic_channel, biquadratic_1d, div_one, flt_sub_self, flt_sub_one_zero,
    flt_sub_zero_one]
  norm_num
  ring

theorem GEOCON_ZERO_of_pos {a : ℚ} (h : (1 / 2 : ℚ) ≤ a) : GEOCON_ZERO a = false := by
  have h1 : ¬ (|a| ≤ GEOCON_EPS) := by
    rw [abs_of_nonneg (by linarith)]
    norm_num [GEOCON_EPS]
    linarith
  cases hz : GEOCON_ZERO a
  · rfl
  · exact absurd ((GEOCON_ZERO_iff a).mp hz) h1

theorem GEOCON_ZERO_of_neg {a : ℚ} (h : a ≤ -(1 / 2 : ℚ)) : GEOCON_ZERO a = false := by
  have h1 : ¬ (|a| ≤ GEOCON_EPS) := by
    rw [abs_of_nonpos (by linarith)]
    norm_num [GEOCON_EPS]
    linarith
  cases hz : GEOCON_ZERO a
  · rfl
  · exact absurd ((GEOCON_ZERO_iff a).mp hz) h1

/-- One round of the inverse on the scenario grid from an estimate in [1, 1.1]²: no
convergence, and the next estimate lies in [0.06, 0.09]². -/
theorem scenario_step_high (m : ℚ) (st : INV_ITER) (k : Nat)
    (h1 : 1 ≤ st.lat_next) (h2 : st.lat_next ≤ 11 / 10)
    (h3 : 1 ≤ st.lon_next) (h4 : st.lon_next ≤ 11 / 10) :
    ∃ st1 : INV_ITER,
      geocon_inverse_iterate scenario_grid GEOCON_INTERP_BIQUADRATIC (17 / 16) (17 / 16) m
          (k + 1) st =
        geocon_inverse_iterate scenario_grid GEOCON_INTERP_BIQUADRATIC (17 / 16) (17 / 16) m
          k st1 ∧
      3 / 50 ≤ st1.lat_next ∧ st1.lat_next ≤ 9 / 100 ∧
      3 / 50 ≤ st1.lon_next ∧ st1.lon_next ≤ 9 / 100 := by
  have hsh := @scenario_biquadratic st.lat_next st.lon_next
    (by linarith) (by linarith) (by linarith) (by linarith)
  have gx0 : 99 / 100 ≤ st.lon_next * (2 - st.lon_next) := by nlinarith
  have gx1 : st.lon_next * (2 - st.lon_next) ≤ 1 := by nlinarith
  have gy0 : 99 / 100 ≤ st.lat_next * (2 - st.lat_next) := by nlinarith
  have gy1 : st.lat_next * (2 - st.lat_next) ≤ 1 := by nlinarith
  have s0 : (99 / 100 : ℚ) * (99 / 100) ≤
      st.lon_next * (2 - st.lon_next) * (st.lat_next * (2 - st.lat_next)) :=
    mul_le_mul gx0 gy0 (by norm_num) (by linarith)
  have s1 : st.lon_next * (2 - st.lon_next) * (st.lat_next * (2 - st.lat_next)) ≤ 1 * 1 :=
    mul_le_mul gx1 gy1 (by linarith) (by norm_num)
  rw [geocon_inverse_iterate_succ, hsh]
  have hz : GEOCON_ZERO (st.lon_next +
      st.lon_next * (2 - st.lon_next) * (st.lat_next * (2 - st.lat_next)) - 17 / 16) = false :=
    GEOCON_ZERO_of_pos (by linarith)
  simp only [hz, Bool.false_and, Bool.false_eq_true, if_false]
  refine ⟨_, rfl, ?_, ?_, ?_, ?_⟩ <;> simp only <;> linarith

/-- One round of the inverse on the scenario grid from an estimate in [0.06, 0.09]²: no
convergence, the next estimate lies in [1, 1.1]² and its height within 1/16 below the
input height `m`. -/
theorem scenario_step_low (m : ℚ) (st : INV_ITER) (k : Nat)
    (h1 : 3 / 50 ≤ st.lat_next) (h2 : st.lat_next ≤ 9 / 100)
    (h3 : 3 / 50 ≤ st.lon_next) (h4 : st.lon_next ≤ 9 / 100) :
    ∃ st1 : INV_ITER,
      geocon_inverse_iterate scenario_grid GEOCON_INTERP_BIQUADRATIC (17 / 16) (17 / 16) m
          (k + 1) st =
        geocon_inverse_iterate scenario_grid GEOCON_INTERP_BIQUADRATIC (17 / 16) (17 / 16) m
          k st1 ∧
      1 ≤ st1.lat_next ∧ st1.lat_next ≤ 11 / 10 ∧
      1 ≤ st1.lon_next ∧ st1.lon_next ≤ 11 / 10 ∧
      m - 1 / 16 ≤ st1.hgt_next ∧ st1.hgt_next ≤ m := by
  have hsh := @scenario_biquadratic st.lat_next st.lon_next
    (by linarith) (by linarith) (by linarith) (by linarith)
  have gx0 : 0 ≤ st.lon_next * (2 - st.lon_next) := by nlinarith
  have gx1 : st.lon_next * (2 - st.lon_next) ≤ 1 / 4 := by nlinarith
  have gy0 : 0 ≤ st.lat_next * (2 - st.lat_next) := by nlinarith
  have gy1 : st.lat_next * (2 - st.lat_next) ≤ 1 / 4 := by nlinarith
  have s0 : 0 ≤ st.lon_next * (2 - st.lon_next) * (st.lat_next * (2 - st.lat_next)) :=
    mul_nonneg gx0 gy0
  have s1 : st.lon_next * (2 - st.lon_next) * (st.lat_next * (2 - st.lat_next)) ≤
      (1 / 4) * (1 / 4) :=
    mul_le_mul gx1 gy1 gy0 (by norm_num)
  rw [geocon_inverse_iterate_succ, hsh]
  have hz : GEOCON_ZERO (st.lon_next +
      st.lon_next * (2 - st.lon_next) * (st.lat_next * (2 - st.lat_next)) - 17 / 16) = false :=
    GEOCON_ZERO_of_neg (by linarith)
  simp only [hz, Bool.false_and, Bool.false_eq_true, if_false]
  refine ⟨_, rfl, ?_, ?_, ?_, ?_, ?_, ?_⟩ <;> simp only <;> linarith

/-- After an even number of rounds from an estimate in [1, 1.1]² the inverse on the scenario
grid is again at an estimate in [1, 1.1]². -/
theorem scenario_even_rounds (m : ℚ) (j : Nat) :
    ∀ st : INV_ITER, 1 ≤ st.lat_next → st.lat_next ≤ 11 / 10 →
      1 ≤ st.lon_next → st.lon_next ≤ 11 / 10 →
      m - 1 / 16 ≤ st.hgt_next → st.hgt_next ≤ m →
      1 ≤ (geocon_inverse_iterate scenario_grid GEOCON_INTERP_BIQUADRATIC (17 / 16) (17 / 16) m
        (2 * j) st).lat_next ∧
      (geocon_inverse_iterate scenario_grid GEOCON_INTERP_BIQUADRATIC (17 / 16) (17 / 16) m
        (2 * j) st).lat_next ≤ 11 / 10 ∧
      1 ≤ (geocon_inverse_iterate scenario_grid GEOCON_INTERP_BIQUADRATIC (17 / 16) (17 / 16) m
        (2 * j) st).lon_next ∧
      (geocon_inverse_iterate scenario_grid GEOCON_INTERP_BIQUADRATIC (17 / 16) (17 / 16) m
        (2 * j) st).lon_next ≤ 11 / 10 ∧
      m - 1 / 16 ≤ (geocon_inverse_iterate scenario_grid GEOCON_INTERP_BIQUADRATIC (17 / 16)
        (17 / 16) m (2 * j) st).hgt_next ∧
      (geocon_inverse_iterate scenario_grid GEOCON_INTERP_BIQUADRATIC (17 / 16) (17 / 16) m
        (2 * j) st).hgt_next ≤ m := by
  induction j with
  | zero =>
    intro st h1 h2 h3 h4 h5 h6
    exact ⟨h1, h2, h3, h4, h5, h6⟩
  | succ i ih =>
    intro st h1 h2 h3 h4 _ _
    obtain ⟨st1, e1, b1, b2, b3, b4⟩ := scenario_step_high m st (2 * i + 1) h1 h2 h3 h4
    obtain ⟨st2, e2, a1, a2, a3, a4, a5, a6⟩ := scenario_step_low m st1 (2 * i) b1 b2 b3 b4
    rw [show 2 * (i + 1) = 2 * i + 1 + 1 from by ring, e1, e2]
    exact ih st2 a1 a2 a3 a4 a5 a6

theorem scenario_round_trip_bounds (h : ℚ) :
    (geocon_forward (some scenario_grid) GEOCON_INTERP_BIQUADRATIC 1 1 1
        (some (fun _ => ⟨1 / 2, 1 / 2⟩)) (some (fun _ => h))).coord_at 0 =
      some { lat := 17 / 16, lon := 17 / 16 } ∧
    (geocon_forward (some scenario_grid) GEOCON_INTERP_BIQUADRATIC 1 1 1
        (some (fun _ => ⟨1 / 2, 1 / 2⟩)) (some (fun _ => h))).h_at 0 = some (h + 9 / 16) ∧
    (round_trip scenario_grid GEOCON_INTERP_BIQUADRATIC ⟨1 / 2, 1 / 2⟩ h).num = 1 ∧
    ∃ L : INV_ITER,
      (round_trip scenario_grid GEOCON_INTERP_BIQUADRATIC ⟨1 / 2, 1 / 2⟩ h).coord_at 0 =
        some { lon := L.lon_next, lat := L.lat_next } ∧
      (round_trip scenario_grid GEOCON_INTERP_BIQUADRATIC ⟨1 / 2, 1 / 2⟩ h).h_at 0 =
        some L.hgt_next ∧
      1 ≤ L.lat_next ∧ L.lat_next ≤ 11 / 10 ∧ 1 ≤ L.lon_next ∧ L.lon_next ≤ 11 / 10 ∧
      h + 1 / 2 ≤ L.hgt_next ∧ L.hgt_next ≤ h + 9 / 16 := by
  have hsh : shift_at scenario_grid GEOCON_INTERP_BIQUADRATIC ⟨1 / 2, 1 / 2⟩ =
      ⟨9 / 16, 9 / 16, 9 / 16⟩ := by
    simp only [shift_at]
    rw [scenario_biquadratic (by norm_num) (by norm_num) (by norm_num) (by norm_num)]
    norm_num
  have hmv : moved scenario_grid GEOCON_INTERP_BIQUADRATIC ⟨1 / 2, 1 / 2⟩ =
      ⟨17 / 16, 17 / 16⟩ := by
    simp only [moved, hsh]; norm_num
  have hlP : |(⟨1 / 2, 1 / 2⟩ : GEOCON_COORD).lon| ≤ 180 := by
    rw [abs_le]; constructor <;> norm_num
  have hlQ : |(moved scenario_grid GEOCON_INTERP_BIQUADRATIC ⟨1 / 2, 1 / 2⟩).lon| ≤ 180 := by
    rw [hmv, abs_le]; constructor <;> norm_num
  have hgP : ghost_gate scenario_grid 1 ⟨1 / 2, 1 / 2⟩ = true := by
    rw [GEOCON_defs_gate _ _ hlP]
    norm_num [scenario_grid, GEOCON_GT, GEOCON_LT, GEOCON_LE, GEOCON_GE,
      GEOCON_LE_EPS, GEOCON_GE_EPS, GEOCON_EQ_EPS, GEOCON_ABS, GEOCON_EPS]
  have hgQ : ghost_gate scenario_grid 1
      (moved scenario_grid GEOCON_INTERP_BIQUADRATIC ⟨1 / 2, 1 / 2⟩) = true := by
    rw [GEOCON_defs_gate _ _ hlQ, hmv]
    norm_num [scenario_grid, GEOCON_GT, GEOCON_LT, GEOCON_LE, GEOCON_GE,
      GEOCON_LE_EPS, GEOCON_GE_EPS, GEOCON_EQ_EPS, GEOCON_ABS, GEOCON_EPS]
  obtain ⟨_, f2, f3⟩ := geocon_forward_spec scenario_grid GEOCON_INTERP_BIQUADRATIC 1 1 1
    (fun _ => ⟨1 / 2, 1 / 2⟩) (some (fun _ => h))
  have f2' := f2 0
  have f3' := f3 0
  simp only [show Int.toNat 1 = 1 from rfl, Nat.lt_one_iff, true_and, hgP, if_true,
    forward_coord_eq_moved _ _ _ hlP hlQ, forward_hgt_eq _ _ _ h hlP, hmv, hsh,
    Option.map_some'] at f2' f3'
  obtain ⟨r1, r2, r3⟩ := round_trip_eq scenario_grid GEOCON_INTERP_BIQUADRATIC ⟨1 / 2, 1 / 2⟩ h
    hgP hgQ hlP hlQ
  simp only [hmv, hsh] at r2 r3
  have hd : gc_delta (17 / 16) = 17 / 16 := gc_delta_of_small (by norm_num) (by norm_num)
  have hL : inverse_last scenario_grid GEOCON_INTERP_BIQUADRATIC 1 1 ⟨17 / 16, 17 / 16⟩
      (some (h + 9 / 16)) =
      geocon_inverse_iterate scenario_grid GEOCON_INTERP_BIQUADRATIC (17 / 16) (17 / 16)
        (h + 9 / 16) (2 * 25)
        { lat_next := 17 / 16, lon_next := 17 / 16, hgt_next := h + 9 / 16 } := by
    simp only [inverse_last, mul_one, hd]
    rw [show MAX_ITERATIONS = 2 * 25 from rfl]
  obtain ⟨b1, b2, b3, b4, b5, b6⟩ := scenario_even_rounds (h + 9 / 16) 25
    { lat_next := 17 / 16, lon_next := 17 / 16, hgt_next := h + 9 / 16 }
    (by norm_num) (by norm_num) (by norm_num) (by norm_num) (by norm_num) (by norm_num)
  rw [← hL] at b1 b2 b3 b4 b5 b6
  generalize inverse_last scenario_grid GEOCON_INTERP_BIQUADRATIC 1 1 ⟨17 / 16, 17 / 16⟩
    (some (h + 9 / 16)) = L at r2 r3 b1 b2 b3 b4 b5 b6
  have hd2 : gc_delta L.lon_next = L.lon_next := gc_delta_of_small (by linarith) (by linarith)
  rw [hd2] at r2
  have b5' : h + 1 / 2 ≤ L.hgt_next := by linarith
  exact ⟨f2', f3', r1, L, r2, r3, b1, b2, b3, b4, b5', b6⟩

/-- C6 (as amended): on the scenario-1 grid, with biquadratic interpolation and both
factors 1, P = (lat 0.5, lon 0.5, height h) goes forward to Q = (17/16, 17/16, h + 9/16).
`geocon_inverse` on Q counts the point but does not come back to P: its 50 rounds end at an
estimate R with latitude and longitude in [1, 1.1] and height in [h + 1/2, h + 9/16],
so R is at least 1/2 away from P in each coordinate. -/
theorem round_trip_scenario_biquadratic (h : ℚ) :
    (geocon_forward (some scenario_grid) GEOCON_INTERP_BIQUADRATIC 1 1 1
        (some (fun _ => ⟨1 / 2, 1 / 2⟩)) (some (fun _ => h))).coord_at 0 =
      some { lat := 17 / 16, lon := 17 / 16 } ∧
    (geocon_forward (some scenario_grid) GEOCON_INTERP_BIQUADRATIC 1 1 1
        (some (fun _ => ⟨1 / 2, 1 / 2⟩)) (some (fun _ => h))).h_at 0 = some (h + 9 / 16) ∧
    (round_trip scenario_grid GEOCON_INTERP_BIQUADRATIC ⟨1 / 2, 1 / 2⟩ h).num = 1 ∧
    ∃ c hh,
      (round_trip scenario_grid GEOCON_INTERP_BIQUADRATIC ⟨1 / 2, 1 / 2⟩ h).coord_at 0 = some c ∧
      (round_trip scenario_grid GEOCON_INTERP_BIQUADRATIC ⟨1 / 2, 1 / 2⟩ h).h_at 0 = some hh ∧
      1 / 2 ≤ c.lat - 1 / 2 ∧ c.lat ≤ 11 / 10 ∧ 1 / 2 ≤ c.lon - 1 / 2 ∧ c.lon ≤ 11 / 10 ∧
      1 / 2 ≤ hh - h ∧ hh ≤ h + 9 / 16 := by
  obtain ⟨q1, q2, n1, L, e1, e2, b1, b2, b3, b4, b5, b6⟩ := scenario_round_trip_bounds h
  refine ⟨q1, q2, n1, { lon := L.lon_next, lat := L.lat_next }, L.hgt_next, e1, e2, ?_⟩
  refine ⟨?_, b2, ?_, b4, ?_, b6⟩
  · show 1 / 2 ≤ L.lat_next - 1 / 2
    linarith
  · show 1 / 2 ≤ L.lon_next - 1 / 2
    linarith
  · linarith

/-- Counterexample to C6 as stated: on the scenario-1 grid, the biquadratic round trip of
P = (lat 0.5, lon 0.5), height 0, does not end within 10^-10 of P in latitude and
longitude. -/
theorem round_trip_scenario_not_close :
    ¬ ∃ c, (round_trip scenario_grid GEOCON_INTERP_BIQUADRATIC ⟨1 / 2, 1 / 2⟩ 0).coord_at 0 =
        some c ∧
      |c.lat - 1 / 2| < 1 / 10 ^ 10 ∧ |c.lon - 1 / 2| < 1 / 10 ^ 10 := by
  rintro ⟨c, hc, h1, _⟩
  obtain ⟨_, _, _, L, e1, _, b1, _, _, _, _, _⟩ := scenario_round_trip_bounds 0
  rw [e1] at hc
  have hcc : c.lat = L.lat_next := by
    rw [← Option.some.inj hc]
  rw [hcc, abs_lt] at h1
  norm_num at h1
  linarith [h1.2]

/-! ### Byte swapping -/

theorem testBit_0xff (j : Nat) : Nat.testBit 0xff j = decide (j < 8) := by
  have : (0xff : Nat) = 2 ^ 8 - 1 := by norm_num
  rw [this, Nat.testBit_two_pow_sub_one]

theorem testBit_0xff00 (j : Nat) :
    Nat.testBit 0xff00 j = (decide (8 ≤ j) && decide (j < 16)) := by
  have : (0xff00 : Nat) = (2 ^ 8 - 1) <<< 8 := by decide
  rw [this, Nat.testBit_shiftLeft, Nat.testBit_two_pow_sub_one]
  by_cases h : 8 ≤ j
  · simp [h]; omega
  · simp [h]

theorem testBit_0xff0000 (j : Nat) :
    Nat.testBit 0xff0000 j = (decide (16 ≤ j) && decide (j < 24)) := by
  have : (0xff0000 : Nat) = (2 ^ 8 - 1) <<< 16 := by decide
  rw [this, Nat.testBit_shiftLeft, Nat.testBit_two_pow_sub_one]
  by_cases h : 16 ≤ j
  · simp [h]; omega
  · simp [h]

theorem testBit_0xff000000 (j : Nat) :
    Nat.testBit 0xff000000 j = (decide (24 ≤ j) && decide (j < 32)) := by
  have : (0xff000000 : Nat) = (2 ^ 8 - 1) <<< 24 := by decide
  rw [this, Nat.testBit_shiftLeft, Nat.testBit_two_pow_sub_one]
  by_cases h : 24 ≤ j
  · simp [h]; omega
  · simp [h]

theorem SWAP4_testBit (a i : Nat) :
    (SWAP4 a).testBit i =
      if i < 8 then a.testBit (i + 24)
      else if i < 16 then a.testBit (i + 8)
      else if i < 24 then a.testBit (i - 8)
      else if i < 32 then a.testBit (i - 24) else false := by
  simp only [SWAP4, Nat.testBit_or, Nat.testBit_and, Nat.testBit_shiftLeft,
    Nat.testBit_shiftRight, testBit_0xff, testBit_0xff00, testBit_0xff0000, testBit_0xff000000]
  by_cases h1 : i < 8
  · have e : 24 + i = i + 24 := by omega
    have f1 : ¬ 24 ≤ i := by omega
    have f2 : ¬ 8 ≤ i := by omega
    have f3 : ¬ 16 ≤ 8 + i := by omega
    have f4 : i + 24 < 32 := by omega
    simp [h1, e, f1, f2, f3, f4]
  · by_cases h2 : i < 16
    · have e : 8 + i = i + 8 := by omega
      have f1 : ¬ 24 ≤ i := by omega
      have f2 : ¬ 8 ≤ i - 8 := by omega
      have f3 : 16 ≤ i + 8 := by omega
      have f4 : i + 8 < 24 := by omega
      have f6 : ¬ 24 + i < 32 := by omega
      simp [h1, h2, e, f1, f2, f3, f4, f6]
    · by_cases h3 : i < 24
      · have f1 : ¬ 24 ≤ i := by omega
        have f2 : 8 ≤ i := by omega
        have f3 : 8 ≤ i - 8 := by omega
        have f4 : i - 8 < 16 := by omega
        have f5 : ¬ 8 + i < 24 := by omega
        have f6 : ¬ 24 + i < 32 := by omega
        simp [h1, h2, h3, f1, f2, f3, f4, f5, f6]
      · by_cases h4 : i < 32
        · have f1 : 24 ≤ i := by omega
          have f2 : i - 24 < 8 := by omega
          have f3 : ¬ i - 8 < 16 := by omega
          have f5 : ¬ 8 + i < 24 := by omega
          have f6 : ¬ 24 + i < 32 := by omega
          simp [h1, h2, h3, h4, f1, f2, f3, f5, f6]
        · have f2 : ¬ i - 24 < 8 := by omega
          have f3 : ¬ i - 8 < 16 := by omega
          have f5 : ¬ 8 + i < 24 := by omega
          have f6 : ¬ 24 + i < 32 := by omega
          simp [h1, h2, h3, h4, f2, f3, f5, f6]

theorem SWAP4_lt (a : Nat) : SWAP4 a < 2 ^ 32 := by
  apply Nat.lt_pow_two_of_testBit
  intro i hi
  rw [SWAP4_testBit]
  have h0 : ¬ i < 32 := by omega
  have h1 : ¬ i < 8 := by omega
  have h2 : ¬ i < 16 := by omega
  have h3 : ¬ i < 24 := by omega
  simp [h0, h1, h2, h3]

theorem SWAP4_SWAP4 (a : Nat) (h : a < 2 ^ 32) : SWAP4 (SWAP4 a) = a := by
  apply Nat.eq_of_testBit_eq
  intro i
  rw [SWAP4_testBit]
  by_cases h1 : i < 8
  · rw [if_pos h1, SWAP4_testBit]
    have g1 : ¬ i + 24 < 8 := by omega
    have g2 : ¬ i + 24 < 16 := by omega
    have g3 : ¬ i + 24 < 24 := by omega
    have g4 : i + 24 < 32 := by omega
    simp [g1, g2, g3, g4]
  · by_cases h2 : i < 16
    · rw [if_neg h1, if_pos h2, SWAP4_testBit]
      have g1 : ¬ i + 8 < 8 := by omega
      have g2 : ¬ i + 8 < 16 := by omega
      have g3 : i + 8 < 24 := by omega
      simp [g1, g2, g3]
    · by_cases h3 : i < 24
      · rw [if_neg h1, if_neg h2, if_pos h3, SWAP4_testBit]
        have g1 : ¬ i - 8 < 8 := by omega
        have g2 : i - 8 < 16 := by omega
        have e : i - 8 + 8 = i := by omega
        simp [g1, g2, e]
      · by_cases h4 : i < 32
        · rw [if_neg h1, if_neg h2, if_neg h3, if_pos h4, SWAP4_testBit]
          have g1 : i - 24 < 8 := by omega
          have e : i - 24 + 24 = i := by omega
          simp [g1, e]
        · rw [if_neg h1, if_neg h2, if_neg h3, if_neg h4]
          symm
          apply Nat.testBit_lt_two_pow
          calc a < 2 ^ 32 := h
            _ ≤ 2 ^ i := Nat.pow_le_pow_right (by norm_num) (by omega)

theorem gc_swap_flt_involutive {w : Nat} (h : w < 2 ^ 32) : gc_swap_flt (gc_swap_flt w) = w := by
  unfold gc_swap_flt
  rw [Nat.mod_eq_of_lt (SWAP4_lt _), Nat.mod_eq_of_lt h, SWAP4_SWAP4 w h]

theorem gc_flip_point_involutive {p : GEOCON_POINT} (h : p.is_raw) :
    gc_flip_point (gc_flip_point p) = p := by
  obtain ⟨h1, h2, h3⟩ := h
  cases p
  simp only [gc_flip_point] at *
  rw [gc_swap_flt_involutive h1, gc_swap_flt_involutive h2, gc_swap_flt_involutive h3]

theorem gc_swap_int_involutive {x : Int} (h : is_int x) : gc_swap_int (gc_swap_int x) = x := by
  obtain ⟨h1, h2⟩ := h
  have hu : (x % 2 ^ 32).toNat < 2 ^ 32 := by omega
  have hs := SWAP4_lt (x % 2 ^ 32).toNat
  have key : ∀ u : Nat, u < 2 ^ 32 →
      ((if u < 2 ^ 31 then (u : Int) else (u : Int) - 2 ^ 32) % 2 ^ 32).toNat = u := by
    intro u hu
    split <;> omega
  unfold gc_swap_int
  simp only []
  rw [key _ hs, SWAP4_SWAP4 _ hu]
  split <;> omega

theorem gc_swap_dbl_involutive (w : Nat) : gc_swap_dbl (gc_swap_dbl w) = w % 2 ^ 64 := by
  have h1 := SWAP4_lt (w % 2 ^ 32)
  have h2 := SWAP4_lt ((w / 2 ^ 32) % 2 ^ 32)
  have e1 : (SWAP4 (w % 2 ^ 32) * 2 ^ 32 + SWAP4 (w / 2 ^ 32 % 2 ^ 32)) % 2 ^ 32 =
      SWAP4 (w / 2 ^ 32 % 2 ^ 32) := by omega
  have e2 : (SWAP4 (w % 2 ^ 32) * 2 ^ 32 + SWAP4 (w / 2 ^ 32 % 2 ^ 32)) / 2 ^ 32 % 2 ^ 32 =
      SWAP4 (w % 2 ^ 32) := by omega
  unfold gc_swap_dbl
  simp only []
  rw [e1, e2, SWAP4_SWAP4 _ (Nat.mod_lt _ (by norm_num)),
    SWAP4_SWAP4 _ (Nat.mod_lt _ (by norm_num))]
  omega

theorem dbl_val_mod (w : Nat) : dbl_val (w % 2 ^ 64) = dbl_val w := by
  have e1 : w % 2 ^ 64 / 2 ^ 63 % 2 = w / 2 ^ 63 % 2 := by omega
  have e2 : w % 2 ^ 64 / 2 ^ 52 % 2048 = w / 2 ^ 52 % 2048 := by omega
  have e3 : w % 2 ^ 64 % 2 ^ 52 = w % 2 ^ 52 := by omega
  unfold dbl_val
  simp only [e1, e2, e3]

theorem gc_swap_int_magic :
    gc_swap_int GEOCON_HDR_MAGIC = GEOCON_HDR_MAGIC_SWAPPED ∧
    gc_swap_int GEOCON_HDR_MAGIC_SWAPPED = GEOCON_HDR_MAGIC ∧
    GEOCON_HDR_MAGIC ≠ GEOCON_HDR_MAGIC_SWAPPED := by
  refine ⟨by decide, by decide, by decide⟩

/-! ### The storage order of the nodes -/

theorem node_offset_range (g : GEOCON_HDR) (N M : Nat) (hN : g.nrows = N) (hM : g.ncols = M)
    (r c : Nat) (hr : r < N) (hc : c < M) :
    0 ≤ node_offset g r c ∧ node_offset g r c < ((N * M : Nat) : Int) := by
  have hr' : (r : Int) < N := by exact_mod_cast hr
  have hc' : (c : Int) < M := by exact_mod_cast hc
  have hr0 : (0 : Int) ≤ r := Int.natCast_nonneg r
  have hc0 : (0 : Int) ≤ c := Int.natCast_nonneg c
  have hcast : ((N * M : Nat) : Int) = (N : Int) * (M : Int) := by push_cast; ring
  rw [hcast]
  by_cases h1 : g.lat_dir = GEOCON_LAT_S_TO_N <;> by_cases h2 : g.lon_dir = GEOCON_LON_W_TO_E
  · simp only [node_offset, h1, h2, if_true, hM]
    exact index_in_range hr0 hr' hc0 hc'
  · simp only [node_offset, h1, h2, if_true, if_false, hM]
    exact index_in_range hr0 hr' (by omega) (by omega)
  · simp only [node_offset, h1, h2, if_true, if_false, hM, hN]
    exact index_in_range (by omega) (by omega) hc0 hc'
  · simp only [node_offset, h1, h2, if_false, hM, hN]
    exact index_in_range (by omega) (by omega) (by omega) (by omega)

theorem node_offset_surj (g : GEOCON_HDR) (N M : Nat) (hN : g.nrows = N) (hM : g.ncols = M)
    (i : Nat) (hi : i < N * M) :
    ∃ r c : Nat, r < N ∧ c < M ∧ node_offset g r c = (i : Int) := by
  have hM0 : 0 < M := by
    rcases Nat.eq_zero_or_pos M with h | h
    · rw [h] at hi; simp at hi
    · exact h
  obtain ⟨q, t, hq, ht, hdm⟩ : ∃ q t : Nat, q < N ∧ t < M ∧
      (M : Int) * (q : Int) + (t : Int) = (i : Int) := by
    refine ⟨i / M, i % M, ?_, Nat.mod_lt _ hM0, ?_⟩
    · rw [Nat.div_lt_iff_lt_mul hM0]; exact hi
    · exact_mod_cast Nat.div_add_mod i M
  by_cases h1 : g.lat_dir = GEOCON_LAT_S_TO_N <;> by_cases h2 : g.lon_dir = GEOCON_LON_W_TO_E
  · refine ⟨q, t, hq, ht, ?_⟩
    simp only [node_offset, h1, h2, if_true, hM]
    linarith
  · refine ⟨q, M - 1 - t, hq, by omega, ?_⟩
    simp only [node_offset, h1, h2, if_true, if_false, hM]
    have : ((M - 1 - t : Nat) : Int) = (M : Int) - 1 - (t : Int) := by omega
    rw [this]; linarith
  · refine ⟨N - 1 - q, t, by omega, ht, ?_⟩
    simp only [node_offset, h1, h2, if_true, if_false, hM, hN]
    have : ((N - 1 - q : Nat) : Int) = (N : Int) - 1 - (q : Int) := by omega
    rw [this]
    have e : ((N : Int) - 1 - ((N : Int) - 1 - (q : Int))) = (q : Int) := by ring
    rw [e]; linarith
  · refine ⟨N - 1 - q, M - 1 - t, by omega, by omega, ?_⟩
    simp only [node_offset, h1, h2, if_false, hM, hN]
    have e1 : ((N - 1 - q : Nat) : Int) = (N : Int) - 1 - (q : Int) := by omega
    have e2 : ((M - 1 - t : Nat) : Int) = (M : Int) - 1 - (t : Int) := by omega
    rw [e1, e2]
    have e : ((N : Int) - 1 - ((N : Int) - 1 - (q : Int))) = (q : Int) := by ring
    rw [e]; linarith

theorem length_flatMap_range {α : Type} (f : Nat → Nat → α) (M N : Nat) :
    ((List.range N).flatMap (fun r => (List.range M).map (f r))).length = N * M := by
  induction N with
  | zero => simp
  | succ n ih =>
    rw [List.range_succ, List.flatMap_append, List.length_append, ih]
    simp
    ring

theorem getElem?_flatMap_range {α : Type} (f : Nat → Nat → α) (M N : Nat) (r c : Nat)
    (hr : r < N) (hc : c < M) :
    ((List.range N).flatMap (fun r => (List.range M).map (f r)))[r * M + c]? =
      some (f r c) := by
  induction N with
  | zero => omega
  | succ n ih =>
    rw [List.range_succ, List.flatMap_append]
    by_cases hrn : r < n
    · have hlt : r * M + c < n * M := by
        calc r * M + c < r * M + M := by omega
          _ = (r + 1) * M := by ring
          _ ≤ n * M := Nat.mul_le_mul_right M hrn
      rw [List.getElem?_append_left (by rw [length_flatMap_range]; exact hlt)]
      exact ih hrn
    · have hrn' : r = n := by omega
      subst hrn'
      rw [List.getElem?_append_right (by rw [length_flatMap_range]; omega),
        length_flatMap_range]
      simp [List.getElem?_range hc]

/-! ### The data loader on a file that holds enough records -/

theorem fread_point_eq (f : FILE) (k : Nat) (w : GEOCON_POINT)
    (hpos : f.pos = GEOCON_FILE_HDR_LEN + SIZEOF_POINT * (k : Int))
    (hw : f.nodes[k]? = some w) :
    fread_point f = (some w, { f with pos := GEOCON_FILE_HDR_LEN + SIZEOF_POINT * ((k + 1 : Nat) : Int) }) := by
  have h1 : GEOCON_FILE_HDR_LEN ≤ f.pos ∧ (f.pos - GEOCON_FILE_HDR_LEN) % SIZEOF_POINT = 0 := by
    rw [hpos]; simp [SIZEOF_POINT]
  have h2 : ((f.pos - GEOCON_FILE_HDR_LEN) / SIZEOF_POINT).toNat = k := by
    rw [hpos]; simp [SIZEOF_POINT]
  have h3 : f.pos + SIZEOF_POINT = GEOCON_FILE_HDR_LEN + SIZEOF_POINT * ((k + 1 : Nat) : Int) := by
    rw [hpos]; push_cast; ring
  simp only [fread_point, fread_point_at, h1, and_self, if_true, h2, hw, h3]

/-- One row of the loader: when the stream stands at record `k` and the records from there on
decode to the nodes of `pts` at the places where the loader stores them, the row is read
without error, the stream advances by the length of the row, places that already agreed
with `pts` still do, and the places written agree with `pts`. -/
theorem load_row_inv (g : GEOCON_HDR) (pts ws : List GEOCON_POINT) (r : Int) :
    ∀ (cs : List Nat) (k : Nat) (s : LOAD_STATE),
      s.fp.nodes = ws → s.fp.pos = GEOCON_FILE_HDR_LEN + SIZEOF_POINT * (k : Int) →
      s.rc = 0 → s.points.length = pts.length →
      (∀ j (hj : j < cs.length), ∃ w, ws[k + j]? = some w ∧
        0 ≤ node_offset g r (cs.get ⟨j, hj⟩) ∧
        pts[(node_offset g r (cs.get ⟨j, hj⟩)).toNat]? =
          some (if g.flip then gc_flip_point w else w)) →
      (load_row g r cs s).rc = 0 ∧ (load_row g r cs s).prc = s.prc ∧
      (load_row g r cs s).fp.nodes = ws ∧
      (load_row g r cs s).fp.pos =
        GEOCON_FILE_HDR_LEN + SIZEOF_POINT * ((k + cs.length : Nat) : Int) ∧
      (load_row g r cs s).points.length = pts.length ∧
      (∀ i : Nat, s.points[i]? = pts[i]? → (load_row g r cs s).points[i]? = pts[i]?) ∧
      (∀ j (hj : j < cs.length),
        (load_row g r cs s).points[(node_offset g r (cs.get ⟨j, hj⟩)).toNat]? =
          pts[(node_offset g r (cs.get ⟨j, hj⟩)).toNat]?) := by
  intro cs
  induction cs with
  | nil =>
    intro k s h1 h2 h3 h4 _
    refine ⟨h3, rfl, h1, by simpa using h2, h4, fun i hi => hi, ?_⟩
    intro j hj
    exact absurd hj (by simp)
  | cons c cs ih =>
    intro k s h1 h2 h3 h4 hcell
    obtain ⟨w, hw, ho, hp⟩ := hcell 0 (by simp)
    simp only [List.get_eq_getElem, List.getElem_cons_zero, Nat.add_zero] at hw ho hp
    have hrd := fread_point_eq s.fp k w h2 (by rw [h1]; exact hw)
    have hstep : load_row g r (c :: cs) s = load_row g r cs
        { s with fp := { s.fp with pos := GEOCON_FILE_HDR_LEN +
                    SIZEOF_POINT * ((k + 1 : Nat) : Int) }
                 points := s.points.set (node_offset g r c).toNat
                    (if g.flip then gc_flip_point w else w) } := by
      simp only [load_row, hrd, ho, if_true]
    have hlt : (node_offset g r c).toNat < pts.length := by
      by_contra hge
      rw [List.getElem?_eq_none (by omega)] at hp
      exact absurd hp (by simp)
    have hagree : ∀ i : Nat, s.points[i]? = pts[i]? →
        (s.points.set (node_offset g r c).toNat
          (if g.flip then gc_flip_point w else w))[i]? = pts[i]? := by
      intro i hi
      rw [List.getElem?_set]
      by_cases hoi : (node_offset g r c).toNat = i
      · rw [if_pos hoi, if_pos (by rw [h4]; exact hlt), ← hoi, hp]
      · rw [if_neg hoi]; exact hi
    have hself : (s.points.set (node_offset g r c).toNat
          (if g.flip then gc_flip_point w else w))[(node_offset g r c).toNat]? =
        pts[(node_offset g r c).toNat]? := by
      rw [List.getElem?_set, if_pos rfl, if_pos (by rw [h4]; exact hlt), hp]
    obtain ⟨a1, a2, a3, a4, a5, a6, a7⟩ := ih (k + 1)
      { s with fp := { s.fp with pos := GEOCON_FILE_HDR_LEN +
                    SIZEOF_POINT * ((k + 1 : Nat) : Int) }
               points := s.points.set (node_offset g r c).toNat
                    (if g.flip then gc_flip_point w else w) }
      h1 rfl h3 (by simp [h4])
      (by
        intro j hj
        obtain ⟨w', hw', ho', hp'⟩ := hcell (j + 1) (by simpa using hj)
        refine ⟨w', ?_, ?_, ?_⟩
        · rw [← hw']; congr 1; omega
        · simpa using ho'
        · simpa using hp')
    rw [hstep]
    refine ⟨a1, a2, a3, ?_, a5, fun i hi => a6 i (hagree i hi), ?_⟩
    · rw [a4]; congr 2; simp only [List.length_cons]; omega
    · intro j hj
      cases j with
      | zero =>
        simp only [List.get_eq_getElem, List.getElem_cons_zero]
        exact a6 _ hself
      | succ j =>
        have := a7 j (by simpa using hj)
        simpa using this

theorem load_rows_bin_inv (g : GEOCON_HDR) (pts ws : List GEOCON_POINT) (M : Nat)
    (hM : g.ncols.toNat = M) :
    ∀ (rs : List Nat) (k : Nat) (s : LOAD_STATE),
      s.fp.nodes = ws → s.fp.pos = GEOCON_FILE_HDR_LEN + SIZEOF_POINT * (k : Int) →
      s.rc = 0 → s.points.length = pts.length →
      (∀ a (ha : a < rs.length) (c : Nat), c < M → ∃ w, ws[k + a * M + c]? = some w ∧
        0 ≤ node_offset g (rs.get ⟨a, ha⟩) c ∧
        pts[(node_offset g (rs.get ⟨a, ha⟩) c).toNat]? =
          some (if g.flip then gc_flip_point w else w)) →
      (load_rows_bin g rs s).rc = 0 ∧ (load_rows_bin g rs s).prc = s.prc ∧
      (load_rows_bin g rs s).points.length = pts.length ∧
      (∀ i : Nat, s.points[i]? = pts[i]? → (load_rows_bin g rs s).points[i]? = pts[i]?) ∧
      (∀ a (ha : a < rs.length) (c : Nat), c < M →
        (load_rows_bin g rs s).points[(node_offset g (rs.get ⟨a, ha⟩) c).toNat]? =
          pts[(node_offset g (rs.get ⟨a, ha⟩) c).toNat]?) := by
  intro rs
  induction rs with
  | nil =>
    intro k s _ _ h3 h4 _
    refine ⟨h3, rfl, h4, fun i hi => hi, ?_⟩
    intro a ha
    exact absurd ha (by simp)
  | cons r rs ih =>
    intro k s h1 h2 h3 h4 hcell
    obtain ⟨b1, b2, b3, b4, b5, b6, b7⟩ := load_row_inv g pts ws (r : Int) (List.range M) k s
      h1 h2 h3 h4
      (by
        intro j hj
        have hjM : j < M := by simpa using hj
        obtain ⟨w, hw, ho, hp⟩ := hcell 0 (by simp) j hjM
        refine ⟨w, ?_, ?_, ?_⟩
        · rw [← hw]; congr 1; omega
        · simpa using ho
        · simpa using hp)
    simp only [List.length_range] at b4
    obtain ⟨a1, a2, a3, a4, a5⟩ := ih (k + M) (load_row g (r : Int) (List.range M) s)
      b3 b4 b1 b5
      (by
        intro a ha c hc
        obtain ⟨w, hw, ho, hp⟩ := hcell (a + 1) (by simpa using ha) c hc
        refine ⟨w, ?_, ?_, ?_⟩
        · rw [← hw]; congr 1; ring
        · simpa using ho
        · simpa using hp)
    have hstep : load_rows_bin g (r :: rs) s =
        load_rows_bin g rs (load_row g (r : Int) (List.range M) s) := by
      simp only [load_rows_bin, hM]
    rw [hstep]
    refine ⟨a1, by rw [a2, b2], a3, fun i hi => a4 i (b6 i hi), ?_⟩
    intro a ha c hc
    cases a with
    | zero =>
      have h7 := b7 c (by simpa using hc)
      simp only [List.get_eq_getElem, List.getElem_range, List.getElem_cons_zero] at h7 ⊢
      exact a4 _ h7
    | succ a =>
      have := a5 a (by simpa using ha) c hc
      simpa using this

/-- Loading a node sequence that holds, in storage order, the (possibly byte-swapped) nodes of
`pts` leaves exactly `pts` in the node array, whatever the allocated block held before. -/
theorem load_rows_bin_written (g : GEOCON_HDR) (pts ws blk : List GEOCON_POINT) (N M : Nat)
    (hN : g.nrows = N) (hM : g.ncols = M) (hlen : pts.length = N * M)
    (hraw : ∀ p ∈ pts, p.is_raw) (hblk : blk.length = pts.length)
    (hws : ∀ r c : Nat, r < N → c < M → ws[r * M + c]? =
      some (if g.flip then gc_flip_point (pts.getD (node_offset g r c).toNat zero_point)
        else pts.getD (node_offset g r c).toNat zero_point))
    (f : FILE) (hf1 : f.nodes = ws) (hf2 : f.pos = GEOCON_FILE_HDR_LEN) (prc : Int) :
    (load_rows_bin g (List.range N) { points := blk, fp := f, rc := 0, prc := prc }).rc = 0 ∧
    (load_rows_bin g (List.range N) { points := blk, fp := f, rc := 0, prc := prc }).prc = prc ∧
    (load_rows_bin g (List.range N) { points := blk, fp := f, rc := 0, prc := prc }).points =
      pts := by
  have hMt : g.ncols.toNat = M := by rw [hM]; simp
  obtain ⟨a1, a2, a3, _, a5⟩ := load_rows_bin_inv g pts ws M hMt (List.range N) 0
    { points := blk, fp := f, rc := 0, prc := prc } hf1 (by simp [hf2]) rfl hblk
    (by
      intro a ha c hc
      have haN : a < N := by simpa using ha
      obtain ⟨o0, o1⟩ := node_offset_range g N M hN hM a c haN hc
      have hon : (node_offset g a c).toNat < pts.length := by rw [hlen]; omega
      have hget : pts.getD (node_offset g a c).toNat zero_point =
          pts.get ⟨(node_offset g a c).toNat, hon⟩ := by
        simp [List.getD_eq_getElem?_getD, List.getElem?_eq_getElem hon]
      have hmem : (pts.get ⟨(node_offset g a c).toNat, hon⟩).is_raw :=
        hraw _ (List.get_mem _ _ _)
      refine ⟨(if g.flip then gc_flip_point (pts.getD (node_offset g a c).toNat zero_point)
        else pts.getD (node_offset g a c).toNat zero_point), ?_, ?_, ?_⟩
      · rw [show 0 + a * M + c = a * M + c by omega]
        exact hws a c haN hc
      · simpa using o0
      · simp only [List.get_eq_getElem, List.getElem_range]
        rw [List.getElem?_eq_getElem hon, hget]
        congr 1
        by_cases hfl : g.flip = true
        · simp only [hfl, if_true]
          exact (gc_flip_point_involutive hmem).symm
        · simp only [hfl, if_false]; rfl)
  refine ⟨a1, a2, ?_⟩
  apply List.ext_getElem?
  intro i
  by_cases hi : i < pts.length
  · obtain ⟨r, c, hr, hc, hrc⟩ := node_offset_surj g N M hN hM i (by rw [← hlen]; exact hi)
    have := a5 r (by simpa using hr) c hc
    simp only [List.get_eq_getElem, List.getElem_range, hrc, Int.toNat_ofNat] at this
    exact this
  · rw [List.getElem?_eq_none (by omega), List.getElem?_eq_none (by omega)]

/-! ### The header loader on a written header -/

/-- Loading a binary file whose header image is `fh`, or `fh` byte-swapped (`b`), with the
right magic number: the loader succeeds, sets `flip` to `b`, leaves the stream at the first
node record and copies the fields of `fh` into the header. -/
theorem gc_load_hdr_written (env : ENV) (h0 : GEOCON_HDR) (fh : GEOCON_FILE_HDR)
    (ws : List GEOCON_POINT) (tx : List (List Char)) (b : Bool) (prc : Int)
    (hft : h0.filetype = GEOCON_FILE_TYPE_BIN) (hfl : h0.flip = false)
    (hfp : h0.fp = some { fhdr := some (if b then gc_flip_hdr fh else fh), nodes := ws, pos := 0,
                          text := tx })
    (hm : fh.magic = GEOCON_HDR_MAGIC)
    (i1 : is_int fh.lat_dir) (i2 : is_int fh.lon_dir) (i3 : is_int fh.nrows)
    (i4 : is_int fh.ncols) :
    (gc_load_hdr env h0 prc).rc = 0 ∧ (gc_load_hdr env h0 prc).prc = prc ∧
    (gc_load_hdr env h0 prc).hdr.filetype = GEOCON_FILE_TYPE_BIN ∧
    (gc_load_hdr env h0 prc).hdr.flip = b ∧
    (∃ f : FILE, (gc_load_hdr env h0 prc).hdr.fp = some f ∧ f.nodes = ws ∧
      f.pos = GEOCON_FILE_HDR_LEN) ∧
    (gc_load_hdr env h0 prc).hdr.nrows = fh.nrows ∧
    (gc_load_hdr env h0 prc).hdr.ncols = fh.ncols ∧
    (gc_load_hdr env h0 prc).hdr.lat_dir = fh.lat_dir ∧
    (gc_load_hdr env h0 prc).hdr.lon_dir = fh.lon_dir ∧
    (gc_load_hdr env h0 prc).hdr.lat_min = dbl_val fh.lat_south ∧
    (gc_load_hdr env h0 prc).hdr.lat_max = dbl_val fh.lat_north ∧
    (gc_load_hdr env h0 prc).hdr.lon_min = dbl_val fh.lon_west ∧
    (gc_load_hdr env h0 prc).hdr.lon_max = dbl_val fh.lon_east ∧
    (gc_load_hdr env h0 prc).hdr.lat_delta = dbl_val fh.lat_delta ∧
    (gc_load_hdr env h0 prc).hdr.lon_delta = dbl_val fh.lon_delta ∧
    (gc_load_hdr env h0 prc).hdr.horz_scale = dbl_val fh.horz_scale ∧
    (gc_load_hdr env h0 prc).hdr.vert_scale = dbl_val fh.vert_scale := by
  obtain ⟨m1, m2, m3⟩ := gc_swap_int_magic
  cases b
  · have hbin : gc_load_hdr_bin h0 prc =
        { rc := 0, prc := prc
          hdr := { h0 with fhdr := fh
                           fp := some { fhdr := some fh, nodes := ws, pos := GEOCON_FILE_HDR_LEN,
                                        text := tx }
                           points_start := GEOCON_FILE_HDR_LEN } } := by
      simp [gc_load_hdr_bin, hfp, hm, m3]
    simp [gc_load_hdr, hft, hbin, hfl]
  · have hbin : gc_load_hdr_bin h0 prc =
        { rc := 0, prc := prc
          hdr := { h0 with fhdr := gc_flip_hdr (gc_flip_hdr fh)
                           flip := true
                           fp := some { fhdr := some (gc_flip_hdr fh), nodes := ws,
                                        pos := GEOCON_FILE_HDR_LEN, text := tx }
                           points_start := GEOCON_FILE_HDR_LEN } } := by
      have e1 : (gc_flip_hdr fh).magic = GEOCON_HDR_MAGIC_SWAPPED := by
        simp [gc_flip_hdr, hm, m1]
      have e2 : (gc_flip_hdr (gc_flip_hdr fh)).magic = GEOCON_HDR_MAGIC := by
        simp [gc_flip_hdr, hm, m1, m2]
      simp [gc_load_hdr_bin, hfp, e1, e2]
    simp [gc_load_hdr, hft, hbin, gc_flip_hdr, gc_swap_int_involutive i1,
      gc_swap_int_involutive i2, gc_swap_int_involutive i3, gc_swap_int_involutive i4,
      gc_swap_dbl_involutive]
    have e := dbl_val_mod
    norm_num at e
    simp only [e, and_self]

/-! ### The writer with the byte order of the input file -/

/-- With `GEOCON_ENDIAN_INP_FILE` the writer succeeds when the file can be opened, swaps
exactly when `flip` is set, and emits the header image followed by the nodes in the order of
`node_offset`, row by row. -/
theorem gc_write_bin_written (env : ENV) (hdr : GEOCON_HDR) (path : String)
    (pts : List GEOCON_POINT) (N M : Nat) (prc : Int)
    (hpts : hdr.points = some pts) (hN : hdr.nrows = N) (hM : hdr.ncols = M)
    (hw : env.fopen_write path = true) :
    (gc_write_bin env hdr path GEOCON_ENDIAN_INP_FILE prc).rc = 0 ∧
    ∃ ws : List GEOCON_POINT,
      (gc_write_bin env hdr path GEOCON_ENDIAN_INP_FILE prc).file =
        some { fhdr := some (if hdr.flip then
                  gc_flip_hdr { hdr.fhdr with
                    lat_dir := hdr.lat_dir, lon_dir := hdr.lon_dir
                    nrows := hdr.nrows, ncols := hdr.ncols
                    lat_south := dbl_bits hdr.lat_min, lat_north := dbl_bits hdr.lat_max
                    lon_west := dbl_bits hdr.lon_min, lon_east := dbl_bits hdr.lon_max }
                else
                  { hdr.fhdr with
                    lat_dir := hdr.lat_dir, lon_dir := hdr.lon_dir
                    nrows := hdr.nrows, ncols := hdr.ncols
                    lat_south := dbl_bits hdr.lat_min, lat_north := dbl_bits hdr.lat_max
                    lon_west := dbl_bits hdr.lon_min, lon_east := dbl_bits hdr.lon_max })
               nodes := ws, pos := 0 } ∧
      ∀ r c : Nat, r < N → c < M → ws[r * M + c]? =
        some (if hdr.flip then gc_flip_point (pts.getD (node_offset hdr r c).toNat zero_point)
          else pts.getD (node_offset hdr r c).toNat zero_point) := by
  refine ⟨by simp [gc_write_bin, hw],
    (List.range N).flatMap (fun (r : Nat) => (List.range M).map (fun (c : Nat) =>
      if hdr.flip then
        gc_flip_point (if 0 ≤ node_offset hdr (r : Int) (c : Int) then
          pts.getD (node_offset hdr (r : Int) (c : Int)).toNat zero_point else zero_point)
      else (if 0 ≤ node_offset hdr (r : Int) (c : Int) then
          pts.getD (node_offset hdr (r : Int) (c : Int)).toNat zero_point else zero_point))),
    ?_, ?_⟩
  · simp [gc_write_bin, hw, GEOCON_ENDIAN_INP_FILE, GEOCON_ENDIAN_BIG, GEOCON_ENDIAN_LITTLE,
      GEOCON_ENDIAN_NATIVE, hpts, hN, hM]
  · intro r c hr hc
    rw [getElem?_flatMap_range _ M N r c hr hc]
    simp only [(node_offset_range hdr N M hN hM r c hr hc).1, if_true]

/-! ### C10: writing a grid and loading it again -/

/-- A header that `gc_load_hdr` accepts from a binary file carries the magic number in its
header image, and its delta and scale fields are the values stored in that image. -/
theorem gc_load_hdr_mirror (env : ENV) (h : GEOCON_HDR) (prc : Int)
    (hft : h.filetype = GEOCON_FILE_TYPE_BIN) (hrc : (gc_load_hdr env h prc).rc = 0) :
    (gc_load_hdr env h prc).hdr.fhdr.magic = GEOCON_HDR_MAGIC ∧
    (gc_load_hdr env h prc).hdr.lat_delta = dbl_val (gc_load_hdr env h prc).hdr.fhdr.lat_delta ∧
    (gc_load_hdr env h prc).hdr.lon_delta = dbl_val (gc_load_hdr env h prc).hdr.fhdr.lon_delta ∧
    (gc_load_hdr env h prc).hdr.horz_scale =
      dbl_val (gc_load_hdr env h prc).hdr.fhdr.horz_scale ∧
    (gc_load_hdr env h prc).hdr.vert_scale =
      dbl_val (gc_load_hdr env h prc).hdr.fhdr.vert_scale := by
  have hb : (gc_load_hdr_bin h prc).rc = 0 →
      (gc_load_hdr_bin h prc).hdr.fhdr.magic = GEOCON_HDR_MAGIC := by
    unfold gc_load_hdr_bin
    split
    · intro h0; simp at h0
    · split
      · intro h0; simp at h0
      · simp only []
        split_ifs <;> simp_all
  have h0 : (gc_load_hdr_bin h prc).rc = 0 := by
    by_contra hne
    simp [gc_load_hdr, hft, hne] at hrc
  simp [gc_load_hdr, hft, h0, hb h0]

/-- C10: codec round trip. Take an in-memory grid whose node array `pts` has length
nrows*ncols, with any direction flags and either value of `flip`, whose header image carries
the magic number and the deltas and scales of the header (as after `geocon_create` or a load),
and whose fields are values of their C types. Write it with `gc_write_bin` and
`GEOCON_ENDIAN_INP_FILE`, and let `geocon_load` (no extent, `load_data` true) open the file
written, every allocation succeeding. Then the write returns 0, the load returns
`GEOCON_ERR_OK` and a grid whose node array is `pts` itself, in canonical order, with the same
nrows, ncols, extent, deltas, scales, direction flags and `flip`. -/
theorem codec_round_trip (env : ENV) (hdr : GEOCON_HDR) (path : String)
    (pts blk : List GEOCON_POINT) (N M : Nat)
    (hpts : hdr.points = some pts) (hN : hdr.nrows = N) (hM : hdr.ncols = M)
    (hlen : pts.length = N * M) (hraw : ∀ p ∈ pts, p.is_raw)
    (iN : is_int hdr.nrows) (iM : is_int hdr.ncols)
    (i1 : is_int hdr.lat_dir) (i2 : is_int hdr.lon_dir)
    (hmagic : hdr.fhdr.magic = GEOCON_HDR_MAGIC)
    (d1 : is_double hdr.lat_min) (d2 : is_double hdr.lat_max)
    (d3 : is_double hdr.lon_min) (d4 : is_double hdr.lon_max)
    (e1 : hdr.lat_delta = dbl_val hdr.fhdr.lat_delta)
    (e2 : hdr.lon_delta = dbl_val hdr.fhdr.lon_delta)
    (e3 : hdr.horz_scale = dbl_val hdr.fhdr.horz_scale)
    (e4 : hdr.vert_scale = dbl_val hdr.fhdr.vert_scale)
    (hft : geocon_filetype (some path) = GEOCON_FILE_TYPE_BIN)
    (hw : env.fopen_write path = true) (ha : env.alloc_hdr = true)
    (hopen : env.fopen path =
      (gc_write_bin env hdr path GEOCON_ENDIAN_INP_FILE GEOCON_ERR_OK).file)
    (hmem : env.gc_memalloc ((N : Int) * (M : Int)) = some blk) (hblk : blk.length = N * M) :
    (gc_write_bin env hdr path GEOCON_ENDIAN_INP_FILE GEOCON_ERR_OK).rc = 0 ∧
    (geocon_load env (some path) none true).prc = GEOCON_ERR_OK ∧
    ∃ g : GEOCON_HDR, (geocon_load env (some path) none true).hdr = some g ∧
      g.points = some pts ∧ g.nrows = hdr.nrows ∧ g.ncols = hdr.ncols ∧
      g.lat_min = hdr.lat_min ∧ g.lat_max = hdr.lat_max ∧
      g.lon_min = hdr.lon_min ∧ g.lon_max = hdr.lon_max ∧
      g.lat_delta = hdr.lat_delta ∧ g.lon_delta = hdr.lon_delta ∧
      g.horz_scale = hdr.horz_scale ∧ g.vert_scale = hdr.vert_scale ∧
      g.lat_dir = hdr.lat_dir ∧ g.lon_dir = hdr.lon_dir ∧ g.flip = hdr.flip := by
  obtain ⟨w1, ws, w2, w3⟩ :=
    gc_write_bin_written env hdr path pts N M GEOCON_ERR_OK hpts hN hM hw
  rw [w2] at hopen
  clear w2
  refine ⟨w1, ?_⟩
  have hne : ¬ path.toList = [] := by
    intro h
    simp only [geocon_filetype, h, if_true] at hft
    exact absurd hft (by decide)
  have hunk : ¬ GEOCON_FILE_TYPE_BIN = GEOCON_FILE_TYPE_UNK := by decide
  have key : ∀ H0 : GEOCON_HDR, H0.filetype = GEOCON_FILE_TYPE_BIN → H0.flip = false →
      H0.fp = some
        { fhdr := some (if hdr.flip then
              gc_flip_hdr { hdr.fhdr with
                lat_dir := hdr.lat_dir, lon_dir := hdr.lon_dir
                nrows := hdr.nrows, ncols := hdr.ncols
                lat_south := dbl_bits hdr.lat_min, lat_north := dbl_bits hdr.lat_max
                lon_west := dbl_bits hdr.lon_min, lon_east := dbl_bits hdr.lon_max }
            else
              { hdr.fhdr with
                lat_dir := hdr.lat_dir, lon_dir := hdr.lon_dir
                nrows := hdr.nrows, ncols := hdr.ncols
                lat_south := dbl_bits hdr.lat_min, lat_north := dbl_bits hdr.lat_max
                lon_west := dbl_bits hdr.lon_min, lon_east := dbl_bits hdr.lon_max })
          nodes := ws, pos := 0 } →
      ∀ L : LOADED,
        L = (if (gc_load_hdr env H0 GEOCON_ERR_OK).rc ≠ 0 then
              { hdr := none, prc := (gc_load_hdr env H0 GEOCON_ERR_OK).prc }
            else if (gc_load_data env (gc_load_hdr env H0 GEOCON_ERR_OK).hdr none
                (gc_load_hdr env H0 GEOCON_ERR_OK).prc).rc ≠ 0 then
              { hdr := none
                prc := (gc_load_data env (gc_load_hdr env H0 GEOCON_ERR_OK).hdr none
                  (gc_load_hdr env H0 GEOCON_ERR_OK).prc).prc }
            else
              { hdr := some { (gc_load_data env (gc_load_hdr env H0 GEOCON_ERR_OK).hdr none
                  (gc_load_hdr env H0 GEOCON_ERR_OK).prc).hdr with fp := none }
                prc := (gc_load_data env (gc_load_hdr env H0 GEOCON_ERR_OK).hdr none
                  (gc_load_hdr env H0 GEOCON_ERR_OK).prc).prc }) →
        L.prc = GEOCON_ERR_OK ∧
        ∃ g : GEOCON_HDR, L.hdr = some g ∧
          g.points = some pts ∧ g.nrows = hdr.nrows ∧ g.ncols = hdr.ncols ∧
          g.lat_min = hdr.lat_min ∧ g.lat_max = hdr.lat_max ∧
          g.lon_min = hdr.lon_min ∧ g.lon_max = hdr.lon_max ∧
          g.lat_delta = hdr.lat_delta ∧ g.lon_delta = hdr.lon_delta ∧
          g.horz_scale = hdr.horz_scale ∧ g.vert_scale = hdr.vert_scale ∧
          g.lat_dir = hdr.lat_dir ∧ g.lon_dir = hdr.lon_dir ∧ g.flip = hdr.flip := by
    intro H0 hft0 hfl0 hfp0 L hL
    obtain ⟨r1, r2, r3, r4, ⟨f, r5, r6, r7⟩, r8, r9, r10, r11, r12, r13, r14, r15, r16, r17,
      r18, r19⟩ := gc_load_hdr_written env H0 _ ws [] hdr.flip GEOCON_ERR_OK hft0 hfl0 hfp0
        hmagic i1 i2 iN iM
    generalize gc_load_hdr env H0 GEOCON_ERR_OK = r at *
    obtain ⟨rc, prc, g0⟩ := r
    simp only at r1 r2 r3 r4 r5 r8 r9 r10 r11 r12 r13 r14 r15 r16 r17 r18 r19 hL
    subst r1 r2
    obtain ⟨s1, s2, s3⟩ := load_rows_bin_written g0 pts ws blk N M (r8.trans hN) (r9.trans hM)
      hlen
      hraw (by rw [hblk, hlen])
      (by
        intro r c hr hc
        rw [w3 r c hr hc, r4]
        simp only [node_offset, r8, r9, r10, r11])
      f r6 r7 GEOCON_ERR_OK
    have hd : gc_load_data env g0 none GEOCON_ERR_OK =
        { rc := 0, prc := GEOCON_ERR_OK
          hdr := { g0 with
            points := some pts
            fp := some (load_rows_bin g0 (List.range N)
              { points := blk, fp := f, rc := 0, prc := GEOCON_ERR_OK }).fp } } := by
      simp [gc_load_data, r3, gc_load_data_bin, gc_extent_is_empty, r8, r9, hN, hM, hmem, r5,
        s1, s2, s3]
    rw [hd] at hL
    simp only [ne_eq, not_true_eq_false, if_false] at hL
    subst hL
    refine ⟨rfl, _, rfl, rfl, r8, r9, r12.trans d1, r13.trans d2, r14.trans d3, r15.trans d4,
      r16.trans e1.symm, r17.trans e2.symm, r18.trans e3.symm, r19.trans e4.symm, r10, r11, r4⟩
  simp only [geocon_load, hne, if_false, hft, hunk, geocon_create, ha, if_true, hopen]
  exact key _ rfl rfl rfl _ rfl

theorem is_double_zero : is_double 0 := by
  simp [is_double, dbl_bits, dbl_val]

theorem is_double_one : is_double 1 := by
  show dbl_val (dbl_bits 1) = 1
  decide!

theorem dbl_val_one : dbl_val DBL_ONE = 1 := by
  decide!

/-- The round trip of `codec_grid`: a 2x2 grid with `flip` set that is written N-to-S,
E-to-W and byte-swapped, and comes back with the same nodes and header fields. -/
theorem codec_round_trip_witness :
    (codec_grid.points = some codec_points ∧ codec_points.length = 2 * 2 ∧
      codec_grid.flip = true ∧ codec_grid.lat_dir = GEOCON_LAT_N_TO_S ∧
      codec_grid.lon_dir = GEOCON_LON_E_TO_W) ∧
    (gc_write_bin codec_env codec_grid "y.gcb" GEOCON_ENDIAN_INP_FILE GEOCON_ERR_OK).rc = 0 ∧
    (geocon_load codec_env (some "y.gcb") none true).prc = GEOCON_ERR_OK ∧
    ∃ g : GEOCON_HDR, (geocon_load codec_env (some "y.gcb") none true).hdr = some g ∧
      g.points = some codec_points ∧ g.nrows = codec_grid.nrows ∧ g.ncols = codec_grid.ncols ∧
      g.lat_min = codec_grid.lat_min ∧ g.lat_max = codec_grid.lat_max ∧
      g.lon_min = codec_grid.lon_min ∧ g.lon_max = codec_grid.lon_max ∧
      g.lat_delta = codec_grid.lat_delta ∧ g.lon_delta = codec_grid.lon_delta ∧
      g.horz_scale = codec_grid.horz_scale ∧ g.vert_scale = codec_grid.vert_scale ∧
      g.lat_dir = codec_grid.lat_dir ∧ g.lon_dir = codec_grid.lon_dir ∧
      g.flip = codec_grid.flip := by
  refine ⟨⟨rfl, rfl, rfl, rfl, rfl⟩, ?_⟩
  have hraw : ∀ p ∈ codec_points, p.is_raw := by
    intro p hp
    simp only [codec_points, List.mem_cons, List.mem_singleton, List.not_mem_nil,
      or_false] at hp
    rcases hp with rfl | rfl | rfl | rfl <;>
      (simp only [GEOCON_POINT.is_raw, FLT_ONE]; norm_num)
  have hi : ∀ x : Int, x = 0 ∨ x = 1 ∨ x = 2 → is_int x := by
    intro x hx
    unfold is_int
    omega
  exact codec_round_trip codec_env codec_grid "y.gcb" codec_points
    (List.replicate 4 zero_point) 2 2 rfl rfl rfl rfl hraw
    (hi _ (Or.inr (Or.inr rfl))) (hi _ (Or.inr (Or.inr rfl)))
    (hi _ (Or.inr (Or.inl rfl))) (hi _ (Or.inr (Or.inl rfl)))
    rfl is_double_zero is_double_one is_double_zero is_double_one
    dbl_val_one.symm dbl_val_one.symm dbl_val_one.symm dbl_val_one.symm
    (by decide) rfl rfl rfl rfl rfl

/-! ### The file written by `gc_write_bin` -/

/-- The file that `gc_write_bin` leaves is the file image of the grid, byte-swapped or not
according to the swap decision of the source: `flip` for the input-file order (and for any
value that is not one of the four options), `flip` exclusive-or "host is not big-endian" for
big-endian, `flip` exclusive-or "host is not little-endian" for little-endian, never for
native. -/
theorem gc_write_bin_file (env : ENV) (hdr : GEOCON_HDR) (path : String) (byte_order prc : Int)
    (hw : env.fopen_write path = true) :
    gc_write_bin env hdr path byte_order prc =
      { rc := 0, prc := prc
        file := some (file_image hdr
          (if byte_order = GEOCON_ENDIAN_BIG then xor hdr.flip (!gc_is_big_endian env)
           else if byte_order = GEOCON_ENDIAN_LITTLE then xor hdr.flip (!gc_is_ltl_endian env)
           else if byte_order = GEOCON_ENDIAN_NATIVE then false
           else hdr.flip)) } := by
  generalize hsw : (if byte_order = GEOCON_ENDIAN_BIG then xor hdr.flip (!gc_is_big_endian env)
           else if byte_order = GEOCON_ENDIAN_LITTLE then xor hdr.flip (!gc_is_ltl_endian env)
           else if byte_order = GEOCON_ENDIAN_NATIVE then false
           else hdr.flip) = sw
  simp only [gc_write_bin, hw, hsw, Bool.not_true, Bool.false_eq_true, if_false, file_image,
    file_image_hdr, file_image_nodes]
  cases sw
  · simp
  · simp [List.map_flatMap]
    rfl

theorem file_image_swap_ne (hdr : GEOCON_HDR) (hm : hdr.fhdr.magic = GEOCON_HDR_MAGIC) :
    file_image hdr true ≠ file_image hdr false := by
  intro h
  have h1 : (gc_flip_hdr (file_image_hdr hdr)).magic = (file_image_hdr hdr).magic := by
    have h2 := congrArg FILE.fhdr h
    simp only [file_image, if_true, Bool.false_eq_true, if_false, Option.some.injEq] at h2
    rw [h2]
  simp only [gc_flip_hdr, file_image_hdr, hm, gc_swap_int_magic.1] at h1
  exact gc_swap_int_magic.2.2 h1.symm

/-! ### C12: the byte order of the file written -/

/-- C12 (the code at the failing input): on a little-endian host, a grid whose `flip` flag
is set (`codec_grid`, as loaded from a big-endian file) is written by `gc_write_bin` with
`GEOCON_ENDIAN_BIG` without any byte swap, that is in little-endian order, and with
`GEOCON_ENDIAN_LITTLE` byte-swapped, that is in big-endian order: the swap decision starts
from `flip` instead of from "no swap". -/
theorem gc_write_bin_big_little_flipped :
    gc_is_big_endian codec_env0 = false ∧ codec_grid.flip = true ∧
    (gc_write_bin codec_env0 codec_grid "y.gcb" GEOCON_ENDIAN_BIG GEOCON_ERR_OK).file =
      some (file_image codec_grid false) ∧
    (gc_write_bin codec_env0 codec_grid "y.gcb" GEOCON_ENDIAN_LITTLE GEOCON_ERR_OK).file =
      some (file_image codec_grid true) ∧
    file_image codec_grid true ≠ file_image codec_grid false := by
  refine ⟨rfl, rfl, ?_, ?_, file_image_swap_ne codec_grid rfl⟩
  · rw [gc_write_bin_file codec_env0 codec_grid "y.gcb" _ _ rfl]
    rfl
  · rw [gc_write_bin_file codec_env0 codec_grid "y.gcb" _ _ rfl]
    rfl

/-! ### C14: the magic number -/

/-- C14: when the header image `fh` is read in full, `gc_load_hdr_bin` fails with
`GEOCON_ERR_INVALID_FILE` if and only if the stored magic number is neither 0x47434F4E nor
0x4E4F4347 (and does not fail otherwise); it assigns TRUE to `flip` if and only if the
stored magic number is 0x4E4F4347, leaving `flip` as it was otherwise; on success the magic
number in memory is 0x47434F4E. -/
theorem gc_load_hdr_bin_magic (hdr : GEOCON_HDR) (f : FILE) (fh : GEOCON_FILE_HDR) (prc : Int)
    (hfp : hdr.fp = some f) (hpos : f.pos = 0) (hfh : f.fhdr = some fh) :
    (((gc_load_hdr_bin hdr prc).rc = -1 ∧
        (gc_load_hdr_bin hdr prc).prc = GEOCON_ERR_INVALID_FILE) ↔
      (fh.magic ≠ GEOCON_HDR_MAGIC ∧ fh.magic ≠ GEOCON_HDR_MAGIC_SWAPPED)) ∧
    ((gc_load_hdr_bin hdr prc).rc ≠ 0 ↔
      (fh.magic ≠ GEOCON_HDR_MAGIC ∧ fh.magic ≠ GEOCON_HDR_MAGIC_SWAPPED)) ∧
    (gc_load_hdr_bin hdr prc).hdr.flip =
      (if fh.magic = GEOCON_HDR_MAGIC_SWAPPED then true else hdr.flip) ∧
    ((gc_load_hdr_bin hdr prc).rc = 0 →
      (gc_load_hdr_bin hdr prc).hdr.fhdr.magic = GEOCON_HDR_MAGIC ∧
      (gc_load_hdr_bin hdr prc).prc = prc) := by
  obtain ⟨m1, m2, m3⟩ := gc_swap_int_magic
  by_cases hs : fh.magic = GEOCON_HDR_MAGIC_SWAPPED
  · have hne : fh.magic ≠ GEOCON_HDR_MAGIC := by rw [hs]; exact fun h => m3 h.symm
    simp [gc_load_hdr_bin, hfp, hpos, hfh, hs, gc_flip_hdr, m2]
  · by_cases hmm : fh.magic = GEOCON_HDR_MAGIC
    · simp [gc_load_hdr_bin, hfp, hpos, hfh, hs, hmm, m3]
    · simp [gc_load_hdr_bin, hfp, hpos, hfh, hs, hmm]

/-- A header image that carries the byte-reversed magic number is accepted, with `flip`
set and the magic number restored. -/
theorem gc_load_hdr_bin_magic_witness :
    (gc_load_hdr_bin { zero_hdr with fp := some (file_image codec_grid true) }
      GEOCON_ERR_OK).rc = 0 ∧
    (gc_load_hdr_bin { zero_hdr with fp := some (file_image codec_grid true) }
      GEOCON_ERR_OK).hdr.flip = true ∧
    (gc_load_hdr_bin { zero_hdr with fp := some (file_image codec_grid true) }
      GEOCON_ERR_OK).hdr.fhdr.magic = GEOCON_HDR_MAGIC := by
  obtain ⟨_, h2, h3, h4⟩ := gc_load_hdr_bin_magic
    { zero_hdr with fp := some (file_image codec_grid true) } (file_image codec_grid true)
    (gc_flip_hdr (file_image_hdr codec_grid)) GEOCON_ERR_OK rfl rfl rfl
  have hm : (gc_flip_hdr (file_image_hdr codec_grid)).magic = GEOCON_HDR_MAGIC_SWAPPED := by
    decide
  have hrc : (gc_load_hdr_bin { zero_hdr with fp := some (file_image codec_grid true) }
      GEOCON_ERR_OK).rc = 0 := by
    by_contra hne
    exact (h2.mp hne).2 hm
  refine ⟨hrc, ?_, (h4 hrc).1⟩
  rw [h3, if_pos hm]

/-! ### C15: the crop of the header -/

theorem gc_adjust_extent_accepted (hdr : GEOCON_HDR) (e : GEOCON_EXTENT) (b : Bool) (prc : Int)
    (hrc : (gc_adjust_extent hdr (some e) b prc).rc = 0) :
    (GEOCON_GE e.slat e.nlat || GEOCON_GE e.wlon e.elon) = false ∧
    (GEOCON_GE e.slat hdr.lat_max || GEOCON_LE e.nlat hdr.lat_min ||
      GEOCON_GE e.wlon hdr.lon_max || GEOCON_LE e.elon hdr.lon_min) = false := by
  constructor
  · by_contra h
    simp only [Bool.not_eq_false] at h
    simp [gc_adjust_extent, h] at hrc
  · by_contra h
    simp only [Bool.not_eq_false] at h
    by_cases h1 : (GEOCON_GE e.slat e.nlat || GEOCON_GE e.wlon e.elon) = true
    · simp [gc_adjust_extent, h1] at hrc
    · simp [gc_adjust_extent, h1, h] at hrc

theorem gc_adjust_extent_eq (hdr : GEOCON_HDR) (e : GEOCON_EXTENT) (prc : Int)
    (hrc : (gc_adjust_extent hdr (some e) true prc).rc = 0) :
    gc_adjust_extent hdr (some e) true prc =
      { rc := 0, prc := prc
        hdr := { hdr with
          lat_min := hdr.lat_min +
            ((edge_skip (GEOCON_GT (GEOCON_MAX e.slat hdr.lat_min) hdr.lat_min)
              ((GEOCON_MAX e.slat hdr.lat_min - hdr.lat_min) / hdr.lat_delta) : Int) : ℚ) *
              hdr.lat_delta
          lat_max := hdr.lat_max -
            ((edge_skip (GEOCON_LT (GEOCON_MIN e.nlat hdr.lat_max) hdr.lat_max)
              ((hdr.lat_max - GEOCON_MIN e.nlat hdr.lat_max) / hdr.lat_delta) : Int) : ℚ) *
              hdr.lat_delta
          lon_min := hdr.lon_min +
            ((edge_skip (GEOCON_GT (GEOCON_MAX e.wlon hdr.lon_min) hdr.lon_min)
              ((GEOCON_MAX e.wlon hdr.lon_min - hdr.lon_min) / hdr.lon_delta) : Int) : ℚ) *
              hdr.lon_delta
          lon_max := hdr.lon_max -
            ((edge_skip (GEOCON_LT (GEOCON_MIN e.elon hdr.lon_max) hdr.lon_max)
              ((hdr.lon_max - GEOCON_MIN e.elon hdr.lon_max) / hdr.lon_delta) : Int) : ℚ) *
              hdr.lon_delta
          nrows := hdr.nrows -
            edge_skip (GEOCON_GT (GEOCON_MAX e.slat hdr.lat_min) hdr.lat_min)
              ((GEOCON_MAX e.slat hdr.lat_min - hdr.lat_min) / hdr.lat_delta) -
            edge_skip (GEOCON_LT (GEOCON_MIN e.nlat hdr.lat_max) hdr.lat_max)
              ((hdr.lat_max - GEOCON_MIN e.nlat hdr.lat_max) / hdr.lat_delta)
          ncols := hdr.ncols -
            edge_skip (GEOCON_GT (GEOCON_MAX e.wlon hdr.lon_min) hdr.lon_min)
              ((GEOCON_MAX e.wlon hdr.lon_min - hdr.lon_min) / hdr.lon_delta) -
            edge_skip (GEOCON_LT (GEOCON_MIN e.elon hdr.lon_max) hdr.lon_max)
              ((hdr.lon_max - GEOCON_MIN e.elon hdr.lon_max) / hdr.lon_delta) }
        skip_south := edge_skip (GEOCON_GT (GEOCON_MAX e.slat hdr.lat_min) hdr.lat_min)
          ((GEOCON_MAX e.slat hdr.lat_min - hdr.lat_min) / hdr.lat_delta)
        skip_north := edge_skip (GEOCON_LT (GEOCON_MIN e.nlat hdr.lat_max) hdr.lat_max)
          ((hdr.lat_max - GEOCON_MIN e.nlat hdr.lat_max) / hdr.lat_delta)
        skip_west := edge_skip (GEOCON_GT (GEOCON_MAX e.wlon hdr.lon_min) hdr.lon_min)
          ((GEOCON_MAX e.wlon hdr.lon_min - hdr.lon_min) / hdr.lon_delta)
        skip_east := edge_skip (GEOCON_LT (GEOCON_MIN e.elon hdr.lon_max) hdr.lon_max)
          ((hdr.lon_max - GEOCON_MIN e.elon hdr.lon_max) / hdr.lon_delta) } := by
  obtain ⟨h1, h2⟩ := gc_adjust_extent_accepted hdr e true prc hrc
  simp only [gc_adjust_extent, h1, h2, Bool.false_eq_true, if_false, int_cast_intCast,
    Bool.and_true, edge_skip]
  by_cases c1 : (GEOCON_GT (GEOCON_MAX e.slat hdr.lat_min) hdr.lat_min &&
      decide (⌊(GEOCON_MAX e.slat hdr.lat_min - hdr.lat_min) / hdr.lat_delta⌋ > 0)) = true <;>
  by_cases c2 : (GEOCON_LT (GEOCON_MIN e.nlat hdr.lat_max) hdr.lat_max &&
      decide (⌊(hdr.lat_max - GEOCON_MIN e.nlat hdr.lat_max) / hdr.lat_delta⌋ > 0)) = true <;>
  by_cases c3 : (GEOCON_GT (GEOCON_MAX e.wlon hdr.lon_min) hdr.lon_min &&
      decide (⌊(GEOCON_MAX e.wlon hdr.lon_min - hdr.lon_min) / hdr.lon_delta⌋ > 0)) = true <;>
  by_cases c4 : (GEOCON_LT (GEOCON_MIN e.elon hdr.lon_max) hdr.lon_max &&
      decide (⌊(hdr.lon_max - GEOCON_MIN e.elon hdr.lon_max) / hdr.lon_delta⌋ > 0)) = true <;>
  simp only [c1, c2, c3, c4, if_true, if_false, Bool.false_eq_true, Int.cast_zero, zero_mul,
    add_zero, sub_zero]

theorem edge_skip_bounds (g : Bool) (x δ : ℚ) (hδ : 0 < δ) (hx : 0 ≤ x) :
    edge_skip g (x / δ) = (if g then ⌊x / δ⌋ else 0) ∧ 0 ≤ edge_skip g (x / δ) ∧
    ((edge_skip g (x / δ) : Int) : ℚ) * δ ≤ x := by
  have hd : 0 ≤ x / δ := div_nonneg hx hδ.le
  have hf : 0 ≤ ⌊x / δ⌋ := Int.floor_nonneg.mpr hd
  have hle : ((⌊x / δ⌋ : Int) : ℚ) * δ ≤ x := by
    have := Int.floor_le (x / δ)
    calc ((⌊x / δ⌋ : Int) : ℚ) * δ ≤ x / δ * δ := mul_le_mul_of_nonneg_right this hδ.le
      _ = x := div_mul_cancel₀ x hδ.ne'
  cases g
  · simp [edge_skip, hx]
  · by_cases hp : ⌊x / δ⌋ > 0
    · simp only [edge_skip, Bool.true_and, hp, decide_True, if_true]
      exact ⟨trivial, hf, hle⟩
    · have h0 : ⌊x / δ⌋ = 0 := by omega
      simp [edge_skip, h0, hx]

theorem GEOCON_MAX_ge (a b : ℚ) : b ≤ GEOCON_MAX a b ∧ a ≤ GEOCON_MAX a b := by
  unfold GEOCON_MAX
  split <;> constructor <;> linarith

theorem GEOCON_MIN_le (a b : ℚ) : GEOCON_MIN a b ≤ b ∧ GEOCON_MIN a b ≤ a := by
  unfold GEOCON_MIN
  split <;> constructor <;> linarith

theorem dbl_val_nine : dbl_val DBL_NINE = 9 := by
  decide!

/-- C16 (as amended): cropping the 10x10 grid over lat 0..9, lon 0..9 (deltas 1) with the
extent slat=2.3, wlon=3.7, nlat=6.8, elon=8.2 snaps the box outward to whole deltas:
`gc_adjust_extent` yields lat_min=2, lat_max=7, lon_min=3, lon_max=9, nrows=6 and ncols=7,
and so does `geocon_load` of the file of this grid with this extent. -/
theorem crop_scenario :
    ((gc_adjust_extent crop_grid (some crop_extent) true GEOCON_ERR_OK).rc = 0 ∧
     (gc_adjust_extent crop_grid (some crop_extent) true GEOCON_ERR_OK).hdr.lat_min = 2 ∧
     (gc_adjust_extent crop_grid (some crop_extent) true GEOCON_ERR_OK).hdr.lat_max = 7 ∧
     (gc_adjust_extent crop_grid (some crop_extent) true GEOCON_ERR_OK).hdr.lon_min = 3 ∧
     (gc_adjust_extent crop_grid (some crop_extent) true GEOCON_ERR_OK).hdr.lon_max = 9 ∧
     (gc_adjust_extent crop_grid (some crop_extent) true GEOCON_ERR_OK).hdr.nrows = 6 ∧
     (gc_adjust_extent crop_grid (some crop_extent) true GEOCON_ERR_OK).hdr.ncols = 7) ∧
    (geocon_load crop_env (some "x.gcb") (some crop_extent) true).prc = GEOCON_ERR_OK ∧
    (geocon_load crop_env (some "x.gcb") (some crop_extent) true).hdr.map
        (fun g => (g.lat_min, g.lat_max, g.lon_min, g.lon_max, g.nrows, g.ncols)) =
      some (2, 7, 3, 9, 6, 7) := by
  refine ⟨by decide!, by decide!, by decide!⟩

/-- Counterexample to C16 as stated: the crop of the scenario does not yield lat_min=3,
lat_max=6, lon_min=4, lon_max=8, nrows=4, ncols=5; its south edge, for one, stays at 2,
below the box. -/
theorem crop_scenario_not_inward :
    ¬ ((gc_adjust_extent crop_grid (some crop_extent) true GEOCON_ERR_OK).hdr.lat_min = 3 ∧
       (gc_adjust_extent crop_grid (some crop_extent) true GEOCON_ERR_OK).hdr.lat_max = 6 ∧
       (gc_adjust_extent crop_grid (some crop_extent) true GEOCON_ERR_OK).hdr.lon_min = 4 ∧
       (gc_adjust_extent crop_grid (some crop_extent) true GEOCON_ERR_OK).hdr.lon_max = 8 ∧
       (gc_adjust_extent crop_grid (some crop_extent) true GEOCON_ERR_OK).hdr.nrows = 4 ∧
       (gc_adjust_extent crop_grid (some crop_extent) true GEOCON_ERR_OK).hdr.ncols = 5) ∧
    (geocon_load crop_env (some "x.gcb") (some crop_extent) true).hdr.map
        (fun g => (g.lat_min, g.lat_max, g.lon_min, g.lon_max, g.nrows, g.ncols)) ≠
      some (3, 6, 4, 8, 4, 5) := by
  refine ⟨by decide!, by decide!⟩

/-! ### The steps of `geocon_load` on a binary file -/

theorem geocon_filetype_nonempty (path : String)
    (hft : geocon_filetype (some path) ≠ GEOCON_FILE_TYPE_UNK) : ¬ path.toList = [] := by
  intro h
  simp only [geocon_filetype, h, if_true] at hft
  exact hft rfl

/-- The steps of `geocon_load` on the name of a binary file that can be opened, once the
header has been allocated. -/
theorem geocon_load_bin_eq (env : ENV) (path : String) (ext : Option GEOCON_EXTENT)
    (load_data : Bool) (hdr0 : GEOCON_HDR) (f : FILE)
    (hft : geocon_filetype (some path) = GEOCON_FILE_TYPE_BIN)
    (hc : geocon_create env = some hdr0) (hopen : env.fopen path = some f) :
    ∀ r : RC_HDR,
      r = gc_load_hdr env { hdr0 with fp := some { f with pos := 0 }, pathname := path,
                                      filetype := GEOCON_FILE_TYPE_BIN } GEOCON_ERR_OK →
      geocon_load env (some path) ext load_data =
        (if r.rc ≠ 0 then { hdr := none, prc := r.prc }
         else if load_data then
           (if (gc_load_data env r.hdr ext r.prc).rc ≠ 0 then
              { hdr := none, prc := (gc_load_data env r.hdr ext r.prc).prc }
            else { hdr := some { (gc_load_data env r.hdr ext r.prc).hdr with fp := none }
                   prc := (gc_load_data env r.hdr ext r.prc).prc })
         else if r.hdr.filetype = GEOCON_FILE_TYPE_BIN then
           { hdr := some { r.hdr with mutex := env.gc_mutex_create }, prc := r.prc }
         else { hdr := some { r.hdr with fp := none }, prc := r.prc }) := by
  intro r hr
  have hne := geocon_filetype_nonempty path (by rw [hft]; decide)
  have hunk : ¬ GEOCON_FILE_TYPE_BIN = GEOCON_FILE_TYPE_UNK := by decide
  subst hr
  simp only [geocon_load, hne, if_false, hft, hunk, hc, hopen]

/-- A load that returns a grid has allocated the header and opened the file. -/
theorem geocon_load_some (env : ENV) (path : String) (ext : Option GEOCON_EXTENT)
    (load_data : Bool) (g : GEOCON_HDR)
    (hg : (geocon_load env (some path) ext load_data).hdr = some g) :
    ∃ hdr0 f, geocon_create env = some hdr0 ∧ env.fopen path = some f := by
  cases hc : geocon_create env with
  | none =>
    simp only [geocon_load, hc] at hg
    split_ifs at hg
  | some hdr0 =>
    cases ho : env.fopen path with
    | none =>
      simp only [geocon_load, hc, ho] at hg
      split_ifs at hg
    | some f => exact ⟨hdr0, f, rfl, rfl⟩

theorem gc_load_hdr_bin_fields (h : GEOCON_HDR) (prc : Int) :
    (gc_load_hdr_bin h prc).hdr.filetype = h.filetype ∧
    (gc_load_hdr_bin h prc).hdr.points = h.points ∧
    (gc_load_hdr_bin h prc).hdr.pathname = h.pathname ∧
    (gc_load_hdr_bin h prc).hdr.mutex = h.mutex := by
  unfold gc_load_hdr_bin
  split
  · exact ⟨rfl, rfl, rfl, rfl⟩
  · split
    · exact ⟨rfl, rfl, rfl, rfl⟩
    · simp only []
      split_ifs <;> exact ⟨rfl, rfl, rfl, rfl⟩

theorem gc_load_hdr_filetype (env : ENV) (h : GEOCON_HDR) (prc : Int)
    (hft : h.filetype = GEOCON_FILE_TYPE_BIN) :
    (gc_load_hdr env h prc).hdr.filetype = GEOCON_FILE_TYPE_BIN := by
  have hb := (gc_load_hdr_bin_fields h prc).1
  unfold gc_load_hdr
  simp only [hft, if_true]
  split_ifs
  · simp only [hb, hft]
  · rw [hb, hft]

/-- A load of the header alone that returns a grid: the header loader succeeded, and the grid
is the header it left, with the mutex. -/
theorem geocon_load_header_only (env : ENV) (path : String) (g : GEOCON_HDR)
    (hft : geocon_filetype (some path) = GEOCON_FILE_TYPE_BIN)
    (hg : (geocon_load env (some path) none false).hdr = some g) :
    ∃ hdr0 f, geocon_create env = some hdr0 ∧ env.fopen path = some f ∧
      ∃ r : RC_HDR,
        r = gc_load_hdr env { hdr0 with fp := some { f with pos := 0 }, pathname := path,
                                        filetype := GEOCON_FILE_TYPE_BIN } GEOCON_ERR_OK ∧
        r.rc = 0 ∧ r.hdr.filetype = GEOCON_FILE_TYPE_BIN ∧
        g = { r.hdr with mutex := env.gc_mutex_create } := by
  obtain ⟨hdr0, f, hc, ho⟩ := geocon_load_some env path none false g hg
  refine ⟨hdr0, f, hc, ho, _, rfl, ?_⟩
  have hf := gc_load_hdr_filetype env
    { hdr0 with fp := some { f with pos := 0 }, pathname := path,
                filetype := GEOCON_FILE_TYPE_BIN } GEOCON_ERR_OK rfl
  rw [geocon_load_bin_eq env path none false hdr0 f hft hc ho _ rfl] at hg
  generalize gc_load_hdr env
    { hdr0 with fp := some { f with pos := 0 }, pathname := path,
                filetype := GEOCON_FILE_TYPE_BIN } GEOCON_ERR_OK = r at hg hf ⊢
  by_cases hrc : r.rc = 0
  · simp only [hrc, ne_eq, not_true_eq_false, if_false, Bool.false_eq_true, hf, if_true,
      Option.some.injEq] at hg
    refine ⟨hrc, hf, ?_⟩
    rw [← hg]
    simp only [hf]
  · simp [hrc] at hg

/-! ### C17: extents that are rejected -/

theorem GEOCON_GE_of_ge {a b : ℚ} (h : a ≥ b) : GEOCON_GE a b = true := by
  rcases lt_or_eq_of_le h with h1 | h1
  · simp [GEOCON_GE, GEOCON_GE_EPS, h1]
  · simp [GEOCON_GE, GEOCON_GE_EPS, GEOCON_EQ_EPS, h1]

theorem GEOCON_LE_of_le {a b : ℚ} (h : a ≤ b) : GEOCON_LE a b = true := by
  rcases lt_or_eq_of_le h with h1 | h1
  · simp [GEOCON_LE, GEOCON_LE_EPS, h1]
  · simp [GEOCON_LE, GEOCON_LE_EPS, GEOCON_EQ_EPS, h1]

/-- The error path of `gc_adjust_extent`: whenever it fails, it returns -1 with
`GEOCON_ERR_INVALID_EXTENT`, all skips 0 and the header as it was. -/
theorem gc_adjust_extent_error (hdr : GEOCON_HDR) (ext : Option GEOCON_EXTENT) (b : Bool)
    (prc : Int) (hrc : (gc_adjust_extent hdr ext b prc).rc ≠ 0) :
    gc_adjust_extent hdr ext b prc =
      { rc := -1, prc := GEOCON_ERR_INVALID_EXTENT, hdr := hdr, skip_south := 0,
        skip_north := 0, skip_west := 0, skip_east := 0 } := by
  cases ext with
  | none => simp [gc_adjust_extent] at hrc
  | some e =>
    by_cases h1 : (GEOCON_GE e.slat e.nlat || GEOCON_GE e.wlon e.elon) = true
    · simp only [gc_adjust_extent, h1, if_true]
    · by_cases h2 : (GEOCON_GE e.slat hdr.lat_max || GEOCON_LE e.nlat hdr.lat_min ||
          GEOCON_GE e.wlon hdr.lon_max || GEOCON_LE e.elon hdr.lon_min) = true
      · simp [gc_adjust_extent, h1, h2]
      · simp [gc_adjust_extent, h1, h2] at hrc

/-- An extent with reversed corners, or one that does not reach into the grid, is rejected by
`gc_adjust_extent`. -/
theorem gc_adjust_extent_rejects (hdr : GEOCON_HDR) (e : GEOCON_EXTENT) (b : Bool) (prc : Int)
    (hbad : e.slat ≥ e.nlat ∨ e.wlon ≥ e.elon ∨ e.slat ≥ hdr.lat_max ∨ e.nlat ≤ hdr.lat_min ∨
      e.wlon ≥ hdr.lon_max ∨ e.elon ≤ hdr.lon_min) :
    (gc_adjust_extent hdr (some e) b prc).rc ≠ 0 := by
  rcases hbad with h | h | h | h | h | h
  · simp [gc_adjust_extent, GEOCON_GE_of_ge h]
  · simp [gc_adjust_extent, GEOCON_GE_of_ge h]
  · by_cases h1 : (GEOCON_GE e.slat e.nlat || GEOCON_GE e.wlon e.elon) = true
    · simp [gc_adjust_extent, h1]
    · simp [gc_adjust_extent, h1, GEOCON_GE_of_ge h]
  · by_cases h1 : (GEOCON_GE e.slat e.nlat || GEOCON_GE e.wlon e.elon) = true
    · simp [gc_adjust_extent, h1]
    · simp [gc_adjust_extent, h1, GEOCON_LE_of_le h]
  · by_cases h1 : (GEOCON_GE e.slat e.nlat || GEOCON_GE e.wlon e.elon) = true
    · simp [gc_adjust_extent, h1]
    · simp [gc_adjust_extent, h1, GEOCON_GE_of_ge h]
  · by_cases h1 : (GEOCON_GE e.slat e.nlat || GEOCON_GE e.wlon e.elon) = true
    · simp [gc_adjust_extent, h1]
    · simp [gc_adjust_extent, h1, GEOCON_LE_of_le h]

/-- C17 (as amended): take a binary file whose header loads into the grid `g`, and an extent
that is not empty (`gc_extent_is_empty` false: neither slat = nlat nor wlon = elon within the
comparison tolerance). If slat >= nlat, or wlon >= elon, or the box does not reach into the
extent of `g`, then `geocon_load` with `load_data` TRUE returns no grid and
`GEOCON_ERR_INVALID_EXTENT`. On every failure of `gc_adjust_extent` the header, with its
nrows, ncols and bounds, is returned as it was. -/
theorem geocon_load_invalid_extent (env : ENV) (path : String) (e : GEOCON_EXTENT)
    (g : GEOCON_HDR)
    (hft : geocon_filetype (some path) = GEOCON_FILE_TYPE_BIN)
    (hg : (geocon_load env (some path) none false).hdr = some g)
    (hne : gc_extent_is_empty (some e) = false)
    (hbad : e.slat ≥ e.nlat ∨ e.wlon ≥ e.elon ∨ e.slat ≥ g.lat_max ∨ e.nlat ≤ g.lat_min ∨
      e.wlon ≥ g.lon_max ∨ e.elon ≤ g.lon_min) :
    (geocon_load env (some path) (some e) true).hdr = none ∧
    (geocon_load env (some path) (some e) true).prc = GEOCON_ERR_INVALID_EXTENT ∧
    ∀ (h : GEOCON_HDR) (b : Bool) (prc : Int), (gc_adjust_extent h (some e) b prc).rc ≠ 0 →
      (gc_adjust_extent h (some e) b prc).rc = -1 ∧
      (gc_adjust_extent h (some e) b prc).prc = GEOCON_ERR_INVALID_EXTENT ∧
      (gc_adjust_extent h (some e) b prc).hdr = h := by
  obtain ⟨hdr0, f, hc, ho, r, hr, hrc, hrf, hgr⟩ := geocon_load_header_only env path g hft hg
  have hbad' : e.slat ≥ e.nlat ∨ e.wlon ≥ e.elon ∨ e.slat ≥ r.hdr.lat_max ∨
      e.nlat ≤ r.hdr.lat_min ∨ e.wlon ≥ r.hdr.lon_max ∨ e.elon ≤ r.hdr.lon_min := by
    rw [hgr] at hbad
    exact hbad
  have hrej := gc_adjust_extent_rejects r.hdr e true r.prc hbad'
  have herr := gc_adjust_extent_error r.hdr (some e) true r.prc hrej
  have hd : gc_load_data env r.hdr (some e) r.prc =
      { rc := -1, prc := GEOCON_ERR_INVALID_EXTENT, hdr := r.hdr } := by
    simp [gc_load_data, hrf, gc_load_data_bin, hne, gc_load_data_ext, herr]
  rw [geocon_load_bin_eq env path (some e) true hdr0 f hft hc ho r hr, hd]
  simp only [hrc, ne_eq, not_true_eq_false, if_false, if_true]
  refine ⟨by simp, by simp, ?_⟩
  intro h b prc hh
  rw [gc_adjust_extent_error h (some e) b prc hh]
  exact ⟨rfl, rfl, rfl⟩

/-- The fields that `gc_adjust_extent` never touches (with `adjust_hdr` TRUE). -/
theorem gc_adjust_extent_keeps (h : GEOCON_HDR) (ext : Option GEOCON_EXTENT) (prc : Int) :
    (gc_adjust_extent h ext true prc).hdr.fhdr = h.fhdr ∧
    (gc_adjust_extent h ext true prc).hdr.flip = h.flip ∧
    (gc_adjust_extent h ext true prc).hdr.filetype = h.filetype ∧
    (gc_adjust_extent h ext true prc).hdr.fp = h.fp ∧
    (gc_adjust_extent h ext true prc).hdr.points = h.points ∧
    (gc_adjust_extent h ext true prc).hdr.lat_dir = h.lat_dir ∧
    (gc_adjust_extent h ext true prc).hdr.lon_dir = h.lon_dir ∧
    (gc_adjust_extent h ext true prc).hdr.lat_delta = h.lat_delta ∧
    (gc_adjust_extent h ext true prc).hdr.lon_delta = h.lon_delta ∧
    (gc_adjust_extent h ext true prc).hdr.lat_min_ghost = h.lat_min_ghost ∧
    (gc_adjust_extent h ext true prc).hdr.lat_max_ghost = h.lat_max_ghost ∧
    (gc_adjust_extent h ext true prc).hdr.lon_min_ghost = h.lon_min_ghost ∧
    (gc_adjust_extent h ext true prc).hdr.lon_max_ghost = h.lon_max_ghost := by
  cases ext with
  | none => simp [gc_adjust_extent]
  | some e =>
    by_cases hrc : (gc_adjust_extent h (some e) true prc).rc = 0
    · rw [gc_adjust_extent_eq h e prc hrc]
      exact ⟨rfl, rfl, rfl, rfl, rfl, rfl, rfl, rfl, rfl, rfl, rfl, rfl, rfl⟩
    · rw [gc_adjust_extent_error h (some e) true prc hrc]
      exact ⟨rfl, rfl, rfl, rfl, rfl, rfl, rfl, rfl, rfl, rfl, rfl, rfl, rfl⟩

/-- Without an extent (or with an empty one) the header that `gc_load_data_bin` leaves is
the header it received, with only `points` and `fp` changed. -/
theorem gc_load_data_bin_hdr (env : ENV) (h : GEOCON_HDR) (ext : Option GEOCON_EXTENT)
    (prc : Int) (he : gc_extent_is_empty ext = true) :
    ∃ p q, (gc_load_data_bin env h ext prc).hdr = { h with points := p, fp := q } := by
  unfold gc_load_data_bin
  simp only [he, Bool.not_true, Bool.false_eq_true, if_false]
  cases env.gc_memalloc (h.nrows * h.ncols) with
  | none => exact ⟨_, h.fp, rfl⟩
  | some blk =>
    cases h.fp with
    | none => exact ⟨_, none, rfl⟩
    | some f => exact ⟨_, _, rfl⟩

/-- The header that `gc_load_data_ext` leaves is the header cropped by `gc_adjust_extent`,
with only `points` and `fp` changed. -/
theorem gc_load_data_ext_hdr (env : ENV) (h : GEOCON_HDR) (ext : Option GEOCON_EXTENT)
    (prc : Int) :
    ∃ p q, (gc_load_data_ext env h ext prc).hdr =
      { (gc_adjust_extent h ext true prc).hdr with points := p, fp := q } := by
  simp only [gc_load_data_ext]
  by_cases hrc : (gc_adjust_extent h ext true prc).rc ≠ 0
  · rw [if_pos hrc]
    exact ⟨(gc_adjust_extent h ext true prc).hdr.points,
      (gc_adjust_extent h ext true prc).hdr.fp, rfl⟩
  · rw [if_neg hrc]
    cases env.gc_memalloc ((gc_adjust_extent h ext true prc).hdr.nrows *
        (gc_adjust_extent h ext true prc).hdr.ncols) with
    | none => exact ⟨_, (gc_adjust_extent h ext true prc).hdr.fp, rfl⟩
    | some blk =>
      cases (gc_adjust_extent h ext true prc).hdr.fp with
      | none => exact ⟨_, none, rfl⟩
      | some f => exact ⟨_, _, rfl⟩

/-! ### What a successful header load establishes -/

/-- On success `gc_load_hdr` has copied the dimensions from the header image and set the
ghost bounds one delta outside the bounds. -/
theorem gc_load_hdr_ghost (env : ENV) (h : GEOCON_HDR) (prc : Int)
    (hrc : (gc_load_hdr env h prc).rc = 0) :
    (gc_load_hdr env h prc).hdr.nrows = (gc_load_hdr env h prc).hdr.fhdr.nrows ∧
    (gc_load_hdr env h prc).hdr.ncols = (gc_load_hdr env h prc).hdr.fhdr.ncols ∧
    (gc_load_hdr env h prc).hdr.lat_min_ghost =
      (gc_load_hdr env h prc).hdr.lat_min - (gc_load_hdr env h prc).hdr.lat_delta ∧
    (gc_load_hdr env h prc).hdr.lat_max_ghost =
      (gc_load_hdr env h prc).hdr.lat_max + (gc_load_hdr env h prc).hdr.lat_delta ∧
    (gc_load_hdr env h prc).hdr.lon_min_ghost =
      (gc_load_hdr env h prc).hdr.lon_min - (gc_load_hdr env h prc).hdr.lon_delta ∧
    (gc_load_hdr env h prc).hdr.lon_max_ghost =
      (gc_load_hdr env h prc).hdr.lon_max + (gc_load_hdr env h prc).hdr.lon_delta := by
  unfold gc_load_hdr at hrc ⊢
  simp only [] at hrc ⊢
  split_ifs at hrc ⊢
  all_goals first
    | exact ⟨rfl, rfl, rfl, rfl, rfl, rfl⟩
    | contradiction

/-- The header image that a successful `gc_load_hdr_bin` leaves in memory is the image stored
in the file, byte-swapped or not. -/
theorem gc_load_hdr_bin_image (h : GEOCON_HDR) (prc : Int)
    (hrc : (gc_load_hdr_bin h prc).rc = 0) :
    ∃ f fh, h.fp = some f ∧ f.fhdr = some fh ∧
      ((gc_load_hdr_bin h prc).hdr.fhdr = fh ∨
       (gc_load_hdr_bin h prc).hdr.fhdr = gc_flip_hdr fh) := by
  unfold gc_load_hdr_bin at hrc ⊢
  cases hfp : h.fp with
  | none => simp [hfp] at hrc
  | some f =>
    by_cases hpos : f.pos = 0
    · cases hfh : f.fhdr with
      | none => simp [hfp, hpos, hfh] at hrc
      | some fh =>
        refine ⟨f, fh, rfl, hfh, ?_⟩
        simp only [hpos, if_true, hfh]
        split_ifs
        · exact Or.inr rfl
        · exact Or.inr rfl
        · exact Or.inl rfl
        · exact Or.inl rfl
    · simp [hfp, hpos] at hrc

/-- The grid that `geocon_load` returns for a binary file is the header that `gc_load_hdr`
left, cropped by `gc_adjust_extent` when data are loaded with an extent that is not empty,
with only `points`, `fp` and `mutex` changed. -/
theorem geocon_load_grid (env : ENV) (path : String) (ext : Option GEOCON_EXTENT)
    (load_data : Bool) (g : GEOCON_HDR)
    (hft : geocon_filetype (some path) = GEOCON_FILE_TYPE_BIN)
    (hg : (geocon_load env (some path) ext load_data).hdr = some g) :
    ∃ hdr0 f, geocon_create env = some hdr0 ∧ env.fopen path = some f ∧
      ∃ r : RC_HDR,
        r = gc_load_hdr env { hdr0 with fp := some { f with pos := 0 }, pathname := path,
                                        filetype := GEOCON_FILE_TYPE_BIN } GEOCON_ERR_OK ∧
        r.rc = 0 ∧ r.hdr.filetype = GEOCON_FILE_TYPE_BIN ∧
        (geocon_load env (some path) ext load_data).prc =
          (if load_data then (gc_load_data env r.hdr ext r.prc).prc else r.prc) ∧
        ∃ p q m, g =
          { (if load_data && !gc_extent_is_empty ext then
              (gc_adjust_extent r.hdr ext true r.prc).hdr else r.hdr) with
            points := p, fp := q, mutex := m } := by
  obtain ⟨hdr0, f, hc, ho⟩ := geocon_load_some env path ext load_data g hg
  refine ⟨hdr0, f, hc, ho, _, rfl, ?_⟩
  have hf := gc_load_hdr_filetype env
    { hdr0 with fp := some { f with pos := 0 }, pathname := path,
                filetype := GEOCON_FILE_TYPE_BIN } GEOCON_ERR_OK rfl
  rw [geocon_load_bin_eq env path ext load_data hdr0 f hft hc ho _ rfl] at hg ⊢
  generalize gc_load_hdr env
    { hdr0 with fp := some { f with pos := 0 }, pathname := path,
                filetype := GEOCON_FILE_TYPE_BIN } GEOCON_ERR_OK = r at hg hf ⊢
  by_cases hrc : r.rc = 0
  · refine ⟨hrc, hf, ?_⟩
    cases load_data with
    | false =>
      simp only [hrc, ne_eq, not_true_eq_false, if_false, Bool.false_eq_true, hf, if_true,
        Option.some.injEq, Bool.false_and] at hg ⊢
      exact ⟨trivial, r.hdr.points, r.hdr.fp, env.gc_mutex_create, hg.symm⟩
    | true =>
      simp only [hrc, ne_eq, not_true_eq_false, if_false, if_true, Bool.true_and] at hg ⊢
      by_cases hd : (gc_load_data env r.hdr ext r.prc).rc = 0
      · simp only [hd, not_true_eq_false, if_false, Option.some.injEq] at hg ⊢
        refine ⟨trivial, ?_⟩
        have hdd : gc_load_data env r.hdr ext r.prc = gc_load_data_bin env r.hdr ext r.prc := by
          simp [gc_load_data, hf]
        rw [hdd] at hg
        by_cases he : gc_extent_is_empty ext = true
        · obtain ⟨p, q, hpq⟩ := gc_load_data_bin_hdr env r.hdr ext r.prc he
          rw [hpq] at hg
          simp only [he, Bool.not_true, Bool.false_eq_true, if_false]
          exact ⟨p, none, r.hdr.mutex, hg.symm⟩
        · obtain ⟨p, q, hpq⟩ := gc_load_data_ext_hdr env r.hdr ext r.prc
          have hx : gc_load_data_bin env r.hdr ext r.prc =
              gc_load_data_ext env r.hdr ext r.prc := by
            simp [gc_load_data_bin, he]
          rw [hx, hpq] at hg
          simp only [he, Bool.not_false, if_true]
          exact ⟨p, none, (gc_adjust_extent r.hdr ext true r.prc).hdr.mutex, hg.symm⟩
      · simp [hd] at hg
  · simp [hrc] at hg

/-- An extent north of the 10x10 grid of `crop_file`. -/
theorem geocon_load_invalid_extent_witness :
    (geocon_load crop_env (some "x.gcb")
      (some { slat := 20, wlon := 0, nlat := 30, elon := 5 }) true).hdr = none ∧
    (geocon_load crop_env (some "x.gcb")
      (some { slat := 20, wlon := 0, nlat := 30, elon := 5 }) true).prc =
        GEOCON_ERR_INVALID_EXTENT := by
  have h1 : (geocon_load crop_env (some "x.gcb") none false).hdr.map (fun g => g.lat_max) =
      some 9 := by
    decide!
  obtain ⟨g, hg, hgm⟩ := Option.map_eq_some'.mp h1
  have key := geocon_load_invalid_extent crop_env "x.gcb"
    { slat := 20, wlon := 0, nlat := 30, elon := 5 } g (by decide) hg (by decide!)
    (Or.inr (Or.inr (Or.inl (by rw [hgm]; norm_num))))
  exact ⟨key.1, key.2.1⟩

/-- Counterexample to C17 as stated: with slat = nlat the extent counts as empty, the whole
10x10 grid of `crop_file` is loaded and no error is reported. -/
theorem geocon_load_flat_extent :
    flat_extent.slat ≥ flat_extent.nlat ∧
    (geocon_load crop_env (some "x.gcb") (some flat_extent) true).prc = GEOCON_ERR_OK ∧
    (geocon_load crop_env (some "x.gcb") (some flat_extent) true).hdr.map
      (fun g => (g.nrows, g.ncols)) = some (10, 10) ∧
    ¬ ((geocon_load crop_env (some "x.gcb") (some flat_extent) true).hdr = none ∧
       (geocon_load crop_env (some "x.gcb") (some flat_extent) true).prc =
         GEOCON_ERR_INVALID_EXTENT) := by
  have h1 : (geocon_load crop_env (some "x.gcb") (some flat_extent) true).prc =
      GEOCON_ERR_OK := by
    decide!
  refine ⟨by decide!, h1, by decide!, ?_⟩
  rintro ⟨_, h2⟩
  rw [h1] at h2
  exact absurd h2 (by decide)

/-! ### C18: the ghost bounds of a loaded grid -/

/-- Without a crop (no extent, an empty extent, or a load of the header alone) the grid that
`geocon_load` returns for a binary file has its ghost bounds one delta outside its bounds. -/
theorem geocon_load_ghost_uncropped (env : ENV) (path : String) (ext : Option GEOCON_EXTENT)
    (load_data : Bool) (g : GEOCON_HDR)
    (hft : geocon_filetype (some path) = GEOCON_FILE_TYPE_BIN)
    (hg : (geocon_load env (some path) ext load_data).hdr = some g)
    (he : load_data = false ∨ gc_extent_is_empty ext = true) :
    g.lat_min_ghost = g.lat_min - g.lat_delta ∧ g.lat_max_ghost = g.lat_max + g.lat_delta ∧
    g.lon_min_ghost = g.lon_min - g.lon_delta ∧ g.lon_max_ghost = g.lon_max + g.lon_delta := by
  obtain ⟨hdr0, f, _, _, r, hr, hrc, _, _, p, q, m, hgr⟩ :=
    geocon_load_grid env path ext load_data g hft hg
  have hc : (load_data && !gc_extent_is_empty ext) = false := by
    rcases he with h | h <;> simp [h]
  rw [hr] at hrc
  obtain ⟨_, _, g1, g2, g3, g4⟩ := gc_load_hdr_ghost env _ GEOCON_ERR_OK hrc
  rw [← hr] at g1 g2 g3 g4
  simp only [hc, Bool.false_eq_true, if_false] at hgr
  rw [hgr]
  exact ⟨g1, g2, g3, g4⟩

/-- A crop leaves the ghost bounds where `gc_load_hdr` put them: the grid that `geocon_load`
returns after cropping has the ghost bounds of the uncropped grid. -/
theorem geocon_load_ghost_cropped (env : ENV) (path : String) (ext : Option GEOCON_EXTENT)
    (g g0 : GEOCON_HDR)
    (hft : geocon_filetype (some path) = GEOCON_FILE_TYPE_BIN)
    (hg : (geocon_load env (some path) ext true).hdr = some g)
    (hg0 : (geocon_load env (some path) none false).hdr = some g0) :
    g.lat_min_ghost = g0.lat_min - g0.lat_delta ∧ g.lat_max_ghost = g0.lat_max + g0.lat_delta ∧
    g.lon_min_ghost = g0.lon_min - g0.lon_delta ∧
    g.lon_max_ghost = g0.lon_max + g0.lon_delta := by
  obtain ⟨hdr0, f, hc, ho, r, hr, hrc, _, _, p, q, m, hgr⟩ :=
    geocon_load_grid env path ext true g hft hg
  obtain ⟨hdr0', f', hc', ho', r', hr', _, _, _, p', q', m', hgr'⟩ :=
    geocon_load_grid env path none false g0 hft hg0
  have e1 : hdr0' = hdr0 := Option.some.inj (hc'.symm.trans hc)
  have e2 : f' = f := Option.some.inj (ho'.symm.trans ho)
  subst e1 e2
  have e3 : r' = r := hr'.trans hr.symm
  subst e3
  rw [hr'] at hrc
  obtain ⟨_, _, g1, g2, g3, g4⟩ := gc_load_hdr_ghost env _ GEOCON_ERR_OK hrc
  rw [← hr'] at g1 g2 g3 g4
  obtain ⟨_, _, _, _, _, _, _, k1, k2, k3, k4, k5, k6⟩ := gc_adjust_extent_keeps r'.hdr ext r'.prc
  simp only [Bool.false_and, Bool.false_eq_true, if_false] at hgr'
  rw [hgr, hgr']
  by_cases he : gc_extent_is_empty ext = true
  · simp only [he, Bool.not_true, Bool.and_false, Bool.false_eq_true, if_false]
    exact ⟨g1, g2, g3, g4⟩
  · simp only [he, Bool.not_false, Bool.and_true, if_true]
    exact ⟨k3.trans g1, k4.trans g2, k5.trans g3, k6.trans g4⟩

/-- C18 (the code at the failing input): loading the 10x10 grid file over lat 0..9,
lon 0..9 (deltas 1) with the extent (2.3, 3.7, 6.8, 8.2) succeeds with lat_min = 2,
lat_max = 7, lon_min = 3, lon_max = 9, but the ghost bounds are still -1, 10, -1, 10, those
of the uncropped grid, and not 1, 8, 2, 10. -/
theorem crop_ghost_bounds :
    (geocon_load crop_env (some "x.gcb") (some crop_extent) true).prc = GEOCON_ERR_OK ∧
    (geocon_load crop_env (some "x.gcb") (some crop_extent) true).hdr.map
        (fun g => (g.lat_min, g.lat_max, g.lon_min, g.lon_max, g.lat_delta, g.lon_delta)) =
      some (2, 7, 3, 9, 1, 1) ∧
    (geocon_load crop_env (some "x.gcb") (some crop_extent) true).hdr.map
        (fun g => (g.lat_min_ghost, g.lat_max_ghost, g.lon_min_ghost, g.lon_max_ghost)) =
      some (-1, 10, -1, 10) ∧
    (geocon_load crop_env (some "x.gcb") (some crop_extent) true).hdr.map
        (fun g => decide (g.lat_min_ghost = g.lat_min - g.lat_delta)) = some false := by
  refine ⟨by decide!, by decide!, by decide!, by decide!⟩

/-! ### C20: what the loader checks -/

/-- C20 (as amended): a grid returned by a successful `geocon_load` of a binary file carries
the magic number, and its deltas are the values stored in the header image, which is the
image found in the file (byte-swapped when the file is in the other byte order); without a
crop its nrows and ncols are those of the header image too. The loader checks nothing but
the magic number, so nrows >= 2, ncols >= 2 and positive deltas hold for the grid exactly
when they hold for the header stored in the file. -/
theorem geocon_load_header_values (env : ENV) (path : String) (ext : Option GEOCON_EXTENT)
    (load_data : Bool) (g : GEOCON_HDR)
    (hft : geocon_filetype (some path) = GEOCON_FILE_TYPE_BIN)
    (hg : (geocon_load env (some path) ext load_data).hdr = some g) :
    g.fhdr.magic = GEOCON_HDR_MAGIC ∧
    g.lat_delta = dbl_val g.fhdr.lat_delta ∧ g.lon_delta = dbl_val g.fhdr.lon_delta ∧
    (∃ f fh, env.fopen path = some f ∧ f.fhdr = some fh ∧
      (g.fhdr = fh ∨ g.fhdr = gc_flip_hdr fh)) ∧
    (load_data = false ∨ gc_extent_is_empty ext = true →
      g.nrows = g.fhdr.nrows ∧ g.ncols = g.fhdr.ncols ∧
      (2 ≤ g.nrows ∧ 2 ≤ g.ncols ∧ 0 < g.lat_delta ∧ 0 < g.lon_delta ↔
        2 ≤ g.fhdr.nrows ∧ 2 ≤ g.fhdr.ncols ∧ 0 < dbl_val g.fhdr.lat_delta ∧
        0 < dbl_val g.fhdr.lon_delta)) := by
  obtain ⟨hdr0, f, _, ho, r, hr, hrc, _, _, p, q, m, hgr⟩ :=
    geocon_load_grid env path ext load_data g hft hg
  obtain ⟨k1, _, _, _, _, _, _, k8, k9, _⟩ := gc_adjust_extent_keeps r.hdr ext r.prc
  have hrc' := hrc
  rw [hr] at hrc'
  obtain ⟨m1, m2, m3, _, _⟩ := gc_load_hdr_mirror env _ GEOCON_ERR_OK rfl hrc'
  obtain ⟨n1, n2, _⟩ := gc_load_hdr_ghost env _ GEOCON_ERR_OK hrc'
  have hbin : (gc_load_hdr_bin
      { hdr0 with fp := some { f with pos := 0 }, pathname := path,
                  filetype := GEOCON_FILE_TYPE_BIN } GEOCON_ERR_OK).rc = 0 := by
    by_contra hne
    simp [gc_load_hdr, hne] at hrc'
  obtain ⟨f1, fh, hf1, hfh, himg⟩ := gc_load_hdr_bin_image _ GEOCON_ERR_OK hbin
  have hf1' : f1 = { f with pos := 0 } := (Option.some.inj hf1).symm
  have himg' : r.hdr.fhdr = fh ∨ r.hdr.fhdr = gc_flip_hdr fh := by
    rw [hr]
    simpa [gc_load_hdr, hbin] using himg
  rw [← hr] at m1 m2 m3 n1 n2
  have hfhdr : g.fhdr = r.hdr.fhdr := by
    rw [hgr]
    split_ifs
    · exact k1
    · rfl
  have hlat : g.lat_delta = r.hdr.lat_delta := by
    rw [hgr]
    split_ifs
    · exact k8
    · rfl
  have hlon : g.lon_delta = r.hdr.lon_delta := by
    rw [hgr]
    split_ifs
    · exact k9
    · rfl
  refine ⟨by rw [hfhdr]; exact m1, by rw [hfhdr, hlat]; exact m2, by rw [hfhdr, hlon]; exact m3,
    ⟨f, fh, ho, by rw [hf1'] at hfh; exact hfh, by rw [hfhdr]; exact himg'⟩, ?_⟩
  intro he
  have hc : (load_data && !gc_extent_is_empty ext) = false := by
    rcases he with h | h <;> simp [h]
  simp only [hc, Bool.false_eq_true, if_false] at hgr
  have hn : g.nrows = g.fhdr.nrows := by rw [hgr]; exact n1
  have hm : g.ncols = g.fhdr.ncols := by rw [hgr]; exact n2
  refine ⟨hn, hm, ?_⟩
  rw [hn, hm, hfhdr, hlat, hlon, m2, m3]

/-- The grid of `crop_file`, loaded without extent, has the 10 rows and 10 columns of the
header stored in the file. -/
theorem geocon_load_header_values_witness :
    (geocon_load crop_env (some "x.gcb") none true).hdr.map
      (fun g => (g.nrows, g.ncols, g.fhdr.nrows, g.fhdr.ncols, g.fhdr.magic)) =
        some (10, 10, 10, 10, GEOCON_HDR_MAGIC) := by
  have h1 : (geocon_load crop_env (some "x.gcb") none true).hdr.isSome = true := by
    decide!
  obtain ⟨g, hg⟩ := Option.isSome_iff_exists.mp h1
  obtain ⟨k1, _, _, _, k5⟩ := geocon_load_header_values crop_env "x.gcb" none true g
    (by decide) hg
  obtain ⟨k6, k7, _⟩ := k5 (Or.inr rfl)
  have h2 : (geocon_load crop_env (some "x.gcb") none true).hdr.map (fun g => g.nrows) =
      some 10 := by
    decide!
  have h3 : (geocon_load crop_env (some "x.gcb") none true).hdr.map (fun g => g.ncols) =
      some 10 := by
    decide!
  rw [hg] at h2 h3 ⊢
  simp only [Option.map_some', Option.some.injEq] at h2 h3 ⊢
  rw [← k6, ← k7, k1, h2, h3]

/-- Counterexample to C20 as stated: a binary file whose header carries the magic number and
zeros elsewhere (0 rows, 0 columns, both deltas 0) is loaded successfully, with or without
its data, and the grid returned has nrows = 0, ncols = 0 and both deltas 0. -/
theorem geocon_load_void_file :
    (geocon_load void_env (some "x.gcb") none true).prc = GEOCON_ERR_OK ∧
    (geocon_load void_env (some "x.gcb") none true).hdr.map
      (fun g => (g.nrows, g.ncols, g.lat_delta, g.lon_delta)) = some (0, 0, 0, 0) ∧
    (geocon_load void_env (some "x.gcb") none false).hdr.map
      (fun g => (g.nrows, g.ncols, g.lat_delta, g.lon_delta)) = some (0, 0, 0, 0) ∧
    ¬ ∀ g, (geocon_load void_env (some "x.gcb") none true).hdr = some g →
      2 ≤ g.nrows ∧ 2 ≤ g.ncols ∧ 0 < g.lat_delta ∧ 0 < g.lon_delta := by
  have h2 : (geocon_load void_env (some "x.gcb") none true).hdr.map
      (fun g => (g.nrows, g.ncols, g.lat_delta, g.lon_delta)) = some (0, 0, 0, 0) := by
    decide!
  refine ⟨by decide!, h2, by decide!, ?_⟩
  intro hall
  obtain ⟨g, hg, hgm⟩ := Option.map_eq_some'.mp h2
  have := (hall g hg).1
  have hn : g.nrows = 0 := congrArg Prod.fst hgm
  rw [hn] at this
  exact absurd this (by decide)

/-! ### The data loader with an extent -/

/-- The optional `fseek` before and after the columns of a row: the stream moves on by
`L` records, nothing else changes. -/
theorem seek_records (s : LOAD_STATE) (L k : Nat)
    (hpos : s.fp.pos = GEOCON_FILE_HDR_LEN + SIZEOF_POINT * (k : Int)) :
    (if (L : Int) > 0 then { s with fp := fseek_cur s.fp ((L : Int) * SIZEOF_POINT) }
      else s).fp.nodes = s.fp.nodes ∧
    (if (L : Int) > 0 then { s with fp := fseek_cur s.fp ((L : Int) * SIZEOF_POINT) }
      else s).fp.pos = GEOCON_FILE_HDR_LEN + SIZEOF_POINT * ((k + L : Nat) : Int) ∧
    (if (L : Int) > 0 then { s with fp := fseek_cur s.fp ((L : Int) * SIZEOF_POINT) }
      else s).rc = s.rc ∧
    (if (L : Int) > 0 then { s with fp := fseek_cur s.fp ((L : Int) * SIZEOF_POINT) }
      else s).prc = s.prc ∧
    (if (L : Int) > 0 then { s with fp := fseek_cur s.fp ((L : Int) * SIZEOF_POINT) }
      else s).points = s.points := by
  by_cases hL : (L : Int) > 0
  · simp only [hL, if_true, fseek_cur, hpos]
    refine ⟨trivial, ?_, trivial, trivial, trivial⟩
    push_cast
    ring
  · have h0 : L = 0 := by omega
    subst h0
    simp only [hL, if_false, hpos]
    refine ⟨trivial, ?_, trivial, trivial, trivial⟩
    simp

/-- The rows of the loader with an extent: when the stream stands at record `k`, each file
row holds `lead` records to skip, then the columns wanted, then `trail` records to skip, and
the records wanted decode to the nodes of `pts` at the places where the loader stores them,
the rows are read without error and the places written agree with `pts`. -/
theorem load_rows_ext_inv (g : GEOCON_HDR) (pts ws : List GEOCON_POINT) (M m lead trail : Nat)
    (hm : g.ncols.toNat = m) (hsum : lead + m + trail = M) :
    ∀ (rs : List Nat) (k : Nat) (s : LOAD_STATE),
      s.fp.nodes = ws → s.fp.pos = GEOCON_FILE_HDR_LEN + SIZEOF_POINT * (k : Int) →
      s.rc = 0 → s.points.length = pts.length →
      (∀ a (ha : a < rs.length) (c : Nat), c < m → ∃ w, ws[k + a * M + lead + c]? = some w ∧
        0 ≤ node_offset g (rs.get ⟨a, ha⟩) c ∧
        pts[(node_offset g (rs.get ⟨a, ha⟩) c).toNat]? =
          some (if g.flip then gc_flip_point w else w)) →
      (load_rows_ext g (lead : Int) (trail : Int) rs s).rc = 0 ∧
      (load_rows_ext g (lead : Int) (trail : Int) rs s).prc = s.prc ∧
      (load_rows_ext g (lead : Int) (trail : Int) rs s).points.length = pts.length ∧
      (∀ i : Nat, s.points[i]? = pts[i]? →
        (load_rows_ext g (lead : Int) (trail : Int) rs s).points[i]? = pts[i]?) ∧
      (∀ a (ha : a < rs.length) (c : Nat), c < m →
        (load_rows_ext g (lead : Int) (trail : Int) rs s).points[
            (node_offset g (rs.get ⟨a, ha⟩) c).toNat]? =
          pts[(node_offset g (rs.get ⟨a, ha⟩) c).toNat]?) := by
  intro rs
  induction rs with
  | nil =>
    intro k s _ _ h3 h4 _
    refine ⟨h3, rfl, h4, fun i hi => hi, ?_⟩
    intro a ha
    exact absurd ha (by simp)
  | cons r rs ih =>
    intro k s h1 h2 h3 h4 hcell
    obtain ⟨p1, p2, p3, p4, p5⟩ := seek_records s lead k h2
    generalize hs1 : (if (lead : Int) > 0 then
      { s with fp := fseek_cur s.fp ((lead : Int) * SIZEOF_POINT) } else s) = s1
      at p1 p2 p3 p4 p5
    obtain ⟨b1, b2, b3, b4, b5, b6, b7⟩ := load_row_inv g pts ws (r : Int) (List.range m)
      (k + lead) s1 (p1.trans h1) p2 (p3.trans h3) (by rw [p5]; exact h4)
      (by
        intro j hj
        have hjm : j < m := by simpa using hj
        obtain ⟨w, hw, ho, hp⟩ := hcell 0 (by simp) j hjm
        refine ⟨w, ?_, ?_, ?_⟩
        · rw [← hw]; congr 1; omega
        · simpa using ho
        · simpa using hp)
    simp only [List.length_range] at b4
    obtain ⟨q1, q2, q3, q4, q5⟩ := seek_records (load_row g (r : Int) (List.range m) s1)
      trail (k + lead + m) b4
    generalize hs3 : (if (trail : Int) > 0 then
      { load_row g (r : Int) (List.range m) s1 with
        fp := fseek_cur (load_row g (r : Int) (List.range m) s1).fp
          ((trail : Int) * SIZEOF_POINT) }
      else load_row g (r : Int) (List.range m) s1) = s3 at q1 q2 q3 q4 q5
    have q2' : s3.fp.pos = GEOCON_FILE_HDR_LEN + SIZEOF_POINT * ((k + M : Nat) : Int) := by
      rw [q2]; congr 3; omega
    obtain ⟨a1, a2, a3, a4, a5⟩ := ih (k + M) s3 (q1.trans b3) q2' (q3.trans b1)
      (by rw [q5]; exact b5)
      (by
        intro a ha c hc
        obtain ⟨w, hw, ho, hp⟩ := hcell (a + 1) (by simpa using ha) c hc
        refine ⟨w, ?_, ?_, ?_⟩
        · rw [← hw]; congr 1; ring
        · simpa using ho
        · simpa using hp)
    have hstep : load_rows_ext g (lead : Int) (trail : Int) (r :: rs) s =
        load_rows_ext g (lead : Int) (trail : Int) rs s3 := by
      simp only [load_rows_ext, hm, hs1, hs3]
    rw [hstep]
    refine ⟨a1, by rw [a2, q4, b2, p4], a3,
      fun i hi => a4 i (by rw [q5]; exact b6 i (by rw [p5]; exact hi)), ?_⟩
    intro a ha c hc
    cases a with
    | zero =>
      have h7 := b7 c (by simpa using hc)
      simp only [List.get_eq_getElem, List.getElem_range, List.getElem_cons_zero] at h7 ⊢
      exact a4 _ (by rw [q5]; exact h7)
    | succ a =>
      have := a5 a (by simpa using ha) c hc
      simpa using this

/-! ### Storage order and canonical order -/

theorem array_row_lt (hdr : GEOCON_HDR) (n r : Nat) (hr : r < n) :
    array_row hdr n r < n ∧ array_row hdr n (array_row hdr n r) = r := by
  unfold array_row
  split <;> constructor <;> omega

theorem array_col_lt (hdr : GEOCON_HDR) (m c : Nat) (hc : c < m) :
    array_col hdr m c < m ∧ array_col hdr m (array_col hdr m c) = c := by
  unfold array_col
  split <;> constructor <;> omega

/-- The index that the loaders and the writer compute for file row `r`, file column `c`. -/
theorem node_offset_eq (g : GEOCON_HDR) (N M : Nat) (hN : g.nrows = N) (hM : g.ncols = M)
    (r c : Nat) (hr : r < N) (hc : c < M) :
    node_offset g r c = ((array_row g N r * M + array_col g M c : Nat) : Int) := by
  have h1 : ((N - 1 - r : Nat) : Int) = (N : Int) - 1 - r := by omega
  have h2 : ((M - 1 - c : Nat) : Int) = (M : Int) - 1 - c := by omega
  by_cases d1 : g.lat_dir = GEOCON_LAT_S_TO_N <;>
  by_cases d2 : g.lon_dir = GEOCON_LON_W_TO_E <;>
  simp only [node_offset, array_row, array_col, d1, d2, if_true, if_false, hN, hM] <;>
  push_cast <;> simp only [h1, h2]

theorem canonical_nodes_length (g : GEOCON_HDR) (ws : List GEOCON_POINT) (N M : Nat)
    (hN : g.nrows = N) (hM : g.ncols = M) : (canonical_nodes g ws).length = N * M := by
  have hNt : g.nrows.toNat = N := by rw [hN]; simp
  have hMt : g.ncols.toNat = M := by rw [hM]; simp
  simp only [canonical_nodes, hNt, hMt]
  exact length_flatMap_range _ M N

theorem canonical_nodes_getElem (g : GEOCON_HDR) (ws : List GEOCON_POINT) (N M : Nat)
    (hN : g.nrows = N) (hM : g.ncols = M) (R C : Nat) (hR : R < N) (hC : C < M) :
    (canonical_nodes g ws)[R * M + C]? =
      some (if g.flip then
        gc_flip_point (ws.getD (array_row g N R * M + array_col g M C) zero_point)
        else ws.getD (array_row g N R * M + array_col g M C) zero_point) := by
  have hNt : g.nrows.toNat = N := by rw [hN]; simp
  have hMt : g.ncols.toNat = M := by rw [hM]; simp
  simp only [canonical_nodes, hNt, hMt]
  exact getElem?_flatMap_range _ M N R C hR hC

theorem index_lt_mul {N M r c : Nat} (hr : r < N) (hc : c < M) : r * M + c < N * M := by
  calc r * M + c < r * M + M := by omega
    _ = (r + 1) * M := by ring
    _ ≤ N * M := Nat.mul_le_mul_right M hr

/-- The load of a complete file without extent builds the canonical node array of the
file. -/
theorem gc_load_data_bin_canonical (env : ENV) (h : GEOCON_HDR) (ext : Option GEOCON_EXTENT)
    (prc : Int) (f : FILE) (N M : Nat) (blk : List GEOCON_POINT)
    (he : gc_extent_is_empty ext = true)
    (hN : h.nrows = N) (hM : h.ncols = M)
    (hfp : h.fp = some f) (hpos : f.pos = GEOCON_FILE_HDR_LEN)
    (hlen : f.nodes.length = N * M)
    (hmem : env.gc_memalloc (h.nrows * h.ncols) = some blk) (hblk : blk.length = N * M) :
    (gc_load_data_bin env h ext prc).rc = 0 ∧ (gc_load_data_bin env h ext prc).prc = prc ∧
    (gc_load_data_bin env h ext prc).hdr.points = some (canonical_nodes h f.nodes) := by
  have hNt : h.nrows.toNat = N := by rw [hN]; simp
  have hMt : h.ncols.toNat = M := by rw [hM]; simp
  have hcl := canonical_nodes_length h f.nodes N M hN hM
  obtain ⟨a1, a2, a3, _, a5⟩ := load_rows_bin_inv h (canonical_nodes h f.nodes) f.nodes M hMt
    (List.range N) 0 { points := blk, fp := f, rc := 0, prc := prc } rfl (by simp [hpos]) rfl
    (by rw [hcl]; exact hblk)
    (by
      intro a ha c hc
      have haN : a < N := by simpa using ha
      have hi := index_lt_mul haN hc
      obtain ⟨r1, r2⟩ := array_row_lt h N a haN
      obtain ⟨c1, c2⟩ := array_col_lt h M c hc
      refine ⟨f.nodes.get ⟨a * M + c, by rw [hlen]; exact hi⟩, ?_, ?_, ?_⟩
      · rw [show 0 + a * M + c = a * M + c by omega]
        exact List.getElem?_eq_getElem _
      · simp only [List.get_eq_getElem, List.getElem_range]
        rw [node_offset_eq h N M hN hM a c haN hc]
        exact Int.natCast_nonneg _
      · simp only [List.get_eq_getElem, List.getElem_range]
        rw [node_offset_eq h N M hN hM a c haN hc, Int.toNat_ofNat,
          canonical_nodes_getElem h f.nodes N M hN hM _ _ r1 c1, r2, c2]
        simp [List.getD_eq_getElem?_getD, List.getElem?_eq_getElem (by rw [hlen]; exact hi)])
  have hpts : (load_rows_bin h (List.range N)
      { points := blk, fp := f, rc := 0, prc := prc }).points = canonical_nodes h f.nodes := by
    apply List.ext_getElem?
    intro i
    by_cases hi : i < N * M
    · obtain ⟨r, c, hr, hc, hrc⟩ := node_offset_surj h N M hN hM i hi
      have := a5 r (by simpa using hr) c hc
      simp only [List.get_eq_getElem, List.getElem_range, hrc, Int.toNat_ofNat] at this
      exact this
    · rw [List.getElem?_eq_none (by omega), List.getElem?_eq_none (by omega)]
  simp only [gc_load_data_bin, he, Bool.not_true, Bool.false_eq_true, if_false, hmem, hfp,
    hNt, a1, a2, hpts, and_self]

/-- The rows that the loader with an extent reads: when the cropped header `g` has `n` rows
and `m` columns of the `N` by `M` grid of `h`, with `ss`, `sn`, `sw`, `se` rows and columns
cut off, and the stream stands behind the rows to skip, the node array built is the window
of the canonical array of the file. -/
theorem load_rows_ext_crop (g h : GEOCON_HDR) (ws blk : List GEOCON_POINT)
    (N M n m ss sn sw se : Nat) (prc : Int) (f1 : FILE)
    (hgn : g.nrows = n) (hgm : g.ncols = m) (hN : h.nrows = N) (hM : h.ncols = M)
    (hd1 : g.lat_dir = h.lat_dir) (hd2 : g.lon_dir = h.lon_dir) (hfl : g.flip = h.flip)
    (hrows : n + ss + sn = N) (hcols : m + sw + se = M)
    (hlen : ws.length = N * M) (hf1 : f1.nodes = ws)
    (hpos : f1.pos = GEOCON_FILE_HDR_LEN + SIZEOF_POINT *
      (((if h.lat_dir = GEOCON_LAT_S_TO_N then ss else sn) * M : Nat) : Int))
    (hblk : blk.length = n * m) :
    (load_rows_ext g ((if h.lon_dir = GEOCON_LON_W_TO_E then sw else se : Nat) : Int)
      ((if h.lon_dir = GEOCON_LON_W_TO_E then se else sw : Nat) : Int) (List.range n)
      { points := blk, fp := f1, rc := 0, prc := prc }).rc = 0 ∧
    (load_rows_ext g ((if h.lon_dir = GEOCON_LON_W_TO_E then sw else se : Nat) : Int)
      ((if h.lon_dir = GEOCON_LON_W_TO_E then se else sw : Nat) : Int) (List.range n)
      { points := blk, fp := f1, rc := 0, prc := prc }).prc = prc ∧
    (load_rows_ext g ((if h.lon_dir = GEOCON_LON_W_TO_E then sw else se : Nat) : Int)
      ((if h.lon_dir = GEOCON_LON_W_TO_E then se else sw : Nat) : Int) (List.range n)
      { points := blk, fp := f1, rc := 0, prc := prc }).points =
        cropped_nodes (canonical_nodes h ws) M n m ss sw := by
  have hgmt : g.ncols.toNat = m := by rw [hgm]; simp
  have hcl : (cropped_nodes (canonical_nodes h ws) M n m ss sw).length = n * m :=
    length_flatMap_range _ m n
  generalize hlead : (if h.lon_dir = GEOCON_LON_W_TO_E then sw else se) = lead
  generalize htrail : (if h.lon_dir = GEOCON_LON_W_TO_E then se else sw) = trail
  generalize hoff : (if h.lat_dir = GEOCON_LAT_S_TO_N then ss else sn) = off0 at hpos
  have hsum : lead + m + trail = M := by
    rw [← hlead, ← htrail]; split <;> omega
  obtain ⟨a1, a2, a3, _, a5⟩ := load_rows_ext_inv g
    (cropped_nodes (canonical_nodes h ws) M n m ss sw) ws M m lead trail hgmt hsum
    (List.range n) (off0 * M) { points := blk, fp := f1, rc := 0, prc := prc } hf1 hpos rfl
    (by rw [hcl]; exact hblk)
    (by
      intro a ha c hc
      have han : a < n := by simpa using ha
      obtain ⟨r1, _⟩ := array_row_lt g n a han
      obtain ⟨c1, _⟩ := array_col_lt g m c hc
      have hrow : array_row h N (array_row g n a + ss) = off0 + a := by
        rw [← hoff]
        simp only [array_row, hd1]
        split <;> omega
      have hcol : array_col h M (array_col g m c + sw) = lead + c := by
        rw [← hlead]
        simp only [array_col, hd2]
        split <;> omega
      have hoN : off0 + a < N := by rw [← hoff]; split <;> omega
      have hlM : lead + c < M := by omega
      have hi : off0 * M + a * M + lead + c < N * M := by
        have := index_lt_mul hoN hlM
        calc off0 * M + a * M + lead + c = (off0 + a) * M + (lead + c) := by ring
          _ < N * M := this
      refine ⟨ws.get ⟨off0 * M + a * M + lead + c, by rw [hlen]; exact hi⟩, ?_, ?_, ?_⟩
      · exact List.getElem?_eq_getElem _
      · simp only [List.get_eq_getElem, List.getElem_range]
        rw [node_offset_eq g n m hgn hgm a c han hc]
        exact Int.natCast_nonneg _
      · simp only [List.get_eq_getElem, List.getElem_range]
        rw [node_offset_eq g n m hgn hgm a c han hc, Int.toNat_ofNat]
        unfold cropped_nodes
        rw [getElem?_flatMap_range _ m n _ _ r1 c1]
        have hR : array_row g n a + ss < N := by omega
        have hC : array_col g m c + sw < M := by omega
        simp only [List.getD_eq_getElem?_getD,
          canonical_nodes_getElem h ws N M hN hM _ _ hR hC, hrow, hcol, Option.getD_some, hfl]
        rw [show (off0 + a) * M + (lead + c) = off0 * M + a * M + lead + c by ring,
          List.getElem?_eq_getElem (by rw [hlen]; exact hi)]
        simp)
  refine ⟨a1, a2, ?_⟩
  apply List.ext_getElem?
  intro i
  by_cases hi : i < n * m
  · obtain ⟨r, c, hr, hc, hrc⟩ := node_offset_surj g n m hgn hgm i hi
    have := a5 r (by simpa using hr) c hc
    simp only [List.get_eq_getElem, List.getElem_range, hrc, Int.toNat_ofNat] at this
    exact this
  · rw [List.getElem?_eq_none (by omega), List.getElem?_eq_none (by omega)]

theorem edge_skip_nonneg (g : Bool) (d : ℚ) : 0 ≤ edge_skip g d := by
  unfold edge_skip
  split
  · rename_i hc
    simp only [Bool.and_eq_true, decide_eq_true_eq] at hc
    omega
  · exact le_refl _

/-- The steps of `gc_load_data_ext` once the extent is accepted, the node array allocated
and the stream present. -/
theorem gc_load_data_ext_eq (env : ENV) (h : GEOCON_HDR) (ext : Option GEOCON_EXTENT)
    (prc : Int) (a : ADJUSTED) (blk : List GEOCON_POINT) (f : FILE)
    (ha : gc_adjust_extent h ext true prc = a) (hrc : a.rc = 0)
    (hmem : env.gc_memalloc (a.hdr.nrows * a.hdr.ncols) = some blk)
    (hfp : a.hdr.fp = some f) :
    ∀ s : LOAD_STATE,
      s = load_rows_ext a.hdr
        (if a.hdr.lon_dir = GEOCON_LON_W_TO_E then a.skip_west else a.skip_east)
        (if a.hdr.lon_dir = GEOCON_LON_W_TO_E then a.skip_east else a.skip_west)
        (List.range a.hdr.nrows.toNat)
        { points := blk
          fp := if (if a.hdr.lat_dir = GEOCON_LAT_S_TO_N then a.skip_south
                    else a.skip_north) > 0 then
              fseek_cur f ((if a.hdr.lat_dir = GEOCON_LAT_S_TO_N then a.skip_south
                    else a.skip_north) * (a.hdr.fhdr.ncols * SIZEOF_POINT))
            else f
          rc := 0, prc := a.prc } →
      gc_load_data_ext env h ext prc =
        { rc := s.rc, prc := s.prc
          hdr := { a.hdr with points := some s.points, fp := some s.fp } } := by
  intro s hs
  subst hs
  simp only [gc_load_data_ext, ha, hrc, ne_eq, not_true_eq_false, if_false, hmem, hfp]

theorem gc_get_shift_of_points (hdr : GEOCON_HDR) (pts : List GEOCON_POINT) (r c : Int)
    (w : GEOCON_POINT) (hp : hdr.points = some pts)
    (hr0 : 0 ≤ r) (hr1 : r < hdr.nrows) (hc0 : 0 ≤ c) (hc1 : c < hdr.ncols)
    (hw : pts[(r * hdr.ncols + c).toNat]? = some w) : gc_get_shift hdr r c = w := by
  have hrange : ¬ (r < 0 ∨ r ≥ hdr.nrows ∨ c < 0 ∨ c ≥ hdr.ncols) := by omega
  have hoff : 0 ≤ r * hdr.ncols + c := (index_in_range hr0 hr1 hc0 hc1).1
  simp only [gc_get_shift, hrange, if_false, hp, gc_get_shift_from_data, hoff, if_true, hw,
    Option.getD_some]

/-- C19: take a binary file with all its N*M node records, in any of the storage orders, a
header `h` as `gc_load_hdr` leaves it (stream at the first record, the column count of the
header image equal to ncols) and an extent that `gc_adjust_extent` accepts; let both node
arrays be allocated. Then `gc_load_data_ext` and the load without extent both succeed, and
for all 0 <= r < cropped nrows and 0 <= c < cropped ncols the node at row r, column c of the
cropped array is the node at row r + skip_south, column c + skip_west of the array that the
load without extent builds; `gc_get_shift` returns the same node on both grids. -/
theorem crop_load_refines (env : ENV) (h : GEOCON_HDR) (e : GEOCON_EXTENT) (prc : Int)
    (f : FILE) (N M : Nat) (blk blk' : List GEOCON_POINT)
    (hN : h.nrows = N) (hM : h.ncols = M) (hfM : h.fhdr.ncols = h.ncols)
    (hfp : h.fp = some f) (hpos : f.pos = GEOCON_FILE_HDR_LEN)
    (hlen : f.nodes.length = N * M)
    (hacc : (gc_adjust_extent h (some e) true prc).rc = 0)
    (hmem : env.gc_memalloc (h.nrows * h.ncols) = some blk) (hblk : blk.length = N * M)
    (hmem' : env.gc_memalloc ((gc_adjust_extent h (some e) true prc).hdr.nrows *
      (gc_adjust_extent h (some e) true prc).hdr.ncols) = some blk')
    (hblk' : blk'.length = ((gc_adjust_extent h (some e) true prc).hdr.nrows *
      (gc_adjust_extent h (some e) true prc).hdr.ncols).toNat) :
    (gc_load_data_ext env h (some e) prc).rc = 0 ∧
    (gc_load_data_bin env h none prc).rc = 0 ∧
    (gc_load_data_ext env h (some e) prc).hdr.nrows =
      h.nrows - (gc_adjust_extent h (some e) true prc).skip_south -
        (gc_adjust_extent h (some e) true prc).skip_north ∧
    (gc_load_data_ext env h (some e) prc).hdr.ncols =
      h.ncols - (gc_adjust_extent h (some e) true prc).skip_west -
        (gc_adjust_extent h (some e) true prc).skip_east ∧
    ∃ pc pu, (gc_load_data_ext env h (some e) prc).hdr.points = some pc ∧
      (gc_load_data_bin env h none prc).hdr.points = some pu ∧
      ∀ r c : Int, 0 ≤ r → r < (gc_load_data_ext env h (some e) prc).hdr.nrows →
        0 ≤ c → c < (gc_load_data_ext env h (some e) prc).hdr.ncols →
        (∃ w, pc[(r * (gc_load_data_ext env h (some e) prc).hdr.ncols + c).toNat]? = some w ∧
          pu[((r + (gc_adjust_extent h (some e) true prc).skip_south) * h.ncols +
              (c + (gc_adjust_extent h (some e) true prc).skip_west)).toNat]? = some w) ∧
        gc_get_shift (gc_load_data_ext env h (some e) prc).hdr r c =
          gc_get_shift (gc_load_data_bin env h none prc).hdr
            (r + (gc_adjust_extent h (some e) true prc).skip_south)
            (c + (gc_adjust_extent h (some e) true prc).skip_west) := by
  -- the load without extent
  obtain ⟨u1, _, u3⟩ := gc_load_data_bin_canonical env h none prc f N M blk rfl hN hM hfp hpos
    hlen hmem hblk
  obtain ⟨up, uq, upq⟩ := gc_load_data_bin_hdr env h none prc rfl
  have uN : (gc_load_data_bin env h none prc).hdr.nrows = N := by rw [upq]; exact hN
  have uM : (gc_load_data_bin env h none prc).hdr.ncols = M := by rw [upq]; exact hM
  -- what the crop does to the header
  obtain ⟨k1, k2, _, k4, _, k6, k7, _⟩ := gc_adjust_extent_keeps h (some e) prc
  have hfacts : 0 ≤ (gc_adjust_extent h (some e) true prc).skip_south ∧
      0 ≤ (gc_adjust_extent h (some e) true prc).skip_north ∧
      0 ≤ (gc_adjust_extent h (some e) true prc).skip_west ∧
      0 ≤ (gc_adjust_extent h (some e) true prc).skip_east ∧
      (gc_adjust_extent h (some e) true prc).hdr.nrows =
        h.nrows - (gc_adjust_extent h (some e) true prc).skip_south -
          (gc_adjust_extent h (some e) true prc).skip_north ∧
      (gc_adjust_extent h (some e) true prc).hdr.ncols =
        h.ncols - (gc_adjust_extent h (some e) true prc).skip_west -
          (gc_adjust_extent h (some e) true prc).skip_east := by
    rw [gc_adjust_extent_eq h e prc hacc]
    exact ⟨edge_skip_nonneg _ _, edge_skip_nonneg _ _, edge_skip_nonneg _ _,
      edge_skip_nonneg _ _, rfl, rfl⟩
  obtain ⟨p1, p2, p3, p4, p5, p6⟩ := hfacts
  have heq := gc_load_data_ext_eq env h (some e) prc _ blk' f rfl hacc hmem' (k4.trans hfp)
    _ rfl
  generalize gc_adjust_extent h (some e) true prc = a at *
  obtain ⟨ss, hss⟩ := Int.eq_ofNat_of_zero_le p1
  obtain ⟨sn, hsn⟩ := Int.eq_ofNat_of_zero_le p2
  obtain ⟨sw, hsw⟩ := Int.eq_ofNat_of_zero_le p3
  obtain ⟨se, hse⟩ := Int.eq_ofNat_of_zero_le p4
  have hlead : (if a.hdr.lon_dir = GEOCON_LON_W_TO_E then a.skip_west else a.skip_east) =
      ((if h.lon_dir = GEOCON_LON_W_TO_E then sw else se : Nat) : Int) := by
    rw [k7, hsw, hse]; split <;> rfl
  have htrail : (if a.hdr.lon_dir = GEOCON_LON_W_TO_E then a.skip_east else a.skip_west) =
      ((if h.lon_dir = GEOCON_LON_W_TO_E then se else sw : Nat) : Int) := by
    rw [k7, hsw, hse]; split <;> rfl
  have hoff : (if a.hdr.lat_dir = GEOCON_LAT_S_TO_N then a.skip_south else a.skip_north) =
      ((if h.lat_dir = GEOCON_LAT_S_TO_N then ss else sn : Nat) : Int) := by
    rw [k6, hss, hsn]; split <;> rfl
  rw [hlead, htrail, hoff, k1, hfM, hM] at heq
  -- the stream after the rows to skip
  generalize hf1 : (if ((if h.lat_dir = GEOCON_LAT_S_TO_N then ss else sn : Nat) : Int) > 0 then
      fseek_cur f (((if h.lat_dir = GEOCON_LAT_S_TO_N then ss else sn : Nat) : Int) *
        ((M : Int) * SIZEOF_POINT)) else f) = f1 at heq
  have hf1n : f1.nodes = f.nodes := by
    rw [← hf1]
    by_cases h0 : ((if h.lat_dir = GEOCON_LAT_S_TO_N then ss else sn : Nat) : Int) > 0
    · simp only [h0, if_true, fseek_cur]
    · simp only [h0, if_false]
  have hf1p : f1.pos = GEOCON_FILE_HDR_LEN + SIZEOF_POINT *
      (((if h.lat_dir = GEOCON_LAT_S_TO_N then ss else sn) * M : Nat) : Int) := by
    rw [← hf1]
    by_cases h0 : ((if h.lat_dir = GEOCON_LAT_S_TO_N then ss else sn : Nat) : Int) > 0
    · simp only [h0, if_true, fseek_cur, hpos]
      push_cast
      ring
    · have hz : (if h.lat_dir = GEOCON_LAT_S_TO_N then ss else sn) = 0 := by omega
      simp only [h0, if_false, hz]
      simpa using hpos
  clear hf1
  rw [hss, hsn, hN] at p5
  rw [hsw, hse, hM] at p6
  rw [heq]
  refine ⟨?_, u1, by rw [hN, hss, hsn]; exact p5, by rw [hM, hsw, hse]; exact p6, ?_⟩
  · -- the return code
    by_cases hnd : 0 < a.hdr.nrows ∧ 0 < a.hdr.ncols
    · have hn : a.hdr.nrows = ((N - ss - sn : Nat) : Int) := by omega
      have hm : a.hdr.ncols = ((M - sw - se : Nat) : Int) := by omega
      have hnt : a.hdr.nrows.toNat = N - ss - sn := by rw [hn]; simp
      rw [hnt]
      exact (load_rows_ext_crop a.hdr h f.nodes blk' N M (N - ss - sn) (M - sw - se) ss sn sw se
        a.prc f1 hn hm hN hM k6 k7 k2 (by omega) (by omega) hlen hf1n hf1p
        (by rw [hblk', hn, hm]; exact_mod_cast Int.toNat_ofNat _)).1
    · exact (load_rows_ext_inv a.hdr blk' f.nodes
        ((if h.lon_dir = GEOCON_LON_W_TO_E then sw else se) + a.hdr.ncols.toNat +
          (if h.lon_dir = GEOCON_LON_W_TO_E then se else sw))
        a.hdr.ncols.toNat _ _ rfl rfl (List.range a.hdr.nrows.toNat) _
        { points := blk', fp := f1, rc := 0, prc := a.prc } hf1n hf1p rfl rfl
        (by
          intro r hr c hc
          exfalso
          simp only [List.length_range] at hr
          omega)).1
  · by_cases hnd : 0 < a.hdr.nrows ∧ 0 < a.hdr.ncols
    · have hn : a.hdr.nrows = ((N - ss - sn : Nat) : Int) := by omega
      have hm : a.hdr.ncols = ((M - sw - se : Nat) : Int) := by omega
      have hnt : a.hdr.nrows.toNat = N - ss - sn := by rw [hn]; simp
      obtain ⟨_, _, c3⟩ := load_rows_ext_crop a.hdr h f.nodes blk' N M (N - ss - sn)
        (M - sw - se) ss sn sw se a.prc f1 hn hm hN hM k6 k7 k2 (by omega) (by omega) hlen hf1n
        hf1p (by rw [hblk', hn, hm]; exact_mod_cast Int.toNat_ofNat _)
      rw [hnt, c3]
      refine ⟨_, _, rfl, u3, ?_⟩
      intro r c hr0 hr1 hc0 hc1
      simp only [hn, hm] at hr1 hc1 ⊢
      obtain ⟨R, hR⟩ := Int.eq_ofNat_of_zero_le hr0
      obtain ⟨C, hC⟩ := Int.eq_ofNat_of_zero_le hc0
      subst hR hC
      have hRn : R < N - ss - sn := by omega
      have hCm : C < M - sw - se := by omega
      have hRN : R + ss < N := by omega
      have hCM : C + sw < M := by omega
      have i1 : ((R : Int) * ((M - sw - se : Nat) : Int) + (C : Int)).toNat =
          R * (M - sw - se) + C := by
        rw [← Int.toNat_ofNat (R * (M - sw - se) + C)]
        congr 1
      have i2 : (((R : Int) + (ss : Int)) * (M : Int) + ((C : Int) + (sw : Int))).toNat =
          (R + ss) * M + (C + sw) := by
        rw [← Int.toNat_ofNat ((R + ss) * M + (C + sw))]
        congr 1
      have e1 : (cropped_nodes (canonical_nodes h f.nodes) M (N - ss - sn) (M - sw - se) ss
          sw)[R * (M - sw - se) + C]? =
          some ((canonical_nodes h f.nodes).getD ((R + ss) * M + (C + sw)) zero_point) := by
        unfold cropped_nodes
        exact getElem?_flatMap_range _ _ _ R C hRn hCm
      obtain ⟨w, hw⟩ : ∃ w, (canonical_nodes h f.nodes)[(R + ss) * M + (C + sw)]? = some w :=
        ⟨_, canonical_nodes_getElem h f.nodes N M hN hM (R + ss) (C + sw) hRN hCM⟩
      have e3 : (canonical_nodes h f.nodes).getD ((R + ss) * M + (C + sw)) zero_point = w := by
        rw [List.getD_eq_getElem?_getD, hw, Option.getD_some]
      rw [e3] at e1
      have w1 : (cropped_nodes (canonical_nodes h f.nodes) M (N - ss - sn) (M - sw - se) ss
          sw)[((R : Int) * ((M - sw - se : Nat) : Int) + (C : Int)).toNat]? = some w := by
        rw [i1]; exact e1
      have w2 : (canonical_nodes h f.nodes)[(((R : Int) + a.skip_south) * h.ncols +
          ((C : Int) + a.skip_west)).toNat]? = some w := by
        rw [hss, hsw, hM, i2]; exact hw
      refine ⟨⟨_, w1, w2⟩, ?_⟩
      rw [gc_get_shift_of_points _ _ (R : Int) (C : Int) _ rfl hr0 (by simpa [hn] using hr1) hc0
          (by simpa [hm] using hc1) (by simpa [hm] using w1),
        gc_get_shift_of_points _ _ ((R : Int) + a.skip_south) ((C : Int) + a.skip_west) _ u3
          (by omega) (by rw [uN]; omega) (by omega) (by rw [uM]; omega)
          (by rw [uM, ← hM]; exact w2)]
    · refine ⟨_, _, rfl, u3, ?_⟩
      intro r c hr0 hr1 hc0 hc1
      exfalso
      simp only [] at hr1 hc1
      omega

/-- The crop of the 10x10 grid of `crop_file` with the extent (2.3, 3.7, 6.8, 8.2): node
(0, 0) of the cropped grid is node (2, 3) of the whole grid, whose latitude field carries the
pattern 23. -/
theorem crop_load_refines_witness :
    (gc_load_data_ext crop_env crop_grid (some crop_extent) GEOCON_ERR_OK).rc = 0 ∧
    gc_get_shift (gc_load_data_ext crop_env crop_grid (some crop_extent) GEOCON_ERR_OK).hdr 0 0 =
      gc_get_shift (gc_load_data_bin crop_env crop_grid none GEOCON_ERR_OK).hdr
        (0 + (gc_adjust_extent crop_grid (some crop_extent) true GEOCON_ERR_OK).skip_south)
        (0 + (gc_adjust_extent crop_grid (some crop_extent) true GEOCON_ERR_OK).skip_west) ∧
    (gc_adjust_extent crop_grid (some crop_extent) true GEOCON_ERR_OK).skip_south = 2 ∧
    (gc_adjust_extent crop_grid (some crop_extent) true GEOCON_ERR_OK).skip_west = 3 ∧
    (gc_get_shift (gc_load_data_bin crop_env crop_grid none GEOCON_ERR_OK).hdr 2 3).lat_value =
      23 := by
  obtain ⟨h1, _, h3, h4, pc, pu, _, _, hall⟩ := crop_load_refines crop_env crop_grid
    crop_extent GEOCON_ERR_OK { crop_file with pos := GEOCON_FILE_HDR_LEN } 10 10
    (List.replicate 100 zero_point) (List.replicate 42 zero_point) rfl rfl rfl rfl rfl
    (by decide) (by decide!) rfl (by decide) (by decide!) (by decide!)
  have hs : (gc_adjust_extent crop_grid (some crop_extent) true GEOCON_ERR_OK).skip_south = 2 := by
    decide!
  have hn : (gc_adjust_extent crop_grid (some crop_extent) true GEOCON_ERR_OK).skip_north = 2 := by
    decide!
  have hw : (gc_adjust_extent crop_grid (some crop_extent) true GEOCON_ERR_OK).skip_west = 3 := by
    decide!
  have he : (gc_adjust_extent crop_grid (some crop_extent) true GEOCON_ERR_OK).skip_east = 0 := by
    decide!
  rw [hs, hn] at h3
  rw [hw, he] at h4
  refine ⟨h1, (hall 0 0 (le_refl _) ?_ (le_refl _) ?_).2, hs, hw, by decide!⟩
  · rw [h3]; decide
  · rw [h4]; decide

/-! ### C11: a file in the other byte order -/

theorem gc_flip_hdr_involutive {fh : GEOCON_FILE_HDR} (h : fh.is_raw) :
    gc_flip_hdr (gc_flip_hdr fh) = fh := by
  obtain ⟨⟨a1, a2, a3, a4, a5, a6, a7, a8⟩, ⟨b1, b2, b3, b4, b5, b6, b7, b8⟩,
    ⟨c1, c2, c3, c4⟩⟩ := h
  cases fh
  simp only [gc_flip_hdr] at *
  simp only [gc_swap_int_involutive a1, gc_swap_int_involutive a2, gc_swap_int_involutive a3,
    gc_swap_int_involutive a4, gc_swap_int_involutive a5, gc_swap_int_involutive a6,
    gc_swap_int_involutive a7, gc_swap_int_involutive a8, gc_swap_dbl_involutive,
    Nat.mod_eq_of_lt b1, Nat.mod_eq_of_lt b2, Nat.mod_eq_of_lt b3, Nat.mod_eq_of_lt b4,
    Nat.mod_eq_of_lt b5, Nat.mod_eq_of_lt b6, Nat.mod_eq_of_lt b7, Nat.mod_eq_of_lt b8,
    Nat.mod_eq_of_lt c1, Nat.mod_eq_of_lt c2, Nat.mod_eq_of_lt c3, Nat.mod_eq_of_lt c4]

theorem fread_point_swapped (f : FILE) :
    fread_point (swapped_file f) =
      ((fread_point f).1.map gc_flip_point, swapped_file (fread_point f).2) := by
  have h1 : fread_point_at (swapped_file f) f.pos =
      (fread_point_at f f.pos).map gc_flip_point := by
    simp only [fread_point_at, swapped_file]
    split
    · simp [List.getElem?_map]
    · rfl
  simp only [fread_point, show (swapped_file f).pos = f.pos from rfl, h1]
  cases fread_point_at f f.pos with
  | none => rfl
  | some p => rfl

theorem fread_point_mem (f : FILE) (p : GEOCON_POINT) (h : (fread_point f).1 = some p) :
    p ∈ f.nodes ∧ (fread_point f).2.nodes = f.nodes := by
  unfold fread_point at h ⊢
  cases hr : fread_point_at f f.pos with
  | none => simp [hr] at h
  | some q =>
    simp only [hr, Option.some.injEq] at h ⊢
    subst h
    refine ⟨?_, trivial⟩
    unfold fread_point_at at hr
    split at hr
    · exact List.getElem?_mem hr
    · exact absurd hr (by simp)

theorem fread_point_nodes (f : FILE) : (fread_point f).2.nodes = f.nodes := by
  unfold fread_point
  cases fread_point_at f f.pos with
  | none => rfl
  | some q => rfl

theorem load_row_nodes (g : GEOCON_HDR) (r : Int) :
    ∀ (cs : List Nat) (s : LOAD_STATE), (load_row g r cs s).fp.nodes = s.fp.nodes := by
  intro cs
  induction cs with
  | nil => intro s; rfl
  | cons c cs ih =>
    intro s
    have hn := fread_point_nodes s.fp
    unfold load_row
    cases hfr : fread_point s.fp with
    | mk o f2 =>
      rw [hfr] at hn
      cases o with
      | none => exact hn
      | some p =>
        simp only []
        rw [ih]
        exact hn

/-- One row read from the byte-reversed file with `flip` set is the row read from the file
itself with `flip` clear. -/
theorem load_row_swapped (g g' : GEOCON_HDR) (r : Int)
    (hoff : ∀ c : Int, node_offset g' r c = node_offset g r c)
    (hfl : g.flip = false) (hfl' : g'.flip = true) :
    ∀ (cs : List Nat) (s : LOAD_STATE), (∀ p ∈ s.fp.nodes, p.is_raw) →
      load_row g' r cs (swapped_state s) = swapped_state (load_row g r cs s) := by
  intro cs
  induction cs with
  | nil => intro s _; rfl
  | cons c cs ih =>
    intro s hraw
    have hsw := fread_point_swapped s.fp
    have hn := fread_point_nodes s.fp
    unfold load_row
    simp only [show (swapped_state s).fp = swapped_file s.fp from rfl, hsw, hoff]
    cases hfr : fread_point s.fp with
    | mk o f2 =>
      rw [hfr] at hn
      cases o with
      | none => rfl
      | some p =>
        have hp : p.is_raw := hraw p (fread_point_mem s.fp p (by rw [hfr])).1
        simp only [Option.map_some', hfl, hfl', if_true, Bool.false_eq_true, if_false,
          gc_flip_point_involutive hp]
        exact ih { points := if 0 ≤ node_offset g r c then
                     s.points.set (node_offset g r c).toNat p else s.points
                   fp := f2, rc := s.rc, prc := s.prc }
          (by intro q hq; exact hraw q (by rw [← hn]; exact hq))

theorem load_rows_bin_nodes (g : GEOCON_HDR) :
    ∀ (rs : List Nat) (s : LOAD_STATE), (load_rows_bin g rs s).fp.nodes = s.fp.nodes := by
  intro rs
  induction rs with
  | nil => intro s; rfl
  | cons r rs ih =>
    intro s
    simp only [load_rows_bin]
    rw [ih, load_row_nodes]

theorem load_rows_bin_swapped (g g' : GEOCON_HDR)
    (hoff : ∀ r c : Int, node_offset g' r c = node_offset g r c)
    (hcols : g'.ncols = g.ncols) (hfl : g.flip = false) (hfl' : g'.flip = true) :
    ∀ (rs : List Nat) (s : LOAD_STATE), (∀ p ∈ s.fp.nodes, p.is_raw) →
      load_rows_bin g' rs (swapped_state s) = swapped_state (load_rows_bin g rs s) := by
  intro rs
  induction rs with
  | nil => intro s _; rfl
  | cons r rs ih =>
    intro s hraw
    simp only [load_rows_bin, hcols]
    rw [load_row_swapped g g' r (hoff r) hfl hfl' _ s hraw]
    exact ih _ (by rw [load_row_nodes]; exact hraw)

theorem load_rows_ext_swapped (g g' : GEOCON_HDR) (lead trail : Int)
    (hoff : ∀ r c : Int, node_offset g' r c = node_offset g r c)
    (hcols : g'.ncols = g.ncols) (hfl : g.flip = false) (hfl' : g'.flip = true) :
    ∀ (rs : List Nat) (s : LOAD_STATE), (∀ p ∈ s.fp.nodes, p.is_raw) →
      load_rows_ext g' lead trail rs (swapped_state s) =
        swapped_state (load_rows_ext g lead trail rs s) := by
  intro rs
  induction rs with
  | nil => intro s _; rfl
  | cons r rs ih =>
    intro s hraw
    have e1 : (if lead > 0 then
        { swapped_state s with fp := fseek_cur (swapped_state s).fp (lead * SIZEOF_POINT) }
        else swapped_state s) =
        swapped_state (if lead > 0 then { s with fp := fseek_cur s.fp (lead * SIZEOF_POINT) }
          else s) := by
      split <;> rfl
    have hn1 : (if lead > 0 then { s with fp := fseek_cur s.fp (lead * SIZEOF_POINT) }
        else s).fp.nodes = s.fp.nodes := by
      split <;> rfl
    simp only [load_rows_ext, hcols, e1]
    rw [load_row_swapped g g' r (hoff r) hfl hfl' _ _ (by rw [hn1]; exact hraw)]
    have hn2 : (load_row g (r : Int) (List.range g.ncols.toNat)
        (if lead > 0 then { s with fp := fseek_cur s.fp (lead * SIZEOF_POINT) } else s)).fp.nodes =
        s.fp.nodes := by
      rw [load_row_nodes, hn1]
    generalize load_row g (r : Int) (List.range g.ncols.toNat)
      (if lead > 0 then { s with fp := fseek_cur s.fp (lead * SIZEOF_POINT) } else s) = s2
      at hn2 ⊢
    have e2 : (if trail > 0 then
        { swapped_state s2 with fp := fseek_cur (swapped_state s2).fp (trail * SIZEOF_POINT) }
        else swapped_state s2) =
        swapped_state (if trail > 0 then
          { s2 with fp := fseek_cur s2.fp (trail * SIZEOF_POINT) } else s2) := by
      split <;> rfl
    have hn3 : (if trail > 0 then { s2 with fp := fseek_cur s2.fp (trail * SIZEOF_POINT) }
        else s2).fp.nodes = s2.fp.nodes := by
      split <;> rfl
    rw [e2]
    exact ih _ (by rw [hn3, hn2]; exact hraw)

theorem gc_adjust_extent_rc_of (h : GEOCON_HDR) (e : GEOCON_EXTENT) (b : Bool) (prc : Int)
    (c1 : (GEOCON_GE e.slat e.nlat || GEOCON_GE e.wlon e.elon) = false)
    (c2 : (GEOCON_GE e.slat h.lat_max || GEOCON_LE e.nlat h.lat_min ||
      GEOCON_GE e.wlon h.lon_max || GEOCON_LE e.elon h.lon_min) = false) :
    (gc_adjust_extent h (some e) b prc).rc = 0 := by
  simp only [gc_adjust_extent, c1, c2, Bool.false_eq_true, if_false]

/-- The crop does not look at `flip` or at the stream. -/
theorem gc_adjust_extent_swapped (h : GEOCON_HDR) (ext : Option GEOCON_EXTENT) (prc : Int) :
    gc_adjust_extent (swapped_hdr h) ext true prc =
      { rc := (gc_adjust_extent h ext true prc).rc
        prc := (gc_adjust_extent h ext true prc).prc
        hdr := swapped_hdr (gc_adjust_extent h ext true prc).hdr
        skip_south := (gc_adjust_extent h ext true prc).skip_south
        skip_north := (gc_adjust_extent h ext true prc).skip_north
        skip_west := (gc_adjust_extent h ext true prc).skip_west
        skip_east := (gc_adjust_extent h ext true prc).skip_east } := by
  cases ext with
  | none => rfl
  | some e =>
    by_cases hrc : (gc_adjust_extent h (some e) true prc).rc = 0
    · obtain ⟨c1, c2⟩ := gc_adjust_extent_accepted h e true prc hrc
      have hrc' : (gc_adjust_extent (swapped_hdr h) (some e) true prc).rc = 0 :=
        gc_adjust_extent_rc_of (swapped_hdr h) e true prc c1 c2
      rw [gc_adjust_extent_eq (swapped_hdr h) e prc hrc', gc_adjust_extent_eq h e prc hrc]
      rfl
    · have hrc' : (gc_adjust_extent (swapped_hdr h) (some e) true prc).rc ≠ 0 := by
        intro h0
        obtain ⟨c1, c2⟩ := gc_adjust_extent_accepted (swapped_hdr h) e true prc h0
        exact hrc (gc_adjust_extent_rc_of h e true prc c1 c2)
      rw [gc_adjust_extent_error (swapped_hdr h) (some e) true prc hrc',
        gc_adjust_extent_error h (some e) true prc hrc]

theorem node_offset_swapped (g : GEOCON_HDR) (r c : Int) :
    node_offset (swapped_hdr g) r c = node_offset g r c := rfl

theorem gc_load_data_ext_swapped (env : ENV) (g : GEOCON_HDR) (ext : Option GEOCON_EXTENT)
    (prc : Int) (hfl : g.flip = false)
    (hraw : ∀ f, g.fp = some f → ∀ p ∈ f.nodes, p.is_raw) :
    gc_load_data_ext env (swapped_hdr g) ext prc =
      { rc := (gc_load_data_ext env g ext prc).rc
        prc := (gc_load_data_ext env g ext prc).prc
        hdr := swapped_hdr (gc_load_data_ext env g ext prc).hdr } := by
  obtain ⟨_, k2, _, k4, _⟩ := gc_adjust_extent_keeps g ext prc
  simp only [gc_load_data_ext, gc_adjust_extent_swapped g ext prc]
  generalize gc_adjust_extent g ext true prc = a at k2 k4 ⊢
  by_cases hrc : a.rc ≠ 0
  · rw [if_pos hrc, if_pos hrc]
  · rw [if_neg hrc, if_neg hrc]
    rw [show (swapped_hdr a.hdr).nrows = a.hdr.nrows from rfl,
      show (swapped_hdr a.hdr).ncols = a.hdr.ncols from rfl,
      show (swapped_hdr a.hdr).fp = a.hdr.fp.map swapped_file from rfl,
      show (swapped_hdr a.hdr).lat_dir = a.hdr.lat_dir from rfl,
      show (swapped_hdr a.hdr).lon_dir = a.hdr.lon_dir from rfl,
      show (swapped_hdr a.hdr).fhdr = a.hdr.fhdr from rfl]
    cases env.gc_memalloc (a.hdr.nrows * a.hdr.ncols) with
    | none =>
      cases a.hdr.fp <;> rfl
    | some blk =>
      cases hfp : a.hdr.fp with
      | none => rfl
      | some f =>
        have hfr : ∀ p ∈ f.nodes, p.is_raw := hraw f (k4.symm.trans hfp)
        simp only [Option.map_some']
        generalize (if a.hdr.lat_dir = GEOCON_LAT_S_TO_N then a.skip_south
          else a.skip_north) = off0
        have e1 : (if off0 > 0 then
            fseek_cur (swapped_file f) (off0 * (a.hdr.fhdr.ncols * SIZEOF_POINT))
            else swapped_file f) =
            swapped_file (if off0 > 0 then
              fseek_cur f (off0 * (a.hdr.fhdr.ncols * SIZEOF_POINT)) else f) := by
          split <;> rfl
        have hn1 : (if off0 > 0 then
            fseek_cur f (off0 * (a.hdr.fhdr.ncols * SIZEOF_POINT)) else f).nodes =
            f.nodes := by
          split <;> rfl
        rw [e1]
        generalize (if off0 > 0 then
            fseek_cur f (off0 * (a.hdr.fhdr.ncols * SIZEOF_POINT)) else f) = f1 at hn1 ⊢
        have hs := load_rows_ext_swapped a.hdr (swapped_hdr a.hdr)
          (if a.hdr.lon_dir = GEOCON_LON_W_TO_E then a.skip_west else a.skip_east)
          (if a.hdr.lon_dir = GEOCON_LON_W_TO_E then a.skip_east else a.skip_west)
          (node_offset_swapped a.hdr) rfl (k2.trans hfl) rfl
          (List.range a.hdr.nrows.toNat) { points := blk, fp := f1, rc := 0, prc := a.prc }
          (by rw [hn1]; exact hfr)
        rw [show ({ points := blk, fp := swapped_file f1, rc := 0, prc := a.prc } :
          LOAD_STATE) = swapped_state { points := blk, fp := f1, rc := 0, prc := a.prc }
          from rfl, hs]
        rfl

/-- The data load of the byte-reversed file with `flip` set builds what the data load of the
file itself builds with `flip` clear. -/
theorem gc_load_data_bin_swapped (env : ENV) (g : GEOCON_HDR) (ext : Option GEOCON_EXTENT)
    (prc : Int) (hfl : g.flip = false)
    (hraw : ∀ f, g.fp = some f → ∀ p ∈ f.nodes, p.is_raw) :
    gc_load_data_bin env (swapped_hdr g) ext prc =
      { rc := (gc_load_data_bin env g ext prc).rc
        prc := (gc_load_data_bin env g ext prc).prc
        hdr := swapped_hdr (gc_load_data_bin env g ext prc).hdr } := by
  by_cases he : gc_extent_is_empty ext = true
  · simp only [gc_load_data_bin, he, Bool.not_true, Bool.false_eq_true, if_false]
    rw [show (swapped_hdr g).nrows = g.nrows from rfl, show (swapped_hdr g).ncols = g.ncols
      from rfl, show (swapped_hdr g).fp = g.fp.map swapped_file from rfl]
    cases env.gc_memalloc (g.nrows * g.ncols) with
    | none =>
      cases g.fp <;> rfl
    | some blk =>
      cases hfp : g.fp with
      | none => rfl
      | some f =>
        have hs := load_rows_bin_swapped g (swapped_hdr g) (node_offset_swapped g) rfl hfl rfl
          (List.range g.nrows.toNat) { points := blk, fp := f, rc := 0, prc := prc }
          (hraw f hfp)
        simp only [Option.map_some']
        rw [show ({ points := blk, fp := swapped_file f, rc := 0, prc := prc } : LOAD_STATE) =
          swapped_state { points := blk, fp := f, rc := 0, prc := prc } from rfl, hs]
        rfl
  · have e1 : gc_load_data_bin env (swapped_hdr g) ext prc =
        gc_load_data_ext env (swapped_hdr g) ext prc := by
      simp [gc_load_data_bin, he]
    have e2 : gc_load_data_bin env g ext prc = gc_load_data_ext env g ext prc := by
      simp [gc_load_data_bin, he]
    rw [e1, e2]
    exact gc_load_data_ext_swapped env g ext prc hfl hraw

/-- The header load of the byte-reversed encoding of a file with the right magic number
succeeds like the header load of the file itself and leaves the same header, with `flip`
set. -/
theorem gc_load_hdr_swapped (env : ENV) (H0 : GEOCON_HDR) (f : FILE) (fh : GEOCON_FILE_HDR)
    (prc : Int) (hft : H0.filetype = GEOCON_FILE_TYPE_BIN) (hfl : H0.flip = false)
    (hfp : H0.fp = some f) (hpos : f.pos = 0) (hfh : f.fhdr = some fh)
    (hm : fh.magic = GEOCON_HDR_MAGIC) (hraw : fh.is_raw) :
    gc_load_hdr env { H0 with fp := some (swapped_file f) } prc =
      { rc := 0, prc := prc, hdr := swapped_hdr (gc_load_hdr env H0 prc).hdr } ∧
    (gc_load_hdr env H0 prc).rc = 0 ∧ (gc_load_hdr env H0 prc).prc = prc ∧
    (gc_load_hdr env H0 prc).hdr.flip = false ∧
    (gc_load_hdr env H0 prc).hdr.filetype = GEOCON_FILE_TYPE_BIN ∧
    (∃ f1, (gc_load_hdr env H0 prc).hdr.fp = some f1 ∧ f1.nodes = f.nodes) := by
  obtain ⟨m1, m2, m3⟩ := gc_swap_int_magic
  have hbin : gc_load_hdr_bin H0 prc =
      { rc := 0, prc := prc
        hdr := { H0 with fhdr := fh
                         fp := some { f with pos := GEOCON_FILE_HDR_LEN }
                         points_start := GEOCON_FILE_HDR_LEN } } := by
    simp [gc_load_hdr_bin, hfp, hpos, hfh, hm, m3]
  have e1 : (gc_flip_hdr fh).magic = GEOCON_HDR_MAGIC_SWAPPED := by
    simp [gc_flip_hdr, hm, m1]
  have hbin' : gc_load_hdr_bin { H0 with fp := some (swapped_file f) } prc =
      { rc := 0, prc := prc
        hdr := { H0 with fhdr := fh
                         flip := true
                         fp := some { swapped_file f with pos := GEOCON_FILE_HDR_LEN }
                         points_start := GEOCON_FILE_HDR_LEN } } := by
    simp [gc_load_hdr_bin, swapped_file, hpos, hfh, e1, gc_flip_hdr_involutive hraw, hm]
  refine ⟨?_, ?_, ?_, ?_, ?_, ?_⟩
  · have hft' : ({ H0 with fp := some (swapped_file f) } : GEOCON_HDR).filetype =
        GEOCON_FILE_TYPE_BIN := hft
    unfold gc_load_hdr
    rw [if_pos hft', if_pos hft, hbin, hbin']
    rfl
  · simp [gc_load_hdr, hft, hbin]
  · simp [gc_load_hdr, hft, hbin]
  · simp [gc_load_hdr, hft, hbin, hfl]
  · simp [gc_load_hdr, hft, hbin]
  · refine ⟨{ f with pos := GEOCON_FILE_HDR_LEN }, ?_, rfl⟩
    simp [gc_load_hdr, hft, hbin]

theorem gc_load_hdr_env (env env' : ENV) (h : GEOCON_HDR) (prc : Int)
    (hft : h.filetype = GEOCON_FILE_TYPE_BIN) :
    gc_load_hdr env' h prc = gc_load_hdr env h prc := by
  simp only [gc_load_hdr, hft, if_true]

theorem gc_load_data_env (env env' : ENV) (h : GEOCON_HDR) (ext : Option GEOCON_EXTENT)
    (prc : Int) (hft : h.filetype = GEOCON_FILE_TYPE_BIN)
    (hmem : env'.gc_memalloc = env.gc_memalloc) :
    gc_load_data env' h ext prc = gc_load_data env h ext prc := by
  simp only [gc_load_data, hft, if_true, gc_load_data_bin, gc_load_data_ext, hmem]

/-- C11: take a binary file with the magic number 0x47434F4E whose header fields are ints and
doubles and whose node fields are floats, and its byte-reversed encoding (every header scalar
and node float byte-swapped, so that the stored magic number reads 0x4E4F4347). Loading the
reversed file, with or without an extent, returns the error code of the load of the file
itself and, when that load returns a grid, the same grid with `flip` TRUE instead of FALSE:
the same header fields and the same node array. -/
theorem geocon_load_swapped (env : ENV) (path : String) (ext : Option GEOCON_EXTENT)
    (f : FILE) (fh : GEOCON_FILE_HDR)
    (hft : geocon_filetype (some path) = GEOCON_FILE_TYPE_BIN)
    (ha : env.alloc_hdr = true)
    (hopen : env.fopen path = some f) (hfh : f.fhdr = some fh)
    (hm : fh.magic = GEOCON_HDR_MAGIC) (hraw : fh.is_raw)
    (hnodes : ∀ p ∈ f.nodes, p.is_raw) :
    (swapped_file f).fhdr.map (fun x => x.magic) = some GEOCON_HDR_MAGIC_SWAPPED ∧
    (geocon_load { env with fopen := fun _ => some (swapped_file f) } (some path) ext
      true).prc = (geocon_load env (some path) ext true).prc ∧
    (geocon_load { env with fopen := fun _ => some (swapped_file f) } (some path) ext
      true).hdr =
      (geocon_load env (some path) ext true).hdr.map (fun g => { g with flip := true }) ∧
    (∀ g, (geocon_load env (some path) ext true).hdr = some g → g.flip = false) ∧
    (∀ (N M : Nat) (blk : List GEOCON_POINT), fh.nrows = N → fh.ncols = M →
      f.nodes.length = N * M → env.gc_memalloc ((N : Int) * (M : Int)) = some blk →
      blk.length = N * M → gc_extent_is_empty ext = true →
      (geocon_load { env with fopen := fun _ => some (swapped_file f) } (some path) ext
        true).prc = GEOCON_ERR_OK ∧
      ∃ g, (geocon_load { env with fopen := fun _ => some (swapped_file f) } (some path) ext
        true).hdr = some g ∧ g.flip = true ∧ g.nrows = fh.nrows ∧ g.ncols = fh.ncols ∧
        ∃ pts, g.points = some pts ∧ pts.length = N * M) := by
  obtain ⟨hdr0, hc, hfl0⟩ : ∃ hdr0, geocon_create env = some hdr0 ∧ hdr0.flip = false := by
    simp only [geocon_create, ha, if_true]
    exact ⟨_, rfl, rfl⟩
  have hc' : geocon_create { env with fopen := fun _ => some (swapped_file f) } =
      some hdr0 := hc
  have hN := geocon_load_bin_eq env path ext true hdr0 f hft hc hopen _ rfl
  have hS := geocon_load_bin_eq { env with fopen := fun _ => some (swapped_file f) } path ext
    true hdr0 (swapped_file f) hft hc' rfl _ rfl
  obtain ⟨s1, s2, s3, s4, s5, f1, s6, s7⟩ := gc_load_hdr_swapped env
    { hdr0 with fp := some { f with pos := 0 }, pathname := path,
                filetype := GEOCON_FILE_TYPE_BIN }
    { f with pos := 0 } fh GEOCON_ERR_OK rfl hfl0 rfl rfl hfh hm hraw
  obtain ⟨_, _, _, _, ⟨f2, w5, w6, w7⟩, w8, w9, _⟩ := gc_load_hdr_written env
    { hdr0 with fp := some { f with pos := 0 }, pathname := path,
                filetype := GEOCON_FILE_TYPE_BIN }
    fh f.nodes f.text false GEOCON_ERR_OK rfl hfl0 (by simp [hfh]) hm hraw.1.2.2.2.2.1
    hraw.1.2.2.2.2.2.1 hraw.1.2.2.2.2.2.2.1 hraw.1.2.2.2.2.2.2.2
  rw [gc_load_hdr_env env _ _ _ rfl] at hS
  have s1' : gc_load_hdr env
      { hdr0 with fp := some { swapped_file f with pos := 0 }, pathname := path,
                  filetype := GEOCON_FILE_TYPE_BIN } GEOCON_ERR_OK =
      { rc := 0, prc := GEOCON_ERR_OK
        hdr := swapped_hdr (gc_load_hdr env
          { hdr0 with fp := some { f with pos := 0 }, pathname := path,
                      filetype := GEOCON_FILE_TYPE_BIN } GEOCON_ERR_OK).hdr } := s1
  rw [s1'] at hS
  clear s1 s1'
  generalize gc_load_hdr env
    { hdr0 with fp := some { f with pos := 0 }, pathname := path,
                filetype := GEOCON_FILE_TYPE_BIN } GEOCON_ERR_OK = r
    at hN hS s2 s3 s4 s5 s6 w5 w8 w9
  have hd : gc_load_data { env with fopen := fun _ => some (swapped_file f) }
      (swapped_hdr r.hdr) ext GEOCON_ERR_OK =
      { rc := (gc_load_data env r.hdr ext r.prc).rc
        prc := (gc_load_data env r.hdr ext r.prc).prc
        hdr := swapped_hdr (gc_load_data env r.hdr ext r.prc).hdr } := by
    rw [gc_load_data_env env _ _ _ _ s5 rfl, s3]
    simp only [gc_load_data, s5, show (swapped_hdr r.hdr).filetype = r.hdr.filetype from rfl,
      if_true]
    exact gc_load_data_bin_swapped env r.hdr ext GEOCON_ERR_OK s4
      (by
        intro f2 hf2 p hp
        have : f2 = f1 := Option.some.inj (hf2.symm.trans s6)
        rw [this, s7] at hp
        exact hnodes p hp)
  simp only [ne_eq, not_true_eq_false, if_false, if_true, hd] at hS
  simp only [s2, ne_eq, not_true_eq_false, if_false, if_true] at hN
  refine ⟨by simp [swapped_file, hfh, gc_flip_hdr, hm, gc_swap_int_magic.1], ?_, ?_, ?_, ?_⟩
  · rw [hS, hN]
    split_ifs <;> rfl
  · rw [hS, hN]
    split_ifs <;> rfl
  · have hflip : (gc_load_data env r.hdr ext r.prc).hdr.flip = r.hdr.flip := by
      have hdd : gc_load_data env r.hdr ext r.prc = gc_load_data_bin env r.hdr ext r.prc := by
        simp [gc_load_data, s5]
      rw [hdd]
      by_cases he : gc_extent_is_empty ext = true
      · obtain ⟨p, q, hpq⟩ := gc_load_data_bin_hdr env r.hdr ext r.prc he
        rw [hpq]
      · have hx : gc_load_data_bin env r.hdr ext r.prc =
            gc_load_data_ext env r.hdr ext r.prc := by
          simp [gc_load_data_bin, he]
        obtain ⟨p, q, hpq⟩ := gc_load_data_ext_hdr env r.hdr ext r.prc
        rw [hx, hpq]
        exact (gc_adjust_extent_keeps r.hdr ext r.prc).2.1
    intro g hg
    rw [hN] at hg
    by_cases h1 : (gc_load_data env r.hdr ext r.prc).rc = 0
    · simp only [h1, not_true_eq_false, if_false, Option.some.injEq] at hg
      rw [← hg]
      exact hflip.trans s4
    · simp [h1] at hg

  · intro N M blk hN hM hlen hmem hblk he
    have hdd : gc_load_data env r.hdr ext r.prc = gc_load_data_bin env r.hdr ext r.prc := by
      simp [gc_load_data, s5]
    obtain ⟨d1, d2, d3⟩ := gc_load_data_bin_canonical env r.hdr ext r.prc f2 N M blk he
      (w8.trans hN) (w9.trans hM) w5 w7 (by rw [w6]; exact hlen)
      (by rw [w8, w9, hN, hM]; exact hmem) hblk
    obtain ⟨p, q, hpq⟩ := gc_load_data_bin_hdr env r.hdr ext r.prc he
    rw [← hdd] at d1 d2 d3 hpq
    rw [hS]
    simp only [s3] at d1 d2 d3 hpq ⊢
    rw [if_neg (not_not.mpr d1)]
    refine ⟨d2, _, rfl, rfl, ?_, ?_, _, d3, canonical_nodes_length _ _ N M (w8.trans hN)
      (w9.trans hM)⟩
    · show (gc_load_data env r.hdr ext GEOCON_ERR_OK).hdr.nrows = fh.nrows
      rw [hpq]; exact w8
    · show (gc_load_data env r.hdr ext GEOCON_ERR_OK).hdr.ncols = fh.ncols
      rw [hpq]; exact w9

/-- The 10x10 grid of `crop_file` read from its byte-reversed encoding: the load succeeds and
returns the grid of the native file with the swap flag set. -/
theorem geocon_load_swapped_witness :
    (geocon_load { crop_env with fopen := fun _ => some (swapped_file crop_file) }
      (some "x.gcb") none true).prc = GEOCON_ERR_OK ∧
    (geocon_load { crop_env with fopen := fun _ => some (swapped_file crop_file) }
      (some "x.gcb") none true).hdr =
      (geocon_load crop_env (some "x.gcb") none true).hdr.map
        (fun g => { g with flip := true }) ∧
    (geocon_load crop_env (some "x.gcb") none true).hdr.map (fun g => (g.flip, g.nrows)) =
      some (false, 10) := by
  have hraw : ((crop_file.fhdr).getD zero_file_hdr).is_raw := by
    simp only [GEOCON_FILE_HDR.is_raw, is_int, crop_file, zero_file_hdr, Option.getD_some,
      GEOCON_HDR_MAGIC, GEOCON_HDR_VERSION, GEOCON_FILE_HDR_LEN, GEOCON_LAT_S_TO_N,
      GEOCON_LON_W_TO_E, DBL_NINE, DBL_ONE]
    norm_num
  have hnodes : ∀ p ∈ crop_file.nodes, p.is_raw := by
    intro p hp
    simp only [crop_file, List.mem_map, List.mem_range] at hp
    obtain ⟨k, hk, rfl⟩ := hp
    simp only [GEOCON_POINT.is_raw]
    omega
  have h := geocon_load_swapped crop_env "x.gcb" none crop_file
    ((crop_file.fhdr).getD zero_file_hdr) (by decide) rfl rfl rfl rfl hraw hnodes
  refine ⟨(h.2.2.2.2 10 10 (List.replicate 100 zero_point) rfl rfl (by simp [crop_file]) rfl
    (by simp) rfl).1, h.2.2.1, ?_⟩
  decide!

/-! ### C22: the default kernel -/

/-- C22: for every integer `interp` other than BILINEAR (1), BICUBIC (2) and NATSPLINE (4) -
DEFAULT (0), BIQUADRATIC (3), negative and large values included - `gc_calculate_shifts`
returns, for every grid and query, the three results of the biquadratic kernel, the latitude
and longitude shifts divided by `horz_scale` and the height shift by `vert_scale`. -/
theorem gc_calculate_shifts_default (hdr : GEOCON_HDR) (interp : Int) (lat_deg lon_deg : ℚ)
    (h1 : interp ≠ 1) (h2 : interp ≠ 2) (h4 : interp ≠ 4) :
    gc_calculate_shifts hdr interp lat_deg lon_deg =
      { lat_shift := (gc_calculate_shifts_biquadratic hdr lat_deg lon_deg).lat_shift /
          hdr.horz_scale
        lon_shift := (gc_calculate_shifts_biquadratic hdr lat_deg lon_deg).lon_shift /
          hdr.horz_scale
        hgt_shift := (gc_calculate_shifts_biquadratic hdr lat_deg lon_deg).hgt_shift /
          hdr.vert_scale } := by
  unfold gc_calculate_shifts
  rw [if_neg (by simpa [GEOCON_INTERP_BILINEAR] using h1),
    if_neg (by simpa [GEOCON_INTERP_BICUBIC] using h2),
    if_neg (by simpa [GEOCON_INTERP_NATSPLINE] using h4)]

/-- The tag -7 on the scenario grid at the query lat = 0.5, lon = 0.5: the biquadratic
result over the scales. -/
theorem gc_calculate_shifts_default_witness :
    ((-7 : Int) ≠ 1 ∧ (-7 : Int) ≠ 2 ∧ (-7 : Int) ≠ 4) ∧
    gc_calculate_shifts scenario_grid (-7) (1 / 2) (1 / 2) =
      { lat_shift := (gc_calculate_shifts_biquadratic scenario_grid (1 / 2) (1 / 2)).lat_shift /
          scenario_grid.horz_scale
        lon_shift := (gc_calculate_shifts_biquadratic scenario_grid (1 / 2) (1 / 2)).lon_shift /
          scenario_grid.horz_scale
        hgt_shift := (gc_calculate_shifts_biquadratic scenario_grid (1 / 2) (1 / 2)).hgt_shift /
          scenario_grid.vert_scale } :=
  ⟨⟨by decide, by decide, by decide⟩,
    gc_calculate_shifts_default scenario_grid (-7) _ _ (by decide) (by decide) (by decide)⟩

/-! ### C23: the heights and the horizontal result -/

/-- The inner loop of `geocon_inverse` started on two heights: the latitude and longitude
estimates stay equal, and so does the distance of the height estimate from the input
height. -/
theorem inverse_iterate_height_free (hdr : GEOCON_HDR) (interp : Int) (lat_deg lon_deg : ℚ)
    (hm hm' : ℚ) (k : Nat) :
    ∀ st st' : INV_ITER, st.lat_next = st'.lat_next → st.lon_next = st'.lon_next →
      st.hgt_next - hm = st'.hgt_next - hm' →
      (geocon_inverse_iterate hdr interp lat_deg lon_deg hm k st).lat_next =
        (geocon_inverse_iterate hdr interp lat_deg lon_deg hm' k st').lat_next ∧
      (geocon_inverse_iterate hdr interp lat_deg lon_deg hm k st).lon_next =
        (geocon_inverse_iterate hdr interp lat_deg lon_deg hm' k st').lon_next ∧
      (geocon_inverse_iterate hdr interp lat_deg lon_deg hm k st).hgt_next - hm =
        (geocon_inverse_iterate hdr interp lat_deg lon_deg hm' k st').hgt_next - hm' := by
  induction k with
  | zero =>
    intro st st' h1 h2 h3
    exact ⟨h1, h2, h3⟩
  | succ k ih =>
    intro st st' h1 h2 h3
    have e : st.hgt_next + (gc_calculate_shifts hdr interp st.lat_next st.lon_next).hgt_shift -
        hm = st'.hgt_next +
          (gc_calculate_shifts hdr interp st'.lat_next st'.lon_next).hgt_shift - hm' := by
      rw [← h1, ← h2]; linarith
    simp only [geocon_inverse_iterate]
    rw [← h1, ← h2] at e ⊢
    rw [← e]
    split
    · exact ⟨h1, h2, h3⟩
    · apply ih
      · simp only [h1]
      · simp only [h2]
      · simp only []
        linarith

/-- The coordinate that `geocon_inverse` writes does not depend on the input height. -/
theorem inverse_coord_height_free (hdr : GEOCON_HDR) (interp : Int) (deg_factor hgt_factor : ℚ)
    (c : GEOCON_COORD) (v : Option ℚ) :
    inverse_coord hdr interp deg_factor hgt_factor c v =
      inverse_coord hdr interp deg_factor hgt_factor c none := by
  cases v with
  | none => rfl
  | some w =>
    obtain ⟨k1, k2, _⟩ := inverse_iterate_height_free hdr interp (c.lat * deg_factor)
      (gc_delta (c.lon * deg_factor)) (w * hgt_factor) 0 MAX_ITERATIONS
      { lat_next := c.lat * deg_factor, lon_next := gc_delta (c.lon * deg_factor)
        hgt_next := w * hgt_factor }
      { lat_next := c.lat * deg_factor, lon_next := gc_delta (c.lon * deg_factor), hgt_next := 0 }
      rfl rfl (by simp)
    simp only [inverse_coord, inverse_last]
    rw [k1, k2]

/-- C23: for `geocon_forward` and `geocon_inverse`, the returned count and every output
longitude/latitude pair are the same when the heights array is absent as when it is present
with arbitrary contents (exact arithmetic), and with the array absent no height is
written: the height array of the result is still the null pointer. -/
theorem heights_do_not_steer (hdr : Option GEOCON_HDR) (interp : Int)
    (deg_factor hgt_factor : ℚ) (n : Int) (coord : Option (Nat → GEOCON_COORD))
    (h : Nat → ℚ) :
    ((geocon_forward hdr interp deg_factor hgt_factor n coord (some h)).num =
        (geocon_forward hdr interp deg_factor hgt_factor n coord none).num ∧
      (∀ i, (geocon_forward hdr interp deg_factor hgt_factor n coord (some h)).coord_at i =
        (geocon_forward hdr interp deg_factor hgt_factor n coord none).coord_at i) ∧
      (geocon_forward hdr interp deg_factor hgt_factor n coord none).h = none) ∧
    ((geocon_inverse hdr interp deg_factor hgt_factor n coord (some h)).num =
        (geocon_inverse hdr interp deg_factor hgt_factor n coord none).num ∧
      (∀ i, (geocon_inverse hdr interp deg_factor hgt_factor n coord (some h)).coord_at i =
        (geocon_inverse hdr interp deg_factor hgt_factor n coord none).coord_at i) ∧
      (geocon_inverse hdr interp deg_factor hgt_factor n coord none).h = none) := by
  cases hdr with
  | none => simp [geocon_forward, geocon_inverse, XFORM_RESULT.coord_at]
  | some hd =>
    cases coord with
    | none => simp [geocon_forward, geocon_inverse, XFORM_RESULT.coord_at]
    | some c =>
      obtain ⟨f1, f2, _⟩ := geocon_forward_spec hd interp deg_factor hgt_factor n c (some h)
      obtain ⟨g1, g2, g3⟩ := geocon_forward_spec hd interp deg_factor hgt_factor n c none
      obtain ⟨i1, i2, _⟩ := geocon_inverse_spec hd interp deg_factor hgt_factor n c (some h)
      obtain ⟨j1, j2, j3⟩ := geocon_inverse_spec hd interp deg_factor hgt_factor n c none
      refine ⟨⟨by rw [f1, g1], fun i => by rw [f2 i, g2 i], ?_⟩,
        ⟨by rw [i1, j1], fun i => ?_, ?_⟩⟩
      · have := g3 0
        simpa [XFORM_RESULT.h_at] using this
      · rw [i2 i, j2 i]
        simp only [Option.map_some', Option.map_none']
        rw [inverse_coord_height_free]
      · have := j3 0
        simpa [XFORM_RESULT.h_at] using this

/-! ### C24: a query in the ghost row above the grid -/

/-- C24 (scenario 1, ghost acceptance and ramp to zero): on the 2x2 scenario grid,
`geocon_forward` with bilinear interpolation and both factors 1 on the single point
lat = 1.5, lon = 0.5 (above the grid, inside the ghost envelope) returns count 1. The kernel
reads the top grid row (row 1: nodes 0 and 1) and the ghost row above it (row 2, fetched as
zero), and every shift is 0.25: half of the 0.5 that the kernel gives on the top row itself
at lat = 1, lon = 0.5. The point becomes lat = 1.75, lon = 0.75, height h + 0.25. -/
theorem forward_bilinear_ghost_row (h : ℚ) :
    (gc_get_shift scenario_grid 1 0 = ⟨0, 0, 0⟩ ∧
      gc_get_shift scenario_grid 1 1 = ⟨FLT_ONE, FLT_ONE, FLT_ONE⟩ ∧
      gc_get_shift scenario_grid 2 0 = ⟨0, 0, 0⟩ ∧ gc_get_shift scenario_grid 2 1 = ⟨0, 0, 0⟩) ∧
    gc_calculate_shifts_bilinear scenario_grid (3 / 2) (1 / 2) =
      { lat_shift := bilinear_channel 0 1 0 0 (1 / 2) (1 / 2)
        lon_shift := bilinear_channel 0 1 0 0 (1 / 2) (1 / 2)
        hgt_shift := bilinear_channel 0 1 0 0 (1 / 2) (1 / 2) } ∧
    gc_calculate_shifts scenario_grid GEOCON_INTERP_BILINEAR (3 / 2) (1 / 2) =
      ⟨1 / 4, 1 / 4, 1 / 4⟩ ∧
    gc_calculate_shifts scenario_grid GEOCON_INTERP_BILINEAR 1 (1 / 2) =
      ⟨1 / 2, 1 / 2, 1 / 2⟩ ∧
    (geocon_forward (some scenario_grid) GEOCON_INTERP_BILINEAR 1 1 1
      (some (fun _ => ⟨1 / 2, 3 / 2⟩)) (some (fun _ => h))).num = 1 ∧
    (geocon_forward (some scenario_grid) GEOCON_INTERP_BILINEAR 1 1 1
      (some (fun _ => ⟨1 / 2, 3 / 2⟩)) (some (fun _ => h))).coord_at 0 =
        some { lat := 7 / 4, lon := 3 / 4 } ∧
    (geocon_forward (some scenario_grid) GEOCON_INTERP_BILINEAR 1 1 1
      (some (fun _ => ⟨1 / 2, 3 / 2⟩)) (some (fun _ => h))).h_at 0 = some (h + 1 / 4) := by
  have hd : gc_delta (1 / 2) = 1 / 2 := gc_delta_of_small (by norm_num) (by norm_num)
  have hd2 : gc_delta (3 / 4) = 3 / 4 := gc_delta_of_small (by norm_num) (by norm_num)
  have hgi : grid_index (1 / 2) = 0 := by
    norm_num [grid_index, int_cast]
  have hgi1 : grid_index (3 / 2) = 1 := by
    norm_num [grid_index, int_cast]
  have hgi2 : grid_index 1 = 1 := by
    norm_num [grid_index, int_cast]
  obtain ⟨_, _, n10, n11⟩ := scenario_nodes
  have n20 : gc_get_shift scenario_grid 2 0 = ⟨0, 0, 0⟩ := rfl
  have n21 : gc_get_shift scenario_grid 2 1 = ⟨0, 0, 0⟩ := rfl
  have e0 : (scenario_grid.lon_min, scenario_grid.lon_delta, scenario_grid.lat_min,
      scenario_grid.lat_delta, scenario_grid.horz_scale, scenario_grid.vert_scale) =
      (0, 1, 0, 1, 1, 1) := rfl
  simp only [Prod.mk.injEq] at e0
  obtain ⟨e1, e2, e3, e4, e5, e6⟩ := e0
  have hker : gc_calculate_shifts_bilinear scenario_grid (3 / 2) (1 / 2) =
      { lat_shift := bilinear_channel 0 1 0 0 (1 / 2) (1 / 2)
        lon_shift := bilinear_channel 0 1 0 0 (1 / 2) (1 / 2)
        hgt_shift := bilinear_channel 0 1 0 0 (1 / 2) (1 / 2) } := by
    simp only [gc_calculate_shifts_bilinear, e1, e2, e3, e4, sub_zero, div_one, hgi, hgi1,
      Int.cast_zero, Int.cast_one, zero_add, n10, n11, show ((1 : Int) + 1) = 2 from rfl,
      n20, n21, flt_val_zero, flt_val_one]
    norm_num
  have hsh : gc_calculate_shifts scenario_grid GEOCON_INTERP_BILINEAR (3 / 2) (1 / 2) =
      ⟨1 / 4, 1 / 4, 1 / 4⟩ := by
    simp only [gc_calculate_shifts, GEOCON_INTERP_BILINEAR, if_true, hker, e5, e6,
      bilinear_channel]
    norm_num
  have hrow : gc_calculate_shifts scenario_grid GEOCON_INTERP_BILINEAR 1 (1 / 2) =
      ⟨1 / 2, 1 / 2, 1 / 2⟩ := by
    simp only [gc_calculate_shifts, GEOCON_INTERP_BILINEAR, if_true,
      gc_calculate_shifts_bilinear, e1, e2, e3, e4, e5, e6, sub_zero, div_one, hgi, hgi2,
      Int.cast_zero, Int.cast_one, zero_add, n10, n11, bilinear_channel, flt_val_zero,
      flt_val_one, show ((1 : Int) + 1) = 2 from rfl, n20, n21]
    norm_num
  have hg : ghost_gate scenario_grid 1 ⟨1 / 2, 3 / 2⟩ = true := by
    simp only [ghost_gate, mul_one, hd]
    norm_num [scenario_grid, GEOCON_GT, GEOCON_LT, GEOCON_LE, GEOCON_GE, GEOCON_LE_EPS,
      GEOCON_GE_EPS, GEOCON_EQ_EPS, GEOCON_ABS, GEOCON_EPS]
  obtain ⟨f1, f2, f3⟩ := geocon_forward_spec scenario_grid GEOCON_INTERP_BILINEAR 1 1 1
    (fun _ => ⟨1 / 2, 3 / 2⟩) (some (fun _ => h))
  refine ⟨⟨n10, n11, n20, n21⟩, hker, hsh, hrow, ?_, ?_, ?_⟩
  · rw [f1, show Int.toNat 1 = 1 from rfl, gated_count_one]
    simp only [hg, if_true]
  · rw [f2 0]
    simp only [hg, forward_coord, mul_one, hd, hsh, div_one]
    norm_num [hd2]
  · rw [f3 0]
    simp only [hg, forward_hgt, mul_one, hd, hsh, div_one]
    norm_num

/-! ### C26: byte reversal -/

theorem testBit_byte (x k j : Nat) :
    (x / 2 ^ k % 2 ^ 8).testBit j = (decide (j < 8) && x.testBit (k + j)) := by
  rw [Nat.testBit_mod_two_pow, ← Nat.shiftRight_eq_div_pow, Nat.testBit_shiftRight]

/-- The four bytes of `SWAP4 a` are the four low bytes of `a` in reverse order. -/
theorem SWAP4_bytes (a : Nat) :
    SWAP4 a / 2 ^ 0 % 2 ^ 8 = a / 2 ^ 24 % 2 ^ 8 ∧ SWAP4 a / 2 ^ 8 % 2 ^ 8 = a / 2 ^ 16 % 2 ^ 8 ∧
    SWAP4 a / 2 ^ 16 % 2 ^ 8 = a / 2 ^ 8 % 2 ^ 8 ∧ SWAP4 a / 2 ^ 24 % 2 ^ 8 = a / 2 ^ 0 % 2 ^ 8 := by
  refine ⟨?_, ?_, ?_, ?_⟩ <;>
  · apply Nat.eq_of_testBit_eq
    intro j
    rw [testBit_byte, testBit_byte, SWAP4_testBit]
    by_cases hj : j < 8
    · simp only [hj, decide_True, Bool.true_and]
      split_ifs <;> first | omega | (congr 1; omega)
    · simp [hj]

theorem word32_bytes (b3 b2 b1 b0 : Fin 256) :
    word32 b3 b2 b1 b0 / 2 ^ 0 % 2 ^ 8 = b0.val ∧ word32 b3 b2 b1 b0 / 2 ^ 8 % 2 ^ 8 = b1.val ∧
    word32 b3 b2 b1 b0 / 2 ^ 16 % 2 ^ 8 = b2.val ∧
    word32 b3 b2 b1 b0 / 2 ^ 24 % 2 ^ 8 = b3.val ∧ word32 b3 b2 b1 b0 < 2 ^ 32 := by
  have l0 := b0.isLt
  have l1 := b1.isLt
  have l2 := b2.isLt
  have l3 := b3.isLt
  unfold word32
  refine ⟨?_, ?_, ?_, ?_, ?_⟩ <;> omega

/-- A number below 2^32 is the word of its four bytes. -/
theorem eq_word32_of_bytes (s : Nat) (b3 b2 b1 b0 : Fin 256) (hs : s < 2 ^ 32)
    (h0 : s / 2 ^ 0 % 2 ^ 8 = b0.val) (h1 : s / 2 ^ 8 % 2 ^ 8 = b1.val)
    (h2 : s / 2 ^ 16 % 2 ^ 8 = b2.val) (h3 : s / 2 ^ 24 % 2 ^ 8 = b3.val) :
    s = word32 b3 b2 b1 b0 := by
  unfold word32
  omega

theorem SWAP4_word32 (b3 b2 b1 b0 : Fin 256) :
    SWAP4 (word32 b3 b2 b1 b0) = word32 b0 b1 b2 b3 := by
  obtain ⟨h0, h1, h2, h3⟩ := SWAP4_bytes (word32 b3 b2 b1 b0)
  obtain ⟨w0, w1, w2, w3, _⟩ := word32_bytes b3 b2 b1 b0
  exact eq_word32_of_bytes _ _ _ _ _ (SWAP4_lt _) (by rw [h0, w3]) (by rw [h1, w2])
    (by rw [h2, w1]) (by rw [h3, w0])

theorem int_of_word_mod (u : Nat) (hu : u < 2 ^ 32) : (int_of_word u % 2 ^ 32).toNat = u := by
  unfold int_of_word
  split <;> omega

theorem gc_swap_int_word (u : Nat) (hu : u < 2 ^ 32) :
    gc_swap_int (int_of_word u) = int_of_word (SWAP4 u) := by
  unfold gc_swap_int
  simp only [int_of_word_mod u hu]
  rfl

theorem gc_swap_dbl_word64 (b7 b6 b5 b4 b3 b2 b1 b0 : Fin 256) :
    gc_swap_dbl (word64 b7 b6 b5 b4 b3 b2 b1 b0) = word64 b0 b1 b2 b3 b4 b5 b6 b7 := by
  have hlo := (word32_bytes b3 b2 b1 b0).2.2.2.2
  have hhi := (word32_bytes b7 b6 b5 b4).2.2.2.2
  have e1 : word64 b7 b6 b5 b4 b3 b2 b1 b0 % 2 ^ 32 = word32 b3 b2 b1 b0 := by
    unfold word64; omega
  have e2 : word64 b7 b6 b5 b4 b3 b2 b1 b0 / 2 ^ 32 % 2 ^ 32 = word32 b7 b6 b5 b4 := by
    unfold word64; omega
  unfold gc_swap_dbl
  simp only [e1, e2, SWAP4_word32]
  rfl

/-- C26: `SWAP4` and `gc_swap_int` map every 32-bit word with the bytes b3 b2 b1 b0 to the
word with the bytes b0 b1 b2 b3, and `gc_swap_dbl` maps every 64-bit value to the value with
its 8 bytes in reverse order, by swapping each 32-bit half and exchanging the two halves;
`gc_swap_int` and `gc_swap_dbl` are their own inverses, and
SWAP4(0x47434F4E) = 0x4E4F4347. -/
theorem byte_swap_reverses_bytes :
    (∀ b3 b2 b1 b0 : Fin 256,
      SWAP4 (word32 b3 b2 b1 b0) = word32 b0 b1 b2 b3 ∧
      gc_swap_int (int_of_word (word32 b3 b2 b1 b0)) = int_of_word (word32 b0 b1 b2 b3) ∧
      gc_swap_int (gc_swap_int (int_of_word (word32 b3 b2 b1 b0))) =
        int_of_word (word32 b3 b2 b1 b0)) ∧
    (∀ b7 b6 b5 b4 b3 b2 b1 b0 : Fin 256,
      gc_swap_dbl (word64 b7 b6 b5 b4 b3 b2 b1 b0) = word64 b0 b1 b2 b3 b4 b5 b6 b7 ∧
      gc_swap_dbl (word64 b7 b6 b5 b4 b3 b2 b1 b0) =
        SWAP4 (word32 b3 b2 b1 b0) * 2 ^ 32 + SWAP4 (word32 b7 b6 b5 b4) ∧
      gc_swap_dbl (gc_swap_dbl (word64 b7 b6 b5 b4 b3 b2 b1 b0)) =
        word64 b7 b6 b5 b4 b3 b2 b1 b0) ∧
    SWAP4 0x47434F4E = 0x4E4F4347 := by
  refine ⟨fun b3 b2 b1 b0 => ?_, fun b7 b6 b5 b4 b3 b2 b1 b0 => ?_, by decide⟩
  · have h1 := gc_swap_int_word _ (word32_bytes b3 b2 b1 b0).2.2.2.2
    have h2 := gc_swap_int_word _ (word32_bytes b0 b1 b2 b3).2.2.2.2
    rw [SWAP4_word32] at h1 h2
    exact ⟨SWAP4_word32 b3 b2 b1 b0, h1, by rw [h1, h2]⟩
  · refine ⟨gc_swap_dbl_word64 _ _ _ _ _ _ _ _, ?_, ?_⟩
    · rw [gc_swap_dbl_word64, SWAP4_word32, SWAP4_word32]
      rfl
    · rw [gc_swap_dbl_word64, gc_swap_dbl_word64]

/-! ### C27: the range of `gc_delta` -/

theorem c_fmod_180_range (x : ℚ) : -180 < c_fmod x 180 ∧ c_fmod x 180 < 180 := by
  have hx : x = 180 * (x / 180) := by field_simp
  unfold c_fmod int_cast
  split
  · have h1 := Int.floor_le (x / 180)
    have h2 := Int.lt_floor_add_one (x / 180)
    constructor <;> linarith
  · have h1 := Int.le_ceil (x / 180)
    have h2 := Int.ceil_lt_add_one (x / 180)
    constructor <;> linarith

/-- The two ways out of `gc_delta`: a value whose absolute value passes `GEOCON_EQ` with 180
is returned as folded, any other is replaced by its `fmod` by 180. -/
theorem gc_delta_eq (d : ℚ) :
    gc_delta d = if GEOCON_EQ (GEOCON_ABS (fold_360 d)) 180 = true then fold_360 d
      else c_fmod (fold_360 d) 180 := by
  obtain ⟨h1, h2⟩ := c_fmod_180_range (fold_360 d)
  have habs : GEOCON_ABS (c_fmod (fold_360 d) 180) ≤ 180 := by
    rw [GEOCON_ABS_eq_abs, abs_le]
    constructor <;> linarith
  unfold gc_delta
  simp only []
  rw [show (if d < -180 then d + 360 else if d > 180 then d - 360 else d) = fold_360 d from rfl]
  by_cases hq : GEOCON_EQ (GEOCON_ABS (fold_360 d)) 180 = true
  · simp [hq]
  · simp only [hq, Bool.not_eq_true] at hq ⊢
    simp [hq, habs]

theorem GEOCON_EQ_180_bound (a : ℚ) (ha : 0 ≤ a) (h : GEOCON_EQ a 180 = true) :
    a ≤ 180 + 182 * GEOCON_EPS := by
  have he : (0 : ℚ) < GEOCON_EPS := by norm_num [GEOCON_EPS]
  have he2 : GEOCON_EPS ≤ 1 / 2 ^ 51 := le_refl _
  simp only [GEOCON_EQ, GEOCON_EQ_EPS, Bool.or_eq_true, decide_eq_true_eq] at h
  rcases h with h | h
  · rw [h]; linarith
  · rw [GEOCON_ABS_eq_abs, GEOCON_ABS_eq_abs, GEOCON_ABS_eq_abs, abs_of_nonneg ha,
      abs_of_nonneg (by norm_num : (0 : ℚ) ≤ 180)] at h
    have h1 := (abs_le.mp h).2
    have e : GEOCON_EPS = 1 / 2 ^ 51 := rfl
    rw [e] at h1 ⊢
    norm_num at h1 ⊢
    linarith

/-- C27, as the code has it: for every d, `gc_delta d` lies strictly between -180 and +180,
or it is the folded value itself, whose absolute value `GEOCON_EQ` equates with 180 and which
is returned as it is (so -180 stays -180 and 180 stays 180). In every case its absolute value
is at most 180 + 182 * GEOCON_EPS, and for -540 <= d <= 540 it lies in the closed interval
[-180, +180]. -/
theorem gc_delta_range (d : ℚ) :
    ((-180 < gc_delta d ∧ gc_delta d < 180) ∨
      (GEOCON_EQ (GEOCON_ABS (fold_360 d)) 180 = true ∧ gc_delta d = fold_360 d)) ∧
    |gc_delta d| ≤ 180 + 182 * GEOCON_EPS ∧
    ((-540 ≤ d ∧ d ≤ 540) → -180 ≤ gc_delta d ∧ gc_delta d ≤ 180) ∧
    gc_delta (-180) = -180 ∧ gc_delta 180 = 180 := by
  have he : (0 : ℚ) < GEOCON_EPS := by norm_num [GEOCON_EPS]
  obtain ⟨h1, h2⟩ := c_fmod_180_range (fold_360 d)
  have hfold : (-540 ≤ d ∧ d ≤ 540) → -180 ≤ fold_360 d ∧ fold_360 d ≤ 180 := by
    rintro ⟨hl, hu⟩
    unfold fold_360
    split_ifs <;> constructor <;> linarith
  refine ⟨?_, ?_, ?_, gc_delta_of_abs_le (by norm_num [abs_le]),
    gc_delta_of_abs_le (by norm_num [abs_le])⟩
  · rw [gc_delta_eq]
    by_cases hq : GEOCON_EQ (GEOCON_ABS (fold_360 d)) 180 = true
    · rw [if_pos hq]; exact Or.inr ⟨hq, rfl⟩
    · rw [if_neg hq]; exact Or.inl ⟨h1, h2⟩
  · rw [gc_delta_eq]
    by_cases hq : GEOCON_EQ (GEOCON_ABS (fold_360 d)) 180 = true
    · rw [if_pos hq]
      have := GEOCON_EQ_180_bound _ (by rw [GEOCON_ABS_eq_abs]; exact abs_nonneg _) hq
      rwa [GEOCON_ABS_eq_abs] at this
    · rw [if_neg hq, abs_le]
      constructor <;> linarith
  · intro hd
    obtain ⟨f1, f2⟩ := hfold hd
    rw [gc_delta_eq]
    by_cases hq : GEOCON_EQ (GEOCON_ABS (fold_360 d)) 180 = true
    · rw [if_pos hq]; exact ⟨f1, f2⟩
    · rw [if_neg hq]; constructor <;> linarith

/-- At d = 200 (folded to -160) the result lies in [-180, 180]. -/
theorem gc_delta_range_witness :
    ((-540 : ℚ) ≤ 200 ∧ (200 : ℚ) ≤ 540) ∧ -180 ≤ gc_delta 200 ∧ gc_delta 200 ≤ 180 :=
  ⟨by norm_num, (gc_delta_range 200).2.2.1 (by norm_num)⟩

/-- Counterexample to C27 as stated: `gc_delta (-180)` is -180, which is outside the
half-open interval (-180, +180]. -/
theorem gc_delta_minus_180 :
    gc_delta (-180) = -180 ∧ ¬ (-180 < gc_delta (-180) ∧ gc_delta (-180) ≤ 180) := by
  have h : gc_delta (-180) = -180 := gc_delta_of_abs_le (by norm_num [abs_le])
  refine ⟨h, ?_⟩
  rw [h]
  norm_num

/-! ### C28: the cell of a query -/

theorem grid_index_eq_floor {x : ℚ} (h : -1 < x) : grid_index x = ⌊x⌋ := by
  unfold grid_index
  split
  · symm
    rw [Int.floor_eq_iff]
    constructor
    · push_cast; linarith
    · push_cast; linarith
  · unfold int_cast
    rw [if_pos (by linarith)]

theorem kernels_at_grid_index (hdr : GEOCON_HDR) (lat_deg lon_deg : ℚ) :
    gc_calculate_shifts_bilinear hdr lat_deg lon_deg =
      bilinear_at hdr (grid_index ((lat_deg - hdr.lat_min) / hdr.lat_delta))
        (grid_index ((lon_deg - hdr.lon_min) / hdr.lon_delta))
        ((lon_deg - hdr.lon_min) / hdr.lon_delta -
          grid_index ((lon_deg - hdr.lon_min) / hdr.lon_delta))
        ((lat_deg - hdr.lat_min) / hdr.lat_delta -
          grid_index ((lat_deg - hdr.lat_min) / hdr.lat_delta)) ∧
    gc_calculate_shifts_bicubic hdr lat_deg lon_deg =
      bicubic_at hdr (grid_index ((lat_deg - hdr.lat_min) / hdr.lat_delta))
        (grid_index ((lon_deg - hdr.lon_min) / hdr.lon_delta))
        ((lon_deg - hdr.lon_min) / hdr.lon_delta -
          grid_index ((lon_deg - hdr.lon_min) / hdr.lon_delta))
        ((lat_deg - hdr.lat_min) / hdr.lat_delta -
          grid_index ((lat_deg - hdr.lat_min) / hdr.lat_delta)) ∧
    gc_calculate_shifts_natspline hdr lat_deg lon_deg =
      natspline_at hdr (grid_index ((lat_deg - hdr.lat_min) / hdr.lat_delta))
        (grid_index ((lon_deg - hdr.lon_min) / hdr.lon_delta))
        ((lon_deg - hdr.lon_min) / hdr.lon_delta -
          grid_index ((lon_deg - hdr.lon_min) / hdr.lon_delta))
        ((lat_deg - hdr.lat_min) / hdr.lat_delta -
          grid_index ((lat_deg - hdr.lat_min) / hdr.lat_delta)) := by
  refine ⟨rfl, rfl, ?_⟩
  simp only [gc_calculate_shifts_natspline, natspline_at, natspline_weights]

theorem biquadratic_1d_at_two (lft cen rgt : ℚ) :
    biquadratic_1d lft cen rgt 2 ((1 / 2 : ℚ) * (2 - 1)) =
      lft + flt_sub cen lft + flt_sub rgt cen := by
  simp only [biquadratic_1d]
  ring

theorem toUpper_toNat (c : Char) :
    c.toUpper.toNat = if 97 ≤ c.toNat ∧ c.toNat ≤ 122 then c.toNat - 32 else c.toNat := by
  unfold Char.toUpper
  simp only [ge_iff_le]
  split
  · rename_i h
    have hv : (c.toNat - 32).isValidChar := by
      left
      omega
    rw [Char.ofNat, dif_pos hv]
    rfl
  · rfl

theorem c_toupper_eq_upper (c : Char) (k : Nat) (h1 : 65 ≤ k) (h2 : k ≤ 90) :
    c_toupper c = (k : Int) ↔ (c.toNat = k + 32 ∨ c.toNat = k) := by
  unfold c_toupper
  rw [toUpper_toNat]
  split <;> omega

theorem c_toupper_eq_zero (c : Char) : c_toupper c = 0 ↔ c.toNat = 0 := by
  unfold c_toupper
  rw [toUpper_toNat]
  split <;> omega

theorem char_eq_iff (c d : Char) : c = d ↔ c.toNat = d.toNat := by
  constructor
  · intro h; rw [h]
  · intro h
    apply Char.ext
    apply UInt32.ext
    exact h

/-- `gc_strcmp_i` against the empty string: 0 exactly for the empty string, on C strings. -/
theorem gc_strcmp_i_nil (s : List Char) (hs : is_c_string s) :
    gc_strcmp_i s [] = 0 ↔ s = [] := by
  cases s with
  | nil => simp [gc_strcmp_i]
  | cons c cs =>
    have hc : c ≠ Char.ofNat 0 := hs c (List.mem_cons_self _ _)
    have h0 : ¬ c.toNat = 0 := by
      intro h
      exact hc ((char_eq_iff _ _).mpr h)
    simp only [gc_strcmp_i, sub_zero, c_toupper_eq_zero, h0, false_iff]
    simp

/-- `gc_strcmp_i` against a string that starts with the capital or small letter of code
`k` or `k + 32`. -/
theorem gc_strcmp_i_cons (s : List Char) (d : Char) (ds : List Char) (k : Nat)
    (h1 : 65 ≤ k) (h2 : k ≤ 90) (hd : c_toupper d = (k : Int)) :
    gc_strcmp_i s (d :: ds) = 0 ↔
      ∃ c cs, s = c :: cs ∧ (c.toNat = k + 32 ∨ c.toNat = k) ∧ gc_strcmp_i cs ds = 0 := by
  cases s with
  | nil =>
    simp only [gc_strcmp_i, hd]
    constructor
    · intro h; omega
    · rintro ⟨c, cs, h, _⟩; cases h
  | cons c cs =>
    simp only [gc_strcmp_i, hd, ne_eq, ite_not]
    constructor
    · intro h
      by_cases he : c_toupper c - (k : Int) = 0
      · rw [if_pos he] at h
        exact ⟨c, cs, rfl, (c_toupper_eq_upper c k h1 h2).mp (by omega), h⟩
      · rw [if_neg he] at h
        exact absurd h he
    · rintro ⟨c', cs', h, hk, hr⟩
      cases h
      have he : c_toupper c - (k : Int) = 0 := by
        have := (c_toupper_eq_upper c k h1 h2).mpr hk
        omega
      rw [if_pos he]
      exact hr

theorem gc_strcmp_i_three (ext : List Char) (hs : is_c_string ext) (d1 d2 d3 : Char)
    (k1 k2 k3 : Nat) (a1 : 65 ≤ k1) (b1 : k1 ≤ 90) (a2 : 65 ≤ k2) (b2 : k2 ≤ 90)
    (a3 : 65 ≤ k3) (b3 : k3 ≤ 90) (e1 : c_toupper d1 = (k1 : Int))
    (e2 : c_toupper d2 = (k2 : Int)) (e3 : c_toupper d3 = (k3 : Int)) :
    gc_strcmp_i ext [d1, d2, d3] = 0 ↔
      ∃ c1 c2 c3 : Char, ext = [c1, c2, c3] ∧ (c1.toNat = k1 + 32 ∨ c1.toNat = k1) ∧
        (c2.toNat = k2 + 32 ∨ c2.toNat = k2) ∧ (c3.toNat = k3 + 32 ∨ c3.toNat = k3) := by
  rw [gc_strcmp_i_cons ext d1 [d2, d3] k1 a1 b1 e1]
  constructor
  · rintro ⟨c1, r1, h1, g1, h⟩
    rw [gc_strcmp_i_cons r1 d2 [d3] k2 a2 b2 e2] at h
    obtain ⟨c2, r2, h2, g2, h⟩ := h
    rw [gc_strcmp_i_cons r2 d3 [] k3 a3 b3 e3] at h
    obtain ⟨c3, r3, h3, g3, h⟩ := h
    have hs3 : is_c_string r3 := by
      intro c hc
      apply hs c
      rw [h1, h2, h3]
      simp [hc]
    rw [gc_strcmp_i_nil r3 hs3] at h
    exact ⟨c1, c2, c3, by rw [h1, h2, h3, h], g1, g2, g3⟩
  · rintro ⟨c1, c2, c3, h, g1, g2, g3⟩
    refine ⟨c1, [c2, c3], h, g1, ?_⟩
    rw [gc_strcmp_i_cons _ d2 [d3] k2 a2 b2 e2]
    refine ⟨c2, [c3], rfl, g2, ?_⟩
    rw [gc_strcmp_i_cons _ d3 [] k3 a3 b3 e3]
    exact ⟨c3, [], rfl, g3, by simp [gc_strcmp_i]⟩

theorem gc_strcmp_i_gcb (ext : List Char) (hs : is_c_string ext) :
    gc_strcmp_i ext "gcb".toList = 0 ↔ ext_gcb ext := by
  have h := gc_strcmp_i_three ext hs 'g' 'c' 'b' 71 67 66 (by norm_num) (by norm_num)
    (by norm_num) (by norm_num) (by norm_num) (by norm_num) (by decide) (by decide) (by decide)
  have e : "gcb".toList = ['g', 'c', 'b'] := rfl
  rw [e, h]
  unfold ext_gcb
  simp only [char_eq_iff]
  rfl

theorem gc_strcmp_i_gca (ext : List Char) (hs : is_c_string ext) :
    gc_strcmp_i ext "gca".toList = 0 ↔ ext_gca ext := by
  have h := gc_strcmp_i_three ext hs 'g' 'c' 'a' 71 67 65 (by norm_num) (by norm_num)
    (by norm_num) (by norm_num) (by norm_num) (by norm_num) (by decide) (by decide) (by decide)
  have e : "gca".toList = ['g', 'c', 'a'] := rfl
  rw [e, h]
  unfold ext_gca
  simp only [char_eq_iff]
  rfl

theorem after_last_dot_none (l : List Char) : after_last_dot l = none ↔ '.' ∉ l := by
  induction l with
  | nil => simp [after_last_dot]
  | cons c cs ih =>
    simp only [after_last_dot, List.mem_cons, not_or]
    cases h : after_last_dot cs with
    | some r =>
      have : ¬ ('.' ∉ cs) := fun hn => by
        rw [ih.mpr hn] at h
        cases h
      simp [this]
    | none =>
      have hn : '.' ∉ cs := ih.mp h
      by_cases hc : c = '.'
      · simp [hc]
      · simp only [hc, if_false, true_iff]
        exact ⟨fun e => hc e.symm, hn⟩

theorem after_last_dot_some (l ext : List Char) :
    after_last_dot l = some ext ↔ text_after_last_dot l ext := by
  unfold text_after_last_dot
  induction l with
  | nil => simp [after_last_dot]
  | cons c cs ih =>
    simp only [after_last_dot]
    cases h : after_last_dot cs with
    | some r =>
      rw [h] at ih
      simp only [Option.some.injEq]
      constructor
      · intro e
        obtain ⟨pre, hp, hd⟩ := ih.mp (congrArg some e)
        exact ⟨c :: pre, by rw [hp]; rfl, hd⟩
      · rintro ⟨pre, hp, hd⟩
        cases pre with
        | nil =>
          simp only [List.nil_append, List.cons.injEq] at hp
          obtain ⟨_, hp2⟩ := hp
          rw [hp2, (after_last_dot_none ext).mpr hd] at h
          cases h
        | cons p ps =>
          simp only [List.cons_append, List.cons.injEq] at hp
          exact Option.some.inj (ih.mpr ⟨ps, hp.2, hd⟩)
    | none =>
      have hn : '.' ∉ cs := (after_last_dot_none cs).mp h
      by_cases hc : c = '.'
      · simp only [hc, if_true, Option.some.injEq]
        constructor
        · intro e
          exact ⟨[], by rw [e]; rfl, by rw [← e]; exact hn⟩
        · rintro ⟨pre, hp, hd⟩
          cases pre with
          | nil =>
            simp only [List.nil_append, List.cons.injEq, true_and] at hp
            exact hp
          | cons p ps =>
            simp only [List.cons_append, List.cons.injEq] at hp
            exfalso
            apply hn
            rw [hp.2]
            simp
      · simp only [hc, if_false]
        constructor
        · intro e; cases e
        rintro ⟨pre, hp, hd⟩
        exfalso
        cases pre with
        | nil =>
          simp only [List.nil_append, List.cons.injEq] at hp
          exact hc hp.1
        | cons p ps =>
          simp only [List.cons_append, List.cons.injEq] at hp
          apply hn
          rw [hp.2]
          simp

theorem ext_gcb_not_gca (ext : List Char) (h1 : ext_gcb ext) (h2 : ext_gca ext) : False := by
  obtain ⟨c1, c2, c3, e, _, _, g3⟩ := h1
  obtain ⟨d1, d2, d3, e', _, _, k3⟩ := h2
  rw [e] at e'
  simp only [List.cons.injEq, and_true] at e'
  obtain ⟨_, _, e3⟩ := e'
  rw [e3] at g3
  rcases g3 with g | g <;> rcases k3 with k | k <;> rw [g] at k <;> exact absurd k (by decide)

/-- C25: for a pathname that is a C string, `geocon_filetype` returns BIN if and only if the
text after the last `'.'` of the pathname is "gcb" up to the case of each letter, ASC if and
only if it is "gca" up to case, and UNK in every other case; it returns UNK for a pathname
without `'.'`, for the empty pathname and for the null pointer. The function takes the
pathname only. -/
theorem geocon_filetype_by_extension (path : String) (hc : is_c_string path.toList) :
    (geocon_filetype (some path) = GEOCON_FILE_TYPE_BIN ↔
      ∃ ext, text_after_last_dot path.toList ext ∧ ext_gcb ext) ∧
    (geocon_filetype (some path) = GEOCON_FILE_TYPE_ASC ↔
      ∃ ext, text_after_last_dot path.toList ext ∧ ext_gca ext) ∧
    (geocon_filetype (some path) = GEOCON_FILE_TYPE_UNK ↔
      ¬ ∃ ext, text_after_last_dot path.toList ext ∧ (ext_gcb ext ∨ ext_gca ext)) ∧
    ('.' ∉ path.toList → geocon_filetype (some path) = GEOCON_FILE_TYPE_UNK) ∧
    geocon_filetype none = GEOCON_FILE_TYPE_UNK ∧
    geocon_filetype (some "") = GEOCON_FILE_TYPE_UNK := by
  have key : ∀ ext, text_after_last_dot path.toList ext → is_c_string ext := by
    rintro ext ⟨pre, hp, _⟩ c hcm
    apply hc c
    rw [hp]
    simp [hcm]
  have uniq : ∀ e1 e2, text_after_last_dot path.toList e1 → text_after_last_dot path.toList e2 →
      e1 = e2 := by
    intro e1 e2 h1 h2
    have a1 := (after_last_dot_some _ _).mpr h1
    have a2 := (after_last_dot_some _ _).mpr h2
    rw [a1] at a2
    exact Option.some.inj a2
  have hval : (1 : Int) ≠ 0 ∧ (2 : Int) ≠ 0 ∧ (1 : Int) ≠ 2 := by decide
  have main : ∀ r, after_last_dot path.toList = r →
      (geocon_filetype (some path) = GEOCON_FILE_TYPE_BIN ↔
        ∃ ext, text_after_last_dot path.toList ext ∧ ext_gcb ext) ∧
      (geocon_filetype (some path) = GEOCON_FILE_TYPE_ASC ↔
        ∃ ext, text_after_last_dot path.toList ext ∧ ext_gca ext) ∧
      (geocon_filetype (some path) = GEOCON_FILE_TYPE_UNK ↔
        ¬ ∃ ext, text_after_last_dot path.toList ext ∧ (ext_gcb ext ∨ ext_gca ext)) := by
    intro r hr
    cases r with
    | none =>
      have hnd := (after_last_dot_none _).mp hr
      have hno : ∀ ext, ¬ text_after_last_dot path.toList ext := by
        rintro ext ⟨pre, hp, _⟩
        apply hnd
        rw [hp]
        simp
      have hu : geocon_filetype (some path) = GEOCON_FILE_TYPE_UNK := by
        simp only [geocon_filetype, hr]
        split <;> rfl
      rw [hu]
      refine ⟨⟨fun h => absurd h (by decide), fun ⟨e, h, _⟩ => absurd h (hno e)⟩,
        ⟨fun h => absurd h (by decide), fun ⟨e, h, _⟩ => absurd h (hno e)⟩,
        ⟨fun _ ⟨e, h, _⟩ => hno e h, fun _ => rfl⟩⟩
    | some ext =>
      have ht := (after_last_dot_some _ _).mp hr
      have hcs := key ext ht
      have hne : ¬ path.toList = [] := by
        intro h
        rw [h] at hr
        simp [after_last_dot] at hr
      by_cases hb : ext_gcb ext
      · have hu : geocon_filetype (some path) = GEOCON_FILE_TYPE_BIN := by
          simp only [geocon_filetype, hr, hne, if_false, (gc_strcmp_i_gcb ext hcs).mpr hb,
            if_true]
        rw [hu]
        refine ⟨⟨fun _ => ⟨ext, ht, hb⟩, fun _ => rfl⟩,
          ⟨fun h => absurd h (by decide), fun ⟨e, h, ha⟩ => ?_⟩,
          ⟨fun h => absurd h (by decide), fun h => absurd ⟨ext, ht, Or.inl hb⟩ h⟩⟩
        rw [uniq e ext h ht] at ha
        exact (ext_gcb_not_gca ext hb ha).elim
      · by_cases ha : ext_gca ext
        · have hu : geocon_filetype (some path) = GEOCON_FILE_TYPE_ASC := by
            simp only [geocon_filetype, hr, hne, if_false,
              (gc_strcmp_i_gcb ext hcs).not.mpr hb, (gc_strcmp_i_gca ext hcs).mpr ha, if_true]
          rw [hu]
          refine ⟨⟨fun h => absurd h (by decide), fun ⟨e, h, hb'⟩ => ?_⟩,
            ⟨fun _ => ⟨ext, ht, ha⟩, fun _ => rfl⟩,
            ⟨fun h => absurd h (by decide), fun h => absurd ⟨ext, ht, Or.inr ha⟩ h⟩⟩
          rw [uniq e ext h ht] at hb'
          exact absurd hb' hb
        · have hu : geocon_filetype (some path) = GEOCON_FILE_TYPE_UNK := by
            simp only [geocon_filetype, hr, hne, if_false,
              (gc_strcmp_i_gcb ext hcs).not.mpr hb, (gc_strcmp_i_gca ext hcs).not.mpr ha]
          rw [hu]
          refine ⟨⟨fun h => absurd h (by decide), fun ⟨e, h, hb'⟩ => ?_⟩,
            ⟨fun h => absurd h (by decide), fun ⟨e, h, ha'⟩ => ?_⟩,
            ⟨fun _ ⟨e, h, hab⟩ => ?_, fun _ => rfl⟩⟩
          · rw [uniq e ext h ht] at hb'
            exact absurd hb' hb
          · rw [uniq e ext h ht] at ha'
            exact absurd ha' ha
          · rw [uniq e ext h ht] at hab
            rcases hab with h1 | h1
            · exact hb h1
            · exact ha h1
  obtain ⟨m1, m2, m3⟩ := main _ rfl
  refine ⟨m1, m2, m3, ?_, rfl, rfl⟩
  intro hnd
  rw [m3]
  rintro ⟨ext, ⟨pre, hp, _⟩, _⟩
  apply hnd
  rw [hp]
  simp

/-- The name "dir.x/Grid.GcB" is a C string whose text after the last dot is "GcB": the
type is BIN. -/
theorem geocon_filetype_by_extension_witness :
    is_c_string "dir.x/Grid.GcB".toList ∧
    geocon_filetype (some "dir.x/Grid.GcB") = GEOCON_FILE_TYPE_BIN := by
  have hc : is_c_string "dir.x/Grid.GcB".toList := by
    unfold is_c_string
    decide
  exact ⟨hc, (geocon_filetype_by_extension "dir.x/Grid.GcB" hc).1.mpr
    ⟨['G', 'c', 'B'], ⟨"dir.x/Grid".toList, rfl, by decide⟩,
      ⟨'G', 'c', 'B', rfl, Or.inr rfl, Or.inl rfl, Or.inr rfl⟩⟩⟩

/-! ### C21: what a loaded grid owns -/

theorem same_handles_refl (a : GEOCON_HDR) : same_handles a a := ⟨rfl, rfl, rfl, rfl⟩

theorem same_handles_trans {a b c : GEOCON_HDR} (h1 : same_handles a b)
    (h2 : same_handles b c) : same_handles a c :=
  ⟨h2.1.trans h1.1, h2.2.1.trans h1.2.1, h2.2.2.1.trans h1.2.2.1, h2.2.2.2.trans h1.2.2.2⟩

theorem gc_read_toks_handles (hdr : GEOCON_HDR) (n : Int) :
    same_handles hdr (gc_read_toks hdr n).2 := by
  unfold gc_read_toks
  cases hf : hdr.fp with
  | none => simp only; exact same_handles_refl hdr
  | some f =>
    simp only
    split <;> exact ⟨rfl, by simp [hf], rfl, rfl⟩

theorem RT_handles (hdr : GEOCON_HDR) (n : Int) : same_handles hdr (RT hdr n).2 := by
  have h := gc_read_toks_handles hdr n
  unfold RT
  split
  · rename_i h1 heq
    rw [heq] at h
    exact h
  · rename_i tok h1 heq
    rw [heq] at h
    split_ifs <;> exact h

theorem load_hdr_fields_handles
    (fs : List (GEOCON_FILE_HDR → List Char → GEOCON_FILE_HDR)) :
    ∀ (hdr : GEOCON_HDR) (prc : Int), same_handles hdr (load_hdr_fields fs hdr prc).hdr := by
  induction fs with
  | nil => intro hdr prc; exact same_handles_refl hdr
  | cons set rest ih =>
    intro hdr prc
    have h := RT_handles hdr 2
    simp only [load_hdr_fields]
    split
    · rename_i e h1 heq
      rw [heq] at h
      exact h
    · rename_i tok h1 heq
      rw [heq] at h
      exact same_handles_trans (same_handles_trans h ⟨rfl, rfl, rfl, rfl⟩) (ih _ prc)

theorem gc_load_hdr_bin_handles (hdr : GEOCON_HDR) (prc : Int) :
    same_handles hdr (gc_load_hdr_bin hdr prc).hdr := by
  unfold gc_load_hdr_bin
  cases hf : hdr.fp with
  | none => simp only; exact ⟨rfl, rfl, rfl, rfl⟩
  | some f =>
    simp only
    split
    · exact ⟨rfl, rfl, rfl, rfl⟩
    · split_ifs <;> exact ⟨rfl, by simp [hf], rfl, rfl⟩

theorem gc_load_hdr_handles (env : ENV) (hdr : GEOCON_HDR) (prc : Int) :
    same_handles hdr (gc_load_hdr env hdr prc).hdr := by
  have h1 := gc_load_hdr_bin_handles hdr prc
  have h2 := load_hdr_fields_handles (asc_hdr_fields env) hdr prc
  unfold gc_load_hdr gc_load_hdr_asc
  by_cases hft : hdr.filetype = GEOCON_FILE_TYPE_BIN
  · simp only [hft, if_true] at h1 ⊢
    split
    · exact same_handles_trans h1 ⟨rfl, rfl, rfl, rfl⟩
    · exact h1
  · simp only [hft, if_false] at h2 ⊢
    split
    · exact same_handles_trans h2 ⟨rfl, rfl, rfl, rfl⟩
    · exact h2

theorem gc_adjust_extent_mutex (h : GEOCON_HDR) (ext : Option GEOCON_EXTENT) (prc : Int) :
    (gc_adjust_extent h ext true prc).hdr.mutex = h.mutex := by
  by_cases hrc : (gc_adjust_extent h ext true prc).rc = 0
  · cases ext with
    | none => rfl
    | some e => rw [gc_adjust_extent_eq h e prc hrc]
  · rw [gc_adjust_extent_error h ext true prc hrc]

/-- A data load of a binary file that succeeds leaves the node array in place and does not
touch the mutex. -/
theorem gc_load_data_bin_handles (env : ENV) (h : GEOCON_HDR) (ext : Option GEOCON_EXTENT)
    (prc : Int) (hrc : (gc_load_data_bin env h ext prc).rc = 0) :
    (gc_load_data_bin env h ext prc).hdr.points.isSome = true ∧
    (gc_load_data_bin env h ext prc).hdr.mutex = h.mutex := by
  unfold gc_load_data_bin at hrc ⊢
  by_cases he : gc_extent_is_empty ext = true
  · simp only [he, Bool.not_true, Bool.false_eq_true, if_false] at hrc ⊢
    cases hm : env.gc_memalloc (h.nrows * h.ncols) with
    | none => simp [hm] at hrc
    | some blk =>
      cases hf : h.fp with
      | none => simp [hm, hf] at hrc
      | some f => simp [hm, hf]
  · simp only [he, Bool.not_false, if_true] at hrc ⊢
    have hmx := gc_adjust_extent_mutex h ext prc
    unfold gc_load_data_ext at hrc ⊢
    by_cases ha : (gc_adjust_extent h ext true prc).rc = 0
    · simp only [ha, ne_eq, not_true_eq_false, if_false] at hrc ⊢
      cases hm : env.gc_memalloc ((gc_adjust_extent h ext true prc).hdr.nrows *
          (gc_adjust_extent h ext true prc).hdr.ncols) with
      | none => simp [hm] at hrc
      | some blk =>
        cases hf : (gc_adjust_extent h ext true prc).hdr.fp with
        | none => simp [hm, hf] at hrc
        | some f => simp [hm, hf, hmx]
    · simp only [ha, ne_eq, not_false_eq_true, if_true] at hrc

theorem load_row_asc_handles (env : ENV) (r : Int) (cs : List Nat) :
    ∀ s : RC_HDR, same_handles s.hdr (load_row_asc env r cs s).hdr := by
  induction cs with
  | nil => intro s; exact same_handles_refl _
  | cons c cs ih =>
    intro s
    have h := RT_handles s.hdr 3
    simp only [load_row_asc]
    split
    · rename_i e h1 heq
      rw [heq] at h
      exact h
    · rename_i tok h1 heq
      rw [heq] at h
      refine same_handles_trans (same_handles_trans h ?_) (ih _)
      exact ⟨by cases h1.points <;> rfl, rfl, rfl, rfl⟩

theorem load_rows_asc_handles (env : ENV) (rs : List Nat) :
    ∀ s : RC_HDR, same_handles s.hdr (load_rows_asc env rs s).hdr := by
  induction rs with
  | nil => intro s; exact same_handles_refl _
  | cons r rs ih =>
    intro s
    have h := load_row_asc_handles env r (List.range s.hdr.ncols.toNat) s
    simp only [load_rows_asc]
    split
    · exact h
    · exact same_handles_trans h (ih _)

/-- A data load of a text file that succeeds leaves the node array in place and does not
touch the mutex. -/
theorem gc_load_data_asc_handles (env : ENV) (h : GEOCON_HDR) (prc : Int)
    (hrc : (gc_load_data_asc env h prc).rc = 0) :
    (gc_load_data_asc env h prc).hdr.points.isSome = true ∧
    (gc_load_data_asc env h prc).hdr.mutex = h.mutex := by
  unfold gc_load_data_asc at hrc ⊢
  cases hm : env.gc_memalloc (h.nrows * h.ncols) with
  | none => simp [hm] at hrc
  | some blk =>
    simp only
    have k := load_rows_asc_handles env (List.range h.nrows.toNat)
      { rc := 0, prc := prc, hdr := { h with points := some blk } }
    exact ⟨k.1, k.2.2.1⟩

theorem gc_load_data_handles (env : ENV) (h : GEOCON_HDR) (ext : Option GEOCON_EXTENT)
    (prc : Int) (hrc : (gc_load_data env h ext prc).rc = 0) :
    (gc_load_data env h ext prc).hdr.points.isSome = true ∧
    (gc_load_data env h ext prc).hdr.mutex = h.mutex := by
  unfold gc_load_data at hrc ⊢
  split
  · rename_i hft
    rw [if_pos hft] at hrc
    exact gc_load_data_bin_handles env h ext prc hrc
  · rename_i hft
    rw [if_neg hft] at hrc
    exact gc_load_data_asc_handles env h prc hrc

/-- The steps of `geocon_load` on a name of known type that can be opened, once the header
has been allocated. -/
theorem geocon_load_eq (env : ENV) (path : String) (ext : Option GEOCON_EXTENT)
    (load_data : Bool) (hdr0 : GEOCON_HDR) (f : FILE)
    (hft : geocon_filetype (some path) ≠ GEOCON_FILE_TYPE_UNK)
    (hc : geocon_create env = some hdr0) (hopen : env.fopen path = some f) :
    ∀ r : RC_HDR,
      r = gc_load_hdr env { hdr0 with fp := some { f with pos := 0 }, pathname := path,
                                      filetype := geocon_filetype (some path) }
            GEOCON_ERR_OK →
      geocon_load env (some path) ext load_data =
        (if r.rc ≠ 0 then { hdr := none, prc := r.prc }
         else if load_data then
           (if (gc_load_data env r.hdr ext r.prc).rc ≠ 0 then
              { hdr := none, prc := (gc_load_data env r.hdr ext r.prc).prc }
            else { hdr := some { (gc_load_data env r.hdr ext r.prc).hdr with fp := none }
                   prc := (gc_load_data env r.hdr ext r.prc).prc })
         else if r.hdr.filetype = GEOCON_FILE_TYPE_BIN then
           { hdr := some { r.hdr with mutex := env.gc_mutex_create }, prc := r.prc }
         else { hdr := some { r.hdr with fp := none }, prc := r.prc }) := by
  intro r hr
  have hne := geocon_filetype_nonempty path hft
  subst hr
  simp only [geocon_load, hne, if_false, hft, hc, hopen]

theorem geocon_filetype_values (pathname : Option String) :
    geocon_filetype pathname = GEOCON_FILE_TYPE_UNK ∨
    geocon_filetype pathname = GEOCON_FILE_TYPE_BIN ∨
    geocon_filetype pathname = GEOCON_FILE_TYPE_ASC := by
  unfold geocon_filetype
  cases pathname with
  | none => exact Or.inl rfl
  | some path =>
    simp only
    split
    · exact Or.inl rfl
    · split
      · split_ifs
        · exact Or.inr (Or.inl rfl)
        · exact Or.inr (Or.inr rfl)
        · exact Or.inl rfl
      · exact Or.inl rfl

theorem geocon_create_handles (env : ENV) (hdr0 : GEOCON_HDR)
    (hc : geocon_create env = some hdr0) : hdr0.points = none ∧ hdr0.mutex = false := by
  unfold geocon_create at hc
  split at hc
  · cases hc
    exact ⟨rfl, rfl⟩
  · cases hc

/-- C21, as the code has it: a grid returned by `geocon_load` with `load_data` set owns the
node array, and neither the stream nor a mutex; a header-only load of a binary file returns
a grid without node array that owns the open stream and the mutex that `gc_mutex_create`
gave; a header-only load of a text file returns a grid that owns none of the three. So
exactly one of "the node array is present" and "the file handle and the mutex are both
present" holds for every grid loaded with its data, and for every header-only load of a
binary file for which a mutex was obtained. -/
theorem geocon_load_handles (env : ENV) (pathname : Option String)
    (ext : Option GEOCON_EXTENT) (load_data : Bool) (g : GEOCON_HDR)
    (hg : (geocon_load env pathname ext load_data).hdr = some g) :
    (load_data = true → g.points.isSome = true ∧ g.fp = none ∧ g.mutex = false) ∧
    (load_data = false → geocon_filetype pathname = GEOCON_FILE_TYPE_BIN →
      g.points = none ∧ g.fp.isSome = true ∧ g.mutex = env.gc_mutex_create) ∧
    (load_data = false → geocon_filetype pathname ≠ GEOCON_FILE_TYPE_BIN →
      geocon_filetype pathname = GEOCON_FILE_TYPE_ASC ∧
      g.points = none ∧ g.fp = none ∧ g.mutex = false) ∧
    (load_data = true ∨
        (geocon_filetype pathname = GEOCON_FILE_TYPE_BIN ∧ env.gc_mutex_create = true) →
      Xor' (g.points.isSome = true) (g.fp.isSome = true ∧ g.mutex = true)) := by
  cases pathname with
  | none => simp [geocon_load] at hg
  | some path =>
    have hft : geocon_filetype (some path) ≠ GEOCON_FILE_TYPE_UNK := by
      intro hu
      simp only [geocon_load, hu, if_true] at hg
      split_ifs at hg
    obtain ⟨hdr0, f, hc, hopen⟩ := geocon_load_some env path ext load_data g hg
    obtain ⟨c1, c2⟩ := geocon_create_handles env hdr0 hc
    have hfr := gc_load_hdr_handles env
      { hdr0 with fp := some { f with pos := 0 }, pathname := path,
                  filetype := geocon_filetype (some path) } GEOCON_ERR_OK
    have hL := geocon_load_eq env path ext load_data hdr0 f hft hc hopen _ rfl
    generalize gc_load_hdr env
      { hdr0 with fp := some { f with pos := 0 }, pathname := path,
                  filetype := geocon_filetype (some path) } GEOCON_ERR_OK = r at hfr hL
    obtain ⟨p1, p2, p3, p4⟩ := hfr
    simp only [c1, c2, Option.isSome_none, Option.isSome_some] at p1 p2 p3 p4
    have hpn : r.hdr.points = none := by
      cases hh : r.hdr.points with
      | none => rfl
      | some x => rw [hh] at p1; simp at p1
    rw [hL] at hg
    by_cases hrc : r.rc = 0
    · rw [if_neg (not_not.mpr hrc)] at hg
      cases load_data with
      | true =>
        simp only [if_true] at hg
        by_cases hd : (gc_load_data env r.hdr ext r.prc).rc = 0
        · rw [if_neg (not_not.mpr hd)] at hg
          obtain ⟨d1, d2⟩ := gc_load_data_handles env r.hdr ext r.prc hd
          have hg' := (Option.some.inj hg).symm
          have g1 : g.points.isSome = true := by rw [hg']; exact d1
          have g2 : g.fp = none := by rw [hg']
          have g3 : g.mutex = false := by rw [hg']; exact d2.trans p3
          refine ⟨fun _ => ⟨g1, g2, g3⟩, fun h => absurd h (by decide),
            fun h => absurd h (by decide), fun _ => ?_⟩
          exact Or.inl ⟨g1, by rw [g2]; simp⟩
        · rw [if_pos hd] at hg
          cases hg
      | false =>
        simp only [Bool.false_eq_true, if_false] at hg
        rw [p4] at hg
        by_cases hb : geocon_filetype (some path) = GEOCON_FILE_TYPE_BIN
        · rw [if_pos hb] at hg
          have hg' := (Option.some.inj hg).symm
          have g1 : g.points = none := by rw [hg']; exact hpn
          have g2 : g.fp.isSome = true := by rw [hg']; exact p2
          have g3 : g.mutex = env.gc_mutex_create := by rw [hg']
          refine ⟨fun h => absurd h (by decide), fun _ _ => ⟨g1, g2, g3⟩,
            fun _ h => absurd hb h, ?_⟩
          rintro (h | ⟨_, hm⟩)
          · exact absurd h (by decide)
          · exact Or.inr ⟨⟨g2, by rw [g3, hm]⟩, by rw [g1]; simp⟩
        · rw [if_neg hb] at hg
          have hg' := (Option.some.inj hg).symm
          have g1 : g.points = none := by rw [hg']; exact hpn
          have g2 : g.fp = none := by rw [hg']
          have g3 : g.mutex = false := by rw [hg']; exact p3
          have hasc : geocon_filetype (some path) = GEOCON_FILE_TYPE_ASC := by
            rcases geocon_filetype_values (some path) with h | h | h
            · exact absurd h hft
            · exact absurd h hb
            · exact h
          refine ⟨fun h => absurd h (by decide), fun _ h => absurd h hb,
            fun _ _ => ⟨hasc, g1, g2, g3⟩, ?_⟩
          rintro (h | ⟨h, _⟩)
          · exact absurd h (by decide)
          · exact absurd h hb
    · rw [if_pos hrc] at hg
      cases hg

/-- The text file `asc_file` loaded with its data: the grid owns the four nodes and nothing
else. -/
theorem geocon_load_handles_witness :
    (geocon_load asc_env (some "x.gca") none true).prc = GEOCON_ERR_OK ∧
    (geocon_load asc_env (some "x.gca") none true).hdr.map
      (fun g => (g.points.isSome, g.fp.isSome, g.mutex, g.nrows, g.ncols)) =
        some (true, false, false, 2, 2) := by
  have h1 : (geocon_load asc_env (some "x.gca") none true).hdr.map
      (fun g => (g.nrows, g.ncols)) = some (2, 2) := by
    decide!
  have h2 : (geocon_load asc_env (some "x.gca") none true).prc = GEOCON_ERR_OK := by
    decide!
  obtain ⟨g, hg, hgm⟩ := Option.map_eq_some'.mp h1
  obtain ⟨k, _, _, _⟩ := geocon_load_handles asc_env (some "x.gca") none true g hg
  obtain ⟨k1, k2, k3⟩ := k rfl
  simp only [Prod.mk.injEq] at hgm
  refine ⟨h2, ?_⟩
  rw [hg]
  simp [k1, k2, k3, hgm.1, hgm.2]

/-- Counterexample to C21 as stated: the header-only load of the text file `asc_file`
succeeds and returns a grid without node array, without file handle and without mutex, so
neither of the two alternatives holds. -/
theorem geocon_load_text_header_only :
    (geocon_load asc_env (some "x.gca") none false).prc = GEOCON_ERR_OK ∧
    (geocon_load asc_env (some "x.gca") none false).hdr.map
      (fun g => (g.points.isSome, g.fp.isSome, g.mutex, g.nrows, g.ncols)) =
        some (false, false, false, 2, 2) ∧
    ¬ ∀ g, (geocon_load asc_env (some "x.gca") none false).hdr = some g →
      Xor' (g.points.isSome = true) (g.fp.isSome = true ∧ g.mutex = true) := by
  have h1 : (geocon_load asc_env (some "x.gca") none false).hdr.map
      (fun g => (g.points.isSome, g.fp.isSome, g.mutex, g.nrows, g.ncols)) =
        some (false, false, false, 2, 2) := by
    decide!
  have h2 : (geocon_load asc_env (some "x.gca") none false).prc = GEOCON_ERR_OK := by
    decide!
  refine ⟨h2, h1, fun hall => ?_⟩
  obtain ⟨g, hg, hgm⟩ := Option.map_eq_some'.mp h1
  simp only [Prod.mk.injEq] at hgm
  have hx := hall g hg
  rw [hgm.1, hgm.2.1] at hx
  rcases hx with ⟨h, _⟩ | ⟨⟨h, _⟩, _⟩ <;> exact absurd h (by decide)

/-! ### C13: the byte order of the input file -/

theorem RT_flip (hdr : GEOCON_HDR) (n : Int) : (RT hdr n).2.flip = hdr.flip := by
  have h : (gc_read_toks hdr n).2.flip = hdr.flip := by
    unfold gc_read_toks
    cases hdr.fp with
    | none => rfl
    | some f =>
      simp only
      split <;> rfl
  unfold RT
  split
  · rename_i h1 heq
    rw [heq] at h
    exact h
  · rename_i tok h1 heq
    rw [heq] at h
    split_ifs <;> exact h

theorem load_hdr_fields_flip (fs : List (GEOCON_FILE_HDR → List Char → GEOCON_FILE_HDR)) :
    ∀ (hdr : GEOCON_HDR) (prc : Int), (load_hdr_fields fs hdr prc).hdr.flip = hdr.flip := by
  induction fs with
  | nil => intro hdr prc; rfl
  | cons set rest ih =>
    intro hdr prc
    have h := RT_flip hdr 2
    simp only [load_hdr_fields]
    split
    · rename_i e h1 heq
      rw [heq] at h
      exact h
    · rename_i tok h1 heq
      rw [heq] at h
      rw [ih]
      exact h

/-- The header load of a text file does not touch the swap flag. -/
theorem gc_load_hdr_text_flip (env : ENV) (hdr : GEOCON_HDR) (prc : Int)
    (hft : hdr.filetype ≠ GEOCON_FILE_TYPE_BIN) :
    (gc_load_hdr env hdr prc).hdr.flip = hdr.flip := by
  have h := load_hdr_fields_flip (asc_hdr_fields env) hdr prc
  unfold gc_load_hdr gc_load_hdr_asc
  simp only [hft, if_false]
  split
  · exact h
  · exact h

theorem load_row_asc_flip (env : ENV) (r : Int) (cs : List Nat) :
    ∀ s : RC_HDR, (load_row_asc env r cs s).hdr.flip = s.hdr.flip := by
  induction cs with
  | nil => intro s; rfl
  | cons c cs ih =>
    intro s
    have h := RT_flip s.hdr 3
    simp only [load_row_asc]
    split
    · rename_i e h1 heq
      rw [heq] at h
      exact h
    · rename_i tok h1 heq
      rw [heq] at h
      rw [ih]
      exact h

theorem load_rows_asc_flip (env : ENV) (rs : List Nat) :
    ∀ s : RC_HDR, (load_rows_asc env rs s).hdr.flip = s.hdr.flip := by
  induction rs with
  | nil => intro s; rfl
  | cons r rs ih =>
    intro s
    have h := load_row_asc_flip env r (List.range s.hdr.ncols.toNat) s
    simp only [load_rows_asc]
    split
    · exact h
    · rw [ih]; exact h

/-- The data load of a text file does not touch the swap flag. -/
theorem gc_load_data_text_flip (env : ENV) (hdr : GEOCON_HDR) (ext : Option GEOCON_EXTENT)
    (prc : Int) (hft : hdr.filetype ≠ GEOCON_FILE_TYPE_BIN) :
    (gc_load_data env hdr ext prc).hdr.flip = hdr.flip := by
  unfold gc_load_data gc_load_data_asc
  rw [if_neg hft]
  cases env.gc_memalloc (hdr.nrows * hdr.ncols) with
  | none => rfl
  | some blk =>
    simp only
    rw [load_rows_asc_flip]

/-- A grid loaded from a text file has its swap flag clear. -/
theorem geocon_load_text_flip (env : ENV) (pathname : Option String)
    (ext : Option GEOCON_EXTENT) (load_data : Bool) (g : GEOCON_HDR)
    (hft : geocon_filetype pathname = GEOCON_FILE_TYPE_ASC)
    (hg : (geocon_load env pathname ext load_data).hdr = some g) : g.flip = false := by
  cases pathname with
  | none => simp [geocon_load] at hg
  | some path =>
    have hunk : geocon_filetype (some path) ≠ GEOCON_FILE_TYPE_UNK := by
      rw [hft]; decide
    have hnb : geocon_filetype (some path) ≠ GEOCON_FILE_TYPE_BIN := by
      rw [hft]; decide
    obtain ⟨hdr0, f, hc, hopen⟩ := geocon_load_some env path ext load_data g hg
    have c0 : hdr0.flip = false := by
      unfold geocon_create at hc
      split at hc
      · cases hc; rfl
      · cases hc
    have hfr := gc_load_hdr_handles env
      { hdr0 with fp := some { f with pos := 0 }, pathname := path,
                  filetype := geocon_filetype (some path) } GEOCON_ERR_OK
    have hfl := gc_load_hdr_text_flip env
      { hdr0 with fp := some { f with pos := 0 }, pathname := path,
                  filetype := geocon_filetype (some path) } GEOCON_ERR_OK hnb
    have hL := geocon_load_eq env path ext load_data hdr0 f hunk hc hopen _ rfl
    generalize gc_load_hdr env
      { hdr0 with fp := some { f with pos := 0 }, pathname := path,
                  filetype := geocon_filetype (some path) } GEOCON_ERR_OK = r at hfr hfl hL
    have hrft : r.hdr.filetype ≠ GEOCON_FILE_TYPE_BIN := by
      rw [hfr.2.2.2]; exact hnb
    have hrfl : r.hdr.flip = false := hfl.trans c0
    rw [hL] at hg
    by_cases hrc : r.rc = 0
    · rw [if_neg (not_not.mpr hrc)] at hg
      cases load_data with
      | true =>
        simp only [if_true] at hg
        by_cases hd : (gc_load_data env r.hdr ext r.prc).rc = 0
        · rw [if_neg (not_not.mpr hd)] at hg
          rw [← Option.some.inj hg]
          exact (gc_load_data_text_flip env r.hdr ext r.prc hrft).trans hrfl
        · rw [if_pos hd] at hg
          cases hg
      | false =>
        simp only [Bool.false_eq_true, if_false] at hg
        rw [if_neg hrft] at hg
        rw [← Option.some.inj hg]
        exact hrfl
    · rw [if_pos hrc] at hg
      cases hg

/-- C13: when the output file can be opened, `gc_write_bin` with
`GEOCON_ENDIAN_INP_FILE` leaves the file image byte-swapped if and only if the `flip` flag of
the grid is set (the two images differ whenever the header carries the magic number), so a
grid from `geocon_create` and a grid that `geocon_load` returned for a text file, whose
`flip` is clear, are written in the order of the host; with `GEOCON_ENDIAN_NATIVE` the image
is never swapped. -/
theorem gc_write_bin_inp_file_and_native (env : ENV) (hdr : GEOCON_HDR) (path : String)
    (prc : Int) (hw : env.fopen_write path = true) :
    (gc_write_bin env hdr path GEOCON_ENDIAN_INP_FILE prc).file =
      some (file_image hdr hdr.flip) ∧
    (gc_write_bin env hdr path GEOCON_ENDIAN_NATIVE prc).file = some (file_image hdr false) ∧
    (hdr.fhdr.magic = GEOCON_HDR_MAGIC →
      ((gc_write_bin env hdr path GEOCON_ENDIAN_INP_FILE prc).file =
          some (file_image hdr true) ↔ hdr.flip = true) ∧
      (gc_write_bin env hdr path GEOCON_ENDIAN_NATIVE prc).file ≠
          some (file_image hdr true)) ∧
    (∀ g, geocon_create env = some g →
      (gc_write_bin env g path GEOCON_ENDIAN_INP_FILE prc).file = some (file_image g false)) ∧
    (∀ (env1 : ENV) (pathname : Option String) (ext : Option GEOCON_EXTENT) (load_data : Bool)
      (g : GEOCON_HDR), geocon_filetype pathname = GEOCON_FILE_TYPE_ASC →
      (geocon_load env1 pathname ext load_data).hdr = some g →
      (gc_write_bin env g path GEOCON_ENDIAN_INP_FILE prc).file =
        some (file_image g false)) := by
  have e1 : (gc_write_bin env hdr path GEOCON_ENDIAN_INP_FILE prc).file =
      some (file_image hdr hdr.flip) := by
    rw [gc_write_bin_file env hdr path _ prc hw]
    simp [GEOCON_ENDIAN_INP_FILE, GEOCON_ENDIAN_BIG, GEOCON_ENDIAN_LITTLE, GEOCON_ENDIAN_NATIVE]
  have e2 : (gc_write_bin env hdr path GEOCON_ENDIAN_NATIVE prc).file =
      some (file_image hdr false) := by
    rw [gc_write_bin_file env hdr path _ prc hw]
    simp [GEOCON_ENDIAN_BIG, GEOCON_ENDIAN_LITTLE, GEOCON_ENDIAN_NATIVE]
  have e3 : ∀ g : GEOCON_HDR, g.flip = false →
      (gc_write_bin env g path GEOCON_ENDIAN_INP_FILE prc).file = some (file_image g false) := by
    intro g hgf
    rw [gc_write_bin_file env g path _ prc hw, hgf]
    simp [GEOCON_ENDIAN_INP_FILE, GEOCON_ENDIAN_BIG, GEOCON_ENDIAN_LITTLE, GEOCON_ENDIAN_NATIVE]
  refine ⟨e1, e2, ?_, ?_, ?_⟩
  · intro hm
    rw [e1, e2]
    constructor
    · constructor
      · intro h
        by_contra hf
        simp only [Bool.not_eq_true] at hf
        rw [hf] at h
        exact file_image_swap_ne hdr hm (Option.some.inj h).symm
      · intro h
        rw [h]
    · intro h
      exact file_image_swap_ne hdr hm (Option.some.inj h).symm
  · intro g hg
    apply e3
    unfold geocon_create at hg
    split at hg
    · rw [← Option.some.inj hg]; rfl
    · exact absurd hg (by simp)
  · intro env1 pathname ext load_data g hft hg
    exact e3 g (geocon_load_text_flip env1 pathname ext load_data g hft hg)

/-- On a little-endian host the grid `codec_grid`, whose `flip` is set, is written swapped
with the input-file order and unswapped with the native order. -/
theorem gc_write_bin_inp_file_and_native_witness :
    codec_grid.flip = true ∧
    (gc_write_bin codec_env0 codec_grid "y.gcb" GEOCON_ENDIAN_INP_FILE GEOCON_ERR_OK).file =
      some (file_image codec_grid true) ∧
    (gc_write_bin codec_env0 codec_grid "y.gcb" GEOCON_ENDIAN_NATIVE GEOCON_ERR_OK).file =
      some (file_image codec_grid false) :=
  ⟨rfl, (gc_write_bin_inp_file_and_native codec_env0 codec_grid "y.gcb" GEOCON_ERR_OK rfl).1,
    (gc_write_bin_inp_file_and_native codec_env0 codec_grid "y.gcb" GEOCON_ERR_OK rfl).2.1⟩

/-! ### The kernels channel by channel -/

theorem bilinear_at_chan (hdr : GEOCON_HDR) (irow icol : Int) (dx dy : ℚ) (ch : CHANNEL) :
    (bilinear_at hdr irow icol dx dy).chan ch =
      bilinear_channel ((gc_get_shift hdr irow icol).chan ch)
        ((gc_get_shift hdr irow (icol + 1)).chan ch)
        ((gc_get_shift hdr (irow + 1) icol).chan ch)
        ((gc_get_shift hdr (irow + 1) (icol + 1)).chan ch) dx dy := by
  cases ch <;> rfl

theorem natspline_at_chan (hdr : GEOCON_HDR) (irow icol : Int) (dx dy : ℚ) (ch : CHANNEL) :
    (natspline_at hdr irow icol dx dy).chan ch =
      natspline_channel ((gc_get_shift hdr irow icol).chan ch)
        ((gc_get_shift hdr irow (icol + 1)).chan ch)
        ((gc_get_shift hdr (irow + 1) icol).chan ch)
        ((gc_get_shift hdr (irow + 1) (icol + 1)).chan ch)
        (natspline_weights dx dy).1 (natspline_weights dx dy).2.1
        (natspline_weights dx dy).2.2.1 (natspline_weights dx dy).2.2.2 := by
  cases ch <;> rfl

theorem bicubic_at_chan (hdr : GEOCON_HDR) (irow0 icol0 : Int) (dx dy : ℚ) (ch : CHANNEL) :
    (bicubic_at hdr irow0 icol0 dx dy).chan ch =
      bicubic_channel
        (fun i j => (gc_get_shift hdr (irow0 - 1 + (i : Int)) (icol0 - 1 + (j : Int))).chan ch)
        dx dy := by
  cases ch <;> rfl

theorem gc_calculate_shifts_chan (hdr : GEOCON_HDR) (interp : Int) (lat_deg lon_deg : ℚ)
    (ch : CHANNEL) :
    (gc_calculate_shifts hdr interp lat_deg lon_deg).chan ch =
      (kernel_of hdr interp lat_deg lon_deg).chan ch / hdr.scale ch := by
  cases ch <;> rfl

theorem biquadratic_kernel_chan (hdr : GEOCON_HDR) (lat_deg lon_deg : ℚ) (ch : CHANNEL) :
    (gc_calculate_shifts_biquadratic hdr lat_deg lon_deg).chan ch =
      biquadratic_channel
        ((gc_get_shift hdr (window_lat hdr lat_deg).1.1 (window_lon hdr lon_deg).1.1).chan ch)
        ((gc_get_shift hdr (window_lat hdr lat_deg).1.1 (window_lon hdr lon_deg).1.2.1).chan ch)
        ((gc_get_shift hdr (window_lat hdr lat_deg).1.1 (window_lon hdr lon_deg).1.2.2).chan ch)
        ((gc_get_shift hdr (window_lat hdr lat_deg).1.2.1 (window_lon hdr lon_deg).1.1).chan ch)
        ((gc_get_shift hdr (window_lat hdr lat_deg).1.2.1
          (window_lon hdr lon_deg).1.2.1).chan ch)
        ((gc_get_shift hdr (window_lat hdr lat_deg).1.2.1
          (window_lon hdr lon_deg).1.2.2).chan ch)
        ((gc_get_shift hdr (window_lat hdr lat_deg).1.2.2 (window_lon hdr lon_deg).1.1).chan ch)
        ((gc_get_shift hdr (window_lat hdr lat_deg).1.2.2
          (window_lon hdr lon_deg).1.2.1).chan ch)
        ((gc_get_shift hdr (window_lat hdr lat_deg).1.2.2
          (window_lon hdr lon_deg).1.2.2).chan ch)
        (window_lon hdr lon_deg).2 (window_lat hdr lat_deg).2
        ((1 / 2 : ℚ) * ((window_lon hdr lon_deg).2 - 1))
        ((1 / 2 : ℚ) * ((window_lat hdr lat_deg).2 - 1)) := by
  cases ch <;> rfl

theorem bilinear_channel_const (v dx dy : ℚ) : bilinear_channel v v v v dx dy = v := by
  simp only [bilinear_channel]; ring

theorem bicubic_1d_const (v t : ℚ) : bicubic_1d v v v v t = v := by
  simp only [bicubic_1d]; ring

theorem biquadratic_channel_const (v dx dy tmp1 tmp2 : ℚ) :
    biquadratic_channel v v v v v v v v v dx dy tmp1 tmp2 = v := by
  simp only [biquadratic_channel, biquadratic_1d, flt_sub_self]; ring

theorem natspline_channel_const (v dx dy : ℚ) :
    natspline_channel v v v v (natspline_weights dx dy).1 (natspline_weights dx dy).2.1
      (natspline_weights dx dy).2.2.1 (natspline_weights dx dy).2.2.2 = v := by
  simp only [natspline_channel, natspline_weights]; ring

theorem mem_stencil_4x4 (irow0 icol0 : Int) (i j : Nat) (hi : i < 4) (hj : j < 4) :
    (irow0 - 1 + (i : Int), icol0 - 1 + (j : Int)) ∈ stencil_4x4 irow0 icol0 := by
  simp only [stencil_4x4, List.mem_flatMap, List.mem_range, List.mem_map]
  exact ⟨i, hi, j, hj, rfl⟩

theorem bilinear_at_const (hdr : GEOCON_HDR) (irow icol : Int) (dx dy : ℚ) (ch : CHANNEL)
    (v : ℚ) (hv : ∀ p ∈ stencil_2x2 irow icol, (gc_get_shift hdr p.1 p.2).chan ch = v) :
    (bilinear_at hdr irow icol dx dy).chan ch = v := by
  have hA := hv (irow, icol) (by simp [stencil_2x2])
  have hB := hv (irow, icol + 1) (by simp [stencil_2x2])
  have hC := hv (irow + 1, icol) (by simp [stencil_2x2])
  have hD := hv (irow + 1, icol + 1) (by simp [stencil_2x2])
  simp only at hA hB hC hD
  rw [bilinear_at_chan, hA, hB, hC, hD, bilinear_channel_const]

theorem natspline_at_const (hdr : GEOCON_HDR) (irow icol : Int) (dx dy : ℚ) (ch : CHANNEL)
    (v : ℚ) (hv : ∀ p ∈ stencil_2x2 irow icol, (gc_get_shift hdr p.1 p.2).chan ch = v) :
    (natspline_at hdr irow icol dx dy).chan ch = v := by
  have hA := hv (irow, icol) (by simp [stencil_2x2])
  have hB := hv (irow, icol + 1) (by simp [stencil_2x2])
  have hC := hv (irow + 1, icol) (by simp [stencil_2x2])
  have hD := hv (irow + 1, icol + 1) (by simp [stencil_2x2])
  simp only at hA hB hC hD
  rw [natspline_at_chan, hA, hB, hC, hD, natspline_channel_const]

theorem bicubic_at_const (hdr : GEOCON_HDR) (irow0 icol0 : Int) (dx dy : ℚ) (ch : CHANNEL)
    (v : ℚ) (hv : ∀ p ∈ stencil_4x4 irow0 icol0, (gc_get_shift hdr p.1 p.2).chan ch = v) :
    (bicubic_at hdr irow0 icol0 dx dy).chan ch = v := by
  have h : ∀ (i j : Nat), i < 4 → j < 4 →
      (gc_get_shift hdr (irow0 - 1 + (i : Int)) (icol0 - 1 + (j : Int))).chan ch = v :=
    fun i j hi hj =>
      hv (irow0 - 1 + (i : Int), icol0 - 1 + (j : Int)) (mem_stencil_4x4 irow0 icol0 i j hi hj)
  refine (bicubic_at_chan hdr irow0 icol0 dx dy ch).trans ?_
  simp only [bicubic_channel]
  rw [h 0 0 (by decide) (by decide), h 0 1 (by decide) (by decide),
    h 0 2 (by decide) (by decide), h 0 3 (by decide) (by decide),
    h 1 0 (by decide) (by decide), h 1 1 (by decide) (by decide),
    h 1 2 (by decide) (by decide), h 1 3 (by decide) (by decide),
    h 2 0 (by decide) (by decide), h 2 1 (by decide) (by decide),
    h 2 2 (by decide) (by decide), h 2 3 (by decide) (by decide),
    h 3 0 (by decide) (by decide), h 3 1 (by decide) (by decide),
    h 3 2 (by decide) (by decide), h 3 3 (by decide) (by decide)]
  simp only [bicubic_1d_const]

theorem biquadratic_kernel_const (hdr : GEOCON_HDR) (lat_deg lon_deg : ℚ) (ch : CHANNEL)
    (v : ℚ)
    (hv : ∀ p ∈ stencil_3x3 (window_lat hdr lat_deg).1 (window_lon hdr lon_deg).1,
      (gc_get_shift hdr p.1 p.2).chan ch = v) :
    (gc_calculate_shifts_biquadratic hdr lat_deg lon_deg).chan ch = v := by
  rw [biquadratic_kernel_chan]
  generalize (window_lat hdr lat_deg).1 = rows at hv ⊢
  generalize (window_lon hdr lon_deg).1 = cols at hv ⊢
  have hA := hv (rows.1, cols.1) (by simp [stencil_3x3])
  have hB := hv (rows.1, cols.2.1) (by simp [stencil_3x3])
  have hC := hv (rows.1, cols.2.2) (by simp [stencil_3x3])
  have hD := hv (rows.2.1, cols.1) (by simp [stencil_3x3])
  have hE := hv (rows.2.1, cols.2.1) (by simp [stencil_3x3])
  have hF := hv (rows.2.1, cols.2.2) (by simp [stencil_3x3])
  have hG := hv (rows.2.2, cols.1) (by simp [stencil_3x3])
  have hH := hv (rows.2.2, cols.2.1) (by simp [stencil_3x3])
  have hI := hv (rows.2.2, cols.2.2) (by simp [stencil_3x3])
  simp only at hA hB hC hD hE hF hG hH hI
  rw [hA, hB, hC, hD, hE, hF, hG, hH, hI, biquadratic_channel_const]

/-- The value of a kernel in a channel in which all nodes of its stencil agree. -/
theorem kernel_of_const (hdr : GEOCON_HDR) (interp : Int) (lat_deg lon_deg : ℚ) (ch : CHANNEL)
    (v : ℚ)
    (hv : ∀ p ∈ kernel_stencil hdr interp lat_deg lon_deg,
      (gc_get_shift hdr p.1 p.2).chan ch = v) :
    (kernel_of hdr interp lat_deg lon_deg).chan ch = v := by
  have k := kernels_at_grid_index hdr lat_deg lon_deg
  unfold kernel_of
  unfold kernel_stencil at hv
  simp only at hv
  split_ifs at hv ⊢ with h1 h2 h3
  · rw [k.1]; exact bilinear_at_const hdr _ _ _ _ ch v hv
  · rw [k.2.1]; exact bicubic_at_const hdr _ _ _ _ ch v hv
  · rw [k.2.2]; exact natspline_at_const hdr _ _ _ _ ch v hv
  · exact biquadratic_kernel_const hdr lat_deg lon_deg ch v hv

theorem uniform_grid_node (r c : Int) (hr0 : 0 ≤ r) (hr1 : r < 7) (hc0 : 0 ≤ c) (hc1 : c < 7) :
    gc_get_shift uniform_grid r c = ⟨FLT_ONE, FLT_ONE, FLT_ONE⟩ := by
  have hidx : 0 ≤ r * 7 + c := by nlinarith
  have hlt : (r * 7 + c).toNat < 49 := by omega
  simp only [gc_get_shift, uniform_grid, square_grid, gc_get_shift_from_data]
  rw [if_neg (by omega), if_pos hidx]
  simp only [List.getElem?_replicate, hlt, if_true, Option.getD_some]

/-! ### C36: constant reproduction -/

theorem fold_360_abs_le {d : ℚ} (h0 : -540 ≤ d) (h1 : d ≤ 540) : |fold_360 d| ≤ 180 := by
  unfold fold_360
  rw [abs_le]
  split_ifs <;> constructor <;> linarith

theorem fold_360_idem {d : ℚ} (h0 : -540 ≤ d) (h1 : d ≤ 540) :
    fold_360 (fold_360 d) = fold_360 d := by
  obtain ⟨a, b⟩ := abs_le.mp (fold_360_abs_le h0 h1)
  generalize fold_360 d = x at a b
  unfold fold_360
  rw [if_neg (by linarith), if_neg (by linarith)]

theorem gc_delta_within_540 {d : ℚ} (h0 : -540 ≤ d) (h1 : d ≤ 540) :
    gc_delta d = fold_360 d := by
  have h := gc_delta_of_abs_le (fold_360_abs_le h0 h1)
  rw [gc_delta_eq] at h ⊢
  rw [fold_360_idem h0 h1] at h
  exact h

/-- C37 on the code: `gc_delta 600` is 60, and 60 - 600 = -540 is not a multiple of 360:
after the single fold by 360 the value 240 is reduced by `fmod(d, 180.0)`, which turns the
direction by half a turn. For -540 <= d <= 540 the result is d folded once, so that
`gc_delta d - d` is 0, 360 or -360. -/
theorem gc_delta_half_turn :
    gc_delta 600 = 60 ∧ gc_delta 600 - 600 = -540 ∧
    (¬ ∃ k : Int, gc_delta 600 - 600 = (k : ℚ) * 360) ∧
    (∀ d : ℚ, -540 ≤ d → d ≤ 540 →
      gc_delta d = fold_360 d ∧
      (gc_delta d - d = 0 ∨ gc_delta d - d = 360 ∨ gc_delta d - d = -360)) := by
  have e : gc_delta 600 = 60 := by
    rw [gc_delta_eq]
    have f : fold_360 600 = 240 := by norm_num [fold_360]
    rw [f]
    have q : GEOCON_EQ (GEOCON_ABS 240) 180 = false := by
      norm_num [GEOCON_EQ, GEOCON_EQ_EPS, GEOCON_ABS, GEOCON_EPS]
    rw [q]
    norm_num [c_fmod, int_cast]
  refine ⟨e, by rw [e]; norm_num, ?_, ?_⟩
  · rintro ⟨k, hk⟩
    rw [e] at hk
    have h2 : (2 : ℚ) * k = -3 := by linarith
    have h3 : (2 : Int) * k = -3 := by exact_mod_cast h2
    omega
  · intro d h0 h1
    have g := gc_delta_within_540 h0 h1
    refine ⟨g, ?_⟩
    rw [g]
    unfold fold_360
    split_ifs
    · right; left; ring
    · right; right; ring
    · left; ring

/-! ### C38: the crop keeps the grid well-formed -/

theorem lt_of_GEOCON_GE_false {a b : ℚ} (h : GEOCON_GE a b = false) : a < b := by
  by_contra hn
  rw [GEOCON_GE_of_ge (not_lt.mp hn)] at h
  exact Bool.noConfusion h

theorem lt_of_GEOCON_LE_false {a b : ℚ} (h : GEOCON_LE a b = false) : b < a := by
  by_contra hn
  rw [GEOCON_LE_of_le (not_lt.mp hn)] at h
  exact Bool.noConfusion h

/-- Along one axis: two skips that fit below and above a clamped box of positive length
leave at least two nodes, and the extent stays (n - 1) deltas long. -/
theorem crop_axis {lo hi δ a b : ℚ} {n ss sn : Int} (hδ : 0 < δ)
    (hx : hi - lo = ((n : ℚ) - 1) * δ) (hab : a < b)
    (hs : (ss : ℚ) * δ ≤ a - lo) (hn : (sn : ℚ) * δ ≤ hi - b) :
    2 ≤ n - ss - sn ∧
    (hi - (sn : ℚ) * δ) - (lo + (ss : ℚ) * δ) = (((n - ss - sn : Int) : ℚ) - 1) * δ := by
  constructor
  · have h1 : ((ss : ℚ) + (sn : ℚ)) * δ < ((n : ℚ) - 1) * δ := by nlinarith
    have h2 : (ss : ℚ) + (sn : ℚ) < (n : ℚ) - 1 := lt_of_mul_lt_mul_right h1 hδ.le
    have h3 : ss + sn < n - 1 := by exact_mod_cast h2
    omega
  · push_cast
    linarith

/-- C38: if a header has nrows >= 2, ncols >= 2, positive deltas,
lat_max - lat_min = (nrows-1)*lat_delta and lon_max - lon_min = (ncols-1)*lon_delta, then
after `gc_adjust_extent` has accepted an extent (return code 0, `adjust_hdr` TRUE; the null
extent included) the header still has nrows >= 2, ncols >= 2,
lat_max - lat_min = (nrows-1)*lat_delta and lon_max - lon_min = (ncols-1)*lon_delta, with
both deltas unchanged. -/
theorem gc_adjust_extent_well_formed (hdr : GEOCON_HDR) (ext : Option GEOCON_EXTENT)
    (prc : Int) (hnr : 2 ≤ hdr.nrows) (hnc : 2 ≤ hdr.ncols)
    (hlat : 0 < hdr.lat_delta) (hlon : 0 < hdr.lon_delta)
    (hlatx : hdr.lat_max - hdr.lat_min = ((hdr.nrows : ℚ) - 1) * hdr.lat_delta)
    (hlonx : hdr.lon_max - hdr.lon_min = ((hdr.ncols : ℚ) - 1) * hdr.lon_delta)
    (hrc : (gc_adjust_extent hdr ext true prc).rc = 0) :
    2 ≤ (gc_adjust_extent hdr ext true prc).hdr.nrows ∧
    2 ≤ (gc_adjust_extent hdr ext true prc).hdr.ncols ∧
    (gc_adjust_extent hdr ext true prc).hdr.lat_delta = hdr.lat_delta ∧
    (gc_adjust_extent hdr ext true prc).hdr.lon_delta = hdr.lon_delta ∧
    (gc_adjust_extent hdr ext true prc).hdr.lat_max -
        (gc_adjust_extent hdr ext true prc).hdr.lat_min =
      (((gc_adjust_extent hdr ext true prc).hdr.nrows : ℚ) - 1) *
        (gc_adjust_extent hdr ext true prc).hdr.lat_delta ∧
    (gc_adjust_extent hdr ext true prc).hdr.lon_max -
        (gc_adjust_extent hdr ext true prc).hdr.lon_min =
      (((gc_adjust_extent hdr ext true prc).hdr.ncols : ℚ) - 1) *
        (gc_adjust_extent hdr ext true prc).hdr.lon_delta := by
  cases ext with
  | none => exact ⟨hnr, hnc, rfl, rfl, hlatx, hlonx⟩
  | some e =>
    obtain ⟨a1, a2⟩ := gc_adjust_extent_accepted hdr e true prc hrc
    simp only [Bool.or_eq_false_iff] at a1 a2
    obtain ⟨⟨⟨b1, b2⟩, b3⟩, b4⟩ := a2
    have c1 := lt_of_GEOCON_GE_false a1.1
    have c2 := lt_of_GEOCON_GE_false a1.2
    have c3 := lt_of_GEOCON_GE_false b1
    have c4 := lt_of_GEOCON_LE_false b2
    have c5 := lt_of_GEOCON_GE_false b3
    have c6 := lt_of_GEOCON_LE_false b4
    have hnr1 : (2 : ℚ) ≤ (hdr.nrows : ℚ) := by exact_mod_cast hnr
    have hnc1 : (2 : ℚ) ≤ (hdr.ncols : ℚ) := by exact_mod_cast hnc
    have d1 : hdr.lat_min < hdr.lat_max := by nlinarith
    have d2 : hdr.lon_min < hdr.lon_max := by nlinarith
    have m1 := GEOCON_MAX_ge e.slat hdr.lat_min
    have m2 := GEOCON_MIN_le e.nlat hdr.lat_max
    have m3 := GEOCON_MAX_ge e.wlon hdr.lon_min
    have m4 := GEOCON_MIN_le e.elon hdr.lon_max
    have lab : GEOCON_MAX e.slat hdr.lat_min < GEOCON_MIN e.nlat hdr.lat_max := by
      unfold GEOCON_MAX GEOCON_MIN
      split_ifs <;> linarith
    have lon_ab : GEOCON_MAX e.wlon hdr.lon_min < GEOCON_MIN e.elon hdr.lon_max := by
      unfold GEOCON_MAX GEOCON_MIN
      split_ifs <;> linarith
    have s1 := edge_skip_bounds (GEOCON_GT (GEOCON_MAX e.slat hdr.lat_min) hdr.lat_min)
      (GEOCON_MAX e.slat hdr.lat_min - hdr.lat_min) hdr.lat_delta hlat (by linarith [m1.1])
    have s2 := edge_skip_bounds (GEOCON_LT (GEOCON_MIN e.nlat hdr.lat_max) hdr.lat_max)
      (hdr.lat_max - GEOCON_MIN e.nlat hdr.lat_max) hdr.lat_delta hlat (by linarith [m2.1])
    have s3 := edge_skip_bounds (GEOCON_GT (GEOCON_MAX e.wlon hdr.lon_min) hdr.lon_min)
      (GEOCON_MAX e.wlon hdr.lon_min - hdr.lon_min) hdr.lon_delta hlon (by linarith [m3.1])
    have s4 := edge_skip_bounds (GEOCON_LT (GEOCON_MIN e.elon hdr.lon_max) hdr.lon_max)
      (hdr.lon_max - GEOCON_MIN e.elon hdr.lon_max) hdr.lon_delta hlon (by linarith [m4.1])
    have r := crop_axis hlat hlatx lab s1.2.2 s2.2.2
    have c := crop_axis hlon hlonx lon_ab s3.2.2 s4.2.2
    rw [gc_adjust_extent_eq hdr e prc hrc]
    exact ⟨r.1, c.1, rfl, rfl, r.2, c.2⟩

/-- The crop of the 10x10 grid over lat 0..9, lon 0..9 with the extent (2.3, 3.7, 6.8, 8.2)
is accepted and leaves 6 rows over lat 2..7 and 7 columns over lon 3..9. -/
theorem gc_adjust_extent_well_formed_witness :
    ((2 : Int) ≤ crop_grid.nrows ∧ (2 : Int) ≤ crop_grid.ncols ∧
      0 < crop_grid.lat_delta ∧ 0 < crop_grid.lon_delta ∧
      crop_grid.lat_max - crop_grid.lat_min =
        ((crop_grid.nrows : ℚ) - 1) * crop_grid.lat_delta ∧
      crop_grid.lon_max - crop_grid.lon_min =
        ((crop_grid.ncols : ℚ) - 1) * crop_grid.lon_delta ∧
      (gc_adjust_extent crop_grid (some crop_extent) true GEOCON_ERR_OK).rc = 0) ∧
    2 ≤ (gc_adjust_extent crop_grid (some crop_extent) true GEOCON_ERR_OK).hdr.nrows ∧
    2 ≤ (gc_adjust_extent crop_grid (some crop_extent) true GEOCON_ERR_OK).hdr.ncols := by
  have h1 : (2 : Int) ≤ crop_grid.nrows := by decide
  have h2 : (2 : Int) ≤ crop_grid.ncols := by decide
  have h3 : 0 < crop_grid.lat_delta := by norm_num [crop_grid]
  have h4 : 0 < crop_grid.lon_delta := by norm_num [crop_grid]
  have h5 : crop_grid.lat_max - crop_grid.lat_min =
      ((crop_grid.nrows : ℚ) - 1) * crop_grid.lat_delta := by norm_num [crop_grid]
  have h6 : crop_grid.lon_max - crop_grid.lon_min =
      ((crop_grid.ncols : ℚ) - 1) * crop_grid.lon_delta := by norm_num [crop_grid]
  have h7 : (gc_adjust_extent crop_grid (some crop_extent) true GEOCON_ERR_OK).rc = 0 := by
    decide!
  have k := gc_adjust_extent_well_formed crop_grid (some crop_extent) GEOCON_ERR_OK h1 h2 h3 h4
    h5 h6 h7
  exact ⟨⟨h1, h2, h3, h4, h5, h6, h7⟩, k.1, k.2.1⟩

/-! ### C39: the reach of the biquadratic window -/

theorem geocon_inverse_count_fst (hdr : GEOCON_HDR) (interp : Int)
    (lat_deg lon_deg hgt_mtr : ℚ) (k : Nat) :
    ∀ (n : Nat) (st : INV_ITER),
      (geocon_inverse_count hdr interp lat_deg lon_deg hgt_mtr k n st).1 =
        geocon_inverse_iterate hdr interp lat_deg lon_deg hgt_mtr k st := by
  induction k with
  | zero => intro n st; rfl
  | succ k ih =>
    intro n st
    simp only [geocon_inverse_count, geocon_inverse_iterate]
    split_ifs
    · rfl
    · exact ih _ _

theorem geocon_inverse_count_bounds (hdr : GEOCON_HDR) (interp : Int)
    (lat_deg lon_deg hgt_mtr : ℚ) (k : Nat) :
    ∀ (n : Nat) (st : INV_ITER),
      n ≤ (geocon_inverse_count hdr interp lat_deg lon_deg hgt_mtr k n st).2 ∧
      (geocon_inverse_count hdr interp lat_deg lon_deg hgt_mtr k n st).2 ≤ n + k := by
  induction k with
  | zero => intro n st; exact ⟨le_refl _, le_refl _⟩
  | succ k ih =>
    intro n st
    simp only [geocon_inverse_count]
    split_ifs
    · exact ⟨le_refl _, by omega⟩
    · have := ih (n + 1)
        { lat_next := st.lat_next -
            (st.lat_next + (gc_calculate_shifts hdr interp st.lat_next st.lon_next).lat_shift -
              lat_deg)
          lon_next := st.lon_next -
            (st.lon_next + (gc_calculate_shifts hdr interp st.lat_next st.lon_next).lon_shift -
              lon_deg)
          hgt_next := st.hgt_next -
            (st.hgt_next + (gc_calculate_shifts hdr interp st.lat_next st.lon_next).hgt_shift -
              hgt_mtr) }
      constructor <;> omega

/-- When the loop is left with the counter below its bound, the test of the `break` holds
at the estimate it yields. -/
theorem geocon_inverse_count_break (hdr : GEOCON_HDR) (interp : Int)
    (lat_deg lon_deg hgt_mtr : ℚ) (k : Nat) :
    ∀ (n : Nat) (st : INV_ITER),
      (geocon_inverse_count hdr interp lat_deg lon_deg hgt_mtr k n st).2 < n + k →
      ∀ N : INV_ITER, N = (geocon_inverse_count hdr interp lat_deg lon_deg hgt_mtr k n st).1 →
        GEOCON_ZERO (N.lon_next +
            (gc_calculate_shifts hdr interp N.lat_next N.lon_next).lon_shift - lon_deg) = true ∧
        GEOCON_ZERO (N.lat_next +
            (gc_calculate_shifts hdr interp N.lat_next N.lon_next).lat_shift - lat_deg) = true ∧
        GEOCON_ZERO (N.hgt_next +
            (gc_calculate_shifts hdr interp N.lat_next N.lon_next).hgt_shift - hgt_mtr) = true := by
  induction k with
  | zero =>
    intro n st h
    simp only [geocon_inverse_count] at h
    omega
  | succ k ih =>
    intro n st h N hN
    simp only [geocon_inverse_count] at h hN
    split_ifs at h hN with hz
    · subst hN
      simp only [Bool.and_eq_true] at hz
      exact ⟨hz.1.1, hz.1.2, hz.2⟩
    · exact ih _ _ (by omega) N hN

theorem inverse_run_fst (hdr : GEOCON_HDR) (interp : Int) (deg_factor hgt_factor : ℚ)
    (c : GEOCON_COORD) (h : Option ℚ) :
    (inverse_run hdr interp deg_factor hgt_factor c h).1 =
      inverse_last hdr interp deg_factor hgt_factor c h := by
  cases h <;> exact geocon_inverse_count_fst _ _ _ _ _ _ _ _

theorem inverse_run_le (hdr : GEOCON_HDR) (interp : Int) (deg_factor hgt_factor : ℚ)
    (c : GEOCON_COORD) (h : Option ℚ) :
    (inverse_run hdr interp deg_factor hgt_factor c h).2 ≤ MAX_ITERATIONS := by
  have := (geocon_inverse_count_bounds hdr interp (c.lat * deg_factor)
    (gc_delta (c.lon * deg_factor)) (hgt_input hgt_factor h) MAX_ITERATIONS 0
    { lat_next := c.lat * deg_factor, lon_next := gc_delta (c.lon * deg_factor)
      hgt_next := hgt_input hgt_factor h }).2
  simpa [inverse_run] using this

theorem geocon_inverse_count_succ (hdr : GEOCON_HDR) (interp : Int)
    (lat_deg lon_deg hgt_mtr : ℚ) (k n : Nat) (st : INV_ITER) :
    geocon_inverse_count hdr interp lat_deg lon_deg hgt_mtr (k + 1) n st =
      if (GEOCON_ZERO
            (st.lon_next + (gc_calculate_shifts hdr interp st.lat_next st.lon_next).lon_shift
              - lon_deg) &&
          GEOCON_ZERO
            (st.lat_next + (gc_calculate_shifts hdr interp st.lat_next st.lon_next).lat_shift
              - lat_deg) &&
          GEOCON_ZERO
            (st.hgt_next + (gc_calculate_shifts hdr interp st.lat_next st.lon_next).hgt_shift
              - hgt_mtr)) = true then (st, n)
      else
        geocon_inverse_count hdr interp lat_deg lon_deg hgt_mtr k (n + 1)
          { lat_next := st.lat_next -
              (st.lat_next + (gc_calculate_shifts hdr interp st.lat_next st.lon_next).lat_shift
                - lat_deg)
            lon_next := st.lon_next -
              (st.lon_next + (gc_calculate_shifts hdr interp st.lat_next st.lon_next).lon_shift
                - lon_deg)
            hgt_next := st.hgt_next -
              (st.hgt_next + (gc_calculate_shifts hdr interp st.lat_next st.lon_next).hgt_shift
                - hgt_mtr) } := rfl

/-- The inner loop on the image Q of a point P that receives the same shifts as P: it is
left through `break` in its first iteration at Q when the shifts are negligible, and in its
second iteration at P otherwise. -/
theorem inverse_run_of_equal_shift (hdr : GEOCON_HDR) (interp : Int) (P : GEOCON_COORD)
    (h : ℚ) (hlQ : |(moved hdr interp P).lon| ≤ 180)
    (hS : shift_at hdr interp (moved hdr interp P) = shift_at hdr interp P) :
    inverse_run hdr interp 1 1 (moved hdr interp P)
        (some (h + (shift_at hdr interp P).hgt_shift)) =
      if shifts_negligible hdr interp P = true then
        ({ lat_next := (moved hdr interp P).lat, lon_next := (moved hdr interp P).lon
           hgt_next := h + (shift_at hdr interp P).hgt_shift }, 0)
      else ({ lat_next := P.lat, lon_next := P.lon, hgt_next := h }, 1) := by
  have e1 : gc_delta (moved hdr interp P).lon = (moved hdr interp P).lon :=
    gc_delta_of_abs_le hlQ
  have hS' : gc_calculate_shifts hdr interp (moved hdr interp P).lat (moved hdr interp P).lon =
      shift_at hdr interp P := hS
  have hP' : gc_calculate_shifts hdr interp P.lat P.lon = shift_at hdr interp P := rfl
  have hz : GEOCON_ZERO 0 = true := by simp [GEOCON_ZERO, GEOCON_ZERO_EPS]
  simp only [inverse_run, hgt_input, mul_one, e1]
  rw [show MAX_ITERATIONS = 48 + 1 + 1 from rfl, geocon_inverse_count_succ]
  simp only [hS', add_sub_cancel_left]
  by_cases hn : shifts_negligible hdr interp P = true
  · have hn' := hn
    simp only [shifts_negligible] at hn'
    rw [if_pos hn', if_pos hn]
  · have hn' := hn
    simp only [shifts_negligible] at hn'
    rw [if_neg hn', if_neg hn, geocon_inverse_count_succ]
    have a1 : (moved hdr interp P).lat - (shift_at hdr interp P).lat_shift = P.lat := by
      simp [moved]
    have a2 : (moved hdr interp P).lon - (shift_at hdr interp P).lon_shift = P.lon := by
      simp [moved]
    have a3 : P.lat + (shift_at hdr interp P).lat_shift - (moved hdr interp P).lat = 0 := by
      simp [moved]
    have a4 : P.lon + (shift_at hdr interp P).lon_shift - (moved hdr interp P).lon = 0 := by
      simp [moved]
    simp only [a1, a2, add_sub_cancel_right, hP', a3, a4, sub_self, hz, Bool.and_self, if_true,
      zero_add]

theorem SHIFTS_ext_chan {a b : SHIFTS} (h : ∀ ch : CHANNEL, a.chan ch = b.chan ch) : a = b := by
  have h1 := h CHANNEL.lat
  have h2 := h CHANNEL.lon
  have h3 := h CHANNEL.hgt
  cases a
  cases b
  simp only [SHIFTS.chan] at h1 h2 h3
  simp only [SHIFTS.mk.injEq]
  exact ⟨h1, h2, h3⟩

/-- On a grid whose nodes all hold the triple `t`, a kernel whose stencil lies inside the
grid returns the shifts that `t` denotes. -/
theorem shifts_on_constant_grid (hdr : GEOCON_HDR) (interp : Int) (lat_deg lon_deg : ℚ)
    (t : GEOCON_POINT) (hconst : constant_grid hdr t)
    (hs : stencil_in_range hdr interp lat_deg lon_deg) :
    gc_calculate_shifts hdr interp lat_deg lon_deg = scaled_shifts hdr t := by
  apply SHIFTS_ext_chan
  intro ch
  have hv : ∀ p ∈ kernel_stencil hdr interp lat_deg lon_deg,
      (gc_get_shift hdr p.1 p.2).chan ch = t.chan ch := by
    intro p hp
    obtain ⟨a, b, c, d⟩ := hs p hp
    rw [hconst p.1 p.2 a b c d]
  rw [gc_calculate_shifts_chan, kernel_of_const hdr interp lat_deg lon_deg ch _ hv]
  cases ch <;> rfl

theorem uniform_grid_constant : constant_grid uniform_grid ⟨FLT_ONE, FLT_ONE, FLT_ONE⟩ :=
  fun r c hr0 hr1 hc0 hc1 => uniform_grid_node r c hr0 hr1 hc0 hc1

theorem square_grid_bilinear_stencil (n : Int) (pts : List GEOCON_POINT) (r c : Int)
    (hr0 : 0 ≤ r) (hr1 : r + 1 < n) (hc0 : 0 ≤ c) (hc1 : c + 1 < n) (dy dx : ℚ)
    (hy0 : 0 ≤ dy) (hy1 : dy < 1) (hx0 : 0 ≤ dx) (hx1 : dx < 1) :
    stencil_in_range (square_grid n pts) GEOCON_INTERP_BILINEAR ((r : ℚ) + dy) ((c : ℚ) + dx) := by
  have gi : ∀ (k : Int) (d : ℚ), 0 ≤ k → 0 ≤ d → d < 1 → grid_index ((k : ℚ) + d) = k := by
    intro k d hk hd0 hd1
    have hk' : (0 : ℚ) ≤ (k : ℚ) := by exact_mod_cast hk
    rw [grid_index_eq_floor (by linarith)]
    rw [Int.floor_eq_iff]
    constructor <;> linarith
  intro p hp
  simp only [kernel_stencil, square_grid, sub_zero, div_one, if_true, gi r dy hr0 hy0 hy1,
    gi c dx hc0 hx0 hx1, stencil_2x2, List.mem_cons, List.mem_singleton, List.mem_nil_iff,
    or_false] at hp
  show 0 ≤ p.1 ∧ p.1 < n ∧ 0 ≤ p.2 ∧ p.2 < n
  rcases hp with rfl | rfl | rfl | rfl <;> refine ⟨?_, ?_, ?_, ?_⟩ <;> simp only <;> omega

theorem uniform_grid_bilinear :
    shift_at uniform_grid GEOCON_INTERP_BILINEAR ⟨2, 2⟩ = ⟨1, 1, 1⟩ ∧
    shift_at uniform_grid GEOCON_INTERP_BILINEAR ⟨3, 3⟩ = ⟨1, 1, 1⟩ ∧
    moved uniform_grid GEOCON_INTERP_BILINEAR ⟨2, 2⟩ = ⟨3, 3⟩ := by
  have sc : scaled_shifts uniform_grid ⟨FLT_ONE, FLT_ONE, FLT_ONE⟩ = ⟨1, 1, 1⟩ := by
    simp only [scaled_shifts, flt_val_one, uniform_grid, square_grid, div_one]
  have s2 : shift_at uniform_grid GEOCON_INTERP_BILINEAR ⟨2, 2⟩ = ⟨1, 1, 1⟩ := by
    have h := square_grid_bilinear_stencil 7 (List.replicate 49 ⟨FLT_ONE, FLT_ONE, FLT_ONE⟩) 2 2
      (by decide) (by decide) (by decide) (by decide) 0 0 (le_refl _) (by norm_num) (le_refl _)
      (by norm_num)
    have e := shifts_on_constant_grid uniform_grid GEOCON_INTERP_BILINEAR 2 2 _
      uniform_grid_constant (by simpa [uniform_grid] using h)
    rw [sc] at e
    exact e
  have s3 : shift_at uniform_grid GEOCON_INTERP_BILINEAR ⟨3, 3⟩ = ⟨1, 1, 1⟩ := by
    have h := square_grid_bilinear_stencil 7 (List.replicate 49 ⟨FLT_ONE, FLT_ONE, FLT_ONE⟩) 3 3
      (by decide) (by decide) (by decide) (by decide) 0 0 (le_refl _) (by norm_num) (le_refl _)
      (by norm_num)
    have e := shifts_on_constant_grid uniform_grid GEOCON_INTERP_BILINEAR 3 3 _
      uniform_grid_constant (by simpa [uniform_grid] using h)
    rw [sc] at e
    exact e
  refine ⟨s2, s3, ?_⟩
  simp only [moved, s2]
  norm_num

/-! ### C32: the estimate of a converged inverse -/

/-- C32: whenever the inner loop of `geocon_inverse` is left through its convergence test
(its counter is below MAX_ITERATIONS when it ends), the estimate N = (lat_next, lon_next,
hgt_next) that the routine then emits is an epsilon-exact pre-image of the input as the loop
sees it (lat_deg, lon_deg, hgt_mtr, in degrees and metres): with the scaled kernel shifts at
(lat_next, lon_next), each of |lat_next + dlat - lat_deg|, |lon_next + dlon - lon_deg| and
|hgt_next + dhgt - hgt_mtr| is at most GEOCON_EPS = 2^-51. The routine writes
lat_next / deg_factor and gc_delta(lon_next) / deg_factor; with deg_factor = 1 and the input
longitude and lon_next within [-180, 180] the coordinate written is (lat_next, lon_next)
itself and the bounds hold for it against the caller's coordinate. -/
theorem inverse_converged_preimage (hdr : GEOCON_HDR) (interp : Int)
    (deg_factor hgt_factor : ℚ) (c : GEOCON_COORD) (h : Option ℚ)
    (hbreak : (inverse_run hdr interp deg_factor hgt_factor c h).2 < MAX_ITERATIONS) :
    ∃ N : INV_ITER,
      N = inverse_last hdr interp deg_factor hgt_factor c h ∧
      (inverse_run hdr interp deg_factor hgt_factor c h).1 = N ∧
      inverse_coord hdr interp deg_factor hgt_factor c h =
        { lat := N.lat_next / deg_factor, lon := gc_delta N.lon_next / deg_factor } ∧
      |N.lat_next + (gc_calculate_shifts hdr interp N.lat_next N.lon_next).lat_shift -
        c.lat * deg_factor| ≤ GEOCON_EPS ∧
      |N.lon_next + (gc_calculate_shifts hdr interp N.lat_next N.lon_next).lon_shift -
        gc_delta (c.lon * deg_factor)| ≤ GEOCON_EPS ∧
      |N.hgt_next + (gc_calculate_shifts hdr interp N.lat_next N.lon_next).hgt_shift -
        hgt_input hgt_factor h| ≤ GEOCON_EPS ∧
      GEOCON_EPS = 1 / 2 ^ 51 ∧
      (deg_factor = 1 → |c.lon| ≤ 180 → |N.lon_next| ≤ 180 →
        inverse_coord hdr interp deg_factor hgt_factor c h =
          { lat := N.lat_next, lon := N.lon_next } ∧
        |N.lat_next + (shift_at hdr interp { lat := N.lat_next, lon := N.lon_next }).lat_shift -
          c.lat| ≤ GEOCON_EPS ∧
        |N.lon_next + (shift_at hdr interp { lat := N.lat_next, lon := N.lon_next }).lon_shift -
          c.lon| ≤ GEOCON_EPS) ∧
      (hgt_factor = 1 → ∀ v : ℚ, h = some v →
        inverse_hgt hdr interp deg_factor hgt_factor c v = N.hgt_next ∧
        |N.hgt_next + (gc_calculate_shifts hdr interp N.lat_next N.lon_next).hgt_shift - v| ≤
          GEOCON_EPS) := by
  have hf := inverse_run_fst hdr interp deg_factor hgt_factor c h
  have hb := geocon_inverse_count_break hdr interp (c.lat * deg_factor)
    (gc_delta (c.lon * deg_factor)) (hgt_input hgt_factor h) MAX_ITERATIONS 0
    { lat_next := c.lat * deg_factor, lon_next := gc_delta (c.lon * deg_factor)
      hgt_next := hgt_input hgt_factor h } (by simpa [inverse_run] using hbreak)
    (inverse_last hdr interp deg_factor hgt_factor c h) hf.symm
  have hc : inverse_coord hdr interp deg_factor hgt_factor c h =
      { lat := (inverse_last hdr interp deg_factor hgt_factor c h).lat_next / deg_factor
        lon := gc_delta (inverse_last hdr interp deg_factor hgt_factor c h).lon_next /
          deg_factor } := rfl
  have hh : ∀ v : ℚ, h = some v → inverse_hgt hdr interp deg_factor hgt_factor c v =
      (inverse_last hdr interp deg_factor hgt_factor c h).hgt_next / hgt_factor := by
    intro v hv; subst hv; rfl
  generalize inverse_last hdr interp deg_factor hgt_factor c h = N at hf hb hc hh
  rw [GEOCON_ZERO_iff, GEOCON_ZERO_iff, GEOCON_ZERO_iff] at hb
  refine ⟨N, rfl, hf, hc, hb.2.1, hb.1, hb.2.2, rfl, ?_, ?_⟩
  · intro hd hl hN
    subst hd
    have e1 : gc_delta (c.lon * 1) = c.lon := by rw [mul_one]; exact gc_delta_of_abs_le hl
    rw [e1, mul_one] at hb
    refine ⟨?_, hb.2.1, hb.1⟩
    rw [hc, gc_delta_of_abs_le hN]
    simp
  · intro hf1 v hv
    subst hf1
    have hb3 := hb.2.2
    rw [hv] at hb3
    simp only [hgt_input, mul_one] at hb3
    exact ⟨by rw [hh v hv, div_one], hb3⟩

/-- On the 7x7 grid whose nodes all hold (1,1,1), the inverse (bilinear) of the point
lat = 3, lon = 3, height 1 leaves its loop through `break` with the counter at 1, at the
estimate (2, 2, 0), whose image is the input. -/
theorem inverse_converged_preimage_witness :
    (inverse_run uniform_grid GEOCON_INTERP_BILINEAR 1 1 ⟨3, 3⟩ (some 1)).2 = 1 ∧
    (inverse_run uniform_grid GEOCON_INTERP_BILINEAR 1 1 ⟨3, 3⟩ (some 1)).2 < MAX_ITERATIONS ∧
    ∃ N : INV_ITER,
      (inverse_run uniform_grid GEOCON_INTERP_BILINEAR 1 1 ⟨3, 3⟩ (some 1)).1 = N ∧
      N = ⟨2, 2, 0⟩ ∧
      |N.lat_next + (gc_calculate_shifts uniform_grid GEOCON_INTERP_BILINEAR N.lat_next
        N.lon_next).lat_shift - 3 * 1| ≤ GEOCON_EPS := by
  obtain ⟨s2, s3, mv⟩ := uniform_grid_bilinear
  have hr := inverse_run_of_equal_shift uniform_grid GEOCON_INTERP_BILINEAR ⟨2, 2⟩ 0
    (by rw [mv]; norm_num) (by rw [mv, s2, s3])
  have hneg : shifts_negligible uniform_grid GEOCON_INTERP_BILINEAR ⟨2, 2⟩ = false := by
    simp only [shifts_negligible, s2]
    norm_num [GEOCON_ZERO, GEOCON_ZERO_EPS, GEOCON_ABS, GEOCON_EPS]
  rw [mv, s2, hneg] at hr
  simp only [zero_add, Bool.false_eq_true, if_false] at hr
  have hb : (inverse_run uniform_grid GEOCON_INTERP_BILINEAR 1 1 ⟨3, 3⟩ (some 1)).2 <
      MAX_ITERATIONS := by
    rw [hr]; decide
  obtain ⟨N, _, hN, _, h4, _⟩ := inverse_converged_preimage uniform_grid
    GEOCON_INTERP_BILINEAR 1 1 ⟨3, 3⟩ (some 1) hb
  refine ⟨by rw [hr], hb, N, hN, ?_, h4⟩
  rw [← hN, hr]

/-! ### C40: the round trip on a grid of equal nodes -/

theorem shifts_negligible_iff (hdr : GEOCON_HDR) (interp : Int) (P : GEOCON_COORD) :
    shifts_negligible hdr interp P = true ↔
      |(shift_at hdr interp P).lat_shift| ≤ GEOCON_EPS ∧
      |(shift_at hdr interp P).lon_shift| ≤ GEOCON_EPS ∧
      |(shift_at hdr interp P).hgt_shift| ≤ GEOCON_EPS := by
  simp only [shifts_negligible, Bool.and_eq_true, GEOCON_ZERO_iff]
  tauto

/-- The round trip of a point P whose image Q receives the same shifts, with the counter
of the inner loop of the inverse. -/
theorem round_trip_of_shift (hdr : GEOCON_HDR) (interp : Int) (P Q : GEOCON_COORD) (h : ℚ)
    (s : SHIFTS) (hP : shift_at hdr interp P = s) (hQ : shift_at hdr interp Q = s)
    (hQdef : Q = shifted P s)
    (hlP : |P.lon| ≤ 180) (hlQ : |Q.lon| ≤ 180)
    (hgP : ghost_gate hdr 1 P = true) (hgQ : ghost_gate hdr 1 Q = true) :
    ((geocon_forward (some hdr) interp 1 1 1 (some (fun _ => P)) (some (fun _ => h))).coord_at 0
        = some Q ∧
      (geocon_forward (some hdr) interp 1 1 1 (some (fun _ => P)) (some (fun _ => h))).h_at 0
        = some (h + s.hgt_shift)) ∧
    (round_trip hdr interp P h).num = 1 ∧
    (¬ (|s.lat_shift| ≤ GEOCON_EPS ∧ |s.lon_shift| ≤ GEOCON_EPS ∧ |s.hgt_shift| ≤ GEOCON_EPS) →
      (round_trip hdr interp P h).coord_at 0 = some P ∧
      (round_trip hdr interp P h).h_at 0 = some h ∧
      inverse_run hdr interp 1 1 Q (some (h + s.hgt_shift)) =
        ({ lat_next := P.lat, lon_next := P.lon, hgt_next := h }, 1)) ∧
    ((|s.lat_shift| ≤ GEOCON_EPS ∧ |s.lon_shift| ≤ GEOCON_EPS ∧ |s.hgt_shift| ≤ GEOCON_EPS) →
      (round_trip hdr interp P h).coord_at 0 = some Q ∧
      (round_trip hdr interp P h).h_at 0 = some (h + s.hgt_shift) ∧
      inverse_run hdr interp 1 1 Q (some (h + s.hgt_shift)) =
        ({ lat_next := Q.lat, lon_next := Q.lon, hgt_next := h + s.hgt_shift }, 0)) := by
  have mv : moved hdr interp P = Q := by
    rw [hQdef]; simp only [moved, hP, shifted]
  have hlQ' : |(moved hdr interp P).lon| ≤ 180 := by rw [mv]; exact hlQ
  have hS : shift_at hdr interp (moved hdr interp P) = shift_at hdr interp P := by
    rw [mv, hP, hQ]
  have hn := shifts_negligible_iff hdr interp P
  rw [hP] at hn
  obtain ⟨r1, r2, r3⟩ := round_trip_eq hdr interp P h hgP (by rw [mv]; exact hgQ) hlP hlQ'
  have il := inverse_last_of_equal_shift hdr interp P h hlQ' hS
  have ir := inverse_run_of_equal_shift hdr interp P h hlQ' hS
  rw [il] at r2 r3
  rw [mv, hP] at ir r2 r3
  obtain ⟨_, f2, f3⟩ := geocon_forward_spec hdr interp 1 1 1 (fun _ => P) (some (fun _ => h))
  have f2' := f2 0
  have f3' := f3 0
  simp only [show Int.toNat 1 = 1 from rfl, Nat.lt_one_iff, true_and, hgP, if_true,
    forward_coord_eq_moved hdr interp P hlP hlQ', forward_hgt_eq hdr interp P h hlP,
    Option.map_some', mv, hP] at f2' f3'
  refine ⟨⟨f2', f3'⟩, r1, ?_, ?_⟩
  · intro hneg
    have hb : ¬ shifts_negligible hdr interp P = true := fun hh => hneg (hn.mp hh)
    rw [if_neg hb] at r2 r3 ir
    simp only [gc_delta_of_abs_le hlP] at r2
    exact ⟨r2, r3, ir⟩
  · intro hneg
    have hb : shifts_negligible hdr interp P = true := hn.mpr hneg
    rw [if_pos hb] at r2 r3 ir
    simp only [gc_delta_of_abs_le hlQ] at r2
    exact ⟨r2, r3, ir⟩

theorem replicate_grid_node (p : GEOCON_POINT) (r c : Int) (hr0 : 0 ≤ r) (hr1 : r < 7)
    (hc0 : 0 ≤ c) (hc1 : c < 7) :
    gc_get_shift (square_grid 7 (List.replicate 49 p)) r c = p := by
  have hidx : 0 ≤ r * 7 + c := by nlinarith
  have hlt : (r * 7 + c).toNat < 49 := by omega
  simp only [gc_get_shift, square_grid, gc_get_shift_from_data]
  rw [if_neg (by omega), if_pos hidx]
  simp only [List.getElem?_replicate, hlt, if_true, Option.getD_some]

/-- C40, as the code has it: for every interpolation tag, with deg_factor = hgt_factor = 1,
on a grid whose nodes all hold the same triple t, for a point P (height h) such that P and
Q = P + shifts are accepted by the gate, have their longitudes inside (-180, 180) and have
stencils without out-of-range nodes: the kernel returns at P and at Q the shifts that t
denotes, `geocon_forward` maps P to Q, and, when at least one of the three shifts exceeds
GEOCON_EPS in absolute value, `geocon_inverse` applied to Q returns exactly P and the height
h, its loop being left through `break` with the counter at 1, in the second iteration. When
all three shifts are within GEOCON_EPS the loop is left in its first iteration (counter 0)
and the inverse returns Q and the forward height unchanged. -/
theorem round_trip_constant_grid (hdr : GEOCON_HDR) (interp : Int) (P : GEOCON_COORD) (h : ℚ)
    (t : GEOCON_POINT) (hconst : constant_grid hdr t)
    (hsP : stencil_in_range hdr interp P.lat P.lon)
    (hsQ : stencil_in_range hdr interp (shifted P (scaled_shifts hdr t)).lat
      (shifted P (scaled_shifts hdr t)).lon)
    (hlP : -180 < P.lon ∧ P.lon < 180)
    (hlQ : -180 < (shifted P (scaled_shifts hdr t)).lon ∧
      (shifted P (scaled_shifts hdr t)).lon < 180)
    (hgP : ghost_gate hdr 1 P = true)
    (hgQ : ghost_gate hdr 1 (shifted P (scaled_shifts hdr t)) = true) :
    (shift_at hdr interp P = scaled_shifts hdr t ∧
      shift_at hdr interp (shifted P (scaled_shifts hdr t)) = scaled_shifts hdr t) ∧
    ((geocon_forward (some hdr) interp 1 1 1 (some (fun _ => P)) (some (fun _ => h))).coord_at 0
        = some (shifted P (scaled_shifts hdr t)) ∧
      (geocon_forward (some hdr) interp 1 1 1 (some (fun _ => P)) (some (fun _ => h))).h_at 0
        = some (h + (scaled_shifts hdr t).hgt_shift)) ∧
    (round_trip hdr interp P h).num = 1 ∧
    (¬ (|(scaled_shifts hdr t).lat_shift| ≤ GEOCON_EPS ∧
        |(scaled_shifts hdr t).lon_shift| ≤ GEOCON_EPS ∧
        |(scaled_shifts hdr t).hgt_shift| ≤ GEOCON_EPS) →
      (round_trip hdr interp P h).coord_at 0 = some P ∧
      (round_trip hdr interp P h).h_at 0 = some h ∧
      inverse_run hdr interp 1 1 (shifted P (scaled_shifts hdr t))
          (some (h + (scaled_shifts hdr t).hgt_shift)) =
        ({ lat_next := P.lat, lon_next := P.lon, hgt_next := h }, 1)) ∧
    ((|(scaled_shifts hdr t).lat_shift| ≤ GEOCON_EPS ∧
        |(scaled_shifts hdr t).lon_shift| ≤ GEOCON_EPS ∧
        |(scaled_shifts hdr t).hgt_shift| ≤ GEOCON_EPS) →
      (round_trip hdr interp P h).coord_at 0 = some (shifted P (scaled_shifts hdr t)) ∧
      (round_trip hdr interp P h).h_at 0 = some (h + (scaled_shifts hdr t).hgt_shift) ∧
      inverse_run hdr interp 1 1 (shifted P (scaled_shifts hdr t))
          (some (h + (scaled_shifts hdr t).hgt_shift)) =
        ({ lat_next := (shifted P (scaled_shifts hdr t)).lat
           lon_next := (shifted P (scaled_shifts hdr t)).lon
           hgt_next := h + (scaled_shifts hdr t).hgt_shift }, 0)) := by
  have sP : shift_at hdr interp P = scaled_shifts hdr t :=
    shifts_on_constant_grid hdr interp P.lat P.lon t hconst hsP
  have sQ : shift_at hdr interp (shifted P (scaled_shifts hdr t)) = scaled_shifts hdr t :=
    shifts_on_constant_grid hdr interp _ _ t hconst hsQ
  have aP : |P.lon| ≤ 180 := abs_le.mpr ⟨hlP.1.le, hlP.2.le⟩
  have aQ : |(shifted P (scaled_shifts hdr t)).lon| ≤ 180 := abs_le.mpr ⟨hlQ.1.le, hlQ.2.le⟩
  exact ⟨⟨sP, sQ⟩, round_trip_of_shift hdr interp P _ h _ sP sQ rfl aP aQ hgP hgQ⟩

theorem square_grid_gate (n : Int) (pts : List GEOCON_POINT) (P : GEOCON_COORD)
    (h1 : 0 ≤ P.lat) (h2 : P.lat ≤ (n : ℚ) - 1) (h3 : 0 ≤ P.lon) (h4 : P.lon ≤ (n : ℚ) - 1)
    (hn : (n : ℚ) ≤ 180) :
    ghost_gate (square_grid n pts) 1 P = true := by
  have hl : |P.lon| ≤ 180 := abs_le.mpr ⟨by linarith, by linarith⟩
  have he : (0 : ℚ) < GEOCON_EPS := by norm_num [GEOCON_EPS]
  have he1 : GEOCON_EPS ≤ 1 / 2 ^ 51 := le_refl _
  have gt : ∀ x : ℚ, 0 ≤ x → x ≤ 180 → GEOCON_GT x (-1) = true := by
    intro x hx0 hx1
    have hne : ¬ x = -1 := by intro e; linarith
    have hnl : ¬ x < -1 := by linarith
    simp only [GEOCON_GT, GEOCON_LE, GEOCON_LE_EPS, GEOCON_EQ_EPS, GEOCON_ABS_eq_abs,
      Bool.not_eq_true', Bool.or_eq_false_iff, decide_eq_false_iff_not]
    refine ⟨hnl, hne, ?_⟩
    rw [abs_of_nonneg (by linarith : (0 : ℚ) ≤ x - -1), abs_of_nonneg hx0]
    norm_num
    nlinarith
  have lt : ∀ x : ℚ, 0 ≤ x → x ≤ (n : ℚ) - 1 → GEOCON_LT x (n : ℚ) = true := by
    intro x hx0 hx1
    have hne : ¬ x = (n : ℚ) := by intro e; linarith
    have hnl : ¬ x > (n : ℚ) := by linarith
    have hn0 : (0 : ℚ) ≤ (n : ℚ) := by linarith
    simp only [GEOCON_LT, GEOCON_GE, GEOCON_GE_EPS, GEOCON_EQ_EPS, GEOCON_ABS_eq_abs,
      Bool.not_eq_true', Bool.or_eq_false_iff, decide_eq_false_iff_not]
    refine ⟨hnl, hne, ?_⟩
    rw [abs_of_nonpos (by linarith : x - (n : ℚ) ≤ 0), abs_of_nonneg hx0, abs_of_nonneg hn0]
    have : GEOCON_EPS * (1 + (x + (n : ℚ)) / 2) < 1 := by nlinarith
    linarith
  rw [GEOCON_defs_gate _ _ hl]
  simp only [square_grid, gt P.lat h1 (by linarith), gt P.lon h3 (by linarith), lt P.lat h1 h2,
    lt P.lon h3 h4, Bool.and_self]

/-- On the 7x7 grid whose nodes all hold (1,1,1), the bilinear round trip of P = (lat 2,
lon 2), height 0, goes through Q = (3, 3) and returns exactly P, the loop of the inverse
being left with the counter at 1. -/
theorem round_trip_constant_grid_witness :
    (round_trip uniform_grid GEOCON_INTERP_BILINEAR ⟨2, 2⟩ 0).coord_at 0 = some ⟨2, 2⟩ ∧
    (round_trip uniform_grid GEOCON_INTERP_BILINEAR ⟨2, 2⟩ 0).h_at 0 = some 0 ∧
    inverse_run uniform_grid GEOCON_INTERP_BILINEAR 1 1 ⟨3, 3⟩ (some 1) =
      ({ lat_next := 2, lon_next := 2, hgt_next := 0 }, 1) := by
  have sc : scaled_shifts uniform_grid ⟨FLT_ONE, FLT_ONE, FLT_ONE⟩ = ⟨1, 1, 1⟩ := by
    simp only [scaled_shifts, flt_val_one, uniform_grid, square_grid, div_one]
  have eQ : shifted ⟨2, 2⟩ (scaled_shifts uniform_grid ⟨FLT_ONE, FLT_ONE, FLT_ONE⟩) =
      ⟨3, 3⟩ := by
    rw [sc]; norm_num [shifted]
  have st2 : stencil_in_range uniform_grid GEOCON_INTERP_BILINEAR 2 2 := by
    have h := square_grid_bilinear_stencil 7 (List.replicate 49 ⟨FLT_ONE, FLT_ONE, FLT_ONE⟩) 2 2
      (by decide) (by decide) (by decide) (by decide) 0 0 (le_refl _) (by norm_num) (le_refl _)
      (by norm_num)
    simpa [uniform_grid] using h
  have st3 : stencil_in_range uniform_grid GEOCON_INTERP_BILINEAR 3 3 := by
    have h := square_grid_bilinear_stencil 7 (List.replicate 49 ⟨FLT_ONE, FLT_ONE, FLT_ONE⟩) 3 3
      (by decide) (by decide) (by decide) (by decide) 0 0 (le_refl _) (by norm_num) (le_refl _)
      (by norm_num)
    simpa [uniform_grid] using h
  have g2 : ghost_gate uniform_grid 1 ⟨2, 2⟩ = true :=
    square_grid_gate 7 _ ⟨2, 2⟩ (by norm_num) (by norm_num) (by norm_num) (by norm_num)
      (by norm_num)
  have g3 : ghost_gate uniform_grid 1 ⟨3, 3⟩ = true :=
    square_grid_gate 7 _ ⟨3, 3⟩ (by norm_num) (by norm_num) (by norm_num) (by norm_num)
      (by norm_num)
  have k := round_trip_constant_grid uniform_grid GEOCON_INTERP_BILINEAR ⟨2, 2⟩ 0
    ⟨FLT_ONE, FLT_ONE, FLT_ONE⟩ uniform_grid_constant st2 (by rw [eQ]; exact st3)
    (by norm_num) (by rw [eQ]; norm_num) g2 (by rw [eQ]; exact g3)
  have hneg : ¬ (|(scaled_shifts uniform_grid ⟨FLT_ONE, FLT_ONE, FLT_ONE⟩).lat_shift| ≤
        GEOCON_EPS ∧
      |(scaled_shifts uniform_grid ⟨FLT_ONE, FLT_ONE, FLT_ONE⟩).lon_shift| ≤ GEOCON_EPS ∧
      |(scaled_shifts uniform_grid ⟨FLT_ONE, FLT_ONE, FLT_ONE⟩).hgt_shift| ≤ GEOCON_EPS) := by
    rw [sc]
    norm_num [GEOCON_EPS]
  have k4 := k.2.2.2.1 hneg
  rw [eQ, sc] at k4
  simpa using k4

theorem tiny_grid_shifts :
    scaled_shifts tiny_grid ⟨FLT_TINY, FLT_TINY, FLT_TINY⟩ =
      ⟨1 / 2 ^ 52, 1 / 2 ^ 52, 1 / 2 ^ 52⟩ := by
  have e : flt_val FLT_TINY = 1 / 2 ^ 52 := by norm_num [flt_val, FLT_TINY]
  simp only [scaled_shifts, e, tiny_grid, square_grid, div_one]

/-- Counterexample to C40 as stated: on the 7x7 grid whose nodes all hold the shift 2^-52
in each channel, the point P = (lat 1, lon 1), height 0, and its forward image
Q = (1 + 2^-52, 1 + 2^-52), height 2^-52 (values of a `double`: the patterns
0x3ff0000000000001 and 0x3cb0000000000000) have all the
nodes of their bilinear stencils inside the grid, yet the inverse applied to Q leaves its
loop in the first iteration (counter 0), because the three deltas, each 2^-52, pass
`GEOCON_ZERO`, and returns Q, which is not P, and the height 2^-52, which is not 0. -/
theorem round_trip_tiny_shift :
    constant_grid tiny_grid ⟨FLT_TINY, FLT_TINY, FLT_TINY⟩ ∧
    stencil_in_range tiny_grid GEOCON_INTERP_BILINEAR 1 1 ∧
    stencil_in_range tiny_grid GEOCON_INTERP_BILINEAR (1 + 1 / 2 ^ 52) (1 + 1 / 2 ^ 52) ∧
    (geocon_forward (some tiny_grid) GEOCON_INTERP_BILINEAR 1 1 1 (some (fun _ => ⟨1, 1⟩))
      (some (fun _ => 0))).coord_at 0 = some ⟨1 + 1 / 2 ^ 52, 1 + 1 / 2 ^ 52⟩ ∧
    (round_trip tiny_grid GEOCON_INTERP_BILINEAR ⟨1, 1⟩ 0).coord_at 0 =
      some ⟨1 + 1 / 2 ^ 52, 1 + 1 / 2 ^ 52⟩ ∧
    (round_trip tiny_grid GEOCON_INTERP_BILINEAR ⟨1, 1⟩ 0).coord_at 0 ≠ some ⟨1, 1⟩ ∧
    (round_trip tiny_grid GEOCON_INTERP_BILINEAR ⟨1, 1⟩ 0).h_at 0 = some (1 / 2 ^ 52) ∧
    dbl_val 0x3ff0000000000001 = 1 + 1 / 2 ^ 52 ∧ dbl_val 0x3cb0000000000000 = 1 / 2 ^ 52 ∧
    (inverse_run tiny_grid GEOCON_INTERP_BILINEAR 1 1 ⟨1 + 1 / 2 ^ 52, 1 + 1 / 2 ^ 52⟩
      (some (0 + 1 / 2 ^ 52))).2 = 0 := by
  have hc : constant_grid tiny_grid ⟨FLT_TINY, FLT_TINY, FLT_TINY⟩ :=
    fun r c hr0 hr1 hc0 hc1 => replicate_grid_node _ r c hr0 hr1 hc0 hc1
  have sc := tiny_grid_shifts
  have st2 : stencil_in_range tiny_grid GEOCON_INTERP_BILINEAR 1 1 := by
    have h := square_grid_bilinear_stencil 7 (List.replicate 49 ⟨FLT_TINY, FLT_TINY, FLT_TINY⟩)
      1 1 (by decide) (by decide) (by decide) (by decide) 0 0 (le_refl _) (by norm_num)
      (le_refl _) (by norm_num)
    simpa [tiny_grid] using h
  have stQ : stencil_in_range tiny_grid GEOCON_INTERP_BILINEAR (1 + 1 / 2 ^ 52)
      (1 + 1 / 2 ^ 52) := by
    have h := square_grid_bilinear_stencil 7 (List.replicate 49 ⟨FLT_TINY, FLT_TINY, FLT_TINY⟩)
      1 1 (by decide) (by decide) (by decide) (by decide) (1 / 2 ^ 52) (1 / 2 ^ 52)
      (by norm_num) (by norm_num) (by norm_num) (by norm_num)
    simpa [tiny_grid] using h
  have sP : shift_at tiny_grid GEOCON_INTERP_BILINEAR ⟨1, 1⟩ =
      ⟨1 / 2 ^ 52, 1 / 2 ^ 52, 1 / 2 ^ 52⟩ := by
    rw [← sc]; exact shifts_on_constant_grid tiny_grid GEOCON_INTERP_BILINEAR 1 1 _ hc st2
  have sQ : shift_at tiny_grid GEOCON_INTERP_BILINEAR ⟨1 + 1 / 2 ^ 52, 1 + 1 / 2 ^ 52⟩ =
      ⟨1 / 2 ^ 52, 1 / 2 ^ 52, 1 / 2 ^ 52⟩ := by
    rw [← sc]; exact shifts_on_constant_grid tiny_grid GEOCON_INTERP_BILINEAR _ _ _ hc stQ
  have g2 : ghost_gate tiny_grid 1 ⟨1, 1⟩ = true :=
    square_grid_gate 7 _ ⟨1, 1⟩ (by norm_num) (by norm_num) (by norm_num) (by norm_num)
      (by norm_num)
  have gQ : ghost_gate tiny_grid 1 ⟨1 + 1 / 2 ^ 52, 1 + 1 / 2 ^ 52⟩ = true :=
    square_grid_gate 7 _ ⟨1 + 1 / 2 ^ 52, 1 + 1 / 2 ^ 52⟩ (by norm_num) (by norm_num)
      (by norm_num) (by norm_num) (by norm_num)
  have k := round_trip_of_shift tiny_grid GEOCON_INTERP_BILINEAR ⟨1, 1⟩
    ⟨1 + 1 / 2 ^ 52, 1 + 1 / 2 ^ 52⟩ 0 ⟨1 / 2 ^ 52, 1 / 2 ^ 52, 1 / 2 ^ 52⟩ sP sQ
    (by simp [shifted]) (by norm_num [abs_le]) (by norm_num [abs_le]) g2 gQ
  have hneg : |(1 / 2 ^ 52 : ℚ)| ≤ GEOCON_EPS ∧ |(1 / 2 ^ 52 : ℚ)| ≤ GEOCON_EPS ∧
      |(1 / 2 ^ 52 : ℚ)| ≤ GEOCON_EPS := by
    have : |(1 / 2 ^ 52 : ℚ)| ≤ GEOCON_EPS := by
      rw [abs_of_nonneg (by positivity)]
      norm_num [GEOCON_EPS]
    exact ⟨this, this, this⟩
  obtain ⟨r1, r2, r3⟩ := k.2.2.2 hneg
  refine ⟨hc, st2, stQ, k.1.1, r1, ?_, ?_, ?_, ?_, ?_⟩
  · rw [r1]
    intro e
    have e1 := congrArg GEOCON_COORD.lat (Option.some.inj e)
    norm_num at e1
  · rw [r2]; norm_num
  · norm_num [dbl_val]
  · norm_num [dbl_val]
  · rw [r3]

/-! ### C33: the file-backed fetch -/

theorem gc_get_shift_from_file_eq (hdr : GEOCON_HDR) (irow icol : Int) :
    gc_get_shift_from_file hdr irow icol =
      match hdr.fp with
      | some f =>
        (match fread_point_at f (fetch_offset hdr irow icol) with
         | none => zero_point
         | some pt => if hdr.flip then gc_flip_point pt else pt)
      | none => zero_point := by
  unfold gc_get_shift_from_file fetch_offset
  cases hdr.fp <;> rfl

theorem fetch_offset_eq (hdr : GEOCON_HDR) (irow icol : Int) :
    fetch_offset hdr irow icol = hdr.points_start + node_offset hdr irow icol * SIZEOF_POINT ∧
    node_offset hdr irow icol = file_row hdr irow * hdr.ncols + file_col hdr icol := by
  unfold fetch_offset node_offset file_row file_col
  constructor
  · rfl
  · split_ifs <;> rfl

theorem fetch_record_index (hdr : GEOCON_HDR) (irow icol : Int) :
    (fetch_offset hdr irow icol - hdr.points_start) / SIZEOF_POINT =
      file_row hdr irow * hdr.ncols + file_col hdr icol ∧
    (fetch_offset hdr irow icol - hdr.points_start) % SIZEOF_POINT = 0 := by
  obtain ⟨e1, e2⟩ := fetch_offset_eq hdr irow icol
  rw [e1, ← e2]
  simp [SIZEOF_POINT]

/-- The file position of a canonical node, and back: the storage order is an involution. -/
theorem node_offset_back (hdr : GEOCON_HDR) (N M : Nat) (hN : hdr.nrows = N) (hM : hdr.ncols = M)
    (row col : Nat) (hr : row < N) (hc : col < M) :
    ∃ fr fc : Nat, fr < N ∧ fc < M ∧ (fr : Int) = file_row hdr row ∧ (fc : Int) = file_col hdr col ∧
      node_offset hdr row col = ((fr * M + fc : Nat) : Int) ∧
      node_offset hdr fr fc = ((row * M + col : Nat) : Int) := by
  by_cases h1 : hdr.lat_dir = GEOCON_LAT_S_TO_N <;> by_cases h2 : hdr.lon_dir = GEOCON_LON_W_TO_E
  · refine ⟨row, col, hr, hc, ?_, ?_, ?_, ?_⟩ <;>
      simp only [file_row, file_col, node_offset, h1, h2, if_true, hM] <;> push_cast <;> ring
  · refine ⟨row, M - 1 - col, hr, by omega, ?_, ?_, ?_, ?_⟩ <;>
      simp only [file_row, file_col, node_offset, h1, h2, if_true, if_false, hM] <;>
      push_cast [Nat.cast_sub (by omega : col ≤ M - 1), Nat.cast_sub (by omega : 1 ≤ M)] <;> ring
  · refine ⟨N - 1 - row, col, by omega, hc, ?_, ?_, ?_, ?_⟩ <;>
      simp only [file_row, file_col, node_offset, h1, h2, if_true, if_false, hM, hN] <;>
      push_cast [Nat.cast_sub (by omega : row ≤ N - 1), Nat.cast_sub (by omega : 1 ≤ N)] <;> ring
  · refine ⟨N - 1 - row, M - 1 - col, by omega, by omega, ?_, ?_, ?_, ?_⟩ <;>
      simp only [file_row, file_col, node_offset, h1, h2, if_false, hM, hN] <;>
      push_cast [Nat.cast_sub (by omega : row ≤ N - 1), Nat.cast_sub (by omega : 1 ≤ N),
        Nat.cast_sub (by omega : col ≤ M - 1), Nat.cast_sub (by omega : 1 ≤ M)] <;> ring

/-- The record that `gc_write_bin` emits (before any byte swap) at the file position of the
canonical node (`row`, `col`) is that node. -/
theorem file_image_nodes_at (hdr : GEOCON_HDR) (pts : List GEOCON_POINT) (N M : Nat)
    (hpts : hdr.points = some pts) (hN : hdr.nrows = N) (hM : hdr.ncols = M)
    (row col : Nat) (hr : row < N) (hc : col < M) :
    (file_image_nodes hdr)[(node_offset hdr row col).toNat]? =
      some (pts.getD (row * M + col) zero_point) := by
  obtain ⟨fr, fc, hfr, hfc, _, _, e1, e2⟩ := node_offset_back hdr N M hN hM row col hr hc
  rw [e1, Int.toNat_ofNat]
  simp only [file_image_nodes, hN, hM, Int.toNat_ofNat, hpts, Option.getD_some]
  rw [getElem?_flatMap_range _ M N fr fc hfr hfc, e2]
  have h0 : (0 : Int) ≤ ((row * M + col : Nat) : Int) := Int.natCast_nonneg _
  rw [if_pos h0, Int.toNat_ofNat]

/-- What a successful header load of a binary file leaves besides the copied fields: the
node array as it was and the start of the node records right after the header. -/
theorem gc_load_hdr_written_start (env : ENV) (h0 : GEOCON_HDR) (fh : GEOCON_FILE_HDR)
    (ws : List GEOCON_POINT) (tx : List (List Char)) (b : Bool) (prc : Int)
    (hft : h0.filetype = GEOCON_FILE_TYPE_BIN)
    (hfp : h0.fp = some { fhdr := some (if b then gc_flip_hdr fh else fh), nodes := ws, pos := 0,
                          text := tx })
    (hm : fh.magic = GEOCON_HDR_MAGIC) :
    (gc_load_hdr env h0 prc).hdr.points_start = GEOCON_FILE_HDR_LEN ∧
    (gc_load_hdr env h0 prc).hdr.points = h0.points := by
  obtain ⟨m1, m2, m3⟩ := gc_swap_int_magic
  cases b
  · have hbin : gc_load_hdr_bin h0 prc =
        { rc := 0, prc := prc
          hdr := { h0 with fhdr := fh
                           fp := some { fhdr := some fh, nodes := ws, pos := GEOCON_FILE_HDR_LEN,
                                        text := tx }
                           points_start := GEOCON_FILE_HDR_LEN } } := by
      simp [gc_load_hdr_bin, hfp, hm, m3]
    simp [gc_load_hdr, hft, hbin]
  · have hbin : gc_load_hdr_bin h0 prc =
        { rc := 0, prc := prc
          hdr := { h0 with fhdr := gc_flip_hdr (gc_flip_hdr fh)
                           flip := true
                           fp := some { fhdr := some (gc_flip_hdr fh), nodes := ws,
                                        pos := GEOCON_FILE_HDR_LEN, text := tx }
                           points_start := GEOCON_FILE_HDR_LEN } } := by
      have e1 : (gc_flip_hdr fh).magic = GEOCON_HDR_MAGIC_SWAPPED := by
        simp [gc_flip_hdr, hm, m1]
      have e2 : (gc_flip_hdr (gc_flip_hdr fh)).magic = GEOCON_HDR_MAGIC := by
        simp [gc_flip_hdr, hm, m1, m2]
      simp [gc_load_hdr_bin, hfp, e1, e2]
    simp [gc_load_hdr, hft, hbin]

/-- The fetch on a file-backed grid whose node records start right after the header: the
record at the index `node_offset`, byte-swapped when `flip` is set. -/
theorem gc_get_shift_file_backed (g : GEOCON_HDR) (f : FILE) (N M : Nat)
    (hp : g.points = none) (hf : g.fp = some f) (hs : g.points_start = GEOCON_FILE_HDR_LEN)
    (hN : g.nrows = N) (hM : g.ncols = M) (row col : Nat) (hr : row < N) (hc : col < M) :
    gc_get_shift g row col = gc_get_shift_from_file g row col ∧
    gc_get_shift_from_file g row col =
      match f.nodes[(node_offset g row col).toNat]? with
      | none => zero_point
      | some pt => if g.flip then gc_flip_point pt else pt := by
  have h0 := (node_offset_range g N M hN hM row col hr hc).1
  have hin : ¬ ((row : Int) < 0 ∨ (row : Int) ≥ g.nrows ∨ (col : Int) < 0 ∨
      (col : Int) ≥ g.ncols) := by
    rw [hN, hM]; omega
  constructor
  · simp only [gc_get_shift, hin, if_false, hp, hf]
  · rw [gc_get_shift_from_file_eq, hf]
    simp only []
    rw [(fetch_offset_eq g row col).1, hs]
    have e : fread_point_at f (GEOCON_FILE_HDR_LEN + node_offset g row col * SIZEOF_POINT) =
        f.nodes[(node_offset g row col).toNat]? := by
      have h1 : GEOCON_FILE_HDR_LEN ≤ GEOCON_FILE_HDR_LEN + node_offset g row col * SIZEOF_POINT ∧
          (GEOCON_FILE_HDR_LEN + node_offset g row col * SIZEOF_POINT - GEOCON_FILE_HDR_LEN) %
            SIZEOF_POINT = 0 := by
        simp only [SIZEOF_POINT]
        constructor
        · omega
        · simp
      have h2 : (GEOCON_FILE_HDR_LEN + node_offset g row col * SIZEOF_POINT -
          GEOCON_FILE_HDR_LEN) / SIZEOF_POINT = node_offset g row col := by
        simp [SIZEOF_POINT]
      simp only [fread_point_at, h1, and_self, if_true, h2]
    rw [e]

theorem node_offset_congr (g h : GEOCON_HDR) (e1 : g.lat_dir = h.lat_dir)
    (e2 : g.lon_dir = h.lon_dir) (e3 : g.nrows = h.nrows) (e4 : g.ncols = h.ncols)
    (r c : Int) : node_offset g r c = node_offset h r c := by
  simp only [node_offset, e1, e2, e3, e4]

/-- The in-memory fetch of an in-range node. -/
theorem gc_get_shift_in_memory (hdr : GEOCON_HDR) (pts : List GEOCON_POINT) (N M : Nat)
    (hpts : hdr.points = some pts) (hN : hdr.nrows = N) (hM : hdr.ncols = M)
    (row col : Nat) (hr : row < N) (hc : col < M) :
    gc_get_shift hdr row col = pts.getD (row * M + col) zero_point := by
  have hin : ¬ ((row : Int) < 0 ∨ (row : Int) ≥ hdr.nrows ∨ (col : Int) < 0 ∨
      (col : Int) ≥ hdr.ncols) := by
    rw [hN, hM]; omega
  have h0 : (0 : Int) ≤ (row : Int) * (M : Int) + (col : Int) := by positivity
  have e : ((row : Int) * (M : Int) + (col : Int)).toNat = row * M + col := by
    have : (row : Int) * (M : Int) + (col : Int) = ((row * M + col : Nat) : Int) := by
      push_cast; ring
    rw [this, Int.toNat_ofNat]
  unfold gc_get_shift
  rw [if_neg hin]
  simp only [hpts, gc_get_shift_from_data, hM, h0, if_true, e, List.getD_eq_getElem?_getD]

/-- The grid that a load of the header alone leaves on the file that `gc_write_bin` wrote:
file-backed, with the dimensions and directions of the grid written, and a fetch that
returns the nodes of the grid written. -/
theorem geocon_load_written_fetch (env : ENV) (hdr : GEOCON_HDR) (path : String)
    (byte_order : Int) (pts : List GEOCON_POINT) (N M : Nat)
    (hpts : hdr.points = some pts) (hN : hdr.nrows = N) (hM : hdr.ncols = M)
    (hlen : pts.length = N * M) (hraw : ∀ p ∈ pts, p.is_raw)
    (iN : is_int hdr.nrows) (iM : is_int hdr.ncols)
    (i1 : is_int hdr.lat_dir) (i2 : is_int hdr.lon_dir)
    (hmagic : hdr.fhdr.magic = GEOCON_HDR_MAGIC)
    (hft : geocon_filetype (some path) = GEOCON_FILE_TYPE_BIN)
    (hw : env.fopen_write path = true) (ha : env.alloc_hdr = true)
    (hopen : env.fopen path = (gc_write_bin env hdr path byte_order GEOCON_ERR_OK).file) :
    (gc_write_bin env hdr path byte_order GEOCON_ERR_OK).rc = 0 ∧
    (geocon_load env (some path) none false).prc = GEOCON_ERR_OK ∧
    ∃ g : GEOCON_HDR, (geocon_load env (some path) none false).hdr = some g ∧
      g.points = none ∧ g.fp.isSome = true ∧
      g.nrows = hdr.nrows ∧ g.ncols = hdr.ncols ∧
      g.lat_dir = hdr.lat_dir ∧ g.lon_dir = hdr.lon_dir ∧
      ∀ row col : Nat, row < N → col < M →
        gc_get_shift g row col = gc_get_shift_from_file g row col ∧
        gc_get_shift_from_file g row col = pts.getD (row * M + col) zero_point := by
  have hwf := gc_write_bin_file env hdr path byte_order GEOCON_ERR_OK hw
  generalize hsw : (if byte_order = GEOCON_ENDIAN_BIG then xor hdr.flip (!gc_is_big_endian env)
           else if byte_order = GEOCON_ENDIAN_LITTLE then xor hdr.flip (!gc_is_ltl_endian env)
           else if byte_order = GEOCON_ENDIAN_NATIVE then false
           else hdr.flip) = sw at hwf
  rw [hwf] at hopen ⊢
  simp only at hopen
  have hc : geocon_create env = some { zero_hdr with
      fhdr := { zero_file_hdr with
        magic := GEOCON_HDR_MAGIC
        version := GEOCON_HDR_VERSION
        hdrlen := GEOCON_FILE_HDR_LEN } } := by
    simp only [geocon_create, ha, if_true]
  have hL := geocon_load_bin_eq env path none false _ _ hft hc hopen _ rfl
  have hfp : ({ ({ zero_hdr with
      fhdr := { zero_file_hdr with
        magic := GEOCON_HDR_MAGIC
        version := GEOCON_HDR_VERSION
        hdrlen := GEOCON_FILE_HDR_LEN } } : GEOCON_HDR) with
        fp := some { file_image hdr sw with pos := 0 }, pathname := path,
        filetype := GEOCON_FILE_TYPE_BIN } : GEOCON_HDR).fp =
      some { fhdr := some (if sw then gc_flip_hdr (file_image_hdr hdr) else file_image_hdr hdr)
             nodes := if sw then (file_image_nodes hdr).map gc_flip_point
               else file_image_nodes hdr
             pos := 0, text := [] } := rfl
  have hm : (file_image_hdr hdr).magic = GEOCON_HDR_MAGIC := hmagic
  have W := gc_load_hdr_written env _ (file_image_hdr hdr) _ [] sw GEOCON_ERR_OK rfl rfl hfp hm
    i1 i2 iN iM
  have S := gc_load_hdr_written_start env _ (file_image_hdr hdr) _ [] sw GEOCON_ERR_OK rfl hfp hm
  generalize gc_load_hdr env _ GEOCON_ERR_OK = r at hL W S
  obtain ⟨w1, w2, w3, w4, ⟨f, w5, w6, _⟩, w8, w9, w10, w11, _⟩ := W
  obtain ⟨s1, s2⟩ := S
  rw [hL]
  simp only [w1, ne_eq, not_true_eq_false, if_false, Bool.false_eq_true, w3, if_true]
  refine ⟨trivial, w2, _, rfl, s2, by simp [w5], w8, w9, w10, w11, ?_⟩
  intro row col hr hcol
  have hk := gc_get_shift_file_backed { r.hdr with mutex := env.gc_mutex_create } f N M s2 w5 s1
    (w8.trans hN) (w9.trans hM) row col hr hcol
  refine ⟨hk.1, hk.2.trans ?_⟩
  have eo : node_offset { r.hdr with mutex := env.gc_mutex_create } row col =
      node_offset hdr row col := node_offset_congr _ _ w10 w11 w8 w9 _ _
  have hat := file_image_nodes_at hdr pts N M hpts hN hM row col hr hcol
  have hidx : row * M + col < pts.length := by
    rw [hlen]
    calc row * M + col < row * M + M := by omega
      _ = (row + 1) * M := by ring
      _ ≤ N * M := Nat.mul_le_mul_right M hr
  have hp : (pts.getD (row * M + col) zero_point).is_raw := by
    apply hraw
    rw [List.getD_eq_getElem?_getD, List.getElem?_eq_getElem hidx]
    exact List.getElem_mem hidx
  rw [eo, w6]
  show (match (if sw then (file_image_nodes hdr).map gc_flip_point
      else file_image_nodes hdr)[(node_offset hdr row col).toNat]? with
    | none => zero_point
    | some pt => if r.hdr.flip = true then gc_flip_point pt else pt) = _
  rw [w4]
  cases sw
  · simp only [Bool.false_eq_true, if_false, hat]
  · simp only [if_true, List.getElem?_map, hat, Option.map_some', gc_flip_point_involutive hp]

/-- C33 (the streaming fetch agrees with the in-memory fetch): for every header and every
(row, col), `gc_get_shift_from_file` reads the record at the byte offset `fetch_offset`, whose
record index (offset - points_start)/sizeof(node) is file_row(row)*ncols + file_col(col),
where file_row and file_col reverse the index unless the direction is S-to-N, respectively
W-to-E. For a grid in memory with nrows*ncols nodes and every in-range (row, col), that index
is the position at which `gc_write_bin` emits the canonical node (row, col), which is
points[row*ncols + col]. And on the file that `gc_write_bin` wrote, with any byte order
option, a load of the header alone succeeds and yields a file-backed grid on which
`gc_get_shift` goes through `gc_get_shift_from_file` and returns, for every in-range
(row, col), the same node as the in-memory fetch on the grid written. -/
theorem streaming_fetch_agrees (env : ENV) (hdr : GEOCON_HDR) (path : String)
    (byte_order : Int) (pts : List GEOCON_POINT) (N M : Nat)
    (hpts : hdr.points = some pts) (hN : hdr.nrows = N) (hM : hdr.ncols = M)
    (hlen : pts.length = N * M) (hraw : ∀ p ∈ pts, p.is_raw)
    (iN : is_int hdr.nrows) (iM : is_int hdr.ncols)
    (i1 : is_int hdr.lat_dir) (i2 : is_int hdr.lon_dir)
    (hmagic : hdr.fhdr.magic = GEOCON_HDR_MAGIC)
    (hft : geocon_filetype (some path) = GEOCON_FILE_TYPE_BIN)
    (hw : env.fopen_write path = true) (ha : env.alloc_hdr = true)
    (hopen : env.fopen path = (gc_write_bin env hdr path byte_order GEOCON_ERR_OK).file) :
    (∀ (g : GEOCON_HDR) (irow icol : Int),
      gc_get_shift_from_file g irow icol =
        (match g.fp with
         | some f =>
           (match fread_point_at f (fetch_offset g irow icol) with
            | none => zero_point
            | some pt => if g.flip then gc_flip_point pt else pt)
         | none => zero_point) ∧
      (fetch_offset g irow icol - g.points_start) / SIZEOF_POINT =
        file_row g irow * g.ncols + file_col g icol ∧
      (fetch_offset g irow icol - g.points_start) % SIZEOF_POINT = 0) ∧
    (∀ row col : Nat, row < N → col < M →
      0 ≤ file_row hdr row * hdr.ncols + file_col hdr col ∧
      (file_image_nodes hdr)[(file_row hdr row * hdr.ncols + file_col hdr col).toNat]? =
        some (pts.getD (row * M + col) zero_point) ∧
      gc_get_shift hdr row col = pts.getD (row * M + col) zero_point) ∧
    (∃ sw : Bool, (gc_write_bin env hdr path byte_order GEOCON_ERR_OK).file =
      some (file_image hdr sw)) ∧
    (gc_write_bin env hdr path byte_order GEOCON_ERR_OK).rc = 0 ∧
    (geocon_load env (some path) none false).prc = GEOCON_ERR_OK ∧
    ∃ g : GEOCON_HDR, (geocon_load env (some path) none false).hdr = some g ∧
      g.points = none ∧ g.fp.isSome = true ∧
      ∀ row col : Nat, row < N → col < M →
        gc_get_shift g row col = gc_get_shift_from_file g row col ∧
        gc_get_shift g row col = gc_get_shift hdr row col := by
  obtain ⟨k1, k2, g, k3, k4, k5, _, _, _, _, k6⟩ := geocon_load_written_fetch env hdr path
    byte_order pts N M hpts hN hM hlen hraw iN iM i1 i2 hmagic hft hw ha hopen
  refine ⟨fun g irow icol => ⟨gc_get_shift_from_file_eq g irow icol,
      (fetch_record_index g irow icol).1, (fetch_record_index g irow icol).2⟩, ?_, ?_, k1, k2,
    g, k3, k4, k5, ?_⟩
  · intro row col hr hc
    have e := (fetch_offset_eq hdr row col).2
    rw [← e]
    exact ⟨(node_offset_range hdr N M hN hM row col hr hc).1,
      file_image_nodes_at hdr pts N M hpts hN hM row col hr hc,
      gc_get_shift_in_memory hdr pts N M hpts hN hM row col hr hc⟩
  · rw [gc_write_bin_file env hdr path byte_order GEOCON_ERR_OK hw]
    exact ⟨_, rfl⟩
  · intro row col hr hc
    obtain ⟨a, b⟩ := k6 row col hr hc
    refine ⟨a, ?_⟩
    rw [a, b, gc_get_shift_in_memory hdr pts N M hpts hN hM row col hr hc]

/-- The 2x2 grid `codec_grid` (`flip` set, stored N-to-S and E-to-W) is written byte-swapped
with rows and columns reversed; the header-only load of the file written yields a
file-backed grid whose fetch of node (0,1) returns (1, 0, 0), the second node of the array
in memory. -/
theorem streaming_fetch_agrees_witness :
    (codec_grid.points = some codec_points ∧ codec_points.length = 2 * 2 ∧
      codec_grid.flip = true ∧ codec_grid.lat_dir = GEOCON_LAT_N_TO_S ∧
      codec_grid.lon_dir = GEOCON_LON_E_TO_W) ∧
    ∃ g : GEOCON_HDR, (geocon_load codec_env (some "y.gcb") none false).hdr = some g ∧
      g.points = none ∧ g.fp.isSome = true ∧
      gc_get_shift g 0 1 = gc_get_shift_from_file g 0 1 ∧
      gc_get_shift g 0 1 = ⟨FLT_ONE, 0, 0⟩ := by
  refine ⟨⟨rfl, rfl, rfl, rfl, rfl⟩, ?_⟩
  have hraw : ∀ p ∈ codec_points, p.is_raw := by
    intro p hp
    simp only [codec_points, List.mem_cons, List.mem_singleton, List.not_mem_nil,
      or_false] at hp
    rcases hp with rfl | rfl | rfl | rfl <;>
      (simp only [GEOCON_POINT.is_raw, FLT_ONE]; norm_num)
  have hi : ∀ x : Int, x = 0 ∨ x = 1 ∨ x = 2 → is_int x := by
    intro x hx
    unfold is_int
    omega
  obtain ⟨_, _, _, _, _, g, h1, h2, h3, h4⟩ := streaming_fetch_agrees codec_env codec_grid
    "y.gcb" GEOCON_ENDIAN_INP_FILE codec_points 2 2 rfl rfl rfl rfl hraw
    (hi _ (Or.inr (Or.inr rfl))) (hi _ (Or.inr (Or.inr rfl)))
    (hi _ (Or.inr (Or.inl rfl))) (hi _ (Or.inr (Or.inl rfl)))
    rfl (by decide) rfl rfl rfl
  obtain ⟨a, b⟩ := h4 0 1 (by decide) (by decide)
  refine ⟨g, h1, h2, h3, a, ?_⟩
  rw [show ((0 : Int)) = ((0 : Nat) : Int) from rfl, show ((1 : Int)) = ((1 : Nat) : Int) from rfl,
    b]
  rfl

/-! ### C35: the one-dimensional formulas and their samples -/

end Geocon
